import Mathlib

/-!
# ThingSet device library: mesh routing core and RBBQ buffer

A shallow embedding of `src/mesh/thingset_mesh.c`, `zephyr/thingset/ts_time.c`,
`src/rbbq/rbbq.c` and `src/rbbq/rbbq_local.c`, followed by theorems about it.

Conventions of the embedding:

* C arrays are lists; `ARRAY_SIZE(a)` is `a.length`.  A read outside the array yields a
  default element and a write outside the array is dropped; theorems that depend on an index
  being valid say so.
* `uint8_t`, `uint16_t` and `uint32_t` values are natural numbers; where the C code narrows or
  can wrap, the reduction modulo `2^w` is written out.
* The clock `ts_time_ms()` is a parameter `now` of every operation that reads it.
* Error returns `-EXXX` are values of `Errno`.
-/

/-! ## Error codes -/

/-- The `errno` codes used by the library (returned negated by the C code). -/
inductive Errno where
  | EAGAIN | EALREADY | EBUSY | EEXIST | EFAULT | EINVAL
  | ENAVAIL | ENODEV | ENOLINK | ENOMEM | ETIMEDOUT
deriving DecidableEq

/-- Outcome of a C function returning `int`: `ok` carries the out-parameters. -/
inductive Ret (α : Type) where
  | ok (a : α)
  | err (e : Errno)
deriving DecidableEq

/-! ## Configuration (`tsm_config.h`, `thingset_mesh_priv.h`, `ts_time.h`) -/

def UINT8_MAX : Nat := 0xFF
def UINT16_MAX : Nat := 0xFFFF
def UINT32_MAX : Nat := 0xFFFFFFFF

def TSM_NODE_COUNT : Nat := 16
def TSM_NODE_PATHS_MAX : Nat := 2
def TSM_NODE_SEQNO_EXPECTED_RANGE : Nat := 10
def TSM_NODE_SEQNO_MAX_AGE_S : Nat := 3
def TSM_NODE_SEQNO_CACHE_SIZE : Nat := 8
def TSM_VERSION : Nat := 0
def TSM_NODE_SEQNO_MAX : Nat := 23
def TSM_NODE_SEQNO_INVALID : Nat := 0xFF
def TSM_NODE_NAME_MAPPING_ID_INVALID : Nat := UINT32_MAX
def TSM_NODE_PATHS_BEST : Nat := 0
def TS_TIME_MS_MAX : Nat := UINT32_MAX

/-- Narrowing of a C `int` expression to `uint8_t`. -/
def to_u8 (x : Int) : Nat := (x % 256).toNat

/-! ## Data model (`thingset_mesh_priv.h`) -/

/-- The `struct tsm_protect_window`. -/
structure tsm_protect_window where
  node_seqno_cache : List Nat
  last_idx : Nat
  last_seen_time : Nat
deriving DecidableEq

/-- The `struct tsm_node`. -/
structure tsm_node where
  node_id : Nat
  name_mapping_id : Nat
  protect_window : tsm_protect_window
  paths_refs : List Nat
deriving DecidableEq

instance : Inhabited tsm_node :=
  ⟨⟨0, 0, ⟨[], 0, 0⟩, []⟩⟩

/-- One element of the `paths` union array.  `struct tsm_neighbour` is
`{heartbeat_period_s, port_id}` and `struct tsm_originator` is `{throughput, router_idx}`; the
first members of both variants share the first byte of the union, which is the field `first`
here.  `port_id` (second byte) and `router_idx` (a 16-bit field behind it) do not overlap. -/
structure tsm_path where
  first : Nat
  port_id : Nat
  router_idx : Nat
deriving DecidableEq

instance : Inhabited tsm_path :=
  ⟨⟨0, 0, 0⟩⟩

/-- Member `neighbour.heartbeat_period_s` of a path element. -/
def tsm_path.heartbeat_period_s (p : tsm_path) : Nat := p.first

/-- Member `originator.throughput` of a path element. -/
def tsm_path.throughput (p : tsm_path) : Nat := p.first

/-- The `struct tsm_node_table`. -/
structure tsm_node_table where
  nodes : List tsm_node
  paths : List tsm_path
  originator_start_idx : Nat
deriving DecidableEq

/-- The `struct tsm_context`, reduced to the members the routing core reads: the own node id
(`do_config->node_id`), the value each port's `transmit_throughput()` reports, and the node
table. -/
structure tsm_context where
  node_id : Nat
  ports : List Nat
  node_table : tsm_node_table
deriving DecidableEq

/-- The element `tsm->node_table.nodes[i]`. -/
def tsm_context.node (tsm : tsm_context) (i : Nat) : tsm_node :=
  tsm.node_table.nodes.getD i default

/-- The element `tsm->node_table.paths[i]`. -/
def tsm_context.path (tsm : tsm_context) (i : Nat) : tsm_path :=
  tsm.node_table.paths.getD i default

/-- Store to `tsm->node_table.nodes[i]`. -/
def tsm_context.set_node (tsm : tsm_context) (i : Nat) (n : tsm_node) : tsm_context :=
  { tsm with node_table := { tsm.node_table with nodes := tsm.node_table.nodes.set i n } }

/-- Store to `tsm->node_table.paths[i]`. -/
def tsm_context.set_path (tsm : tsm_context) (i : Nat) (p : tsm_path) : tsm_context :=
  { tsm with node_table := { tsm.node_table with paths := tsm.node_table.paths.set i p } }

/-! ## Clock (`zephyr/thingset/ts_time.c`) -/

/-- The function `ts_time_ms_delta(reftime)` with the clock reading `curtime`. -/
def ts_time_ms_delta (curtime reftime : Nat) : Nat :=
  if curtime ≥ reftime then curtime - reftime
  else (TS_TIME_MS_MAX - reftime) + curtime

/-! ## Protection window (`thingset_mesh.c`) -/

/-- The function `tsm_node_seqno`: latest known sequence number of a node. -/
def tsm_node_seqno (now : Nat) (tsm : tsm_context) (node_idx : Nat) : Ret Nat :=
  let node := tsm.node node_idx
  if node.protect_window.last_idx ≥ TSM_NODE_SEQNO_CACHE_SIZE then
    .err .ENAVAIL
  else if ts_time_ms_delta now node.protect_window.last_seen_time
      ≥ TSM_NODE_SEQNO_MAX_AGE_S * 1000 then
    .err .ETIMEDOUT
  else
    let seqno := node.protect_window.node_seqno_cache.getD node.protect_window.last_idx 0
    if seqno = TSM_NODE_SEQNO_INVALID then
      .err .EINVAL
    else
      .ok seqno

/-- Upper end `high_seqno` of the expected range around `latest_seqno`, as computed in
`tsm_node_protect_window_update`. -/
def expected_high_seqno (latest_seqno : Nat) : Nat :=
  if (latest_seqno : Int) > (TSM_NODE_SEQNO_MAX : Int) - TSM_NODE_SEQNO_EXPECTED_RANGE then
    let high_seqno := to_u8 ((TSM_NODE_SEQNO_MAX : Int) - latest_seqno)
    to_u8 ((TSM_NODE_SEQNO_EXPECTED_RANGE : Int) - high_seqno)
  else
    to_u8 ((latest_seqno : Int) + TSM_NODE_SEQNO_EXPECTED_RANGE)

/-- Lower end `low_seqno` of the expected range around `latest_seqno`, as computed in
`tsm_node_protect_window_update`. -/
def expected_low_seqno (latest_seqno : Nat) : Nat :=
  if latest_seqno < TSM_NODE_SEQNO_EXPECTED_RANGE then
    let low_seqno := to_u8 ((TSM_NODE_SEQNO_EXPECTED_RANGE : Int) - latest_seqno)
    to_u8 ((TSM_NODE_SEQNO_MAX : Int) - low_seqno)
  else
    to_u8 ((latest_seqno : Int) - TSM_NODE_SEQNO_EXPECTED_RANGE)

/-- The range test of `tsm_node_protect_window_update`: `true` when the function returns
`-EINVAL` for `node_seqno` with the latest sequence number `latest_seqno`. -/
def seqno_out_of_range (latest_seqno node_seqno : Nat) : Bool :=
  let high_seqno := expected_high_seqno latest_seqno
  let low_seqno := expected_low_seqno latest_seqno
  if low_seqno < high_seqno then
    decide (node_seqno < low_seqno) || decide (node_seqno > high_seqno)
  else
    decide (node_seqno > high_seqno) && decide (node_seqno < low_seqno)

/-- The tail of `tsm_node_protect_window_update`: advance `last_idx`, stamp the time and store
the sequence number. -/
def protect_window_insert (now : Nat) (w : tsm_protect_window) (node_seqno : Nat) :
    tsm_protect_window :=
  let last_idx := (w.last_idx + 1) % 256
  let last_idx := if last_idx ≥ TSM_NODE_SEQNO_CACHE_SIZE then 0 else last_idx
  { node_seqno_cache := w.node_seqno_cache.set last_idx node_seqno
    last_idx := last_idx
    last_seen_time := now }

/-- The function `tsm_node_protect_window_update`. -/
def tsm_node_protect_window_update (now : Nat) (tsm : tsm_context) (node_idx : Nat)
    (node_seqno : Nat) : Ret Unit × tsm_context :=
  let node := tsm.node node_idx
  match tsm_node_seqno now tsm node_idx with
  | .ok latest_seqno =>
    if seqno_out_of_range latest_seqno node_seqno then
      (.err .EINVAL, tsm)
    else if node.protect_window.node_seqno_cache.any (fun c => c == node_seqno) then
      (.err .EALREADY, tsm)
    else
      (.ok (), tsm.set_node node_idx
        { node with protect_window := protect_window_insert now node.protect_window node_seqno })
  | .err .ETIMEDOUT =>
    let w := { node.protect_window with
      node_seqno_cache := node.protect_window.node_seqno_cache.map
        (fun _ => TSM_NODE_SEQNO_INVALID) }
    (.ok (), tsm.set_node node_idx
      { node with protect_window := protect_window_insert now w node_seqno })
  | .err _ =>
    (.ok (), tsm.set_node node_idx
      { node with protect_window := protect_window_insert now node.protect_window node_seqno })

/-! ## Node table (`thingset_mesh.c`) -/

/-- A counted loop `for (i = 0; i < n; i++) s = body(i, s);` without `break`. -/
def for_loop {σ : Type} (body : Nat → σ → σ) : Nat → σ → σ
  | 0, s => s
  | n + 1, s => body n (for_loop body n s)

/-- The function `tsm_neighbour_link_throughput`: the value reported by the
`transmit_throughput()` hook of the port of a neighbour element. -/
def tsm_neighbour_link_throughput (tsm : tsm_context) (neighbour_idx : Nat) : Nat :=
  let port_id := (tsm.path neighbour_idx).port_id
  tsm.ports.getD port_id 0

/-- The function `tsm_node_best_next_hop`; the result is `(hop_idx, throughput)`. -/
def tsm_node_best_next_hop (tsm : tsm_context) (node_idx : Nat) : Ret (Nat × Nat) :=
  let node := tsm.node node_idx
  let path_idx := node.paths_refs.getD TSM_NODE_PATHS_BEST 0
  if path_idx ≥ tsm.node_table.paths.length then
    .err .ENAVAIL
  else if path_idx < tsm.node_table.originator_start_idx then
    .ok (node_idx, tsm_neighbour_link_throughput tsm path_idx)
  else
    .ok ((tsm.path path_idx).router_idx, (tsm.path path_idx).throughput)

/-- The function `tsm_node_path_free`: both union variants get `UINT8_MAX` in their first
member, which is the same byte. -/
def tsm_node_path_free (tsm : tsm_context) (path_idx : Nat) : tsm_context :=
  tsm.set_path path_idx { tsm.path path_idx with first := UINT8_MAX }

/-- Body of the innermost loop of `tsm_node_free` (over `other_refs_i`). -/
def tsm_node_free_other_ref (node_idx other_node_i other_refs_i : Nat) (tsm : tsm_context) :
    tsm_context :=
  let other_node := tsm.node other_node_i
  -- uint8_t other_path_idx = other_node->paths_refs[other_refs_i];
  let other_path_idx := (other_node.paths_refs.getD other_refs_i 0) % 256
  if other_path_idx ≥ tsm.node_table.paths.length then
    tsm
  else if other_path_idx ≥ tsm.node_table.originator_start_idx then
    if (tsm.path other_path_idx).router_idx = node_idx then
      let tsm1 := tsm.set_node other_node_i
        { other_node with paths_refs := other_node.paths_refs.set other_refs_i UINT16_MAX }
      tsm_node_path_free tsm1 other_path_idx
    else tsm
  else tsm

/-- Body of the middle loop of `tsm_node_free` (over `other_node_i`). -/
def tsm_node_free_other_node (node_idx other_node_i : Nat) (tsm : tsm_context) : tsm_context :=
  let other_node := tsm.node other_node_i
  if other_node.protect_window.last_idx ≥ TSM_NODE_SEQNO_CACHE_SIZE ∨ other_node_i = node_idx then
    tsm
  else
    for_loop (tsm_node_free_other_ref node_idx other_node_i) other_node.paths_refs.length tsm

/-- Body of the outer loop of `tsm_node_free` (over `refs_i`). -/
def tsm_node_free_ref (node_idx refs_i : Nat) (tsm : tsm_context) : tsm_context :=
  let node := tsm.node node_idx
  -- uint8_t path_idx = node->paths_refs[refs_i];
  let path_idx := (node.paths_refs.getD refs_i 0) % 256
  let tsm1 :=
    if path_idx < tsm.node_table.originator_start_idx then
      for_loop (tsm_node_free_other_node node_idx) tsm.node_table.nodes.length tsm
    else tsm
  if path_idx < tsm1.node_table.paths.length then
    tsm_node_path_free tsm1 path_idx
  else tsm1

/-- The function `tsm_node_free`. -/
def tsm_node_free (tsm : tsm_context) (node_idx : Nat) : tsm_context :=
  let node := tsm.node node_idx
  if node.protect_window.last_idx ≥ TSM_NODE_SEQNO_CACHE_SIZE then
    tsm
  else
    let tsm1 := for_loop (tsm_node_free_ref node_idx) node.paths_refs.length tsm
    let node1 := tsm1.node node_idx
    tsm1.set_node node_idx
      { node1 with protect_window :=
          { node1.protect_window with last_idx := TSM_NODE_SEQNO_CACHE_SIZE } }

/-- The function `tsm_node_init_phantom`. -/
def tsm_node_init_phantom (tsm : tsm_context) (node_idx : Nat) (node_id : Nat) : tsm_context :=
  let node := tsm.node node_idx
  tsm.set_node node_idx
    { node_id := node_id
      name_mapping_id := TSM_NODE_NAME_MAPPING_ID_INVALID
      protect_window :=
        { node_seqno_cache :=
            node.protect_window.node_seqno_cache.map (fun _ => TSM_NODE_SEQNO_INVALID)
          last_idx := 0
          last_seen_time := 0 }
      paths_refs := node.paths_refs.map (fun _ => UINT16_MAX) }

/-- Body of the loop of `tsm_node_evict`; the loop state is `(oldest_idx, last_seen_time)`. -/
def tsm_node_evict_step (tsm : tsm_context) (i : Nat) (st : Nat × Nat) : Nat × Nat :=
  let node := tsm.node i
  if node.protect_window.last_seen_time ≤ st.2 then
    (i, node.protect_window.last_seen_time)
  else st

/-- The function `tsm_node_evict`; `UINT16_MAX` is returned when no entry matched (the C code
asserts that this does not happen). -/
def tsm_node_evict (now : Nat) (tsm : tsm_context) : Nat :=
  (for_loop (tsm_node_evict_step tsm) tsm.node_table.nodes.length (UINT16_MAX, now)).1

/-- The search loop of `tsm_node_get` from index `i` on; the result is
`(match_idx, empty_idx)`. -/
def tsm_node_get_scan (node_id : Nat) : List tsm_node → Nat → Nat → Nat × Nat
  | [], _, empty_idx => (UINT16_MAX, empty_idx)
  | node :: rest, i, empty_idx =>
    if node.protect_window.last_idx ≥ TSM_NODE_SEQNO_CACHE_SIZE then
      tsm_node_get_scan node_id rest (i + 1) (if empty_idx = UINT16_MAX then i else empty_idx)
    else if node_id = node.node_id then
      (i, empty_idx)
    else
      tsm_node_get_scan node_id rest (i + 1) empty_idx

/-- The function `tsm_node_get`; the result is `node_idx` and the new state.  `none` stands for
the failed assertion of `tsm_node_evict` (the C code would go on to index the node table with
`UINT16_MAX`). -/
def tsm_node_get (now : Nat) (tsm : tsm_context) (node_id : Nat) : Option (Nat × tsm_context) :=
  let r := tsm_node_get_scan node_id tsm.node_table.nodes 0 UINT16_MAX
  let match_idx := r.1
  let empty_idx := r.2
  if match_idx = UINT16_MAX then
    if empty_idx = UINT16_MAX then
      let match_idx := tsm_node_evict now tsm
      if match_idx = UINT16_MAX then
        none
      else
        some (match_idx, tsm_node_init_phantom (tsm_node_free tsm match_idx) match_idx node_id)
    else
      some (empty_idx, tsm_node_init_phantom tsm empty_idx node_id)
  else
    some (match_idx, tsm)

/-- The search loop of `tsm_node_lookup` from index `i` on. -/
def tsm_node_lookup_scan (node_id : Nat) : List tsm_node → Nat → Ret Nat
  | [], _ => .err .ENODEV
  | node :: rest, i =>
    if node.protect_window.last_idx ≥ TSM_NODE_SEQNO_CACHE_SIZE then
      tsm_node_lookup_scan node_id rest (i + 1)
    else if node_id = node.node_id then
      .ok i
    else
      tsm_node_lookup_scan node_id rest (i + 1)

/-- The function `tsm_node_lookup`.  It only reads the context. -/
def tsm_node_lookup (tsm : tsm_context) (node_id : Nat) : Ret Nat :=
  tsm_node_lookup_scan node_id tsm.node_table.nodes 0

/-- The function `tsm_node_name_mapping_id`. -/
def tsm_node_name_mapping_id (tsm : tsm_context) (node_idx : Nat) : Ret Nat :=
  let node := tsm.node node_idx
  if node.name_mapping_id = TSM_NODE_NAME_MAPPING_ID_INVALID then
    .err .ENAVAIL
  else
    .ok node.name_mapping_id

/-! ## Neighbour table (`thingset_mesh.c`) -/

/-- The first loop of `tsm_neighbour_get` (over the node's `paths_refs`, from index `i` on); the
result is `(nb_idx, empty_idx)`. -/
def tsm_neighbour_get_scan (tsm : tsm_context) (port_id : Nat) : List Nat → Nat → Nat → Nat × Nat
  | [], _, empty_idx => (UINT16_MAX, empty_idx)
  | path_idx :: rest, i, empty_idx =>
    if path_idx = UINT16_MAX then
      tsm_neighbour_get_scan tsm port_id rest (i + 1)
        (if empty_idx = UINT16_MAX then i else empty_idx)
    else if path_idx < tsm.node_table.originator_start_idx then
      if (tsm.path path_idx).port_id = port_id then
        (path_idx, empty_idx)
      else
        tsm_neighbour_get_scan tsm port_id rest (i + 1) empty_idx
    else
      tsm_neighbour_get_scan tsm port_id rest (i + 1) empty_idx

/-- The second loop of `tsm_neighbour_get`, `for (i = 0; i <= originator_start_idx; i++)`, from
index `i` on with `fuel` iterations left; the result is `nb_idx` and the (possibly grown)
`originator_start_idx`.  The loop always leaves through its body at `i ==
originator_start_idx`; running out of fuel keeps `nb_idx` at `UINT16_MAX`. -/
def tsm_neighbour_get_alloc (tsm : tsm_context) : Nat → Nat → Ret (Nat × Nat)
  | 0, _ => .ok (UINT16_MAX, tsm.node_table.originator_start_idx)
  | fuel + 1, i =>
    if i = tsm.node_table.originator_start_idx then
      if i ≥ tsm.node_table.paths.length then
        .err .ENOMEM
      else if (tsm.path i).throughput ≠ UINT8_MAX then
        .err .ENOMEM
      else
        .ok (i, i + 1)
    else if (tsm.path i).heartbeat_period_s = UINT8_MAX then
      .ok (i, tsm.node_table.originator_start_idx)
    else
      tsm_neighbour_get_alloc tsm fuel (i + 1)

/-- The part of `tsm_neighbour_get` behind the call of `tsm_node_get`, which yielded the node
table entry `match_idx`; the result is `(node_idx, neighbour_idx)` and the new state. -/
def tsm_neighbour_get_at (tsm1 : tsm_context) (match_idx : Nat) (port_id : Nat) :
    Ret (Nat × Nat) × tsm_context :=
  let node := tsm1.node match_idx
  let r := tsm_neighbour_get_scan tsm1 port_id node.paths_refs 0 UINT16_MAX
  let nb_idx := r.1
  let empty_idx := r.2
  if nb_idx = UINT16_MAX then
    if empty_idx = UINT16_MAX then
      (.err .EBUSY, tsm1)
    else
      match tsm_neighbour_get_alloc tsm1 (tsm1.node_table.originator_start_idx + 1) 0 with
      | .err e => (.err e, tsm1)
      | .ok (nb_idx, start_idx) =>
        let tsm2 : tsm_context :=
          { tsm1 with node_table := { tsm1.node_table with originator_start_idx := start_idx } }
        let node2 := tsm2.node match_idx
        let tsm3 := tsm2.set_node match_idx
          { node2 with paths_refs := node2.paths_refs.set empty_idx nb_idx }
        let tsm4 := tsm3.set_path nb_idx
          { tsm3.path nb_idx with first := 0, port_id := port_id }
        (.ok (match_idx, nb_idx), tsm4)
  else
    (.ok (match_idx, nb_idx), tsm1)

/-- The function `tsm_neighbour_get`; the result is `(node_idx, neighbour_idx)` and the new
state.  `none` is inherited from `tsm_node_get`. -/
def tsm_neighbour_get (now : Nat) (tsm : tsm_context) (node_id : Nat) (port_id : Nat) :
    Option (Ret (Nat × Nat) × tsm_context) :=
  match tsm_node_get now tsm node_id with
  | none => none
  | some (match_idx, tsm1) => some (tsm_neighbour_get_at tsm1 match_idx port_id)

/-- The loop of `tsm_neighbour_lookup` over the node's `paths_refs`. -/
def tsm_neighbour_lookup_scan (tsm : tsm_context) (port_id : Nat) : List Nat → Ret Nat
  | [] => .err .ENOLINK
  | path_idx :: rest =>
    if path_idx < tsm.node_table.originator_start_idx then
      if (tsm.path path_idx).port_id = port_id then
        .ok path_idx
      else
        tsm_neighbour_lookup_scan tsm port_id rest
    else
      tsm_neighbour_lookup_scan tsm port_id rest

/-- The function `tsm_neighbour_lookup`; the result is `(node_idx, neighbour_idx)`. -/
def tsm_neighbour_lookup (tsm : tsm_context) (node_id : Nat) (port_id : Nat) :
    Ret (Nat × Nat) :=
  match tsm_node_lookup tsm node_id with
  | .err e => .err e
  | .ok match_idx =>
    match tsm_neighbour_lookup_scan tsm port_id (tsm.node match_idx).paths_refs with
    | .err e => .err e
    | .ok path_idx => .ok (match_idx, path_idx)

/-- The exchange loop of `tsm_neighbour_update_best_next_hop` over the path references `refs` of
the node, from index `i` on with `fuel` iterations left: the first reference to `neighbour_idx`
behind the best one is exchanged with the best one. -/
def tsm_neighbour_update_best_next_hop_swap (neighbour_idx best_next_hop_path_idx : Nat)
    (refs : List Nat) : Nat → Nat → List Nat
  | 0, _ => refs
  | fuel + 1, i =>
    if refs.getD i 0 = neighbour_idx then
      (refs.set i best_next_hop_path_idx).set TSM_NODE_PATHS_BEST neighbour_idx
    else
      tsm_neighbour_update_best_next_hop_swap neighbour_idx best_next_hop_path_idx refs fuel
        (i + 1)

/-- The function `tsm_neighbour_update_best_next_hop`.  The C code asserts
`neighbour_idx < originator_start_idx`, that the best path reference is a path index and, when
it differs from `neighbour_idx`, that it is an originator index. -/
def tsm_neighbour_update_best_next_hop (tsm : tsm_context) (node_idx neighbour_idx : Nat) :
    tsm_context :=
  let node := tsm.node node_idx
  let best_next_hop_path_idx := node.paths_refs.getD TSM_NODE_PATHS_BEST 0
  if best_next_hop_path_idx = neighbour_idx then
    tsm
  else
    let throughput := tsm_neighbour_link_throughput tsm neighbour_idx
    let best_next_hop_throughput := (tsm.path best_next_hop_path_idx).throughput
    if throughput > best_next_hop_throughput then
      tsm.set_node node_idx
        { node with
          paths_refs :=
            tsm_neighbour_update_best_next_hop_swap neighbour_idx best_next_hop_path_idx
              node.paths_refs (node.paths_refs.length - (TSM_NODE_PATHS_BEST + 1))
              (TSM_NODE_PATHS_BEST + 1) }
    else
      tsm

/-- The function `tsm_neighbour_update`; `none` is inherited from `tsm_node_get`.  The result of
`tsm_node_protect_window_update` is dropped, as in the C code. -/
def tsm_neighbour_update (now : Nat) (tsm : tsm_context)
    (node_seqno node_id version period_s name_mapping_id port_id : Nat) :
    Option (Ret Unit × tsm_context) :=
  if version ≠ TSM_VERSION then
    some (.ok (), tsm)
  else if node_id = tsm.node_id then
    some (.ok (), tsm)
  else
    match tsm_neighbour_get now tsm node_id port_id with
    | none => none
    | some (.err e, tsm1) => some (.err e, tsm1)
    | some (.ok (node_idx, neighbour_idx), tsm1) =>
      let tsm2 := (tsm_node_protect_window_update now tsm1 node_idx node_seqno).2
      let tsm3 := tsm2.set_node node_idx
        { tsm2.node node_idx with name_mapping_id := name_mapping_id }
      let tsm4 := tsm3.set_path neighbour_idx
        { tsm3.path neighbour_idx with port_id := port_id, first := period_s }
      some (.ok (), tsm_neighbour_update_best_next_hop tsm4 node_idx neighbour_idx)

/-! ## Originator table (`thingset_mesh.c`) -/

/-- The loop of `tsm_originator_lookup` over the node's `paths_refs`. -/
def tsm_originator_lookup_scan (tsm : tsm_context) : List Nat → Ret Nat
  | [] => .err .ENOLINK
  | path_idx :: rest =>
    if path_idx ≥ tsm.node_table.originator_start_idx
        ∧ path_idx < tsm.node_table.paths.length then
      .ok path_idx
    else
      tsm_originator_lookup_scan tsm rest

/-- The function `tsm_originator_lookup`; the result is `(node_idx, originator_idx)`. -/
def tsm_originator_lookup (tsm : tsm_context) (node_id : Nat) : Ret (Nat × Nat) :=
  match tsm_node_lookup tsm node_id with
  | .err e => .err e
  | .ok match_idx =>
    match tsm_originator_lookup_scan tsm (tsm.node match_idx).paths_refs with
    | .err e => .err e
    | .ok path_idx => .ok (match_idx, path_idx)

/-- The first loop of `tsm_originator_get` (over the node's `paths_refs`, from index `i` on);
the result is `(orig_idx, empty_idx)`. -/
def tsm_originator_get_scan (tsm : tsm_context) (router_node_idx : Nat) :
    List Nat → Nat → Nat → Nat × Nat
  | [], _, empty_idx => (UINT16_MAX, empty_idx)
  | path_idx :: rest, i, empty_idx =>
    if path_idx = UINT16_MAX then
      tsm_originator_get_scan tsm router_node_idx rest (i + 1)
        (if empty_idx = UINT16_MAX then i else empty_idx)
    else if path_idx ≥ tsm.node_table.originator_start_idx then
      if (tsm.path path_idx).router_idx = router_node_idx then
        (path_idx, empty_idx)
      else
        tsm_originator_get_scan tsm router_node_idx rest (i + 1) empty_idx
    else
      tsm_originator_get_scan tsm router_node_idx rest (i + 1) empty_idx

/-- The second loop of `tsm_originator_get`,
`for (i = ARRAY_SIZE(paths); i >= originator_start_idx; i--)`, at index `i` with `fuel`
iterations left; the result is `orig_idx` and the (possibly lowered) `originator_start_idx`.
The loop leaves through its body at `i == originator_start_idx` at the latest; when the loop
condition fails or the fuel runs out `orig_idx` stays `UINT16_MAX`. -/
def tsm_originator_get_alloc (tsm : tsm_context) : Nat → Nat → Ret (Nat × Nat)
  | 0, _ => .ok (UINT16_MAX, tsm.node_table.originator_start_idx)
  | fuel + 1, i =>
    if i < tsm.node_table.originator_start_idx then
      .ok (UINT16_MAX, tsm.node_table.originator_start_idx)
    else if i < tsm.node_table.paths.length ∧ (tsm.path i).throughput = UINT8_MAX then
      .ok (i, tsm.node_table.originator_start_idx)
    else if i = tsm.node_table.originator_start_idx then
      if i = 0 then
        .err .ENOMEM
      else if (tsm.path (tsm.node_table.originator_start_idx - 1)).heartbeat_period_s
          ≠ UINT8_MAX then
        .err .ENOMEM
      else
        .ok (i - 1, i - 1)
    else
      tsm_originator_get_alloc tsm fuel (i - 1)

/-- The part of `tsm_originator_get` behind the call of `tsm_node_get`, which yielded the node
table entry `match_idx`; the result is `(node_idx, originator_idx)` and the new state.  The C
code asserts `originator_start_idx <= ARRAY_SIZE(paths)` and `match_idx != router_node_idx`. -/
def tsm_originator_get_at (tsm1 : tsm_context) (match_idx : Nat) (router_node_idx : Nat) :
    Ret (Nat × Nat) × tsm_context :=
  let node := tsm1.node match_idx
  let r := tsm_originator_get_scan tsm1 router_node_idx node.paths_refs 0 UINT16_MAX
  let orig_idx := r.1
  let empty_idx := r.2
  if orig_idx = UINT16_MAX then
    if empty_idx = UINT16_MAX then
      (.err .EBUSY, tsm1)
    else
      match tsm_originator_get_alloc tsm1 (tsm1.node_table.paths.length + 1)
          tsm1.node_table.paths.length with
      | .err e => (.err e, tsm1)
      | .ok (orig_idx, start_idx) =>
        let tsm2 : tsm_context :=
          { tsm1 with node_table := { tsm1.node_table with originator_start_idx := start_idx } }
        let node2 := tsm2.node match_idx
        let tsm3 := tsm2.set_node match_idx
          { node2 with paths_refs := node2.paths_refs.set empty_idx orig_idx }
        let tsm4 := tsm3.set_path orig_idx
          { tsm3.path orig_idx with router_idx := router_node_idx, first := 0 }
        (.ok (match_idx, orig_idx), tsm4)
  else
    (.ok (match_idx, orig_idx), tsm1)

/-- The function `tsm_originator_get`; the result is `(node_idx, originator_idx)` and the new
state.  `none` is inherited from `tsm_node_get`. -/
def tsm_originator_get (now : Nat) (tsm : tsm_context) (node_id : Nat) (router_node_idx : Nat) :
    Option (Ret (Nat × Nat) × tsm_context) :=
  match tsm_node_get now tsm node_id with
  | none => none
  | some (match_idx, tsm1) => some (tsm_originator_get_at tsm1 match_idx router_node_idx)

/-- The exchange loop of `tsm_originator_update_best_next_hop` over the path references `refs` of
the node, from index `i` on with `fuel` iterations left: the first reference to
`originator_idx` behind the best one is exchanged with the best one. -/
def tsm_originator_update_best_next_hop_swap (originator_idx best_next_hop_path_idx : Nat)
    (refs : List Nat) : Nat → Nat → List Nat
  | 0, _ => refs
  | fuel + 1, i =>
    if refs.getD i 0 = originator_idx then
      (refs.set i best_next_hop_path_idx).set TSM_NODE_PATHS_BEST originator_idx
    else
      tsm_originator_update_best_next_hop_swap originator_idx best_next_hop_path_idx refs fuel
        (i + 1)

/-- The function `tsm_originator_update_best_next_hop`.  The C code asserts that
`originator_idx` is an index of the originator region and that the best path reference is a
path index. -/
def tsm_originator_update_best_next_hop (tsm : tsm_context)
    (node_idx originator_idx throughput : Nat) : tsm_context :=
  let tsm1 := tsm.set_path originator_idx { tsm.path originator_idx with first := throughput }
  let node := tsm1.node node_idx
  let best_next_hop_path_idx := node.paths_refs.getD TSM_NODE_PATHS_BEST 0
  if best_next_hop_path_idx = originator_idx then
    tsm1
  else
    let best_next_hop_throughput :=
      if best_next_hop_path_idx < tsm1.node_table.originator_start_idx then
        tsm_neighbour_link_throughput tsm1 best_next_hop_path_idx
      else
        (tsm1.path best_next_hop_path_idx).throughput
    if throughput > best_next_hop_throughput then
      tsm1.set_node node_idx
        { node with
          paths_refs :=
            tsm_originator_update_best_next_hop_swap originator_idx best_next_hop_path_idx
              node.paths_refs (node.paths_refs.length - (TSM_NODE_PATHS_BEST + 1))
              (TSM_NODE_PATHS_BEST + 1) }
    else
      tsm1

/-- The values of `node_idx` and `originator_idx` in `tsm_originator_update` behind the call of
`tsm_originator_get`: both are initialised to `UINT16_MAX`, and `tsm_originator_get` stores to
them only when it returns 0. -/
def tsm_originator_update_idx (ret : Ret (Nat × Nat)) : Nat × Nat :=
  match ret with
  | .ok idx => idx
  | .err _ => (UINT16_MAX, UINT16_MAX)

/-- The two checks of `tsm_originator_update` behind the protection window update, which
returned `ret`: `true` when the statement is dropped, because the sequence number is out of the
protection window, or because it was already seen and the best next hop of the node is at least
as good as the statement. -/
def tsm_originator_update_drop (ret : Ret Unit) (tsm : tsm_context) (node_idx throughput : Nat) :
    Bool :=
  if ret = .err .EINVAL then
    true
  else if ret = .err .EALREADY then
    match tsm_node_best_next_hop tsm node_idx with
    | .ok (_, best_next_hop_throughput) => decide (best_next_hop_throughput ≥ throughput)
    | .err _ => false
  else
    false

/-- The throughput calculation of `tsm_originator_update`: limitation to the throughput of the
link to the router and hop penalty. -/
def tsm_originator_update_throughput (link_throughput throughput node_idx router_node_idx : Nat) :
    Nat :=
  let throughput := if link_throughput < throughput then link_throughput else throughput
  if node_idx ≠ router_node_idx ∧ throughput > 1 then throughput - 1 else throughput

/-- The tail of `tsm_originator_update`, for a statement that is not dropped: update of the
time stamps and of the name mapping id, throughput calculation and update of the route. -/
def tsm_originator_update_process (now : Nat) (tsm : tsm_context)
    (router_node_idx router_neighbour_idx node_idx originator_idx : Nat)
    (name_mapping_id throughput : Nat) : tsm_context :=
  let router := tsm.node router_node_idx
  let tsm1 := tsm.set_node router_node_idx
    { router with protect_window := { router.protect_window with last_seen_time := now } }
  let node := tsm1.node node_idx
  let tsm2 := tsm1.set_node node_idx
    { node with protect_window := { node.protect_window with last_seen_time := now } }
  let tsm3 := tsm2.set_node node_idx { tsm2.node node_idx with name_mapping_id := name_mapping_id }
  let link_throughput := tsm_neighbour_link_throughput tsm3 router_neighbour_idx
  tsm_originator_update_best_next_hop tsm3 node_idx originator_idx
    (tsm_originator_update_throughput link_throughput throughput node_idx router_node_idx)

/-- The part of `tsm_originator_update` behind the calls of `tsm_neighbour_get` and
`tsm_originator_get`: protection window update, the checks and the processing. -/
def tsm_originator_update_at (now : Nat) (tsm : tsm_context) (node_seqno : Nat)
    (router_node_idx router_neighbour_idx node_idx originator_idx : Nat)
    (name_mapping_id throughput : Nat) : Ret Unit × tsm_context :=
  let r := tsm_node_protect_window_update now tsm node_idx node_seqno
  if tsm_originator_update_drop r.1 r.2 node_idx throughput then
    (.ok (), r.2)
  else
    (.ok (), tsm_originator_update_process now r.2 router_node_idx router_neighbour_idx node_idx
      originator_idx name_mapping_id throughput)

set_option linter.unusedVariables false in
/-- The function `tsm_originator_update`; `none` is inherited from `tsm_node_get`.  The
parameter `age_ms` is not used by the C code.  `tsm_originator_get` returns 0, `-EBUSY` or
`-ENOMEM`; behind the last two the function goes on. -/
def tsm_originator_update (now : Nat) (tsm : tsm_context)
    (node_seqno node_id version age_ms name_mapping_id router_node_id throughput port_id : Nat) :
    Option (Ret Unit × tsm_context) :=
  if version ≠ TSM_VERSION then
    some (.ok (), tsm)
  else if node_id = tsm.node_id then
    some (.ok (), tsm)
  else if router_node_id = tsm.node_id then
    some (.ok (), tsm)
  else if router_node_id = node_id then
    some (.ok (), tsm)
  else
    match tsm_neighbour_get now tsm router_node_id port_id with
    | none => none
    | some (.err e, tsm1) => some (.err e, tsm1)
    | some (.ok (router_node_idx, router_neighbour_idx), tsm1) =>
      match tsm_originator_get now tsm1 node_id router_node_idx with
      | none => none
      | some (ret, tsm2) =>
        let idx := tsm_originator_update_idx ret
        let go := tsm_originator_update_at now tsm2 node_seqno router_node_idx
          router_neighbour_idx idx.1 idx.2 name_mapping_id throughput
        match ret with
        | .ok _ => some go
        | .err .EBUSY => some go
        | .err .ENOMEM => some go
        | .err e => some (.err e, tsm2)

/-- The function `tsm_node_init`, for a context with the given own node id and ports. -/
def tsm_node_init (node_id : Nat) (ports : List Nat) : tsm_context :=
  { node_id := node_id
    ports := ports
    node_table :=
      { nodes := List.replicate TSM_NODE_COUNT
          { node_id := 0
            name_mapping_id := 0
            protect_window :=
              { node_seqno_cache := List.replicate TSM_NODE_SEQNO_CACHE_SIZE 0
                last_idx := TSM_NODE_SEQNO_CACHE_SIZE
                last_seen_time := 0 }
            paths_refs := List.replicate TSM_NODE_PATHS_MAX 0 }
        paths := List.replicate TSM_NODE_COUNT ⟨UINT8_MAX, 0, 0⟩
        originator_start_idx := TSM_NODE_COUNT / 4 } }

/-! ## RBBQ buffer (`rbbq_priv.h`, `rbbq.c`, `rbbq_local.c`) -/

def RBBQ_BUFFER_STATE_NONE : Nat := 0
def RBBQ_BUFFER_STATE_INIT : Nat := 1
def RBBQ_BUFFER_STATE_READY : Nat := 2
def RBBQ_BUFFER_STATE_START : Nat := 3
def RBBQ_BUFFER_STATE_RUNNING : Nat := 4
def RBBQ_BUFFER_STATE_STOP : Nat := 5
def RBBQ_BUFFER_STATE_SUSPENDED : Nat := 6

def RBBQ_MESSAGE_ALLOC_NOMEM : Int := -1
def RBBQ_MESSAGE_ALLOC_AT_END : Int := 0
def RBBQ_MESSAGE_ALLOC_AT_START : Int := 1
def RBBQ_MESSAGE_ALLOC_AT_MIDDLE : Int := 2
def RBBQ_MESSAGE_FREE_NOMEM : Int := -1
def RBBQ_MESSAGE_FREE_TO_WRITE : Int := 0
def RBBQ_MESSAGE_FREE_TO_WATERMARK : Int := 1
def RBBQ_MESSAGE_CORRUPTED : Int := -2

/-- The size `sizeof(struct rbbq_message_header)`: two `uint16_t` members. -/
def RBBQ_MESSAGE_HEADER_SIZE : Nat := 4

/-- Narrowing of a C `int` expression to `uint16_t`. -/
def to_u16 (x : Int) : Nat := (x % 65536).toNat

/-- The `struct rbbq_control`: the values of its three `uint16_t` members, as a store to the
member leaves them (`control->this_write_idx = x`).  The buffer code does not read the members
as such, it decodes their bytes with `sys_get_be16`, see `rbbq_control_read`. -/
structure rbbq_control where
  this_write_idx : Nat
  this_watermark_idx : Nat
  other_read_idx : Nat
deriving DecidableEq

/-- The `struct rbbq`.  A pointer into a data region is the offset it points to, `none` is
`NULL`; a mutex and a signal are a flag each (held, raised). -/
structure rbbq where
  signal_device_receive : Bool
  signal_device_transmit : Bool
  alloc_mutex : Bool
  alloc_message : Option Nat
  alloc_write_idx : Nat
  alloc_watermark_idx : Nat
  tx_shadow_read_idx : Nat
  receive_mutex : Bool
  free_message : Option Nat
  free_read_idx : Nat
  state : Nat
deriving DecidableEq

/-- One transfer buffer of the local device (`rbbq_local0_transfer_a2b`): the data bytes
followed by the control record at the tail. -/
structure rbbq_transfer where
  data : List Nat
  control : rbbq_control
deriving DecidableEq

/-- The two buffers `rbbq_local0_a`, `rbbq_local0_b` of a local device and their two transfer
buffers, together with the byte order of the target the code is compiled for, which decides
how the members of the control records lie in memory; no function changes it. -/
structure rbbq_local where
  a : rbbq
  b : rbbq
  a2b : rbbq_transfer
  b2a : rbbq_transfer
  little_endian : Bool
deriving DecidableEq

/-- Which of the two buffers of the local device an operation is called on. -/
inductive rbbq_side where
  | A | B
deriving DecidableEq

/-- The member `other` of `struct rbbq_device_local`. -/
def rbbq_side.other : rbbq_side → rbbq_side
  | .A => .B
  | .B => .A

/-- The buffer of a side. -/
def rbbq_local.buffer (s : rbbq_local) : rbbq_side → rbbq
  | .A => s.a
  | .B => s.b

/-- Store to the buffer of a side. -/
def rbbq_local.set_buffer (s : rbbq_local) (side : rbbq_side) (buf : rbbq) : rbbq_local :=
  match side with
  | .A => { s with a := buf }
  | .B => { s with b := buf }

/-- The transmit transfer buffer of a side (`device.tx_data`, `device.tx_control`). -/
def rbbq_local.tx (s : rbbq_local) : rbbq_side → rbbq_transfer
  | .A => s.a2b
  | .B => s.b2a

/-- The receive transfer buffer of a side (`device.rx_data`, `device.rx_control`). -/
def rbbq_local.rx (s : rbbq_local) (side : rbbq_side) : rbbq_transfer :=
  s.tx side.other

/-- Store to the transmit transfer buffer of a side. -/
def rbbq_local.set_tx (s : rbbq_local) (side : rbbq_side) (t : rbbq_transfer) : rbbq_local :=
  match side with
  | .A => { s with a2b := t }
  | .B => { s with b2a := t }

/-- The member `device.tx_data_size`. -/
def rbbq_local.tx_data_size (s : rbbq_local) (side : rbbq_side) : Nat :=
  (s.tx side).data.length

/-- Modelled from the spec: `sys_get_be16` of Zephyr's `sys/byteorder.h`, which is not part of the
repository; it reads a 16-bit big-endian value at offset `off`. -/
def sys_get_be16 (data : List Nat) (off : Nat) : Nat :=
  (data.getD off 0) * 256 + data.getD (off + 1) 0

/-- Modelled from the spec: `sys_put_be16` of Zephyr's `sys/byteorder.h`, which is not part of the
repository; it writes a 16-bit big-endian value at offset `off`. -/
def sys_put_be16 (val : Nat) (data : List Nat) (off : Nat) : List Nat :=
  (data.set off (val / 256 % 256)).set (off + 1) (val % 256)

/-- The function `rbbq_control` on the bytes of memory, with the control record at offset
`ctl`; the result is `(this_write_idx, this_watermark_idx, other_read_idx)`. -/
def rbbq_control_read (mem : List Nat) (ctl : Nat) : Nat × Nat × Nat :=
  (sys_get_be16 mem ctl, sys_get_be16 mem (ctl + 2), sys_get_be16 mem (ctl + 4))

/-- The function `rbbq_control_set` on the bytes of memory, with the control record at offset
`ctl`. -/
def rbbq_control_set (mem : List Nat) (ctl : Nat)
    (this_write_idx this_watermark_idx other_read_idx : Nat) : List Nat :=
  sys_put_be16 other_read_idx
    (sys_put_be16 this_watermark_idx (sys_put_be16 this_write_idx mem ctl) (ctl + 2)) (ctl + 4)

/-- The function `rbbq_control_other_read_idx` on the bytes of memory, with the control record
at offset `ctl`. -/
def rbbq_control_other_read_idx (mem : List Nat) (ctl : Nat) : Nat :=
  sys_get_be16 mem (ctl + 4)

/-- The two bytes of a `uint16_t` object that holds `val`, in the byte order of the target. -/
def rbbq_native_bytes (little_endian : Bool) (val : Nat) : List Nat :=
  if little_endian then [val % 256, val / 256 % 256] else [val / 256 % 256, val % 256]

/-- The six bytes of a `struct rbbq_control` in memory: the members `this_write_idx`,
`this_watermark_idx` and `other_read_idx` at the offsets 0, 2 and 4, each as the target stores
a `uint16_t`. -/
def rbbq_control_bytes (little_endian : Bool) (c : rbbq_control) : List Nat :=
  rbbq_native_bytes little_endian c.this_write_idx ++
    (rbbq_native_bytes little_endian c.this_watermark_idx ++
      rbbq_native_bytes little_endian c.other_read_idx)

/-- The function `rbbq_message_channel` on the raw message at offset `raw`. -/
def rbbq_message_channel (data : List Nat) (raw : Nat) : Nat :=
  sys_get_be16 data raw

/-- The function `rbbq_message_channel_set`. -/
def rbbq_message_channel_set (data : List Nat) (raw : Nat) (channel : Nat) : List Nat :=
  sys_put_be16 channel data raw

/-- The function `rbbq_message_payload_size`. -/
def rbbq_message_payload_size (data : List Nat) (raw : Nat) : Nat :=
  sys_get_be16 data (raw + 2)

/-- The function `rbbq_message_payload_size_set`. -/
def rbbq_message_payload_size_set (data : List Nat) (raw : Nat) (size : Nat) : List Nat :=
  sys_put_be16 size data (raw + 2)

/-- The function `rbbq_message_payload`: the payload follows the header. -/
def rbbq_message_payload (raw : Option Nat) : Option Nat :=
  raw.map (fun r => r + RBBQ_MESSAGE_HEADER_SIZE)

/-- The function `rbbq_message_size`, a `uint16_t`. -/
def rbbq_message_size (data : List Nat) (raw : Nat) : Nat :=
  (sys_get_be16 data (raw + 2) + RBBQ_MESSAGE_HEADER_SIZE) % 65536

/-- Modelled from the spec: `ts_mutex_lock` wraps Zephyr's `k_mutex_lock`, which is not part of
the repository.  A free mutex is taken; on a held mutex the timeout expires, which "yields a
timeout error without side effects". -/
def ts_mutex_lock (mutex : Bool) : Ret Unit × Bool :=
  if mutex then (.err .ETIMEDOUT, mutex) else (.ok (), true)

/-- The function `rbbq_event_raise_receive` on the buffer of `side`; the shadow read index is
what `rbbq_control_other_read_idx` decodes from the control record of the receive buffer. -/
def rbbq_event_raise_receive (s : rbbq_local) (side : rbbq_side) : rbbq_local :=
  s.set_buffer side
    { s.buffer side with
      tx_shadow_read_idx :=
        rbbq_control_other_read_idx (rbbq_control_bytes s.little_endian (s.rx side).control) 0
      signal_device_receive := true }

/-- The function `rbbq_event_raise_transmit` on the buffer of `side`. -/
def rbbq_event_raise_transmit (s : rbbq_local) (side : rbbq_side) : rbbq_local :=
  s.set_buffer side { s.buffer side with signal_device_transmit := true }

/-- The device hook `rbbq_local_init`: plain stores to the members of the control record. -/
def rbbq_local_init (s : rbbq_local) (side : rbbq_side) : rbbq_local :=
  s.set_tx side
    { s.tx side with
      control :=
        { this_write_idx := 0
          this_watermark_idx := s.tx_data_size side
          other_read_idx := 0 } }

/-- The device hook `rbbq_local_transmit`: plain stores to the members of the control record,
then the two events. -/
def rbbq_local_transmit (s : rbbq_local) (side : rbbq_side) : rbbq_local :=
  let buffer := s.buffer side
  let s1 := s.set_tx side
    { s.tx side with
      control :=
        { (s.tx side).control with
          this_watermark_idx := buffer.alloc_watermark_idx
          this_write_idx := buffer.alloc_write_idx } }
  let s2 := rbbq_event_raise_transmit s1 side
  rbbq_event_raise_receive s2 side.other

/-- The device hook `rbbq_local_receive`: a plain store to the member `other_read_idx`, then
the event of the other buffer. -/
def rbbq_local_receive (s : rbbq_local) (side : rbbq_side) : rbbq_local :=
  let buffer := s.buffer side
  let s1 := s.set_tx side
    { s.tx side with
      control := { (s.tx side).control with other_read_idx := buffer.free_read_idx } }
  rbbq_event_raise_receive s1 side.other

/-- The function `rbbq_alloc_avail`; `size` is the `uint16_t` argument. -/
def rbbq_alloc_avail (s : rbbq_local) (side : rbbq_side) (size : Nat) : Int :=
  let write_idx := (s.buffer side).alloc_write_idx
  let read_idx := (s.buffer side).tx_shadow_read_idx % 65536
  let end_idx := s.tx_data_size side
  if write_idx ≥ read_idx then
    if (size : Int) ≤ (end_idx : Int) - write_idx then
      RBBQ_MESSAGE_ALLOC_AT_END
    else if size < read_idx then
      RBBQ_MESSAGE_ALLOC_AT_START
    else
      RBBQ_MESSAGE_ALLOC_NOMEM
  else
    if (size : Int) < (read_idx : Int) - write_idx then
      RBBQ_MESSAGE_ALLOC_AT_MIDDLE
    else
      RBBQ_MESSAGE_ALLOC_NOMEM

/-- The common part of the three successful cases of `rbbq_alloc`: write the header at `raw`,
remember the allocation and set the new watermark and write index. -/
def rbbq_alloc_at (s : rbbq_local) (side : rbbq_side) (channel size raw : Nat)
    (watermark_idx : Nat) (write_base : Nat) : Ret (Option Nat) × rbbq_local :=
  let data1 := rbbq_message_channel_set (s.tx side).data raw channel
  let data2 := rbbq_message_payload_size_set data1 raw size
  let s1 := s.set_tx side { s.tx side with data := data2 }
  let s2 := s1.set_buffer side
    { s1.buffer side with
      alloc_message := some raw
      alloc_watermark_idx := watermark_idx
      alloc_write_idx := (write_base + rbbq_message_size data2 raw) % 65536 }
  (.ok (rbbq_message_payload (some raw)), s2)

/-- The function `rbbq_alloc`; the result is the pointer `*message`. -/
def rbbq_alloc (s : rbbq_local) (side : rbbq_side) (channel size : Nat) :
    Ret (Option Nat) × rbbq_local :=
  let buffer := s.buffer side
  if buffer.state ≠ RBBQ_BUFFER_STATE_RUNNING then
    (.err .EAGAIN, s)
  else
    match ts_mutex_lock buffer.alloc_mutex with
    | (.err e, _) => (.err e, s)
    | (.ok (), m) =>
      let s0 := s.set_buffer side { buffer with alloc_mutex := m }
      let alloc_mode :=
        rbbq_alloc_avail s0 side (to_u16 ((size : Int) + RBBQ_MESSAGE_HEADER_SIZE))
      if alloc_mode = RBBQ_MESSAGE_ALLOC_AT_END then
        rbbq_alloc_at s0 side channel size buffer.alloc_write_idx
          (s0.tx_data_size side) buffer.alloc_write_idx
      else if alloc_mode = RBBQ_MESSAGE_ALLOC_AT_START then
        rbbq_alloc_at s0 side channel size 0 buffer.alloc_write_idx 0
      else if alloc_mode = RBBQ_MESSAGE_ALLOC_AT_MIDDLE then
        rbbq_alloc_at s0 side channel size buffer.alloc_write_idx
          buffer.alloc_watermark_idx buffer.alloc_write_idx
      else if alloc_mode = RBBQ_MESSAGE_ALLOC_NOMEM then
        (.err .ENOMEM, s0.set_buffer side { s0.buffer side with alloc_mutex := false })
      else
        (.err .EFAULT, s0.set_buffer side { s0.buffer side with alloc_mutex := false })

/-- The value of the `uint16_t` object whose two bytes lie at offset `off` of `bytes`, in the
byte order of the target. -/
def rbbq_native_value (little_endian : Bool) (bytes : List Nat) (off : Nat) : Nat :=
  if little_endian then bytes.getD off 0 + 256 * bytes.getD (off + 1) 0
  else bytes.getD off 0 * 256 + bytes.getD (off + 1) 0

/-- The byte at offset `off` from `tx_data` of a transfer buffer.  In `rbbq_local.c` the control
record is the tail of the array that holds the data bytes, so an offset behind the data region
reads a byte of the control record; an offset behind the array reads 0. -/
def rbbq_transfer.get_byte (t : rbbq_transfer) (little_endian : Bool) (off : Nat) : Nat :=
  (t.data ++ rbbq_control_bytes little_endian t.control).getD off 0

/-- A store of one byte at offset `off` from `tx_data` of a transfer buffer: an offset behind
the data region changes a byte of the control record, a store behind the array is dropped. -/
def rbbq_transfer.put_byte (t : rbbq_transfer) (little_endian : Bool) (off val : Nat) :
    rbbq_transfer :=
  if off < t.data.length then
    { t with data := t.data.set off val }
  else
    let bytes := (rbbq_control_bytes little_endian t.control).set (off - t.data.length) val
    { t with
      control :=
        { this_write_idx := rbbq_native_value little_endian bytes 0
          this_watermark_idx := rbbq_native_value little_endian bytes 2
          other_read_idx := rbbq_native_value little_endian bytes 4 } }

/-- The producer filling the allocated message: `bytes` are stored from `message` on. -/
def rbbq_write_payload (s : rbbq_local) (side : rbbq_side) (message : Nat) (bytes : List Nat) :
    rbbq_local :=
  s.set_tx side
    ((List.range bytes.length).foldl
      (fun t k => t.put_byte s.little_endian (message + k) (bytes.getD k 0)) (s.tx side))

/-- The function `rbbq_transmit`. -/
def rbbq_transmit (s : rbbq_local) (side : rbbq_side) (message : Option Nat) :
    Ret Unit × rbbq_local :=
  let buffer := s.buffer side
  if buffer.state ≠ RBBQ_BUFFER_STATE_RUNNING then
    (.err .EAGAIN, s)
  else if message = none ∨ message ≠ rbbq_message_payload buffer.alloc_message then
    (.err .EINVAL, s)
  else
    let s1 := rbbq_local_transmit s side
    let s2 := s1.set_buffer side
      { s1.buffer side with alloc_message := none, alloc_mutex := false }
    (.ok (), s2)

/-- The function `rbbq_message_free_avail_unprotected`; write index and watermark are what
`rbbq_control` decodes from the control record of the receive buffer. -/
def rbbq_message_free_avail_unprotected (s : rbbq_local) (side : rbbq_side) : Int :=
  let c := rbbq_control_read (rbbq_control_bytes s.little_endian (s.rx side).control) 0
  let write_idx := c.1
  let watermark_idx := c.2.1
  let read_idx := (s.buffer side).free_read_idx
  let avail_size :=
    if write_idx ≥ read_idx then to_u16 ((write_idx : Int) - read_idx)
    else to_u16 ((watermark_idx : Int) - read_idx)
  let ret :=
    if write_idx ≥ read_idx then RBBQ_MESSAGE_FREE_TO_WRITE
    else RBBQ_MESSAGE_FREE_TO_WATERMARK
  if avail_size = 0 then
    RBBQ_MESSAGE_FREE_NOMEM
  else if rbbq_message_size (s.rx side).data read_idx > avail_size then
    RBBQ_MESSAGE_CORRUPTED
  else
    ret

/-- The function `rbbq_receive`; the result is `(channel, size, message)`.  The flag `signalled`
says whether `rbbq_wait_receive`, when it is called, returns 0 (the device raised the receive
signal within the timeout).  The `continue` after a successful wait sits in a
`do ... while (false)` loop and so leaves the loop with `ret == 0`. -/
def rbbq_receive (s : rbbq_local) (side : rbbq_side) (signalled : Bool) :
    Ret (Nat × Nat × Option Nat) × rbbq_local :=
  let buffer := s.buffer side
  if buffer.state ≠ RBBQ_BUFFER_STATE_RUNNING then
    (.err .EAGAIN, s)
  else
    match ts_mutex_lock buffer.receive_mutex with
    | (.err e, _) => (.err e, s)
    | (.ok (), m) =>
      let s0 := s.set_buffer side { buffer with receive_mutex := m }
      let free_mode := rbbq_message_free_avail_unprotected s0 side
      let deliver (s1 : rbbq_local) : Ret (Nat × Nat × Option Nat) × rbbq_local :=
        let raw := (s1.buffer side).free_read_idx
        let data := (s1.rx side).data
        (.ok (rbbq_message_channel data raw, rbbq_message_payload_size data raw,
              rbbq_message_payload (some raw)),
          s1.set_buffer side
            { s1.buffer side with
              free_message := some raw
              free_read_idx := (raw + rbbq_message_size data raw) % 65536 })
      if free_mode = RBBQ_MESSAGE_FREE_NOMEM then
        -- rbbq_receive_unlock, then rbbq_wait_receive (ts_event_init clears the signal)
        let s1 := s0.set_buffer side
          { s0.buffer side with receive_mutex := false, signal_device_receive := signalled }
        if signalled then deliver s1 else (.err .ENOMEM, s1)
      else if free_mode = RBBQ_MESSAGE_CORRUPTED then
        (.err .EFAULT, s0.set_buffer side { s0.buffer side with receive_mutex := false })
      else
        deliver s0

/-- The function `rbbq_free`. -/
def rbbq_free (s : rbbq_local) (side : rbbq_side) (message : Option Nat) :
    Ret Unit × rbbq_local :=
  let buffer := s.buffer side
  if buffer.state = RBBQ_BUFFER_STATE_NONE then
    (.err .ENODEV, s)
  else if buffer.free_message = none then
    (.err .ENOMEM, s)
  else if message = none ∨ message ≠ rbbq_message_payload buffer.free_message then
    (.err .EINVAL, s)
  else
    let s1 := rbbq_local_receive s side
    let s2 := s1.set_buffer side
      { s1.buffer side with free_message := none, receive_mutex := false }
    (.ok (), s2)

/-- The function `rbbq_init` with the local device; the markers are synchronised to what
`rbbq_control` decodes from the control record the device has set up. -/
def rbbq_init (s : rbbq_local) (side : rbbq_side) : Ret Unit × rbbq_local :=
  let buffer := s.buffer side
  if buffer.state ≠ RBBQ_BUFFER_STATE_NONE then
    (.err .EEXIST, s)
  else
    let s1 := s.set_buffer side
      { buffer with
        state := RBBQ_BUFFER_STATE_INIT
        signal_device_receive := false
        signal_device_transmit := false
        alloc_mutex := false
        alloc_message := none
        alloc_write_idx := 0
        alloc_watermark_idx := 0xFFFF
        receive_mutex := false
        free_message := none
        free_read_idx := 0 }
    let s2 := rbbq_local_init s1 side
    let c := rbbq_control_read (rbbq_control_bytes s2.little_endian (s2.tx side).control) 0
    let s3 := s2.set_buffer side
      { s2.buffer side with
        alloc_write_idx := c.1
        alloc_watermark_idx := c.2.1
        free_read_idx := c.2.2
        state := RBBQ_BUFFER_STATE_READY }
    (.ok (), s3)

/-- The function `rbbq_start` with the local device, whose `start` hook returns 0. -/
def rbbq_start (s : rbbq_local) (side : rbbq_side) : Ret Unit × rbbq_local :=
  let buffer := s.buffer side
  if buffer.state = RBBQ_BUFFER_STATE_READY ∨ buffer.state = RBBQ_BUFFER_STATE_SUSPENDED then
    (.ok (), s.set_buffer side { buffer with state := RBBQ_BUFFER_STATE_RUNNING })
  else
    (.err .EBUSY, s)

/-- The function `rbbq_stop` with the local device, whose `stop` hook returns 0. -/
def rbbq_stop (s : rbbq_local) (side : rbbq_side) : Ret Unit × rbbq_local :=
  let buffer := s.buffer side
  if buffer.state = RBBQ_BUFFER_STATE_SUSPENDED then
    (.ok (), s)
  else if buffer.state = RBBQ_BUFFER_STATE_RUNNING then
    (.ok (), s.set_buffer side { buffer with state := RBBQ_BUFFER_STATE_SUSPENDED })
  else
    (.err .EBUSY, s)

/-! ## Spec-side definitions, predicates of the proofs and example states

Definitions marked spec-side follow the wording of the specification or of the tests; they are
what the embedding of the code is compared with. -/

/-- Spec-side: circular distance of two sequence numbers on the cycle of
`TSM_NODE_SEQNO_MAX + 1 = 24` elements. -/
def seqno_circular_distance (s L : Nat) : Nat :=
  min ((s + 24 - L) % 24) ((L + 24 - s) % 24)

/-- Spec-side: the sequence number `k` positions above `L`, counted across the rollover the way
`test_mesh_protect_window` counts. -/
def seqno_test_above (L k : Nat) : Nat :=
  if L + k ≤ 23 then L + k else L + k - 23

/-- Spec-side: the sequence number `k` positions below `L`, counted across the rollover the way
`test_mesh_protect_window` counts. -/
def seqno_test_below (L k : Nat) : Nat :=
  if L ≥ k then L - k else L + 23 - k

/-- A context with one node in use (on path slot 0) whose window holds the given cache. -/
def pw_example (cache : List Nat) (last_idx last_seen_time : Nat) : tsm_context :=
  { node_id := 0xCAFFECAB
    ports := [1, 1]
    node_table :=
      { nodes := [⟨0xCAFFE7E1, 0x12345678, ⟨cache, last_idx, last_seen_time⟩, [0, 0xFFFF]⟩]
        paths := [⟨5, 0, 0⟩]
        originator_start_idx := 1 } }

/-- A sequence of calls of `tsm_node_protect_window_update` for one node; a step is the clock
reading and the sequence number of the call.  The return values are dropped. -/
def protect_window_updates (tsm : tsm_context) (node_idx : Nat) :
    List (Nat × Nat) → tsm_context
  | [] => tsm
  | step :: rest =>
    protect_window_updates
      (tsm_node_protect_window_update step.1 tsm node_idx step.2).2 node_idx rest

/-- No two equal non-sentinel entries in a sequence number cache. -/
def cache_distinct (cache : List Nat) : Prop :=
  ∀ j k, j < cache.length → k < cache.length → j ≠ k →
    cache.getD j 0 = cache.getD k 0 → cache.getD j 0 = TSM_NODE_SEQNO_INVALID

/-- Invariant of the protection window behind P4: the entries are distinct, the window is in
use, and the latest entry is only unset while the whole cache is. -/
def window_inv (w : tsm_protect_window) : Prop :=
  cache_distinct w.node_seqno_cache ∧
  w.last_idx < TSM_NODE_SEQNO_CACHE_SIZE ∧
  (w.node_seqno_cache.getD w.last_idx 0 = TSM_NODE_SEQNO_INVALID →
    ∀ k, k < w.node_seqno_cache.length →
      w.node_seqno_cache.getD k 0 = TSM_NODE_SEQNO_INVALID)

/-- A path reference `v` that `tsm_node_free(node_idx = r)` takes for an originator entry with
router `r` (it looks at the low 8 bits of the reference). -/
def orig_via (tsm : tsm_context) (r v : Nat) : Prop :=
  v % 256 < tsm.node_table.paths.length ∧
  tsm.node_table.originator_start_idx ≤ v % 256 ∧
  (tsm.path (v % 256)).router_idx = r

/-- What the steps of `tsm_node_free tsm r` may change on the way from `tsm` to `t`. -/
structure free_rel (r : Nat) (tsm t : tsm_context) : Prop where
  nodes_len : t.node_table.nodes.length = tsm.node_table.nodes.length
  paths_len : t.node_table.paths.length = tsm.node_table.paths.length
  start_idx : t.node_table.originator_start_idx = tsm.node_table.originator_start_idx
  own_id : t.node_id = tsm.node_id
  ports : t.ports = tsm.ports
  node_id : ∀ j, (t.node j).node_id = (tsm.node j).node_id
  mapping : ∀ j, (t.node j).name_mapping_id = (tsm.node j).name_mapping_id
  window : ∀ j, (t.node j).protect_window = (tsm.node j).protect_window
  refs_len : ∀ j, (t.node j).paths_refs.length = (tsm.node j).paths_refs.length
  router : ∀ p, (t.path p).router_idx = (tsm.path p).router_idx
  port : ∀ p, (t.path p).port_id = (tsm.path p).port_id
  first : ∀ p, (t.path p).first = (tsm.path p).first ∨ (t.path p).first = UINT8_MAX
  self_refs : (t.node r).paths_refs = (tsm.node r).paths_refs
  empty_refs : ∀ o, (tsm.node o).protect_window.last_idx ≥ TSM_NODE_SEQNO_CACHE_SIZE →
    (t.node o).paths_refs = (tsm.node o).paths_refs
  refs : ∀ o j, (t.node o).paths_refs.getD j 0 = (tsm.node o).paths_refs.getD j 0 ∨
    ((t.node o).paths_refs.getD j 0 = UINT16_MAX ∧
      orig_via tsm r ((tsm.node o).paths_refs.getD j 0) ∧
      (t.path ((tsm.node o).paths_refs.getD j 0 % 256)).first = UINT8_MAX)

/-- A node table entry that is in use and holds `node_id`. -/
def node_matches (node_id : Nat) (node : tsm_node) : Prop :=
  node.protect_window.last_idx < TSM_NODE_SEQNO_CACHE_SIZE ∧ node_id = node.node_id

instance (node_id : Nat) (node : tsm_node) : Decidable (node_matches node_id node) := by
  unfold node_matches; infer_instance

/-- The references `0 .. n-1` of node `o` no longer name an originator entry with router `r`. -/
def refs_done (t : tsm_context) (r o n : Nat) : Prop :=
  ∀ j, j < n → ¬ orig_via t r ((t.node o).paths_refs.getD j 0)

/-- A path reference that names an originator entry whose router is node `r`. -/
def names_originator_via (tsm : tsm_context) (r v : Nat) : Prop :=
  tsm.node_table.originator_start_idx ≤ v ∧ v < tsm.node_table.paths.length ∧
  (tsm.path v).router_idx = r

/-- Spec-side: the lowest index `k` with `i ≤ k < i + n` and `p k`, if there is one. -/
def lowest_index_from (p : Nat → Bool) : Nat → Nat → Option Nat
  | 0, _ => none
  | n + 1, i => if p i then some i else lowest_index_from p n (i + 1)

/-- Spec-side: the lowest index `k < n` with `p k`, if there is one. -/
def lowest_index (p : Nat → Bool) (n : Nat) : Option Nat :=
  lowest_index_from p n 0

/-- Spec-side, step 4 of Get-neighbour: the neighbour slot is initialised to
`{heartbeat_period_s: 0, port_id}`, stored in the path reference `ref_idx` of the node, and the
split index becomes `start_idx`. -/
def spec_neighbour_install (tsm : tsm_context) (node_idx ref_idx slot start_idx port_id : Nat) :
    tsm_context :=
  { tsm with
    node_table :=
      { nodes := tsm.node_table.nodes.set node_idx
          { tsm.node node_idx with
            paths_refs := (tsm.node node_idx).paths_refs.set ref_idx slot }
        paths := tsm.node_table.paths.set slot
          { tsm.path slot with first := 0, port_id := port_id }
        originator_start_idx := start_idx } }

/-- Spec-side: the four steps of Get-neighbour (spec 4.2) for the node table entry `node_idx`. -/
def spec_neighbour_get (tsm : tsm_context) (node_idx port_id : Nat) :
    Ret (Nat × Nat) × tsm_context :=
  let refs := (tsm.node node_idx).paths_refs
  let start_idx := tsm.node_table.originator_start_idx
  -- 1. an existing reference to a neighbour slot with the port
  match lowest_index (fun k => decide (refs.getD k 0 < start_idx ∧
      (tsm.path (refs.getD k 0)).port_id = port_id)) refs.length with
  | some k => (.ok (node_idx, refs.getD k 0), tsm)
  | none =>
    -- 2. the first empty path reference
    match lowest_index (fun k => decide (refs.getD k 0 = UINT16_MAX)) refs.length with
    | none => (.err .EBUSY, tsm)
    | some ref_idx =>
      -- 3. the lowest free slot of the neighbour region, else the slot at the split index
      match lowest_index (fun i => decide ((tsm.path i).first = UINT8_MAX)) start_idx with
      | some slot =>
        (.ok (node_idx, slot),
          spec_neighbour_install tsm node_idx ref_idx slot start_idx port_id)
      | none =>
        if start_idx < tsm.node_table.paths.length ∧ (tsm.path start_idx).first = UINT8_MAX then
          (.ok (node_idx, start_idx),
            spec_neighbour_install tsm node_idx ref_idx start_idx (start_idx + 1) port_id)
        else
          (.err .ENOMEM, tsm)

/-- A local device with `n` data bytes in each transfer buffer, as the zero-initialised static
objects of `rbbq_local.c` before `rbbq_init`, on a big-endian target. -/
def rbbq_local_fresh (n : Nat) : rbbq_local :=
  let buf : rbbq :=
    { signal_device_receive := false, signal_device_transmit := false,
      alloc_mutex := false, alloc_message := none, alloc_write_idx := 0,
      alloc_watermark_idx := 0, tx_shadow_read_idx := 0, receive_mutex := false,
      free_message := none, free_read_idx := 0, state := RBBQ_BUFFER_STATE_NONE }
  let transfer : rbbq_transfer := { data := List.replicate n 0, control := ⟨0, 0, 0⟩ }
  { a := buf, b := buf, a2b := transfer, b2a := transfer, little_endian := false }

/-- Both buffers of a fresh local device initialised and started, as in `test_rbbq_local`. -/
def rbbq_local_running (n : Nat) : rbbq_local :=
  let s1 := (rbbq_init (rbbq_local_fresh n) .A).2
  let s2 := (rbbq_start s1 .A).2
  let s3 := (rbbq_init s2 .B).2
  (rbbq_start s3 .B).2

/-- A producer sending one frame: `rbbq_alloc`, fill the payload, `rbbq_transmit`. -/
def rbbq_send (s : rbbq_local) (side : rbbq_side) (channel : Nat) (payload : List Nat) :
    Ret Unit × rbbq_local :=
  match rbbq_alloc s side channel payload.length with
  | (.err e, s1) => (.err e, s1)
  | (.ok none, s1) => (.err .EFAULT, s1)
  | (.ok (some message), s1) =>
    rbbq_transmit (rbbq_write_payload s1 side message payload) side (some message)

/-- A consumer taking one frame: `rbbq_receive`, copy the payload, `rbbq_free`; the result is
the channel and the payload bytes. -/
def rbbq_take (s : rbbq_local) (side : rbbq_side) (signalled : Bool) :
    Ret (Nat × List Nat) × rbbq_local :=
  match rbbq_receive s side signalled with
  | (.err e, s1) => (.err e, s1)
  | (.ok (channel, size, message), s1) =>
    let payload := (List.range size).map
      (fun k => (s1.rx side).get_byte s1.little_endian (message.getD 0 + k))
    match rbbq_free s1 side message with
    | (.err e, s2) => (.err e, s2)
    | (.ok (), s2) => (.ok (channel, payload), s2)

/-- The state of the wrap scenario: on transfer buffers of 20 data bytes, A has sent a frame
with a 12-byte payload, B has taken it, and A has sent a frame with a 4-byte payload, which
was placed at the start of the buffer. -/
def rbbq_wrap_state : rbbq_local :=
  let s1 := (rbbq_send (rbbq_local_running 20) .A 1 [1, 2, 3, 4, 5, 6, 7, 8, 9, 10, 11, 12]).2
  let s2 := (rbbq_take s1 .B false).2
  (rbbq_send s2 .A 2 [0xA1, 0xA2, 0xA3, 0xA4]).2

instance (tsm : tsm_context) (r v : Nat) : Decidable (names_originator_via tsm r v) := by
  unfold names_originator_via; infer_instance

/-- A small mesh state: node 0 is a neighbour on port 0 (path slot 0), node 1 is an originator
reached through node 0 (path slot 3, its best next hop), node 2 is unused. -/
def mesh_example : tsm_context :=
  { node_id := 0xCAFFECAB
    ports := [1, 1]
    node_table :=
      { nodes :=
          [⟨0xCAFFE7E1, 0x12345678, ⟨[3, 255, 255, 255, 255, 255, 255, 255], 0, 100⟩,
              [0, 0xFFFF]⟩,
            ⟨0xCAFFE031, 0x12345678, ⟨[3, 255, 255, 255, 255, 255, 255, 255], 0, 100⟩,
              [3, 0xFFFF]⟩,
            ⟨0, 0, ⟨[0, 0, 0, 0, 0, 0, 0, 0], 8, 0⟩, [0xFFFF, 0xFFFF]⟩]
        paths := [⟨5, 0, 0⟩, ⟨255, 0, 0⟩, ⟨255, 0, 0⟩, ⟨1, 0, 0⟩]
        originator_start_idx := 1 } }

/-- The state `mesh_example` with ports of transmit throughput 7 and 9. -/
def hop_example : tsm_context :=
  { mesh_example with ports := [7, 9] }

/-- A full node table in the configuration of the sources (16 node slots, 16 path slots): slot
`i` is in use by node id `100 + i`, each node was last seen at the time `stamp`. -/
def mesh_full (stamp : Nat) : tsm_context :=
  { node_id := 0xCAFFECAB
    ports := [1, 1]
    node_table :=
      { nodes := (List.range TSM_NODE_COUNT).map (fun i =>
          { node_id := 100 + i
            name_mapping_id := TSM_NODE_NAME_MAPPING_ID_INVALID
            protect_window :=
              { node_seqno_cache := [255, 3, 255, 255, 255, 255, 255, 255]
                last_idx := 1
                last_seen_time := stamp }
            paths_refs := [0xFFFF, 0xFFFF] })
        paths := List.replicate TSM_NODE_COUNT ⟨UINT8_MAX, 0, 0⟩
        originator_start_idx := TSM_NODE_COUNT / 4 } }

/-- Spec-side: `k` is the slot Evict selects according to the specification, a slot with the
smallest `last_seen_time` of all slots and the lowest index among those. -/
def spec_evict_choice (tsm : tsm_context) (k : Nat) : Prop :=
  k < tsm.node_table.nodes.length ∧
  (∀ j, j < tsm.node_table.nodes.length →
    (tsm.node k).protect_window.last_seen_time ≤ (tsm.node j).protect_window.last_seen_time) ∧
  (∀ j, j < k →
    (tsm.node k).protect_window.last_seen_time < (tsm.node j).protect_window.last_seen_time)

instance (tsm : tsm_context) (k : Nat) : Decidable (spec_evict_choice tsm k) := by
  unfold spec_evict_choice; infer_instance

/-- The reservation a successful `rbbq_alloc` leaves behind: the returned payload pointer is 4
bytes behind `offset`, the outstanding allocation is the frame at `offset`, the write index and
the watermark have the given values, the alloc mutex is held and the frame header holds
`channel` and `size`. -/
def rbbq_reserved (t : rbbq_local) (side : rbbq_side) (r : Ret (Option Nat))
    (channel size offset write_idx watermark_idx : Nat) : Prop :=
  r = .ok (some (offset + RBBQ_MESSAGE_HEADER_SIZE)) ∧
  (t.buffer side).alloc_message = some offset ∧
  (t.buffer side).alloc_write_idx = write_idx ∧
  (t.buffer side).alloc_watermark_idx = watermark_idx ∧
  (t.buffer side).alloc_mutex = true ∧
  rbbq_message_channel (t.tx side).data offset = channel ∧
  rbbq_message_payload_size (t.tx side).data offset = size

instance (t : rbbq_local) (side : rbbq_side) (r : Ret (Option Nat))
    (channel size offset write_idx watermark_idx : Nat) :
    Decidable (rbbq_reserved t side r channel size offset write_idx watermark_idx) := by
  unfold rbbq_reserved; infer_instance

/-- The state of the wrap scenario before the second frame: A has sent a frame with a 12-byte
payload on transfer buffers of 20 data bytes and B has taken it. -/
def rbbq_taken_state : rbbq_local :=
  (rbbq_take
    (rbbq_send (rbbq_local_running 20) .A 1 [1, 2, 3, 4, 5, 6, 7, 8, 9, 10, 11, 12]).2
    .B false).2

/-- Spec-side: the highest index `k` with `lo ≤ k < lo + n` and `p k`, if there is one. -/
def highest_index_from (p : Nat → Bool) : Nat → Nat → Option Nat
  | 0, _ => none
  | n + 1, lo => if p (lo + n) then some (lo + n) else highest_index_from p n lo

/-- Spec-side, last step of Get-originator: the originator slot is initialised to
`{throughput: 0, router_idx}`, stored in the path reference `ref_idx` of the node, and the
split index becomes `start_idx`. -/
def spec_originator_install (tsm : tsm_context)
    (node_idx ref_idx slot start_idx router_idx : Nat) : tsm_context :=
  { tsm with
    node_table :=
      { nodes := tsm.node_table.nodes.set node_idx
          { tsm.node node_idx with
            paths_refs := (tsm.node node_idx).paths_refs.set ref_idx slot }
        paths := tsm.node_table.paths.set slot
          { tsm.path slot with router_idx := router_idx, first := 0 }
        originator_start_idx := start_idx } }

/-- Spec-side: the steps of Get-originator (spec 4.2) for the node table entry `node_idx` and
the router `router_idx`. -/
def spec_originator_get (tsm : tsm_context) (node_idx router_idx : Nat) :
    Ret (Nat × Nat) × tsm_context :=
  let refs := (tsm.node node_idx).paths_refs
  let start_idx := tsm.node_table.originator_start_idx
  -- an originator slot the node already references, with the router
  match lowest_index (fun k => decide (start_idx ≤ refs.getD k 0 ∧
      refs.getD k 0 < tsm.node_table.paths.length ∧
      (tsm.path (refs.getD k 0)).router_idx = router_idx)) refs.length with
  | some k => (.ok (node_idx, refs.getD k 0), tsm)
  | none =>
    -- the first empty path reference
    match lowest_index (fun k => decide (refs.getD k 0 = UINT16_MAX)) refs.length with
    | none => (.err .EBUSY, tsm)
    | some ref_idx =>
      -- the highest free slot of the originator region, else the slot below the split index
      match highest_index_from (fun i => decide ((tsm.path i).first = UINT8_MAX))
          (tsm.node_table.paths.length - start_idx) start_idx with
      | some slot =>
        (.ok (node_idx, slot),
          spec_originator_install tsm node_idx ref_idx slot start_idx router_idx)
      | none =>
        if 0 < start_idx ∧ (tsm.path (start_idx - 1)).first = UINT8_MAX then
          (.ok (node_idx, start_idx - 1),
            spec_originator_install tsm node_idx ref_idx (start_idx - 1) (start_idx - 1)
              router_idx)
        else
          (.err .ENOMEM, tsm)

/-- An empty table with 4 node slots and 4 path slots, split at index 1, as `tsm_node_init`
leaves it for `TSM_NODE_COUNT = 4`. -/
def mesh_empty4 : tsm_context :=
  { node_id := 0xCAFFECAB
    ports := [1, 1]
    node_table :=
      { nodes := List.replicate 4
          { node_id := 0
            name_mapping_id := 0
            protect_window :=
              { node_seqno_cache := List.replicate TSM_NODE_SEQNO_CACHE_SIZE 0
                last_idx := TSM_NODE_SEQNO_CACHE_SIZE
                last_seen_time := 0 }
            paths_refs := List.replicate TSM_NODE_PATHS_MAX 0 }
        paths := List.replicate 4 ⟨UINT8_MAX, 0, 0⟩
        originator_start_idx := 4 / 4 } }

/-- The state of `mesh_empty4` after `tsm_neighbour_get` for the node `0xCAFFE7E1` on port 0
and on port 1. -/
def mesh_two_neighbours : tsm_context :=
  match tsm_neighbour_get 0 mesh_empty4 0xCAFFE7E1 0 with
  | none => mesh_empty4
  | some (_, tsm1) =>
    match tsm_neighbour_get 0 tsm1 0xCAFFE7E1 1 with
    | none => tsm1
    | some (_, tsm2) => tsm2

/-- On transfer buffers of 20 data bytes, A has allocated a frame on channel 1 with the payload
size 65535 and transmitted it. -/
def rbbq_oversized_state : rbbq_local :=
  let s1 := (rbbq_alloc (rbbq_local_running 20) .A 1 65535).2
  (rbbq_transmit s1 .A (some 4)).2

/-- On transfer buffers of 20 data bytes, B has sent a frame to A and A has received it but not
yet freed it; nothing was sent to B. -/
def rbbq_idle_state : rbbq_local :=
  let s1 := (rbbq_send (rbbq_local_running 20) .B 3 [9]).2
  (rbbq_receive s1 .A false).2

/-- The state of a receiver that stopped with a received message outstanding: on transfer
buffers of 20 data bytes A has sent a frame on channel 1, B has received it and then called
`rbbq_stop`. -/
def rbbq_stopped_state : rbbq_local :=
  let s1 := (rbbq_send (rbbq_local_running 20) .A 1 [9]).2
  let s2 := (rbbq_receive s1 .B false).2
  (rbbq_stop s2 .B).2

/-- The context after `tsm_node_init` (16 node slots, 16 path slots, split index 4) with the
own node id `0xCAFFECAB` and two ports of transmit throughput 1. -/
def mesh_init : tsm_context := tsm_node_init 0xCAFFECAB [1, 1]

/-- The new state of an update, or the old one when the update has no result. -/
def mesh_after (tsm : tsm_context) (r : Option (Ret Unit × tsm_context)) : tsm_context :=
  match r with
  | some (_, t) => t
  | none => tsm

/-- The state after `n` heartbeats: the nodes `100 .. 100 + n - 1` were heard on port 0 with
sequence number 1 and period 5, node `100 + i` at the clock `i + 1`. -/
def mesh_with_neighbours : Nat → tsm_context
  | 0 => mesh_init
  | n + 1 =>
    mesh_after (mesh_with_neighbours n)
      (tsm_neighbour_update (n + 1) (mesh_with_neighbours n) 1 (100 + n) TSM_VERSION 5 0x1234 0)

/-- The state after a heartbeat of the node 100 with the period 255 on port 0. -/
def mesh_period_ff : tsm_context :=
  mesh_after mesh_init (tsm_neighbour_update 1 mesh_init 1 100 TSM_VERSION 255 0x1234 0)

/-- The state after a heartbeat of the node 100 on port 0 and one on port 1, so that both path
references of the node are in use. -/
def mesh_two_ports : tsm_context :=
  mesh_after (mesh_with_neighbours 1)
    (tsm_neighbour_update 2 (mesh_with_neighbours 1) 2 100 TSM_VERSION 5 0x1234 1)

/-- The state after a heartbeat of the node 100 with the period 255 and a heartbeat of the node
101 with the period 5, both on port 0. -/
def mesh_shared_slot : tsm_context :=
  mesh_after mesh_period_ff (tsm_neighbour_update 2 mesh_period_ff 1 101 TSM_VERSION 5 0x1234 0)

/-- The state after 15 heartbeats of 15 nodes and an originator statement of the unknown node
500 routed by the unknown node 600, at the clock 16. -/
def mesh_router_evicted : tsm_context :=
  mesh_after (mesh_with_neighbours 15)
    (tsm_originator_update 16 (mesh_with_neighbours 15) 1 500 TSM_VERSION 0 0x77 600 5 0)

/-- The state after two heartbeats of the node 100 on two ports and an originator statement of
the node 100 with the sequence number 7, routed by the unknown node 200. -/
def mesh_busy_originator : tsm_context :=
  mesh_after mesh_two_ports
    (tsm_originator_update 3 mesh_two_ports 7 100 TSM_VERSION 0 0x99 200 5 0)

/-- Spec-side: the hop penalty of an originator statement. -/
def spec_hop_penalty (x : Nat) : Nat :=
  if x > 1 then x - 1 else x

/-- States reachable from `tsm_node_init` through calls of `tsm_neighbour_get`,
`tsm_originator_get` and `tsm_node_free` with arbitrary arguments. -/
inductive mesh_get_reachable : tsm_context → Prop
  | init (node_id : Nat) (ports : List Nat) : mesh_get_reachable (tsm_node_init node_id ports)
  | neighbour_get (now : Nat) (tsm : tsm_context) (node_id port_id : Nat)
      (r : Ret (Nat × Nat)) (t : tsm_context) :
      mesh_get_reachable tsm → tsm_neighbour_get now tsm node_id port_id = some (r, t) →
      mesh_get_reachable t
  | originator_get (now : Nat) (tsm : tsm_context) (node_id router_node_idx : Nat)
      (r : Ret (Nat × Nat)) (t : tsm_context) :
      mesh_get_reachable tsm → tsm_originator_get now tsm node_id router_node_idx = some (r, t) →
      mesh_get_reachable t
  | node_free (tsm : tsm_context) (node_idx : Nat) :
      mesh_get_reachable tsm → mesh_get_reachable (tsm_node_free tsm node_idx)

/-- The state after a heartbeat-less `tsm_neighbour_get` of node 100 on port 0 at clock 1 on a
fresh table. -/
def mesh_one_neighbour : tsm_context :=
  match tsm_neighbour_get 1 (tsm_node_init 0xCAFFECAB [1, 1]) 100 0 with
  | some (_, t) => t
  | none => tsm_node_init 0xCAFFECAB [1, 1]

/-- The state of `tsm_originator_update` after the stamps of the last-seen times and the store
of the name mapping id, before the best next hop is updated. -/
def tsm_originator_update_stamped (now : Nat) (tsm : tsm_context)
    (router_node_idx node_idx name_mapping_id : Nat) : tsm_context :=
  let router := tsm.node router_node_idx
  let tsm1 := tsm.set_node router_node_idx
    { router with protect_window := { router.protect_window with last_seen_time := now } }
  let node := tsm1.node node_idx
  let tsm2 := tsm1.set_node node_idx
    { node with protect_window := { node.protect_window with last_seen_time := now } }
  tsm2.set_node node_idx { tsm2.node node_idx with name_mapping_id := name_mapping_id }

/-- The part of `rbbq_init` between the compare-and-swap of the state and the call of the
device hook `init`: the state is Init and the members of the buffer are reset. -/
def rbbq_init_enter (s : rbbq_local) (side : rbbq_side) : rbbq_local :=
  s.set_buffer side
    { s.buffer side with
      state := RBBQ_BUFFER_STATE_INIT
      signal_device_receive := false
      signal_device_transmit := false
      alloc_mutex := false
      alloc_message := none
      alloc_write_idx := 0
      alloc_watermark_idx := 0xFFFF
      receive_mutex := false
      free_message := none
      free_read_idx := 0 }

/-- The function `rbbq_init` with the device hook `device_api->init` as a parameter; the error
of the hook stands for its return value different from 0. -/
def rbbq_init_with (init : rbbq_local → rbbq_side → Ret Unit × rbbq_local)
    (s : rbbq_local) (side : rbbq_side) : Ret Unit × rbbq_local :=
  if (s.buffer side).state ≠ RBBQ_BUFFER_STATE_NONE then
    (.err .EEXIST, s)
  else
    match init (rbbq_init_enter s side) side with
    | (.err e, s2) =>
      (.err e, s2.set_buffer side { s2.buffer side with state := RBBQ_BUFFER_STATE_NONE })
    | (.ok (), s2) =>
      let c := rbbq_control_read (rbbq_control_bytes s2.little_endian (s2.tx side).control) 0
      (.ok (), s2.set_buffer side
        { s2.buffer side with
          alloc_write_idx := c.1
          alloc_watermark_idx := c.2.1
          free_read_idx := c.2.2
          state := RBBQ_BUFFER_STATE_READY })

/-- The function `rbbq_start` with the device hook `device_api->start` as a parameter. -/
def rbbq_start_with (start : rbbq_local → rbbq_side → Ret Unit × rbbq_local)
    (s : rbbq_local) (side : rbbq_side) : Ret Unit × rbbq_local :=
  let buffer := s.buffer side
  if buffer.state = RBBQ_BUFFER_STATE_READY ∨ buffer.state = RBBQ_BUFFER_STATE_SUSPENDED then
    let last_state := buffer.state
    match start (s.set_buffer side { buffer with state := RBBQ_BUFFER_STATE_START }) side with
    | (.err e, s2) => (.err e, s2.set_buffer side { s2.buffer side with state := last_state })
    | (.ok (), s2) =>
      (.ok (), s2.set_buffer side { s2.buffer side with state := RBBQ_BUFFER_STATE_RUNNING })
  else
    (.err .EBUSY, s)

/-- The function `rbbq_stop` with the device hook `device_api->stop` as a parameter. -/
def rbbq_stop_with (stop : rbbq_local → rbbq_side → Ret Unit × rbbq_local)
    (s : rbbq_local) (side : rbbq_side) : Ret Unit × rbbq_local :=
  let buffer := s.buffer side
  if buffer.state = RBBQ_BUFFER_STATE_SUSPENDED then
    (.ok (), s)
  else if buffer.state = RBBQ_BUFFER_STATE_RUNNING then
    match stop (s.set_buffer side { buffer with state := RBBQ_BUFFER_STATE_STOP }) side with
    | (.err e, s2) =>
      (.err e, s2.set_buffer side { s2.buffer side with state := RBBQ_BUFFER_STATE_RUNNING })
    | (.ok (), s2) =>
      (.ok (), s2.set_buffer side { s2.buffer side with state := RBBQ_BUFFER_STATE_SUSPENDED })
  else
    (.err .EBUSY, s)

/-- The hooks `rbbq_local_start` and `rbbq_local_stop` of the local device: `return 0`. -/
def rbbq_local_start (s : rbbq_local) (_side : rbbq_side) : Ret Unit × rbbq_local :=
  (.ok (), s)

/-- A device hook that fails with `-ENODEV` and changes nothing. -/
def rbbq_hook_failing (s : rbbq_local) (_side : rbbq_side) : Ret Unit × rbbq_local :=
  (.err .ENODEV, s)

/-- The wrap scenario on transfer buffers of 20 data bytes: A has allocated and transmitted a
frame with a 12-byte payload, and the device of A has observed the consumer read index
`read_idx` in the control record of its receive buffer. -/
def rbbq_wrap_scenario (read_idx : Nat) : rbbq_local :=
  let s1 := (rbbq_alloc (rbbq_local_running 20) .A 1 12).2
  let s2 := (rbbq_transmit s1 .A (some 4)).2
  let s3 := s2.set_tx .B
    { s2.tx .B with control := { (s2.tx .B).control with other_read_idx := read_idx } }
  rbbq_event_raise_receive s3 .A

/-- The state in which `tsm_neighbour_update` calls `tsm_neighbour_update_best_next_hop`, given
the result `(node_idx, neighbour_idx)` and the state `tsm1` of `tsm_neighbour_get`: the
protection window is updated, the name mapping id and the neighbour slot are stored. -/
def tsm_neighbour_update_stored (now : Nat) (tsm1 : tsm_context)
    (node_seqno period_s name_mapping_id port_id node_idx neighbour_idx : Nat) : tsm_context :=
  let tsm2 := (tsm_node_protect_window_update now tsm1 node_idx node_seqno).2
  let tsm3 := tsm2.set_node node_idx
    { tsm2.node node_idx with name_mapping_id := name_mapping_id }
  tsm3.set_path neighbour_idx
    { tsm3.path neighbour_idx with port_id := port_id, first := period_s }

/-- The state of the second heartbeat of the node 100, on port 1 after one on port 0, when the
best next hop is updated. -/
def mesh_two_ports_stored : tsm_context :=
  match tsm_neighbour_get 2 (mesh_with_neighbours 1) 100 1 with
  | some (.ok (node_idx, neighbour_idx), tsm1) =>
    tsm_neighbour_update_stored 2 tsm1 2 5 0x1234 1 node_idx neighbour_idx
  | _ => mesh_with_neighbours 1

/-- The state after a heartbeat of the node 100 on port 0, an originator statement of the node
200 routed by the node 100, and a heartbeat of the node 200 on port 0: the node 200 has the
originator slot 15 as best path reference and the neighbour slot 1 as second one. -/
def mesh_two_paths : tsm_context :=
  let k1 := mesh_with_neighbours 1
  let k2 := mesh_after k1 (tsm_originator_update 2 k1 1 200 TSM_VERSION 0 0x77 100 5 0)
  mesh_after k2 (tsm_neighbour_update 3 k2 2 200 TSM_VERSION 5 0x77 0)

/-- The state `mesh_two_paths` after `tsm_node_free` of the router, node index 0. -/
def mesh_best_cleared : tsm_context :=
  tsm_node_free mesh_two_paths 0

/-- The state of the next heartbeat of the node 200 in `mesh_best_cleared` when the best next
hop is updated. -/
def mesh_best_cleared_stored : tsm_context :=
  match tsm_neighbour_get 4 mesh_best_cleared 200 0 with
  | some (.ok (node_idx, neighbour_idx), tsm1) =>
    tsm_neighbour_update_stored 4 tsm1 3 5 0x77 0 node_idx neighbour_idx
  | _ => mesh_best_cleared

/-- The function `tsm_node_protect_window_check`; the result is `node_idx`.  `none` is
inherited from `tsm_node_get`. -/
def tsm_node_protect_window_check (now : Nat) (tsm : tsm_context) (node_id node_seqno : Nat) :
    Option (Ret Nat × tsm_context) :=
  match tsm_node_get now tsm node_id with
  | none => none
  | some (idx, tsm1) =>
    match tsm_node_protect_window_update now tsm1 idx node_seqno with
    | (.ok (), tsm2) => some (.ok idx, tsm2)
    | (.err e, tsm2) => some (.err e, tsm2)

/-- States reachable from `tsm_node_init` through calls of `tsm_node_get`, `tsm_node_free`,
`tsm_neighbour_update`, `tsm_originator_update` and `tsm_node_protect_window_check` with
arbitrary arguments. -/
inductive mesh_reachable : tsm_context → Prop
  | init (node_id : Nat) (ports : List Nat) : mesh_reachable (tsm_node_init node_id ports)
  | node_get (now : Nat) (tsm : tsm_context) (node_id idx : Nat) (t : tsm_context) :
      mesh_reachable tsm → tsm_node_get now tsm node_id = some (idx, t) → mesh_reachable t
  | node_free (tsm : tsm_context) (node_idx : Nat) :
      mesh_reachable tsm → mesh_reachable (tsm_node_free tsm node_idx)
  | neighbour_update (now : Nat) (tsm : tsm_context)
      (node_seqno node_id version period_s name_mapping_id port_id : Nat)
      (r : Ret Unit) (t : tsm_context) :
      mesh_reachable tsm →
      tsm_neighbour_update now tsm node_seqno node_id version period_s name_mapping_id port_id
        = some (r, t) →
      mesh_reachable t
  | originator_update (now : Nat) (tsm : tsm_context)
      (node_seqno node_id version age_ms name_mapping_id router_node_id throughput port_id : Nat)
      (r : Ret Unit) (t : tsm_context) :
      mesh_reachable tsm →
      tsm_originator_update now tsm node_seqno node_id version age_ms name_mapping_id
        router_node_id throughput port_id = some (r, t) →
      mesh_reachable t
  | window_check (now : Nat) (tsm : tsm_context) (node_id node_seqno : Nat)
      (r : Ret Nat) (t : tsm_context) :
      mesh_reachable tsm →
      tsm_node_protect_window_check now tsm node_id node_seqno = some (r, t) →
      mesh_reachable t

/-- No two node table entries in use hold the same node id. -/
def node_ids_distinct (t : tsm_context) : Prop :=
  ∀ i j, i < t.node_table.nodes.length → j < t.node_table.nodes.length →
    (t.node i).protect_window.last_idx < TSM_NODE_SEQNO_CACHE_SIZE →
    (t.node j).protect_window.last_idx < TSM_NODE_SEQNO_CACHE_SIZE →
    (t.node i).node_id = (t.node j).node_id → i = j

/-- The entries in use of `b` are entries in use of `a`, with the same node ids. -/
def node_ids_sub (a b : tsm_context) : Prop :=
  b.node_table.nodes.length = a.node_table.nodes.length ∧
  ∀ id j, node_matches id (b.node j) → node_matches id (a.node j)

/-- The local device `rbbq_local_fresh n` on a little-endian target. -/
def rbbq_local_fresh_le (n : Nat) : rbbq_local :=
  { rbbq_local_fresh n with little_endian := true }

/-- Both buffers of a fresh local device on a little-endian target initialised and started, as
in `test_rbbq_local`. -/
def rbbq_local_running_le (n : Nat) : rbbq_local :=
  let s1 := (rbbq_init (rbbq_local_fresh_le n) .A).2
  let s2 := (rbbq_start s1 .A).2
  let s3 := (rbbq_init s2 .B).2
  (rbbq_start s3 .B).2

/-- On transfer buffers of 20 data bytes on a little-endian target, A has sent a frame with a
12-byte payload and B has received it but not yet freed it. -/
def rbbq_received_state_le : rbbq_local :=
  (rbbq_receive
    (rbbq_send (rbbq_local_running_le 20) .A 1 [1, 2, 3, 4, 5, 6, 7, 8, 9, 10, 11, 12]).2
    .B false).2

/-- The state `rbbq_taken_state` on a little-endian target: A has sent a frame with a 12-byte
payload on transfer buffers of 20 data bytes and B has taken it. -/
def rbbq_taken_state_le : rbbq_local :=
  (rbbq_take
    (rbbq_send (rbbq_local_running_le 20) .A 1 [1, 2, 3, 4, 5, 6, 7, 8, 9, 10, 11, 12]).2
    .B false).2

/-- The state of the wrap scenario on a little-endian target: after `rbbq_taken_state_le` A has
sent a frame with a 4-byte payload. -/
def rbbq_wrap_state_le : rbbq_local :=
  (rbbq_send rbbq_taken_state_le .A 2 [0xA1, 0xA2, 0xA3, 0xA4]).2

/-- The state after `n` heartbeats as in `mesh_with_neighbours`, on a device whose two ports
report the transmit throughput 255. -/
def mesh_fast_neighbours : Nat → tsm_context
  | 0 => tsm_node_init 0xCAFFECAB [255, 255]
  | n + 1 =>
    mesh_after (mesh_fast_neighbours n)
      (tsm_neighbour_update (n + 1) (mesh_fast_neighbours n) 1 (100 + n) TSM_VERSION 5 0x1234 0)

/-- The state after the 15 heartbeats of `mesh_fast_neighbours` and an originator statement of
the unknown node 500 routed by the unknown node 600 with the throughput 255, at the clock 16. -/
def mesh_marker_stored : tsm_context :=
  mesh_after (mesh_fast_neighbours 15)
    (tsm_originator_update 16 (mesh_fast_neighbours 15) 1 500 TSM_VERSION 0 0x77 600 255 0)

/-- The state `hop_example` after `tsm_neighbour_get` for the unknown node `0xCAFFE999` on port
0 at the clock 200. -/
def hop_router_added : tsm_context :=
  match tsm_neighbour_get 200 hop_example 0xCAFFE999 0 with
  | some (_, t) => t
  | none => hop_example

/-- The state `hop_router_added` after `tsm_originator_get` for the originator `0xCAFFE031`
routed by the node at index 2. -/
def hop_slot_added : tsm_context :=
  match tsm_originator_get 200 hop_router_added 0xCAFFE031 2 with
  | some (_, t) => t
  | none => hop_router_added

/-! # Theorems -/

/-! ## Lists as arrays -/

theorem getD_set_self {α : Type} (l : List α) (i : Nat) (a d : α) (h : i < l.length) :
    (l.set i a).getD i d = a := by
  induction l generalizing i with
  | nil => simp at h
  | cons x xs ih =>
    cases i with
    | zero => simp
    | succ k =>
      simp only [List.set_cons_succ, List.getD_cons_succ]
      exact ih k (by simpa using h)

theorem getD_set_ne {α : Type} (l : List α) (i j : Nat) (a d : α) (h : i ≠ j) :
    (l.set i a).getD j d = l.getD j d := by
  induction l generalizing i j with
  | nil => simp
  | cons x xs ih =>
    cases i with
    | zero =>
      cases j with
      | zero => exact absurd rfl h
      | succ m => simp
    | succ k =>
      cases j with
      | zero => simp
      | succ m =>
        simp only [List.set_cons_succ, List.getD_cons_succ]
        exact ih k m (by omega)

theorem getD_map_const {α β : Type} (l : List α) (c d : β) (j : Nat) (h : j < l.length) :
    (l.map (fun _ => c)).getD j d = c := by
  induction l generalizing j with
  | nil => simp at h
  | cons x xs ih =>
    cases j with
    | zero => simp
    | succ m =>
      simp only [List.map_cons, List.getD_cons_succ]
      exact ih m (by simpa using h)

theorem getD_of_length_le {α : Type} (l : List α) (j : Nat) (d : α) (h : l.length ≤ j) :
    l.getD j d = d := by
  induction l generalizing j with
  | nil => simp
  | cons x xs ih =>
    cases j with
    | zero => simp at h
    | succ m =>
      simp only [List.getD_cons_succ]
      exact ih m (by simpa using h)

theorem getD_mem {α : Type} (l : List α) (j : Nat) (d : α) (h : j < l.length) :
    l.getD j d ∈ l := by
  induction l generalizing j with
  | nil => simp at h
  | cons x xs ih =>
    cases j with
    | zero => simp
    | succ m =>
      simp only [List.getD_cons_succ]
      exact List.mem_cons_of_mem _ (ih m (by simpa using h))

/-! ## Context accessors -/

theorem node_set_node_self (tsm : tsm_context) (i : Nat) (n : tsm_node)
    (h : i < tsm.node_table.nodes.length) : (tsm.set_node i n).node i = n := by
  simp only [tsm_context.node, tsm_context.set_node]
  exact getD_set_self _ _ _ _ h

theorem node_set_node_ne (tsm : tsm_context) (i j : Nat) (n : tsm_node) (h : i ≠ j) :
    (tsm.set_node i n).node j = tsm.node j := by
  simp only [tsm_context.node, tsm_context.set_node]
  exact getD_set_ne _ _ _ _ _ h

theorem nodes_length_set_node (tsm : tsm_context) (i : Nat) (n : tsm_node) :
    (tsm.set_node i n).node_table.nodes.length = tsm.node_table.nodes.length := by
  simp [tsm_context.set_node]

/-! ## Protection window -/

/-- What `tsm_node_seqno` returns, read off the node. -/
theorem tsm_node_seqno_ok_iff (now : Nat) (tsm : tsm_context) (i L : Nat) :
    tsm_node_seqno now tsm i = .ok L ↔
      (tsm.node i).protect_window.last_idx < TSM_NODE_SEQNO_CACHE_SIZE ∧
      ts_time_ms_delta now (tsm.node i).protect_window.last_seen_time
        < TSM_NODE_SEQNO_MAX_AGE_S * 1000 ∧
      (tsm.node i).protect_window.node_seqno_cache.getD
        (tsm.node i).protect_window.last_idx 0 = L ∧
      L ≠ TSM_NODE_SEQNO_INVALID := by
  unfold tsm_node_seqno
  simp only []
  split_ifs with h1 h2 h3
  · simp; omega
  · simp; omega
  · simp; intro _ _ h; rw [← h]; simpa using h3
  · simp only [Ret.ok.injEq]
    constructor
    · intro h; subst h; exact ⟨by omega, by omega, rfl, h3⟩
    · intro h; exact h.2.2.1

theorem update_einval_iff (now : Nat) (tsm : tsm_context) (i s L : Nat)
    (hL : tsm_node_seqno now tsm i = .ok L) :
    (tsm_node_protect_window_update now tsm i s).1 = .err .EINVAL ↔
      seqno_out_of_range L s = true := by
  unfold tsm_node_protect_window_update
  simp only [hL]
  split_ifs <;> simp_all

theorem update_of_seqno_ok (now : Nat) (tsm : tsm_context) (i s L : Nat)
    (hL : tsm_node_seqno now tsm i = .ok L) :
    tsm_node_protect_window_update now tsm i s =
      if seqno_out_of_range L s then (.err .EINVAL, tsm)
      else if (tsm.node i).protect_window.node_seqno_cache.any (fun c => c == s) then
        (.err .EALREADY, tsm)
      else
        (.ok (), tsm.set_node i
          { tsm.node i with
            protect_window := protect_window_insert now (tsm.node i).protect_window s }) := by
  unfold tsm_node_protect_window_update
  simp only [hL]

theorem seqno_out_of_range_spec :
    ∀ L < 24, ∀ s < 24, (seqno_out_of_range L s = true ↔
      (10 < seqno_circular_distance s L ∧
        ¬ ((L < 10 ∧ s = L + 13) ∨ (13 < L ∧ s + 13 = L)))) := by
  decide

/-! ## Claims C4, C5, C6: the expected range and rejected updates -/

/-- Claim C4, as stated, fails: with latest sequence number 23 the sequence number 10 lies at
circular distance 11 on the 24-cycle, yet `tsm_node_protect_window_update` does not return
`-EINVAL` for it (it returns 0, as `test_mesh_protect_window` expects). -/
theorem protect_window_range_counterexample :
    tsm_node_seqno 100 (pw_example [255, 23, 255, 255, 255, 255, 255, 255] 1 100) 0 = .ok 23 ∧
    (tsm_node_protect_window_update 100
      (pw_example [255, 23, 255, 255, 255, 255, 255, 255] 1 100) 0 10).1 = .ok () ∧
    ¬ ((tsm_node_protect_window_update 100
          (pw_example [255, 23, 255, 255, 255, 255, 255, 255] 1 100) 0 10).1 = .err .EINVAL ↔
        10 < seqno_circular_distance 10 23) := by
  decide

/-- Claim C4, amended: for a node whose latest sequence number `L <= 23` is valid and a sequence
number `s <= 23`, `tsm_node_protect_window_update` returns `-EINVAL` if and only if the circular
distance of `s` and `L` on the 24-cycle is greater than 10 and `s` is not the sequence number 11
positions from `L` across the rollover (`L + 13` when `L < 10`, `L - 13` when `L > 13`), which
the code accepts because it counts the rollover modulo 23. -/
theorem protect_window_range_amended (now : Nat) (tsm : tsm_context) (node_idx L s : Nat)
    (hL : tsm_node_seqno now tsm node_idx = .ok L) (hL23 : L ≤ TSM_NODE_SEQNO_MAX)
    (hs : s ≤ TSM_NODE_SEQNO_MAX) :
    ((tsm_node_protect_window_update now tsm node_idx s).1 = .err .EINVAL ↔
      (10 < seqno_circular_distance s L ∧
        ¬ ((L < 10 ∧ s = L + 13) ∨ (13 < L ∧ s + 13 = L)))) := by
  rw [update_einval_iff now tsm node_idx s L hL]
  exact seqno_out_of_range_spec L (by simp [TSM_NODE_SEQNO_MAX] at hL23; omega) s
    (by simp [TSM_NODE_SEQNO_MAX] at hs; omega)

/-- Witness of `protect_window_range_amended`: latest sequence number 23, sequence number 11. -/
theorem protect_window_range_amended_witness :
    tsm_node_seqno 100 (pw_example [255, 23, 255, 255, 255, 255, 255, 255] 1 100) 0 = .ok 23 ∧
    23 ≤ TSM_NODE_SEQNO_MAX ∧ 11 ≤ TSM_NODE_SEQNO_MAX ∧
    ((tsm_node_protect_window_update 100
        (pw_example [255, 23, 255, 255, 255, 255, 255, 255] 1 100) 0 11).1 = .err .EINVAL ↔
      (10 < seqno_circular_distance 11 23 ∧
        ¬ ((23 < 10 ∧ 11 = 23 + 13) ∨ (13 < 23 ∧ 11 + 13 = 23)))) :=
  ⟨by decide, by decide, by decide,
    protect_window_range_amended 100
      (pw_example [255, 23, 255, 255, 255, 255, 255, 255] 1 100) 0 23 11
      (by decide) (by decide) (by decide)⟩

theorem seqno_test_border :
    ∀ L < 24,
      seqno_out_of_range L (seqno_test_above L 10) = false ∧
      seqno_out_of_range L (seqno_test_below L 10) = false ∧
      seqno_out_of_range L (seqno_test_above L 11) = true ∧
      seqno_out_of_range L (seqno_test_below L 11) = true := by
  decide

theorem update_not_einval_iff (now : Nat) (tsm : tsm_context) (i s L : Nat)
    (hL : tsm_node_seqno now tsm i = .ok L) :
    (tsm_node_protect_window_update now tsm i s).1 ≠ .err .EINVAL ↔
      seqno_out_of_range L s = false := by
  rw [Ne, update_einval_iff now tsm i s L hL]
  simp

/-- Claim C5: for every valid latest sequence number `L <= 23`, the sequence numbers 10
positions above and below `L` (counted across the rollover as the test counts) are not rejected
as out of range, and the sequence numbers 11 positions above and below are rejected with
`-EINVAL`. -/
theorem protect_window_range_border (now : Nat) (tsm : tsm_context) (node_idx L : Nat)
    (hL : tsm_node_seqno now tsm node_idx = .ok L) (hL23 : L ≤ TSM_NODE_SEQNO_MAX) :
    (tsm_node_protect_window_update now tsm node_idx (seqno_test_above L 10)).1
        ≠ .err .EINVAL ∧
    (tsm_node_protect_window_update now tsm node_idx (seqno_test_below L 10)).1
        ≠ .err .EINVAL ∧
    (tsm_node_protect_window_update now tsm node_idx (seqno_test_above L 11)).1
        = .err .EINVAL ∧
    (tsm_node_protect_window_update now tsm node_idx (seqno_test_below L 11)).1
        = .err .EINVAL := by
  have h := seqno_test_border L (by simp [TSM_NODE_SEQNO_MAX] at hL23; omega)
  refine ⟨?_, ?_, ?_, ?_⟩
  · exact (update_not_einval_iff now tsm node_idx _ L hL).2 h.1
  · exact (update_not_einval_iff now tsm node_idx _ L hL).2 h.2.1
  · exact (update_einval_iff now tsm node_idx _ L hL).2 h.2.2.1
  · exact (update_einval_iff now tsm node_idx _ L hL).2 h.2.2.2

/-- Witness of `protect_window_range_border` with the values of the test: after 3, 13 is
accepted and 14 rejected. -/
theorem protect_window_range_border_witness :
    tsm_node_seqno 100 (pw_example [3, 255, 255, 255, 255, 255, 255, 255] 0 100) 0 = .ok 3 ∧
    3 ≤ TSM_NODE_SEQNO_MAX ∧
    seqno_test_above 3 10 = 13 ∧ seqno_test_above 3 11 = 14 ∧
    (tsm_node_protect_window_update 100
      (pw_example [3, 255, 255, 255, 255, 255, 255, 255] 0 100) 0 13).1 = .ok () ∧
    (tsm_node_protect_window_update 100
      (pw_example [3, 255, 255, 255, 255, 255, 255, 255] 0 100) 0
      (seqno_test_above 3 11)).1 = .err .EINVAL :=
  ⟨by decide, by decide, by decide, by decide, by decide,
    (protect_window_range_border 100
      (pw_example [3, 255, 255, 255, 255, 255, 255, 255] 0 100) 0 3
      (by decide) (by decide)).2.2.1⟩

/-- The other values of `test_mesh_protect_window`: after 23, 10 is accepted and 11 rejected;
after 0, 13 is accepted and 12 rejected. -/
theorem protect_window_range_border_test_values :
    seqno_test_above 23 10 = 10 ∧ seqno_test_above 23 11 = 11 ∧
    seqno_test_below 0 10 = 13 ∧ seqno_test_below 0 11 = 12 ∧
    (tsm_node_protect_window_update 100
      (pw_example [255, 23, 255, 255, 255, 255, 255, 255] 1 100) 0 10).1 = .ok () ∧
    (tsm_node_protect_window_update 100
      (pw_example [255, 23, 255, 255, 255, 255, 255, 255] 1 100) 0 11).1 = .err .EINVAL ∧
    (tsm_node_protect_window_update 100
      (pw_example [255, 255, 0, 255, 255, 255, 255, 255] 2 100) 0 13).1 = .ok () ∧
    (tsm_node_protect_window_update 100
      (pw_example [255, 255, 0, 255, 255, 255, 255, 255] 2 100) 0 12).1 = .err .EINVAL := by
  decide

/-- Claim C6: whenever `tsm_node_protect_window_update` returns `-EALREADY` or `-EINVAL` the
state (so the node's cache, `last_idx` and `last_seen_time`) is as before the call; and with a
valid latest sequence number, a sequence number that is in range and equals any entry of the
cache yields `-EALREADY`. -/
theorem protect_window_rejects_unchanged (now : Nat) (tsm : tsm_context) (node_idx s : Nat) :
    (((tsm_node_protect_window_update now tsm node_idx s).1 = .err .EALREADY ∨
      (tsm_node_protect_window_update now tsm node_idx s).1 = .err .EINVAL) →
        (tsm_node_protect_window_update now tsm node_idx s).2 = tsm) ∧
    (∀ L k, tsm_node_seqno now tsm node_idx = .ok L →
      (tsm_node_protect_window_update now tsm node_idx s).1 ≠ .err .EINVAL →
      k < (tsm.node node_idx).protect_window.node_seqno_cache.length →
      (tsm.node node_idx).protect_window.node_seqno_cache.getD k 0 = s →
        (tsm_node_protect_window_update now tsm node_idx s).1 = .err .EALREADY) := by
  constructor
  · unfold tsm_node_protect_window_update
    simp only []
    split
    · split_ifs <;> simp
    · simp
    · simp
  · intro L k hL hne hk hks
    have hr := (update_not_einval_iff now tsm node_idx s L hL).1 hne
    rw [update_of_seqno_ok now tsm node_idx s L hL, hr]
    have hmem : s ∈ (tsm.node node_idx).protect_window.node_seqno_cache := by
      rw [← hks]; exact getD_mem _ _ _ hk
    have hany : (tsm.node node_idx).protect_window.node_seqno_cache.any (fun c => c == s)
        = true := by
      rw [List.any_eq_true]
      exact ⟨s, hmem, by simp⟩
    simp [hany]

/-- Witness of `protect_window_rejects_unchanged`: the cache holds 10 and then 11 (latest); 10,
which is not the latest entry, is answered with `-EALREADY` and the state is unchanged. -/
theorem protect_window_rejects_unchanged_witness :
    (tsm_node_protect_window_update 100
      (pw_example [255, 10, 11, 255, 255, 255, 255, 255] 2 100) 0 10).1 = .err .EALREADY ∧
    (tsm_node_protect_window_update 100
      (pw_example [255, 10, 11, 255, 255, 255, 255, 255] 2 100) 0 10).2
      = pw_example [255, 10, 11, 255, 255, 255, 255, 255] 2 100 :=
  ⟨(protect_window_rejects_unchanged 100
      (pw_example [255, 10, 11, 255, 255, 255, 255, 255] 2 100) 0 10).2 11 1
      (by decide) (by decide) (by decide) (by decide),
    (protect_window_rejects_unchanged 100
      (pw_example [255, 10, 11, 255, 255, 255, 255, 255] 2 100) 0 10).1
      (Or.inl (by decide))⟩

/-! ## Claims C7, C8: stale reset and successful update -/

theorem update_of_seqno_timedout (now : Nat) (tsm : tsm_context) (i s : Nat)
    (h : tsm_node_seqno now tsm i = .err .ETIMEDOUT) :
    tsm_node_protect_window_update now tsm i s =
      (.ok (), tsm.set_node i
        { tsm.node i with
          protect_window := protect_window_insert now
            { (tsm.node i).protect_window with
              node_seqno_cache := (tsm.node i).protect_window.node_seqno_cache.map
                (fun _ => TSM_NODE_SEQNO_INVALID) } s }) := by
  unfold tsm_node_protect_window_update
  simp only [h]

theorem insert_last_idx (now : Nat) (w : tsm_protect_window) (s : Nat)
    (h : w.last_idx < TSM_NODE_SEQNO_CACHE_SIZE) :
    (protect_window_insert now w s).last_idx
      = (w.last_idx + 1) % TSM_NODE_SEQNO_CACHE_SIZE := by
  simp only [protect_window_insert, TSM_NODE_SEQNO_CACHE_SIZE] at *
  split_ifs <;> omega

theorem insert_last_idx_lt (now : Nat) (w : tsm_protect_window) (s : Nat) :
    (protect_window_insert now w s).last_idx < TSM_NODE_SEQNO_CACHE_SIZE := by
  simp only [protect_window_insert, TSM_NODE_SEQNO_CACHE_SIZE] at *
  split_ifs <;> omega

theorem insert_cache (now : Nat) (w : tsm_protect_window) (s : Nat) :
    (protect_window_insert now w s).node_seqno_cache
      = w.node_seqno_cache.set (protect_window_insert now w s).last_idx s := rfl

theorem insert_time (now : Nat) (w : tsm_protect_window) (s : Nat) :
    (protect_window_insert now w s).last_seen_time = now := rfl

/-- Claim C7: for a node in use whose window is stale (age at least 3000 ms), whatever the cache
held and whatever the sequence number, `tsm_node_protect_window_update` returns 0, and
afterwards the cache holds the sequence number at the new `last_idx` and the invalid sentinel
in every other position. -/
theorem protect_window_stale_reset (now : Nat) (tsm : tsm_context) (node_idx s : Nat)
    (hidx : node_idx < tsm.node_table.nodes.length)
    (hne : (tsm.node node_idx).protect_window.last_idx < TSM_NODE_SEQNO_CACHE_SIZE)
    (hlen : (tsm.node node_idx).protect_window.node_seqno_cache.length
      = TSM_NODE_SEQNO_CACHE_SIZE)
    (hstale : ts_time_ms_delta now (tsm.node node_idx).protect_window.last_seen_time
      ≥ TSM_NODE_SEQNO_MAX_AGE_S * 1000) :
    (tsm_node_protect_window_update now tsm node_idx s).1 = .ok () ∧
    (((tsm_node_protect_window_update now tsm node_idx s).2.node node_idx).protect_window.last_idx
      = ((tsm.node node_idx).protect_window.last_idx + 1) % TSM_NODE_SEQNO_CACHE_SIZE) ∧
    (∀ k, k < TSM_NODE_SEQNO_CACHE_SIZE →
      ((tsm_node_protect_window_update now tsm node_idx s).2.node
          node_idx).protect_window.node_seqno_cache.getD k 0 =
        if k = ((tsm_node_protect_window_update now tsm node_idx s).2.node
            node_idx).protect_window.last_idx
        then s else TSM_NODE_SEQNO_INVALID) := by
  have hto : tsm_node_seqno now tsm node_idx = .err .ETIMEDOUT := by
    unfold tsm_node_seqno
    simp only []
    rw [if_neg (by omega), if_pos hstale]
  rw [update_of_seqno_timedout now tsm node_idx s hto]
  simp only [node_set_node_self _ _ _ hidx]
  refine ⟨trivial, insert_last_idx _ _ _ hne, ?_⟩
  intro k hk
  rw [insert_cache]
  split_ifs with hkl
  · rw [hkl]
    apply getD_set_self
    simp only [List.length_map, hlen]
    exact insert_last_idx_lt _ _ _
  · rw [getD_set_ne _ _ _ _ _ (Ne.symm hkl)]
    exact getD_map_const _ _ _ _ (by rw [hlen]; exact hk)

theorem ts_time_ms_delta_self (now : Nat) : ts_time_ms_delta now now = 0 := by
  simp [ts_time_ms_delta]

theorem update_ok_cases (now : Nat) (tsm : tsm_context) (i s : Nat)
    (h : (tsm_node_protect_window_update now tsm i s).1 = .ok ()) :
    ∃ w : tsm_protect_window, w.last_idx = (tsm.node i).protect_window.last_idx ∧
      w.node_seqno_cache.length = (tsm.node i).protect_window.node_seqno_cache.length ∧
      (tsm_node_protect_window_update now tsm i s).2 =
        tsm.set_node i { tsm.node i with protect_window := protect_window_insert now w s } := by
  unfold tsm_node_protect_window_update at h ⊢
  simp only [] at h ⊢
  split at h
  · split_ifs at h with h1 h2
    rw [if_neg h1, if_neg h2]
    exact ⟨(tsm.node i).protect_window, rfl, rfl, rfl⟩
  · exact ⟨{ (tsm.node i).protect_window with
      node_seqno_cache := (tsm.node i).protect_window.node_seqno_cache.map
        (fun _ => TSM_NODE_SEQNO_INVALID) }, rfl, by simp, rfl⟩
  · exact ⟨(tsm.node i).protect_window, rfl, rfl, rfl⟩

/-- Claim C8: whenever `tsm_node_protect_window_update` returns 0 for a node in use and a
sequence number (any value but the invalid sentinel `0xFF`, so every value `<= 23`), the new
`last_idx` is the old one plus 1 modulo 8, the cache holds the sequence number there,
`last_seen_time` is the clock reading, and `tsm_node_seqno` at the same clock reading returns
that sequence number. -/
theorem protect_window_update_ok (now : Nat) (tsm : tsm_context) (node_idx s : Nat)
    (hidx : node_idx < tsm.node_table.nodes.length)
    (hne : (tsm.node node_idx).protect_window.last_idx < TSM_NODE_SEQNO_CACHE_SIZE)
    (hlen : (tsm.node node_idx).protect_window.node_seqno_cache.length
      = TSM_NODE_SEQNO_CACHE_SIZE)
    (hs : s ≠ TSM_NODE_SEQNO_INVALID)
    (hok : (tsm_node_protect_window_update now tsm node_idx s).1 = .ok ()) :
    (((tsm_node_protect_window_update now tsm node_idx s).2.node node_idx).protect_window.last_idx
      = ((tsm.node node_idx).protect_window.last_idx + 1) % TSM_NODE_SEQNO_CACHE_SIZE) ∧
    (((tsm_node_protect_window_update now tsm node_idx s).2.node
        node_idx).protect_window.node_seqno_cache.getD
      ((tsm_node_protect_window_update now tsm node_idx s).2.node
        node_idx).protect_window.last_idx 0 = s) ∧
    (((tsm_node_protect_window_update now tsm node_idx s).2.node
        node_idx).protect_window.last_seen_time = now) ∧
    tsm_node_seqno now (tsm_node_protect_window_update now tsm node_idx s).2 node_idx
      = .ok s := by
  obtain ⟨w, hw1, hw2, hw3⟩ := update_ok_cases now tsm node_idx s hok
  have hcache : (protect_window_insert now w s).node_seqno_cache.getD
      (protect_window_insert now w s).last_idx 0 = s := by
    rw [insert_cache]
    apply getD_set_self
    rw [hw2, hlen]
    exact insert_last_idx_lt _ _ _
  have hlast : (protect_window_insert now w s).last_idx
      = ((tsm.node node_idx).protect_window.last_idx + 1) % TSM_NODE_SEQNO_CACHE_SIZE := by
    rw [← hw1]; exact insert_last_idx _ _ _ (by rw [hw1]; exact hne)
  rw [hw3]
  refine ⟨?_, ?_, ?_, ?_⟩
  · simp only [node_set_node_self _ _ _ hidx]; exact hlast
  · simp only [node_set_node_self _ _ _ hidx]; exact hcache
  · simp only [node_set_node_self _ _ _ hidx]; rfl
  · rw [tsm_node_seqno_ok_iff]
    simp only [node_set_node_self _ _ _ hidx]
    refine ⟨insert_last_idx_lt _ _ _, ?_, hcache, ?_⟩
    · rw [insert_time, ts_time_ms_delta_self]; simp [TSM_NODE_SEQNO_MAX_AGE_S]
    · exact hs

/-- Witness of `protect_window_stale_reset`: a full cache last stamped at 100 and a call at
3100. -/
theorem protect_window_stale_reset_witness :
    ts_time_ms_delta 3100 100 ≥ TSM_NODE_SEQNO_MAX_AGE_S * 1000 ∧
    (tsm_node_protect_window_update 3100
      (pw_example [1, 2, 3, 4, 5, 6, 7, 8] 7 100) 0 5).1 = .ok () ∧
    ((tsm_node_protect_window_update 3100
      (pw_example [1, 2, 3, 4, 5, 6, 7, 8] 7 100) 0 5).2.node 0).protect_window
      = ⟨[5, 255, 255, 255, 255, 255, 255, 255], 0, 3100⟩ :=
  ⟨by decide,
    (protect_window_stale_reset 3100 (pw_example [1, 2, 3, 4, 5, 6, 7, 8] 7 100) 0 5
      (by decide) (by decide) (by decide) (by decide)).1,
    by decide⟩

/-- Witness of `protect_window_update_ok`: the wrap of `last_idx` from 7 to 0. -/
theorem protect_window_update_ok_witness :
    (tsm_node_protect_window_update 200
      (pw_example [1, 2, 3, 4, 5, 6, 7, 8] 7 100) 0 9).1 = .ok () ∧
    ((tsm_node_protect_window_update 200
      (pw_example [1, 2, 3, 4, 5, 6, 7, 8] 7 100) 0 9).2.node 0).protect_window.last_idx
      = (7 + 1) % TSM_NODE_SEQNO_CACHE_SIZE ∧
    tsm_node_seqno 200 (tsm_node_protect_window_update 200
      (pw_example [1, 2, 3, 4, 5, 6, 7, 8] 7 100) 0 9).2 0 = .ok 9 :=
  ⟨by decide,
    (protect_window_update_ok 200 (pw_example [1, 2, 3, 4, 5, 6, 7, 8] 7 100) 0 9
      (by decide) (by decide) (by decide) (by decide) (by decide)).1,
    (protect_window_update_ok 200 (pw_example [1, 2, 3, 4, 5, 6, 7, 8] 7 100) 0 9
      (by decide) (by decide) (by decide) (by decide) (by decide)).2.2.2⟩

/-! ## Claim C9: the cache never holds a sequence number twice -/

theorem cache_distinct_set_fresh (cache : List Nat) (i s : Nat)
    (hd : cache_distinct cache)
    (hfresh : ∀ k, k < cache.length → k ≠ i → cache.getD k 0 = s →
      s = TSM_NODE_SEQNO_INVALID) :
    cache_distinct (cache.set i s) := by
  intro j k hj hk hjk heq
  simp only [List.length_set] at hj hk
  by_cases hji : j = i
  · subst hji
    rw [getD_set_self _ _ _ _ hj] at heq ⊢
    rw [getD_set_ne _ _ _ _ _ hjk] at heq
    exact hfresh k hk (Ne.symm hjk) heq.symm
  · rw [getD_set_ne _ _ _ _ _ (Ne.symm hji)] at heq ⊢
    by_cases hki : k = i
    · subst hki
      rw [getD_set_self _ _ _ _ hk] at heq
      rw [heq]
      exact hfresh j hj hji heq
    · rw [getD_set_ne _ _ _ _ _ (Ne.symm hki)] at heq
      exact hd j k hj hk hjk heq

theorem window_inv_insert (now : Nat) (w : tsm_protect_window) (s : Nat)
    (hs : s ≤ TSM_NODE_SEQNO_MAX)
    (hd : cache_distinct w.node_seqno_cache)
    (hfresh : ∀ k, k < w.node_seqno_cache.length → w.node_seqno_cache.getD k 0 = s →
      s = TSM_NODE_SEQNO_INVALID) :
    window_inv (protect_window_insert now w s) := by
  refine ⟨?_, insert_last_idx_lt now w s, ?_⟩
  · rw [show (protect_window_insert now w s).node_seqno_cache
        = w.node_seqno_cache.set (protect_window_insert now w s).last_idx s from rfl]
    exact cache_distinct_set_fresh _ _ _ hd (fun k hk _ h => hfresh k hk h)
  · intro h k hk
    exfalso
    rw [show (protect_window_insert now w s).node_seqno_cache
        = w.node_seqno_cache.set (protect_window_insert now w s).last_idx s from rfl] at h hk
    simp only [List.length_set] at hk
    by_cases hl : (protect_window_insert now w s).last_idx < w.node_seqno_cache.length
    · rw [getD_set_self _ _ _ _ hl] at h
      simp only [TSM_NODE_SEQNO_MAX, TSM_NODE_SEQNO_INVALID] at *; omega
    · rw [getD_of_length_le _ _ _ (by simp only [List.length_set]; omega)] at h
      simp [TSM_NODE_SEQNO_INVALID] at h

theorem window_inv_update (now : Nat) (tsm : tsm_context) (i s : Nat)
    (hidx : i < tsm.node_table.nodes.length) (hs : s ≤ TSM_NODE_SEQNO_MAX)
    (hinv : window_inv (tsm.node i).protect_window) :
    window_inv ((tsm_node_protect_window_update now tsm i s).2.node i).protect_window := by
  obtain ⟨hd, hlt, hall⟩ := hinv
  unfold tsm_node_protect_window_update
  simp only []
  split
  · -- latest sequence number valid
    split_ifs with h1 h2
    · exact ⟨hd, hlt, hall⟩
    · exact ⟨hd, hlt, hall⟩
    · rw [node_set_node_self _ _ _ hidx]
      apply window_inv_insert now _ s hs hd
      intro k hk hks
      exfalso
      apply h2
      rw [List.any_eq_true]
      exact ⟨s, by rw [← hks]; exact getD_mem _ _ _ hk, by simp⟩
  · -- stale: the cache is cleared
    rw [node_set_node_self _ _ _ hidx]
    apply window_inv_insert now _ s hs
    · intro j k hj hk _ _
      simp only [List.length_map] at hj
      exact getD_map_const _ _ _ _ hj
    · intro k hk hks
      simp only [List.length_map] at hk
      rw [getD_map_const _ _ _ _ hk] at hks
      exact hks.symm
  · -- no latest sequence number
    rename_i e hne heq
    rw [node_set_node_self _ _ _ hidx]
    apply window_inv_insert now _ s hs hd
    intro k hk hks
    have hinvalid : (tsm.node i).protect_window.node_seqno_cache.getD
        (tsm.node i).protect_window.last_idx 0 = TSM_NODE_SEQNO_INVALID := by
      unfold tsm_node_seqno at heq
      simp only [] at heq
      split_ifs at heq with a b c
      · omega
      · exact absurd (Ret.err.inj heq).symm hne
      · exact c
    rw [← hks]
    exact hall hinvalid k hk

theorem window_inv_phantom (tsm : tsm_context) (i id : Nat)
    (hidx : i < tsm.node_table.nodes.length) :
    window_inv ((tsm_node_init_phantom tsm i id).node i).protect_window := by
  unfold tsm_node_init_phantom
  rw [node_set_node_self _ _ _ hidx]
  refine ⟨?_, by simp [TSM_NODE_SEQNO_CACHE_SIZE], ?_⟩
  · intro j k hj hk _ _
    simp only [List.length_map] at hj
    exact getD_map_const _ _ _ _ hj
  · intro _ k hk
    simp only [List.length_map] at hk
    exact getD_map_const _ _ _ _ hk

theorem nodes_length_update (now : Nat) (tsm : tsm_context) (i s : Nat) :
    (tsm_node_protect_window_update now tsm i s).2.node_table.nodes.length
      = tsm.node_table.nodes.length := by
  unfold tsm_node_protect_window_update
  simp only []
  split
  · split_ifs <;> simp [tsm_context.set_node]
  · simp [tsm_context.set_node]
  · simp [tsm_context.set_node]

theorem window_inv_updates (tsm : tsm_context) (i : Nat) (steps : List (Nat × Nat))
    (hidx : i < tsm.node_table.nodes.length)
    (hs : ∀ p ∈ steps, p.2 ≤ TSM_NODE_SEQNO_MAX)
    (hinv : window_inv (tsm.node i).protect_window) :
    window_inv ((protect_window_updates tsm i steps).node i).protect_window := by
  induction steps generalizing tsm with
  | nil => exact hinv
  | cons step rest ih =>
    simp only [protect_window_updates]
    apply ih
    · rw [nodes_length_update]; exact hidx
    · intro p hp; exact hs p (List.mem_cons_of_mem _ hp)
    · exact window_inv_update _ _ _ _ hidx (hs step (List.mem_cons_self _ _)) hinv

/-- Claim C9: in every state reached from a phantom node by any sequence of calls of
`tsm_node_protect_window_update` with sequence numbers `<= 23` at arbitrary clock readings
(non-decreasing ones included), the cache of the node has no two equal entries other than the
invalid sentinel. -/
theorem protect_window_cache_distinct (tsm : tsm_context) (node_idx node_id : Nat) (steps : List (Nat × Nat))
    (hidx : node_idx < tsm.node_table.nodes.length)
    (hs : ∀ p ∈ steps, p.2 ≤ TSM_NODE_SEQNO_MAX) :
    ∀ j k,
      j < ((protect_window_updates (tsm_node_init_phantom tsm node_idx node_id) node_idx
            steps).node node_idx).protect_window.node_seqno_cache.length →
      k < ((protect_window_updates (tsm_node_init_phantom tsm node_idx node_id) node_idx
            steps).node node_idx).protect_window.node_seqno_cache.length →
      j ≠ k →
      ((protect_window_updates (tsm_node_init_phantom tsm node_idx node_id) node_idx
          steps).node node_idx).protect_window.node_seqno_cache.getD j 0 =
        ((protect_window_updates (tsm_node_init_phantom tsm node_idx node_id) node_idx
          steps).node node_idx).protect_window.node_seqno_cache.getD k 0 →
      ((protect_window_updates (tsm_node_init_phantom tsm node_idx node_id) node_idx
          steps).node node_idx).protect_window.node_seqno_cache.getD j 0
        = TSM_NODE_SEQNO_INVALID :=
  (window_inv_updates _ node_idx steps
    (by unfold tsm_node_init_phantom; rw [nodes_length_set_node]; exact hidx) hs
    (window_inv_phantom tsm node_idx node_id hidx)).1

/-- Witness of `protect_window_cache_distinct`: the sequence 22, 23, 0, 1 of the spec, a
duplicate, and an update after the window went stale. -/
theorem protect_window_cache_distinct_witness :
    (∀ p ∈ [(10, 22), (20, 23), (30, 0), (40, 1), (50, 23), (5000, 1)],
      p.2 ≤ TSM_NODE_SEQNO_MAX) ∧
    ((protect_window_updates (tsm_node_init_phantom (pw_example [1, 1, 1, 1, 1, 1, 1, 1] 8 0)
        0 7) 0 [(10, 22), (20, 23), (30, 0), (40, 1)]).node 0).protect_window.node_seqno_cache
      = [255, 22, 23, 0, 1, 255, 255, 255] ∧
    ∀ j k,
      j < ((protect_window_updates (tsm_node_init_phantom
            (pw_example [1, 1, 1, 1, 1, 1, 1, 1] 8 0) 0 7) 0
            [(10, 22), (20, 23), (30, 0), (40, 1), (50, 23), (5000, 1)]).node
              0).protect_window.node_seqno_cache.length →
      k < ((protect_window_updates (tsm_node_init_phantom
            (pw_example [1, 1, 1, 1, 1, 1, 1, 1] 8 0) 0 7) 0
            [(10, 22), (20, 23), (30, 0), (40, 1), (50, 23), (5000, 1)]).node
              0).protect_window.node_seqno_cache.length →
      j ≠ k →
      ((protect_window_updates (tsm_node_init_phantom
          (pw_example [1, 1, 1, 1, 1, 1, 1, 1] 8 0) 0 7) 0
          [(10, 22), (20, 23), (30, 0), (40, 1), (50, 23), (5000, 1)]).node
            0).protect_window.node_seqno_cache.getD j 0 =
        ((protect_window_updates (tsm_node_init_phantom
          (pw_example [1, 1, 1, 1, 1, 1, 1, 1] 8 0) 0 7) 0
          [(10, 22), (20, 23), (30, 0), (40, 1), (50, 23), (5000, 1)]).node
            0).protect_window.node_seqno_cache.getD k 0 →
      ((protect_window_updates (tsm_node_init_phantom
          (pw_example [1, 1, 1, 1, 1, 1, 1, 1] 8 0) 0 7) 0
          [(10, 22), (20, 23), (30, 0), (40, 1), (50, 23), (5000, 1)]).node
            0).protect_window.node_seqno_cache.getD j 0
        = TSM_NODE_SEQNO_INVALID :=
  ⟨by decide, by decide,
    protect_window_cache_distinct (pw_example [1, 1, 1, 1, 1, 1, 1, 1] 8 0) 0 7
      [(10, 22), (20, 23), (30, 0), (40, 1), (50, 23), (5000, 1)] (by decide) (by decide)⟩

/-! ## The frame of `tsm_node_free` -/

theorem path_set_path_self (tsm : tsm_context) (i : Nat) (p : tsm_path)
    (h : i < tsm.node_table.paths.length) : (tsm.set_path i p).path i = p := by
  simp only [tsm_context.path, tsm_context.set_path]
  exact getD_set_self _ _ _ _ h

theorem path_set_path_ne (tsm : tsm_context) (i j : Nat) (p : tsm_path) (h : i ≠ j) :
    (tsm.set_path i p).path j = tsm.path j := by
  simp only [tsm_context.path, tsm_context.set_path]
  exact getD_set_ne _ _ _ _ _ h

theorem node_set_path (tsm : tsm_context) (i j : Nat) (p : tsm_path) :
    (tsm.set_path i p).node j = tsm.node j := rfl

theorem path_set_node (tsm : tsm_context) (i j : Nat) (n : tsm_node) :
    (tsm.set_node i n).path j = tsm.path j := rfl

theorem node_set_node (tsm : tsm_context) (i j : Nat) (n : tsm_node) :
    (tsm.set_node i n).node j =
      if i = j ∧ i < tsm.node_table.nodes.length then n else tsm.node j := by
  by_cases hij : i = j
  · subst hij
    by_cases hi : i < tsm.node_table.nodes.length
    · simp [hi, node_set_node_self _ _ _ hi]
    · simp only [hi, and_false, if_false]
      simp only [tsm_context.node, tsm_context.set_node]
      rw [getD_of_length_le _ _ _ (by simp; omega), getD_of_length_le _ _ _ (by omega)]
  · simp [hij, node_set_node_ne _ _ _ _ hij]

theorem path_set_path (tsm : tsm_context) (i j : Nat) (p : tsm_path) :
    (tsm.set_path i p).path j =
      if i = j ∧ i < tsm.node_table.paths.length then p else tsm.path j := by
  by_cases hij : i = j
  · subst hij
    by_cases hi : i < tsm.node_table.paths.length
    · simp [hi, path_set_path_self _ _ _ hi]
    · simp only [hi, and_false, if_false]
      simp only [tsm_context.path, tsm_context.set_path]
      rw [getD_of_length_le _ _ _ (by simp; omega), getD_of_length_le _ _ _ (by omega)]
  · simp [hij, path_set_path_ne _ _ _ _ hij]

theorem free_rel.refl (r : Nat) (tsm : tsm_context) : free_rel r tsm tsm :=
  ⟨rfl, rfl, rfl, rfl, rfl, fun _ => rfl, fun _ => rfl, fun _ => rfl, fun _ => rfl,
    fun _ => rfl, fun _ => rfl, fun _ => Or.inl rfl, rfl, fun _ _ => rfl,
    fun _ _ => Or.inl rfl⟩

theorem orig_via_of_free_rel {r : Nat} {a b : tsm_context} (h : free_rel r a b) (v : Nat) :
    orig_via b r v ↔ orig_via a r v := by
  unfold orig_via
  rw [h.paths_len, h.start_idx, h.router]

theorem free_rel.trans {r : Nat} {a b c : tsm_context} (h1 : free_rel r a b)
    (h2 : free_rel r b c) : free_rel r a c where
  nodes_len := h2.nodes_len.trans h1.nodes_len
  paths_len := h2.paths_len.trans h1.paths_len
  start_idx := h2.start_idx.trans h1.start_idx
  own_id := h2.own_id.trans h1.own_id
  ports := h2.ports.trans h1.ports
  node_id := fun j => (h2.node_id j).trans (h1.node_id j)
  mapping := fun j => (h2.mapping j).trans (h1.mapping j)
  window := fun j => (h2.window j).trans (h1.window j)
  refs_len := fun j => (h2.refs_len j).trans (h1.refs_len j)
  router := fun p => (h2.router p).trans (h1.router p)
  port := fun p => (h2.port p).trans (h1.port p)
  first := fun p => by
    rcases h2.first p with h | h
    · rw [h]; exact h1.first p
    · exact Or.inr h
  self_refs := h2.self_refs.trans h1.self_refs
  empty_refs := fun o ho => by
    rw [h2.empty_refs o (by rw [h1.window o]; exact ho)]
    exact h1.empty_refs o ho
  refs := fun o j => by
    rcases h2.refs o j with h | ⟨hc, hv, hf⟩
    · rcases h1.refs o j with h' | ⟨hc', hv', hf'⟩
      · exact Or.inl (h.trans h')
      · refine Or.inr ⟨h.trans hc', hv', ?_⟩
        rcases h2.first ((a.node o).paths_refs.getD j 0 % 256) with h'' | h''
        · rw [h'']; exact hf'
        · exact h''
    · rcases h1.refs o j with h' | ⟨hc', hv', hf'⟩
      · rw [h'] at hv hf
        exact Or.inr ⟨hc, (orig_via_of_free_rel h1 _).1 hv, hf⟩
      · refine Or.inr ⟨hc, hv', ?_⟩
        rcases h2.first ((a.node o).paths_refs.getD j 0 % 256) with h'' | h''
        · rw [h'']; exact hf'
        · exact h''

theorem free_rel_path_free (r : Nat) (tsm : tsm_context) (p : Nat) :
    free_rel r tsm (tsm_node_path_free tsm p) := by
  unfold tsm_node_path_free
  refine ⟨rfl, by simp [tsm_context.set_path], rfl, rfl, rfl, fun _ => rfl, fun _ => rfl,
    fun _ => rfl, fun _ => rfl, ?_, ?_, ?_, rfl, fun _ _ => rfl, fun _ _ => Or.inl rfl⟩
  · intro q; rw [path_set_path]; split_ifs with h
    · rw [h.1]
    · rfl
  · intro q; rw [path_set_path]; split_ifs with h
    · rw [h.1]
    · rfl
  · intro q; rw [path_set_path]; split_ifs with h
    · exact Or.inr rfl
    · exact Or.inl rfl

theorem for_loop_rel {σ : Type} (R : σ → σ → Prop) (hrefl : ∀ s, R s s)
    (htrans : ∀ a b c, R a b → R b c → R a c) (body : Nat → σ → σ)
    (hstep : ∀ i s, R s (body i s)) (n : Nat) (s : σ) : R s (for_loop body n s) := by
  induction n with
  | zero => exact hrefl s
  | succ k ih => exact htrans _ _ _ ih (hstep k _)

theorem getD_set {α : Type} (l : List α) (i j : Nat) (a d : α) :
    (l.set i a).getD j d = if i = j ∧ i < l.length then a else l.getD j d := by
  by_cases hij : i = j
  · subst hij
    by_cases hi : i < l.length
    · simp [hi, getD_set_self _ _ _ _ hi]
    · simp only [hi, and_false, if_false]
      rw [getD_of_length_le _ _ _ (by simp; omega), getD_of_length_le _ _ _ (by omega)]
  · simp [hij, getD_set_ne _ _ _ _ _ hij]

theorem node_path_free (tsm : tsm_context) (p j : Nat) :
    (tsm_node_path_free tsm p).node j = tsm.node j := rfl

theorem path_path_free (tsm : tsm_context) (p q : Nat) :
    (tsm_node_path_free tsm p).path q =
      if p = q ∧ p < tsm.node_table.paths.length
      then { tsm.path p with first := UINT8_MAX } else tsm.path q := by
  unfold tsm_node_path_free
  rw [path_set_path]

theorem free_rel_other_ref (r o j : Nat) (tsm : tsm_context) (hor : o ≠ r)
    (hne : (tsm.node o).protect_window.last_idx < TSM_NODE_SEQNO_CACHE_SIZE) :
    free_rel r tsm (tsm_node_free_other_ref r o j tsm) := by
  unfold tsm_node_free_other_ref
  simp only []
  split_ifs with h1 h2 h3
  · exact free_rel.refl r tsm
  · -- the reference is cleared and the originator entry freed
    have hp : (tsm.node o).paths_refs.getD j 0 % 256 < tsm.node_table.paths.length := by omega
    refine ⟨by simp [tsm_node_path_free, tsm_context.set_node, tsm_context.set_path],
      by simp [tsm_node_path_free, tsm_context.set_node, tsm_context.set_path],
      rfl, rfl, rfl, ?_, ?_, ?_, ?_, ?_, ?_, ?_, ?_, ?_, ?_⟩
    · intro k; rw [node_path_free, node_set_node]; split_ifs with h
      · rw [← h.1]
      · rfl
    · intro k; rw [node_path_free, node_set_node]; split_ifs with h
      · rw [← h.1]
      · rfl
    · intro k; rw [node_path_free, node_set_node]; split_ifs with h
      · rw [← h.1]
      · rfl
    · intro k; rw [node_path_free, node_set_node]; split_ifs with h
      · rw [← h.1]; simp
      · rfl
    · intro q; rw [path_path_free]; split_ifs with h
      · rw [← h.1]; rfl
      · rfl
    · intro q; rw [path_path_free]; split_ifs with h
      · rw [← h.1]; rfl
      · rfl
    · intro q; rw [path_path_free]; split_ifs with h
      · exact Or.inr rfl
      · exact Or.inl rfl
    · rw [node_path_free, node_set_node_ne _ _ _ _ hor]
    · intro k hk; rw [node_path_free, node_set_node]; split_ifs with h
      · exfalso; rw [← h.1] at hk; omega
      · rfl
    · intro k i
      rw [node_path_free, node_set_node]
      split_ifs with h
      · obtain ⟨hk, _⟩ := h
        subst hk
        simp only []
        rw [getD_set]
        split_ifs with h'
        · obtain ⟨hji, _⟩ := h'
          subst hji
          right
          refine ⟨rfl, ⟨hp, by omega, h3⟩, ?_⟩
          rw [path_path_free, if_pos ⟨rfl, hp⟩]
        · exact Or.inl rfl
      · exact Or.inl rfl
  · exact free_rel.refl r tsm
  · exact free_rel.refl r tsm

theorem free_rel_for_loop (r : Nat) (body : Nat → tsm_context → tsm_context)
    (P : tsm_context → Prop) (hP : ∀ a b, free_rel r a b → P a → P b)
    (hstep : ∀ i s, P s → free_rel r s (body i s)) (n : Nat) (s : tsm_context) (hs : P s) :
    free_rel r s (for_loop body n s) := by
  induction n with
  | zero => exact free_rel.refl r s
  | succ k ih => exact free_rel.trans ih (hstep k _ (hP _ _ ih hs))

theorem free_rel_other_node (r o : Nat) (tsm : tsm_context) :
    free_rel r tsm (tsm_node_free_other_node r o tsm) := by
  unfold tsm_node_free_other_node
  simp only []
  split_ifs with h
  · exact free_rel.refl r tsm
  · have h' : ¬ ((tsm.node o).protect_window.last_idx ≥ TSM_NODE_SEQNO_CACHE_SIZE) ∧ o ≠ r := by
      constructor
      · intro hc; exact h (Or.inl hc)
      · intro hc; exact h (Or.inr hc)
    apply free_rel_for_loop r _
      (fun s => (s.node o).protect_window.last_idx < TSM_NODE_SEQNO_CACHE_SIZE)
    · intro a b hab ha
      simp only [hab.window o]; exact ha
    · intro i s hs
      exact free_rel_other_ref r o i s h'.2 hs
    · omega

theorem free_rel_cascade (r n : Nat) (tsm : tsm_context) :
    free_rel r tsm (for_loop (tsm_node_free_other_node r) n tsm) :=
  free_rel_for_loop r _ (fun _ => True) (fun _ _ _ _ => trivial)
    (fun i s _ => free_rel_other_node r i s) n tsm trivial

theorem free_rel_ref (r i : Nat) (tsm : tsm_context) :
    free_rel r tsm (tsm_node_free_ref r i tsm) := by
  unfold tsm_node_free_ref
  simp only []
  have hc : free_rel r tsm
      (if (tsm.node r).paths_refs.getD i 0 % 256 < tsm.node_table.originator_start_idx then
        for_loop (tsm_node_free_other_node r) tsm.node_table.nodes.length tsm
      else tsm) := by
    split_ifs
    · exact free_rel_cascade r _ tsm
    · exact free_rel.refl r tsm
  split_ifs with h1 h2 h3
  · exact free_rel.trans (free_rel_cascade r _ tsm) (free_rel_path_free r _ _)
  · exact free_rel_cascade r _ tsm
  · exact free_rel_path_free r _ _
  · exact free_rel.refl r tsm

theorem free_rel_refs_loop (r n : Nat) (tsm : tsm_context) :
    free_rel r tsm (for_loop (tsm_node_free_ref r) n tsm) :=
  free_rel_for_loop r _ (fun _ => True) (fun _ _ _ _ => trivial)
    (fun i s _ => free_rel_ref r i s) n tsm trivial

/-- The result of `tsm_node_free` on a node in use, in terms of the loop over its path
references. -/
theorem tsm_node_free_eq (tsm : tsm_context) (r : Nat)
    (h : (tsm.node r).protect_window.last_idx < TSM_NODE_SEQNO_CACHE_SIZE) :
    tsm_node_free tsm r =
      (for_loop (tsm_node_free_ref r) (tsm.node r).paths_refs.length tsm).set_node r
        { (for_loop (tsm_node_free_ref r) (tsm.node r).paths_refs.length tsm).node r with
          protect_window :=
            { ((for_loop (tsm_node_free_ref r) (tsm.node r).paths_refs.length tsm).node
                r).protect_window with last_idx := TSM_NODE_SEQNO_CACHE_SIZE } } := by
  unfold tsm_node_free
  simp only []
  rw [if_neg (by omega)]

theorem tsm_node_free_empty (tsm : tsm_context) (r : Nat)
    (h : (tsm.node r).protect_window.last_idx ≥ TSM_NODE_SEQNO_CACHE_SIZE) :
    tsm_node_free tsm r = tsm := by
  unfold tsm_node_free
  simp only []
  rw [if_pos h]

/-! ## Claim C2: get then lookup -/

/-- The scan of `tsm_node_lookup` finds the first matching entry. -/
theorem lookup_scan_ok_iff (node_id : Nat) (nodes : List tsm_node) (i m : Nat) :
    tsm_node_lookup_scan node_id nodes i = .ok m ↔
      ∃ k, m = i + k ∧ k < nodes.length ∧ node_matches node_id (nodes.getD k default) ∧
        ∀ k', k' < k → ¬ node_matches node_id (nodes.getD k' default) := by
  induction nodes generalizing i with
  | nil => simp [tsm_node_lookup_scan]
  | cons node rest ih =>
    unfold tsm_node_lookup_scan
    by_cases hm : node_matches node_id node
    · have h1 : ¬ node.protect_window.last_idx ≥ TSM_NODE_SEQNO_CACHE_SIZE := by
        have := hm.1; omega
      rw [if_neg h1, if_pos hm.2]
      constructor
      · intro h
        refine ⟨0, by simpa using (Ret.ok.inj h).symm, by simp, by simpa using hm, ?_⟩
        intro k' hk'; omega
      · rintro ⟨k, hk, _, _, hfirst⟩
        cases k with
        | zero => simp [hk]
        | succ k => exact absurd (by simpa using hm) (hfirst 0 (by omega))
    · have hskip : (if node.protect_window.last_idx ≥ TSM_NODE_SEQNO_CACHE_SIZE then
            tsm_node_lookup_scan node_id rest (i + 1)
          else if node_id = node.node_id then Ret.ok i
          else tsm_node_lookup_scan node_id rest (i + 1))
          = tsm_node_lookup_scan node_id rest (i + 1) := by
        split_ifs with a b
        · rfl
        · exact absurd ⟨by omega, b⟩ hm
        · rfl
      rw [hskip, ih]
      constructor
      · rintro ⟨k, hk, hlen, hmatch, hfirst⟩
        refine ⟨k + 1, by omega, by simpa using hlen, by simpa using hmatch, ?_⟩
        intro k' hk'
        cases k' with
        | zero => simpa using hm
        | succ k' => simpa using hfirst k' (by omega)
      · rintro ⟨k, hk, hlen, hmatch, hfirst⟩
        cases k with
        | zero => exact absurd (by simpa using hmatch) hm
        | succ k =>
          refine ⟨k, by omega, by simpa using hlen, by simpa using hmatch, ?_⟩
          intro k' hk'
          simpa using hfirst (k' + 1) (by omega)

theorem lookup_scan_err (node_id : Nat) (nodes : List tsm_node) (i : Nat) (e : Errno) :
    tsm_node_lookup_scan node_id nodes i = .err e → e = .ENODEV := by
  induction nodes generalizing i with
  | nil => simp only [tsm_node_lookup_scan]; intro h; exact (Ret.err.inj h).symm
  | cons node rest ih =>
    unfold tsm_node_lookup_scan
    split_ifs
    · exact ih _
    · intro h; cases h
    · exact ih _

theorem lookup_scan_err_iff (node_id : Nat) (nodes : List tsm_node) (i : Nat) :
    tsm_node_lookup_scan node_id nodes i = .err .ENODEV ↔
      ∀ k, k < nodes.length → ¬ node_matches node_id (nodes.getD k default) := by
  induction nodes generalizing i with
  | nil => simp [tsm_node_lookup_scan]
  | cons node rest ih =>
    unfold tsm_node_lookup_scan
    by_cases hm : node_matches node_id node
    · have h1 : ¬ node.protect_window.last_idx ≥ TSM_NODE_SEQNO_CACHE_SIZE := by
        have := hm.1; omega
      rw [if_neg h1, if_pos hm.2]
      constructor
      · intro h; cases h
      · intro h; exact absurd (by simpa using hm) (h 0 (by simp))
    · have hskip : (if node.protect_window.last_idx ≥ TSM_NODE_SEQNO_CACHE_SIZE then
            tsm_node_lookup_scan node_id rest (i + 1)
          else if node_id = node.node_id then Ret.ok i
          else tsm_node_lookup_scan node_id rest (i + 1))
          = tsm_node_lookup_scan node_id rest (i + 1) := by
        split_ifs with a b
        · rfl
        · exact absurd ⟨by omega, b⟩ hm
        · rfl
      rw [hskip, ih]
      constructor
      · intro h k hk
        cases k with
        | zero => simpa using hm
        | succ k => simpa using h k (by simpa using hk)
      · intro h k hk
        simpa using h (k + 1) (by simpa using hk)

/-- The scan of `tsm_node_get` finds the same entry as the scan of `tsm_node_lookup`. -/
theorem get_scan_match (node_id : Nat) (nodes : List tsm_node) (i e : Nat) :
    (tsm_node_get_scan node_id nodes i e).1 =
      match tsm_node_lookup_scan node_id nodes i with
      | .ok m => m
      | .err _ => UINT16_MAX := by
  induction nodes generalizing i e with
  | nil => simp [tsm_node_get_scan, tsm_node_lookup_scan]
  | cons node rest ih =>
    unfold tsm_node_get_scan tsm_node_lookup_scan
    by_cases h1 : node.protect_window.last_idx ≥ TSM_NODE_SEQNO_CACHE_SIZE
    · rw [if_pos h1, if_pos h1]; exact ih _ _
    · rw [if_neg h1, if_neg h1]
      by_cases h2 : node_id = node.node_id
      · rw [if_pos h2, if_pos h2]
      · rw [if_neg h2, if_neg h2]; exact ih _ _

/-- Without a match the scan of `tsm_node_get` yields the first unused entry. -/
theorem get_scan_empty (node_id : Nat) (nodes : List tsm_node) (i e : Nat)
    (hno : ∀ k, k < nodes.length → ¬ node_matches node_id (nodes.getD k default))
    (hlen : i + nodes.length ≤ UINT16_MAX) :
    ((tsm_node_get_scan node_id nodes i e).2 = e ∧
      ∀ k, k < nodes.length →
        (nodes.getD k default).protect_window.last_idx < TSM_NODE_SEQNO_CACHE_SIZE) ∨
    (e = UINT16_MAX ∧ ∃ k, (tsm_node_get_scan node_id nodes i e).2 = i + k ∧ k < nodes.length ∧
      (nodes.getD k default).protect_window.last_idx ≥ TSM_NODE_SEQNO_CACHE_SIZE ∧
      ∀ k', k' < k →
        (nodes.getD k' default).protect_window.last_idx < TSM_NODE_SEQNO_CACHE_SIZE) ∨
    (e ≠ UINT16_MAX ∧ (tsm_node_get_scan node_id nodes i e).2 = e) := by
  induction nodes generalizing i e with
  | nil => left; simp [tsm_node_get_scan]
  | cons node rest ih =>
    have hno' : ∀ k, k < rest.length → ¬ node_matches node_id (rest.getD k default) := by
      intro k hk; simpa using hno (k + 1) (by simpa using hk)
    have hlen' : i + 1 + rest.length ≤ UINT16_MAX := by
      simp only [List.length_cons] at hlen; omega
    have h0 : ¬ node_matches node_id node := by simpa using hno 0 (by simp)
    unfold tsm_node_get_scan
    by_cases h1 : node.protect_window.last_idx ≥ TSM_NODE_SEQNO_CACHE_SIZE
    on_goal 2 => rw [if_neg h1]; by_cases h2 : node_id = node.node_id
    on_goal 3 => rw [if_neg h2]
    on_goal 2 => rw [if_pos h2]
    · -- unused entry
      rw [if_pos h1]
      by_cases he : e = UINT16_MAX
      · right; left
        refine ⟨he, ?_⟩
        rw [if_pos he]
        rcases ih (i + 1) i hno' hlen' with h | h | h
        · exact ⟨0, h.1, by simp, by simpa using h1, by intro k' hk'; omega⟩
        · exfalso
          have := h.1
          simp only [List.length_cons] at hlen
          omega
        · exact ⟨0, h.2, by simp, by simpa using h1, by intro k' hk'; omega⟩
      · right; right
        rw [if_neg he]
        refine ⟨he, ?_⟩
        rcases ih (i + 1) e hno' hlen' with h | h | h
        · exact h.1
        · exact absurd h.1 he
        · exact h.2
    · exact absurd ⟨by omega, h2⟩ h0
    · rcases ih (i + 1) e hno' hlen' with h | h | h
      · left
        refine ⟨h.1, ?_⟩
        intro k hk
        cases k with
        | zero => simp only [List.getD_cons_zero]; omega
        | succ k => simpa using h.2 k (by simpa using hk)
      · right; left
        obtain ⟨he, k, hk1, hk2, hk3, hk4⟩ := h
        refine ⟨he, k + 1, by omega, by simpa using hk2, by simpa using hk3, ?_⟩
        intro k' hk'
        cases k' with
        | zero => simp only [List.getD_cons_zero]; omega
        | succ k' => simpa using hk4 k' (by omega)
      · right; right; exact h

theorem evict_loop_bound (tsm : tsm_context) (now n : Nat) :
    (for_loop (tsm_node_evict_step tsm) n (UINT16_MAX, now)).1 = UINT16_MAX ∨
    (for_loop (tsm_node_evict_step tsm) n (UINT16_MAX, now)).1 < n := by
  induction n with
  | zero => left; rfl
  | succ k ih =>
    simp only [for_loop, tsm_node_evict_step]
    split_ifs
    · right; simp
    · rcases ih with h | h
      · left; exact h
      · right; omega

theorem tsm_node_evict_bound (now : Nat) (tsm : tsm_context) :
    tsm_node_evict now tsm = UINT16_MAX ∨
    tsm_node_evict now tsm < tsm.node_table.nodes.length :=
  evict_loop_bound tsm now _

/-- What `tsm_node_free` leaves alone in the node table. -/
theorem tsm_node_free_frame (tsm : tsm_context) (r : Nat) :
    (tsm_node_free tsm r).node_table.nodes.length = tsm.node_table.nodes.length ∧
    ∀ j, ((tsm_node_free tsm r).node j).node_id = (tsm.node j).node_id ∧
      (j ≠ r → ((tsm_node_free tsm r).node j).protect_window = (tsm.node j).protect_window) := by
  by_cases h : (tsm.node r).protect_window.last_idx < TSM_NODE_SEQNO_CACHE_SIZE
  · rw [tsm_node_free_eq tsm r h]
    have hrel := free_rel_refs_loop r (tsm.node r).paths_refs.length tsm
    refine ⟨by rw [nodes_length_set_node]; exact hrel.nodes_len, ?_⟩
    intro j
    rw [node_set_node]
    split_ifs with hj
    · obtain ⟨hj, _⟩ := hj
      subst hj
      exact ⟨hrel.node_id r, fun hne => absurd rfl hne⟩
    · exact ⟨hrel.node_id j, fun _ => hrel.window j⟩
  · rw [tsm_node_free_empty tsm r (by omega)]
    exact ⟨rfl, fun j => ⟨rfl, fun _ => rfl⟩⟩

theorem node_init_phantom (t : tsm_context) (o node_id j : Nat) :
    (tsm_node_init_phantom t o node_id).node j =
      if o = j ∧ o < t.node_table.nodes.length then
        { node_id := node_id
          name_mapping_id := TSM_NODE_NAME_MAPPING_ID_INVALID
          protect_window :=
            { node_seqno_cache :=
                (t.node o).protect_window.node_seqno_cache.map (fun _ => TSM_NODE_SEQNO_INVALID)
              last_idx := 0
              last_seen_time := 0 }
          paths_refs := (t.node o).paths_refs.map (fun _ => UINT16_MAX) }
      else t.node j := by
  unfold tsm_node_init_phantom
  simp only []
  rw [node_set_node]

theorem nodes_length_init_phantom (t : tsm_context) (o node_id : Nat) :
    (tsm_node_init_phantom t o node_id).node_table.nodes.length
      = t.node_table.nodes.length := by
  unfold tsm_node_init_phantom; simp only []; rw [nodes_length_set_node]

theorem lookup_after_phantom (t : tsm_context) (node_id o : Nat)
    (ho : o < t.node_table.nodes.length)
    (hno : ∀ j, j < o → ¬ node_matches node_id (t.node j)) :
    tsm_node_lookup (tsm_node_init_phantom t o node_id) node_id = .ok o := by
  unfold tsm_node_lookup
  rw [lookup_scan_ok_iff]
  refine ⟨o, by omega, ?_, ?_, ?_⟩
  · rw [nodes_length_init_phantom]; exact ho
  · show node_matches node_id ((tsm_node_init_phantom t o node_id).node o)
    rw [node_init_phantom, if_pos ⟨rfl, ho⟩]
    exact ⟨by simp [TSM_NODE_SEQNO_CACHE_SIZE], rfl⟩
  · intro k hk
    show ¬ node_matches node_id ((tsm_node_init_phantom t o node_id).node k)
    rw [node_init_phantom, if_neg (by omega)]
    exact hno k hk

theorem tsm_node_lookup_err_iff (tsm : tsm_context) (node_id : Nat) :
    tsm_node_lookup tsm node_id = .err .ENODEV ↔
      ∀ j, j < tsm.node_table.nodes.length → ¬ node_matches node_id (tsm.node j) :=
  lookup_scan_err_iff node_id _ 0

/-- When the node is in the table, `tsm_node_get` returns the entry `tsm_node_lookup` finds and
changes nothing. -/
theorem tsm_node_get_of_lookup (now : Nat) (tsm : tsm_context) (node_id i : Nat)
    (hlen : tsm.node_table.nodes.length ≤ UINT16_MAX)
    (h : tsm_node_lookup tsm node_id = .ok i) :
    tsm_node_get now tsm node_id = some (i, tsm) := by
  have hm := get_scan_match node_id tsm.node_table.nodes 0 UINT16_MAX
  unfold tsm_node_lookup at h
  rw [h] at hm
  simp only [] at hm
  obtain ⟨k, hk, hk2, _⟩ := (lookup_scan_ok_iff _ _ _ _).1 h
  unfold tsm_node_get
  simp only [hm]
  rw [if_neg (by omega)]

/-- Claim C2: if `tsm_node_get(id)` returns index `i`, a following `tsm_node_lookup(id)` returns
the same index; `tsm_node_lookup` (a function of the state only, so it modifies nothing) returns
`-ENODEV` exactly when no entry in use holds the id, and it has no other error. -/
theorem tsm_node_get_then_lookup (now : Nat) (tsm : tsm_context) (node_id : Nat)
    (hlen : tsm.node_table.nodes.length ≤ UINT16_MAX) :
    (∀ i tsm', tsm_node_get now tsm node_id = some (i, tsm') →
      tsm_node_lookup tsm' node_id = .ok i) ∧
    (tsm_node_lookup tsm node_id = .err .ENODEV ↔
      ∀ j, j < tsm.node_table.nodes.length →
        (tsm.node j).protect_window.last_idx < TSM_NODE_SEQNO_CACHE_SIZE →
          (tsm.node j).node_id ≠ node_id) ∧
    (∀ e, tsm_node_lookup tsm node_id = .err e → e = .ENODEV) := by
  refine ⟨?_, ?_, fun e => lookup_scan_err node_id _ 0 e⟩
  · intro i tsm' hget
    have hm := get_scan_match node_id tsm.node_table.nodes 0 UINT16_MAX
    unfold tsm_node_get at hget
    simp only [] at hget
    by_cases hmatch : (tsm_node_get_scan node_id tsm.node_table.nodes 0 UINT16_MAX).1
        = UINT16_MAX
    · rw [if_pos hmatch] at hget
      -- the node is not in the table
      have hno : ∀ k, k < tsm.node_table.nodes.length →
          ¬ node_matches node_id (tsm.node_table.nodes.getD k default) := by
        rw [hmatch] at hm
        cases hl : tsm_node_lookup_scan node_id tsm.node_table.nodes 0 with
        | ok m =>
          rw [hl] at hm
          simp only [] at hm
          obtain ⟨k, hk, hk2, _⟩ := (lookup_scan_ok_iff _ _ _ _).1 hl
          omega
        | err e =>
          have := lookup_scan_err _ _ _ _ hl
          subst this
          exact (lookup_scan_err_iff _ _ _).1 hl
      by_cases hempty : (tsm_node_get_scan node_id tsm.node_table.nodes 0 UINT16_MAX).2
          = UINT16_MAX
      · rw [if_pos hempty] at hget
        -- table full: evict
        by_cases hev : tsm_node_evict now tsm = UINT16_MAX
        · rw [if_pos hev] at hget; cases hget
        · rw [if_neg hev] at hget
          simp only [Option.some.injEq, Prod.mk.injEq] at hget
          obtain ⟨hi, ht⟩ := hget
          subst hi ht
          have ho : tsm_node_evict now tsm < tsm.node_table.nodes.length := by
            rcases tsm_node_evict_bound now tsm with h | h
            · exact absurd h hev
            · exact h
          have hfr := tsm_node_free_frame tsm (tsm_node_evict now tsm)
          apply lookup_after_phantom
          · rw [hfr.1]; exact ho
          · intro j hj
            unfold node_matches
            rw [(hfr.2 j).1, (hfr.2 j).2 (by omega)]
            exact hno j (by omega)
      · rw [if_neg hempty] at hget
        simp only [Option.some.injEq, Prod.mk.injEq] at hget
        obtain ⟨hi, ht⟩ := hget
        subst ht
        rcases get_scan_empty node_id tsm.node_table.nodes 0 UINT16_MAX hno (by omega)
          with h | h | h
        · exact absurd h.1 hempty
        · obtain ⟨_, k, hk1, hk2, hk3, hk4⟩ := h
          have hik : i = k := by omega
          subst hik
          rw [← hi]
          apply lookup_after_phantom
          · rw [hi]; exact hk2
          · intro j hj
            exact hno j (by omega)
        · exact absurd rfl h.1
    · rw [if_neg hmatch] at hget
      simp only [Option.some.injEq, Prod.mk.injEq] at hget
      obtain ⟨hi, ht⟩ := hget
      subst ht
      unfold tsm_node_lookup
      cases hl : tsm_node_lookup_scan node_id tsm.node_table.nodes 0 with
      | ok m =>
        rw [hl] at hm
        simp only [] at hm
        rw [← hi, hm]
      | err e =>
        rw [hl] at hm
        exact absurd hm hmatch
  · rw [tsm_node_lookup_err_iff]
    constructor
    · intro h j hj hne heq
      exact h j hj ⟨hne, heq.symm⟩
    · intro h j hj hm
      exact h j hj hm.1 hm.2.symm

/-- Witness of `tsm_node_get_then_lookup`: an id that is not in the table is placed in the
unused entry 2 and found there. -/
theorem tsm_node_get_then_lookup_witness :
    mesh_example.node_table.nodes.length ≤ UINT16_MAX ∧
    tsm_node_lookup mesh_example 7 = .err .ENODEV ∧
    tsm_node_get 200 mesh_example 7 = some (2, tsm_node_init_phantom mesh_example 2 7) ∧
    tsm_node_lookup (tsm_node_init_phantom mesh_example 2 7) 7 = .ok 2 :=
  ⟨by decide, by decide, by decide,
    (tsm_node_get_then_lookup 200 mesh_example 7 (by decide)).1 2
      (tsm_node_init_phantom mesh_example 2 7) (by decide)⟩

/-! ## Claim C3: the cascade of `tsm_node_free` -/

theorem not_orig_via_unset (t : tsm_context) (r : Nat)
    (hN : t.node_table.paths.length ≤ UINT8_MAX) : ¬ orig_via t r UINT16_MAX := by
  intro h
  have := h.1
  simp only [UINT16_MAX, UINT8_MAX] at *
  omega

theorem refs_done_mono {r : Nat} {a b : tsm_context} (o n : Nat)
    (hN : a.node_table.paths.length ≤ UINT8_MAX) (hab : free_rel r a b)
    (h : refs_done a r o n) : refs_done b r o n := by
  intro j hj hv
  rcases hab.refs o j with he | ⟨he, _, _⟩
  · rw [he] at hv
    exact h j hj ((orig_via_of_free_rel hab _).1 hv)
  · rw [he] at hv
    exact not_orig_via_unset b r (by rw [hab.paths_len]; exact hN) hv

theorem node_default_of_le (t : tsm_context) (o : Nat) (h : t.node_table.nodes.length ≤ o) :
    t.node o = default := by
  unfold tsm_context.node
  exact getD_of_length_le _ _ _ h

theorem lt_nodes_of_refs (t : tsm_context) (o k : Nat) (h : k < (t.node o).paths_refs.length) :
    o < t.node_table.nodes.length := by
  by_contra hc
  rw [node_default_of_le t o (by omega)] at h
  simp [default] at h

theorem other_ref_done (r o k : Nat) (t : tsm_context)
    (hN : t.node_table.paths.length ≤ UINT8_MAX)
    (hk : k < (t.node o).paths_refs.length) :
    ¬ orig_via (tsm_node_free_other_ref r o k t) r
      (((tsm_node_free_other_ref r o k t).node o).paths_refs.getD k 0) := by
  have ho := lt_nodes_of_refs t o k hk
  unfold tsm_node_free_other_ref
  simp only []
  split_ifs with h1 h2 h3
  · intro hv; have := hv.1; omega
  · rw [node_path_free, node_set_node_self _ _ _ ho]
    simp only []
    rw [getD_set_self _ _ _ _ hk]
    apply not_orig_via_unset
    simp only [tsm_node_path_free, tsm_context.set_path, tsm_context.set_node, List.length_set]
    exact hN
  · intro hv; exact h3 hv.2.2
  · intro hv; have := hv.2.1; omega

theorem other_refs_loop_done (r o : Nat) (t : tsm_context) (hor : o ≠ r)
    (hN : t.node_table.paths.length ≤ UINT8_MAX)
    (hne : (t.node o).protect_window.last_idx < TSM_NODE_SEQNO_CACHE_SIZE)
    (n : Nat) (hn : n ≤ (t.node o).paths_refs.length) :
    free_rel r t (for_loop (tsm_node_free_other_ref r o) n t) ∧
    refs_done (for_loop (tsm_node_free_other_ref r o) n t) r o n := by
  induction n with
  | zero => exact ⟨free_rel.refl r t, fun j hj => by omega⟩
  | succ k ih =>
    obtain ⟨hrel, hdone⟩ := ih (by omega)
    have hstep := free_rel_other_ref r o k (for_loop (tsm_node_free_other_ref r o) k t) hor
      (by rw [hrel.window o]; exact hne)
    refine ⟨free_rel.trans hrel hstep, ?_⟩
    intro j hj
    by_cases hjk : j = k
    · subst hjk
      exact other_ref_done r o j _ (by rw [hrel.paths_len]; exact hN)
        (by rw [hrel.refs_len o]; omega)
    · exact refs_done_mono o k (by rw [hrel.paths_len]; exact hN) hstep hdone j (by omega)

/-- After the cascade over the nodes `0 .. n-1`, none of them has a reference left that names
an originator entry with router `r`. -/
theorem cascade_done (r : Nat) (t : tsm_context)
    (hN : t.node_table.paths.length ≤ UINT8_MAX) (n : Nat) :
    ∀ o, o < n → o ≠ r →
      (t.node o).protect_window.last_idx < TSM_NODE_SEQNO_CACHE_SIZE →
      refs_done (for_loop (tsm_node_free_other_node r) n t) r o
        (t.node o).paths_refs.length := by
  induction n with
  | zero => intro o ho; omega
  | succ k ih =>
    intro o ho hor hne
    have hrel := free_rel_cascade r k t
    have hstep := free_rel_other_node r k (for_loop (tsm_node_free_other_node r) k t)
    by_cases hok : o = k
    · subst hok
      show refs_done (tsm_node_free_other_node r o _) r o _
      generalize for_loop (tsm_node_free_other_node r) o t = s at hrel hstep ⊢
      unfold tsm_node_free_other_node
      simp only []
      rw [if_neg (by
        rw [hrel.window o]
        intro hc
        rcases hc with hc | hc
        · omega
        · exact hor hc)]
      rw [hrel.refs_len o]
      have := other_refs_loop_done r o s hor
        (by rw [hrel.paths_len]; exact hN) (by rw [hrel.window o]; exact hne)
        (t.node o).paths_refs.length (by rw [hrel.refs_len o])
      exact this.2
    · exact refs_done_mono o _ (by rw [hrel.paths_len]; exact hN) hstep
        (ih o (by omega) hor hne)

/-- Invariant of the outer loop of `tsm_node_free` after `n` references of node `r`. -/
theorem refs_loop_inv (r : Nat) (tsm : tsm_context)
    (hN : tsm.node_table.paths.length ≤ UINT8_MAX) (n : Nat) :
    free_rel r tsm (for_loop (tsm_node_free_ref r) n tsm) ∧
    (∀ i, i < n → (tsm.node r).paths_refs.getD i 0 % 256 < tsm.node_table.paths.length →
      ((for_loop (tsm_node_free_ref r) n tsm).path
        ((tsm.node r).paths_refs.getD i 0 % 256)).first = UINT8_MAX) ∧
    ((∃ i, i < n ∧
        (tsm.node r).paths_refs.getD i 0 % 256 < tsm.node_table.originator_start_idx) →
      ∀ o, o < tsm.node_table.nodes.length → o ≠ r →
        (tsm.node o).protect_window.last_idx < TSM_NODE_SEQNO_CACHE_SIZE →
        refs_done (for_loop (tsm_node_free_ref r) n tsm) r o
          (tsm.node o).paths_refs.length) := by
  induction n with
  | zero =>
    exact ⟨free_rel.refl r tsm, fun i hi => by omega, fun ⟨i, hi, _⟩ => by omega⟩
  | succ k ih =>
    obtain ⟨hrel, hfreed, hdone⟩ := ih
    have hstep := free_rel_ref r k (for_loop (tsm_node_free_ref r) k tsm)
    have hall := free_rel.trans hrel hstep
    refine ⟨hall, ?_, ?_⟩
    · intro i hi hlt
      by_cases hik : i = k
      · subst hik
        show ((tsm_node_free_ref r i _).path _).first = UINT8_MAX
        generalize for_loop (tsm_node_free_ref r) i tsm = s at hrel hstep ⊢
        unfold tsm_node_free_ref
        simp only []
        rw [hrel.self_refs]
        have hc := free_rel_cascade r s.node_table.nodes.length s
        split_ifs with h1 h2 h3
        · rw [path_path_free, if_pos ⟨rfl, h2⟩]
        · exact absurd (by rw [hc.paths_len, hrel.paths_len]; exact hlt) h2
        · rw [path_path_free, if_pos ⟨rfl, h3⟩]
        · exact absurd (by rw [hrel.paths_len]; exact hlt) h3
      · rcases hstep.first ((tsm.node r).paths_refs.getD i 0 % 256) with h | h
        · show ((tsm_node_free_ref r k _).path _).first = UINT8_MAX
          rw [h]; exact hfreed i (by omega) hlt
        · exact h
    · rintro ⟨i, hi, hlt⟩ o ho hor hne
      by_cases hik : i = k
      · subst hik
        show refs_done (tsm_node_free_ref r i _) r o _
        generalize for_loop (tsm_node_free_ref r) i tsm = s at hrel hstep ⊢
        unfold tsm_node_free_ref
        simp only []
        rw [hrel.self_refs, hrel.start_idx, if_pos hlt]
        have hc := free_rel_cascade r s.node_table.nodes.length s
        have hd := cascade_done r s
          (by rw [hrel.paths_len]; exact hN)
          s.node_table.nodes.length o
          (by rw [hrel.nodes_len]; exact ho) hor (by rw [hrel.window o]; exact hne)
        rw [hrel.refs_len o] at hd
        split_ifs with h2
        · exact refs_done_mono o _ (by rw [hc.paths_len, hrel.paths_len]; exact hN)
            (free_rel_path_free r _ _) hd
        · exact hd
      · exact refs_done_mono o _ (by rw [hrel.paths_len]; exact hN) hstep
          (hdone ⟨i, by omega, hlt⟩ o ho hor hne)

theorem orig_via_iff_names (tsm : tsm_context) (r v : Nat)
    (hN : tsm.node_table.paths.length ≤ UINT8_MAX)
    (hv : v = UINT16_MAX ∨ v < tsm.node_table.paths.length) :
    orig_via tsm r v ↔ names_originator_via tsm r v := by
  unfold orig_via names_originator_via
  simp only [UINT8_MAX, UINT16_MAX] at *
  rcases hv with hv | hv
  · subst hv
    constructor
    · intro h; have := h.1; omega
    · intro h; have := h.2.1; omega
  · have : v % 256 = v := Nat.mod_eq_of_lt (by omega)
    rw [this]
    constructor
    · intro h; exact ⟨h.2.1, h.1, h.2.2⟩
    · intro h; exact ⟨h.2.1, h.1, h.2.2⟩

theorem originator_lookup_scan_err (t : tsm_context) (refs : List Nat)
    (h : ∀ j, j < refs.length →
      ¬ (refs.getD j 0 ≥ t.node_table.originator_start_idx ∧
          refs.getD j 0 < t.node_table.paths.length)) :
    tsm_originator_lookup_scan t refs = .err .ENOLINK := by
  induction refs with
  | nil => rfl
  | cons v rest ih =>
    unfold tsm_originator_lookup_scan
    rw [if_neg (by simpa using h 0 (by simp))]
    apply ih
    intro j hj
    simpa using h (j + 1) (by simpa using hj)

/-- The state after `tsm_node_free` of a node in use: the frame of the loops, then the node is
marked unused. -/
theorem tsm_node_free_spec (tsm : tsm_context) (r : Nat)
    (hN : tsm.node_table.paths.length ≤ UINT8_MAX)
    (hr : r < tsm.node_table.nodes.length)
    (hused : (tsm.node r).protect_window.last_idx < TSM_NODE_SEQNO_CACHE_SIZE) :
    ∃ t0, free_rel r tsm t0 ∧
      (∀ i, i < (tsm.node r).paths_refs.length →
        (tsm.node r).paths_refs.getD i 0 % 256 < tsm.node_table.paths.length →
        (t0.path ((tsm.node r).paths_refs.getD i 0 % 256)).first = UINT8_MAX) ∧
      ((∃ i, i < (tsm.node r).paths_refs.length ∧
          (tsm.node r).paths_refs.getD i 0 % 256 < tsm.node_table.originator_start_idx) →
        ∀ o, o < tsm.node_table.nodes.length → o ≠ r →
          (tsm.node o).protect_window.last_idx < TSM_NODE_SEQNO_CACHE_SIZE →
          refs_done t0 r o (tsm.node o).paths_refs.length) ∧
      (∀ p, (tsm_node_free tsm r).path p = t0.path p) ∧
      (∀ o, o ≠ r → (tsm_node_free tsm r).node o = t0.node o) ∧
      ((tsm_node_free tsm r).node r).protect_window.last_idx = TSM_NODE_SEQNO_CACHE_SIZE ∧
      (tsm_node_free tsm r).node_table.originator_start_idx
        = tsm.node_table.originator_start_idx ∧
      (tsm_node_free tsm r).node_table.paths.length = tsm.node_table.paths.length ∧
      (tsm_node_free tsm r).node_table.nodes.length = tsm.node_table.nodes.length := by
  obtain ⟨hrel, hfreed, hdone⟩ := refs_loop_inv r tsm hN (tsm.node r).paths_refs.length
  refine ⟨_, hrel, hfreed, hdone, ?_, ?_, ?_, ?_, ?_, ?_⟩
  · intro p; rw [tsm_node_free_eq tsm r hused]; rfl
  · intro o ho; rw [tsm_node_free_eq tsm r hused, node_set_node_ne _ _ _ _ (Ne.symm ho)]
  · rw [tsm_node_free_eq tsm r hused, node_set_node_self _ _ _ (by rw [hrel.nodes_len]; exact hr)]
  · rw [tsm_node_free_eq tsm r hused]; exact hrel.start_idx
  · rw [tsm_node_free_eq tsm r hused]; exact hrel.paths_len
  · rw [tsm_node_free_eq tsm r hused, nodes_length_set_node]; exact hrel.nodes_len

/-- Claim C3: in a state whose path references are valid (each is `0xFFFF` or a path index) and
whose path table has at most 255 slots, for a node `r` in use that owns a neighbour path, after
`tsm_node_free(r)`: (a) entry `r` is unused; (b) every path slot `r` referenced is free; (c) in
every other node in use each reference that named an originator slot with `router_idx = r` is
`0xFFFF` and that slot is free, all other references being unchanged; (d) a node whose BEST
reference was such an originator gets `-ENAVAIL` from `tsm_node_best_next_hop` and, if its id
resolves to it and it has no other originator path, `-ENOLINK` from `tsm_originator_lookup`.
Freeing an unused entry changes nothing. -/
theorem tsm_node_free_cascade (tsm : tsm_context) (r : Nat)
    (hN : tsm.node_table.paths.length ≤ UINT8_MAX)
    (hvalid : ∀ o, o < tsm.node_table.nodes.length →
      ∀ j, j < (tsm.node o).paths_refs.length →
        (tsm.node o).paths_refs.getD j 0 = UINT16_MAX ∨
        (tsm.node o).paths_refs.getD j 0 < tsm.node_table.paths.length)
    (hused : (tsm.node r).protect_window.last_idx < TSM_NODE_SEQNO_CACHE_SIZE)
    (hnb : ∃ i, i < (tsm.node r).paths_refs.length ∧
      (tsm.node r).paths_refs.getD i 0 < tsm.node_table.originator_start_idx ∧
      (tsm.node r).paths_refs.getD i 0 < tsm.node_table.paths.length) :
    -- (a) the slot is empty
    ((tsm_node_free tsm r).node r).protect_window.last_idx ≥ TSM_NODE_SEQNO_CACHE_SIZE ∧
    -- (b) every path slot the node referenced is free
    (∀ i, i < (tsm.node r).paths_refs.length →
      (tsm.node r).paths_refs.getD i 0 < tsm.node_table.paths.length →
      ((tsm_node_free tsm r).path ((tsm.node r).paths_refs.getD i 0)).first = UINT8_MAX) ∧
    -- (c) references of the other nodes in use
    (∀ o j, o ≠ r →
      (tsm.node o).protect_window.last_idx < TSM_NODE_SEQNO_CACHE_SIZE →
      j < (tsm.node o).paths_refs.length →
      (names_originator_via tsm r ((tsm.node o).paths_refs.getD j 0) →
        ((tsm_node_free tsm r).node o).paths_refs.getD j 0 = UINT16_MAX ∧
        ((tsm_node_free tsm r).path ((tsm.node o).paths_refs.getD j 0)).first = UINT8_MAX) ∧
      (¬ names_originator_via tsm r ((tsm.node o).paths_refs.getD j 0) →
        ((tsm_node_free tsm r).node o).paths_refs.getD j 0
          = (tsm.node o).paths_refs.getD j 0)) ∧
    -- (d) a node whose BEST reference was such an originator
    (∀ o, o ≠ r →
      (tsm.node o).protect_window.last_idx < TSM_NODE_SEQNO_CACHE_SIZE →
      TSM_NODE_PATHS_BEST < (tsm.node o).paths_refs.length →
      names_originator_via tsm r ((tsm.node o).paths_refs.getD TSM_NODE_PATHS_BEST 0) →
      tsm_node_best_next_hop (tsm_node_free tsm r) o = .err .ENAVAIL ∧
      (tsm_node_lookup tsm (tsm.node o).node_id = .ok o →
        (∀ j, j < (tsm.node o).paths_refs.length → j ≠ TSM_NODE_PATHS_BEST →
          ¬ (tsm.node_table.originator_start_idx ≤ (tsm.node o).paths_refs.getD j 0 ∧
              (tsm.node o).paths_refs.getD j 0 < tsm.node_table.paths.length)) →
        tsm_originator_lookup (tsm_node_free tsm r) (tsm.node o).node_id
          = .err .ENOLINK)) ∧
    -- freeing an empty slot changes nothing
    (∀ e, (tsm.node e).protect_window.last_idx ≥ TSM_NODE_SEQNO_CACHE_SIZE →
      tsm_node_free tsm e = tsm) := by
  obtain ⟨i0, hi0, hi0s, hi0n⟩ := hnb
  have hr : r < tsm.node_table.nodes.length := lt_nodes_of_refs tsm r i0 hi0
  have hN' : tsm.node_table.paths.length ≤ 255 := hN
  obtain ⟨t0, hrel, hfreed, hdone, hpath, hnode, hlast, hstart, hplen, hnlen⟩ :=
    tsm_node_free_spec tsm r hN hr hused
  have hdone' := hdone ⟨i0, hi0, by
    rw [Nat.mod_eq_of_lt (by omega)]; exact hi0s⟩
  -- the references of another node in use
  have hc : ∀ o j, o ≠ r →
      (tsm.node o).protect_window.last_idx < TSM_NODE_SEQNO_CACHE_SIZE →
      j < (tsm.node o).paths_refs.length →
      (names_originator_via tsm r ((tsm.node o).paths_refs.getD j 0) →
        ((tsm_node_free tsm r).node o).paths_refs.getD j 0 = UINT16_MAX ∧
        ((tsm_node_free tsm r).path ((tsm.node o).paths_refs.getD j 0)).first = UINT8_MAX) ∧
      (¬ names_originator_via tsm r ((tsm.node o).paths_refs.getD j 0) →
        ((tsm_node_free tsm r).node o).paths_refs.getD j 0
          = (tsm.node o).paths_refs.getD j 0) := by
    intro o j hor hne hj
    have ho := lt_nodes_of_refs tsm o j hj
    have hiff := orig_via_iff_names tsm r _ hN (hvalid o ho j hj)
    rw [hnode o hor]
    constructor
    · intro hnames
      have hv := hiff.2 hnames
      have hmod : (tsm.node o).paths_refs.getD j 0 % 256 = (tsm.node o).paths_refs.getD j 0 :=
        Nat.mod_eq_of_lt (by have := hnames.2.1; omega)
      rcases hrel.refs o j with h | ⟨h1, _, h3⟩
      · exfalso
        apply hdone' o ho hor hne j hj
        rw [h]
        exact (orig_via_of_free_rel hrel _).2 hv
      · rw [hpath, ← hmod]
        exact ⟨h1, h3⟩
    · intro hnames
      rcases hrel.refs o j with h | ⟨_, h2, _⟩
      · exact h
      · exact absurd (hiff.1 h2) hnames
  refine ⟨by rw [hlast], ?_, hc, ?_, fun e he => tsm_node_free_empty tsm e he⟩
  · intro i hi hlt
    have hmod : (tsm.node r).paths_refs.getD i 0 % 256 = (tsm.node r).paths_refs.getD i 0 :=
      Nat.mod_eq_of_lt (by omega)
    rw [hpath, ← hmod]
    exact hfreed i hi (by rw [hmod]; exact hlt)
  · intro o hor hne hbest hnames
    have hb := (hc o TSM_NODE_PATHS_BEST hor hne hbest).1 hnames
    constructor
    · unfold tsm_node_best_next_hop
      simp only []
      rw [hb.1, if_pos (by rw [hplen]; simp only [UINT16_MAX, UINT8_MAX] at *; omega)]
    · intro hlook hno
      have hlook' : tsm_node_lookup (tsm_node_free tsm r) (tsm.node o).node_id = .ok o := by
        unfold tsm_node_lookup at hlook ⊢
        rw [lookup_scan_ok_iff] at hlook ⊢
        obtain ⟨k, hk, hk2, hk3, hk4⟩ := hlook
        have hok : o = k := by omega
        subst hok
        refine ⟨o, by omega, by rw [hnlen]; exact hk2, ?_, ?_⟩
        · show node_matches _ ((tsm_node_free tsm r).node o)
          rw [hnode o hor]
          exact ⟨by rw [hrel.window o]; exact hne, (hrel.node_id o).symm⟩
        · intro k' hk'
          show ¬ node_matches _ ((tsm_node_free tsm r).node k')
          by_cases hk'r : k' = r
          · subst hk'r
            intro hm
            have := hm.1
            rw [hlast] at this
            omega
          · rw [hnode k' hk'r]
            intro hm
            apply hk4 k' hk'
            have h1 := hm.1
            have h2 := hm.2
            rw [hrel.window k'] at h1
            rw [hrel.node_id k'] at h2
            exact ⟨h1, h2⟩
      unfold tsm_originator_lookup
      rw [hlook']
      simp only []
      rw [originator_lookup_scan_err]
      intro j hj
      rw [hnode o hor, hrel.refs_len o] at hj
      rw [hstart, hplen]
      by_cases hjb : j = TSM_NODE_PATHS_BEST
      · subst hjb
        rw [hb.1]
        simp only [UINT16_MAX, UINT8_MAX] at *
        omega
      · have hnn : ¬ names_originator_via tsm r ((tsm.node o).paths_refs.getD j 0) := by
          intro h
          exact hno j hj hjb ⟨h.1, h.2.1⟩
        rw [(hc o j hor hne hj).2 hnn]
        intro h
        exact hno j hj hjb ⟨h.1, h.2⟩

/-- Witness of `tsm_node_free_cascade`: freeing the neighbour node 0 of `mesh_example` orphans
the originator node 1. -/
theorem tsm_node_free_cascade_witness :
    mesh_example.node_table.paths.length ≤ UINT8_MAX ∧
    names_originator_via mesh_example 0 ((mesh_example.node 1).paths_refs.getD 0 0) ∧
    ((tsm_node_free mesh_example 0).node 0).protect_window.last_idx
      ≥ TSM_NODE_SEQNO_CACHE_SIZE ∧
    (((tsm_node_free mesh_example 0).node 1).paths_refs.getD 0 0 = UINT16_MAX ∧
      ((tsm_node_free mesh_example 0).path 3).first = UINT8_MAX) ∧
    tsm_node_best_next_hop (tsm_node_free mesh_example 0) 1 = .err .ENAVAIL ∧
    tsm_originator_lookup (tsm_node_free mesh_example 0) 0xCAFFE031 = .err .ENOLINK :=
  ⟨by decide, by decide,
    (tsm_node_free_cascade mesh_example 0 (by decide) (by decide) (by decide)
      ⟨0, by decide, by decide, by decide⟩).1,
    ((tsm_node_free_cascade mesh_example 0 (by decide) (by decide) (by decide)
      ⟨0, by decide, by decide, by decide⟩).2.2.1 1 0 (by decide) (by decide)
        (by decide)).1 (by decide),
    ((tsm_node_free_cascade mesh_example 0 (by decide) (by decide) (by decide)
      ⟨0, by decide, by decide, by decide⟩).2.2.2.1 1 (by decide) (by decide) (by decide)
        (by decide)).1,
    ((tsm_node_free_cascade mesh_example 0 (by decide) (by decide) (by decide)
      ⟨0, by decide, by decide, by decide⟩).2.2.2.1 1 (by decide) (by decide) (by decide)
        (by decide)).2 (by decide) (by decide)⟩

/-! ## Claim C10: the steps of `tsm_neighbour_get` -/

theorem lowest_index_from_some (p : Nat → Bool) (n i k : Nat) :
    lowest_index_from p n i = some k ↔
      i ≤ k ∧ k < i + n ∧ p k = true ∧ ∀ j, i ≤ j → j < k → p j = false := by
  induction n generalizing i with
  | zero =>
    simp only [lowest_index_from]
    constructor
    · intro h; cases h
    · rintro ⟨h1, h2, _⟩; omega
  | succ m ih =>
    simp only [lowest_index_from]
    by_cases hp : p i = true
    · rw [if_pos hp]
      constructor
      · intro h
        have hk : i = k := Option.some.inj h
        subst hk
        exact ⟨Nat.le_refl _, by omega, hp, fun j h1 h2 => by omega⟩
      · rintro ⟨h1, _, _, h4⟩
        by_cases hik : i = k
        · rw [hik]
        · have := h4 i (Nat.le_refl _) (by omega)
          rw [this] at hp; cases hp
    · rw [if_neg hp, ih]
      constructor
      · rintro ⟨h1, h2, h3, h4⟩
        refine ⟨by omega, by omega, h3, ?_⟩
        intro j hj1 hj2
        by_cases hji : j = i
        · subst hji; simpa using hp
        · exact h4 j (by omega) hj2
      · rintro ⟨h1, h2, h3, h4⟩
        have hik : i ≠ k := by
          intro h; subst h; exact hp h3
        exact ⟨by omega, by omega, h3, fun j hj1 hj2 => h4 j (by omega) hj2⟩

theorem lowest_index_from_none (p : Nat → Bool) (n i : Nat) :
    lowest_index_from p n i = none ↔ ∀ j, i ≤ j → j < i + n → p j = false := by
  induction n generalizing i with
  | zero =>
    simp only [lowest_index_from]
    constructor
    · intro _ j h1 h2; omega
    · intro _; trivial
  | succ m ih =>
    simp only [lowest_index_from]
    by_cases hp : p i = true
    · rw [if_pos hp]
      constructor
      · intro h; cases h
      · intro h
        have := h i (Nat.le_refl _) (by omega)
        rw [this] at hp; cases hp
    · rw [if_neg hp, ih]
      constructor
      · intro h j hj1 hj2
        by_cases hji : j = i
        · subst hji; simpa using hp
        · exact h j (by omega) (by omega)
      · intro h j hj1 hj2
        exact h j (by omega) (by omega)

/-- Characterisation of `lowest_index`: it is the least index below `n` that satisfies `p`. -/
theorem lowest_index_some (p : Nat → Bool) (n k : Nat) :
    lowest_index p n = some k ↔ k < n ∧ p k = true ∧ ∀ j, j < k → p j = false := by
  unfold lowest_index
  rw [lowest_index_from_some]
  constructor
  · rintro ⟨_, h2, h3, h4⟩
    exact ⟨by omega, h3, fun j hj => h4 j (Nat.zero_le _) hj⟩
  · rintro ⟨h2, h3, h4⟩
    exact ⟨Nat.zero_le _, by omega, h3, fun j _ hj => h4 j hj⟩

theorem lowest_index_none (p : Nat → Bool) (n : Nat) :
    lowest_index p n = none ↔ ∀ j, j < n → p j = false := by
  unfold lowest_index
  rw [lowest_index_from_none]
  constructor
  · intro h j hj; exact h j (Nat.zero_le _) (by omega)
  · intro h j _ hj; exact h j (by omega)

theorem drop_eq_getD_cons {α : Type} (l : List α) (i : Nat) (d : α) (h : i < l.length) :
    l.drop i = l.getD i d :: l.drop (i + 1) := by
  induction l generalizing i with
  | nil => simp at h
  | cons x xs ih =>
    cases i with
    | zero => simp
    | succ k =>
      simp only [List.drop_succ_cons, List.getD_cons_succ]
      exact ih k (by simpa using h)

theorem drop_length_nil {α : Type} (l : List α) (i : Nat) (h : l.length ≤ i) : l.drop i = [] := by
  simp [List.drop_eq_nil_iff, h]

theorem lowest_index_from_succ_true (p : Nat → Bool) (n i : Nat) (h : p i = true) :
    lowest_index_from p (n + 1) i = some i := by
  simp only [lowest_index_from, h, if_true]

theorem lowest_index_from_succ_false (p : Nat → Bool) (n i : Nat) (h : p i = false) :
    lowest_index_from p (n + 1) i = lowest_index_from p n (i + 1) := by
  simp only [lowest_index_from, h, Bool.false_eq_true, if_false]

theorem neighbour_get_scan_cons (t : tsm_context) (port_id v : Nat) (rest : List Nat)
    (i e : Nat) :
    tsm_neighbour_get_scan t port_id (v :: rest) i e =
      if v = UINT16_MAX then
        tsm_neighbour_get_scan t port_id rest (i + 1) (if e = UINT16_MAX then i else e)
      else if v < t.node_table.originator_start_idx then
        if (t.path v).port_id = port_id then (v, e)
        else tsm_neighbour_get_scan t port_id rest (i + 1) e
      else tsm_neighbour_get_scan t port_id rest (i + 1) e := rfl

theorem neighbour_get_scan_spec (t : tsm_context) (port_id : Nat) (L : List Nat)
    (hosi : t.node_table.originator_start_idx ≤ UINT16_MAX)
    (hL : L.length ≤ UINT8_MAX) (n i e : Nat) (hn : i + n = L.length)
    (he : e = UINT16_MAX ∨ e < i) :
    (∀ k, lowest_index_from (fun k => decide (L.getD k 0 < t.node_table.originator_start_idx ∧
        (t.path (L.getD k 0)).port_id = port_id)) n i = some k →
      (tsm_neighbour_get_scan t port_id (L.drop i) i e).1 = L.getD k 0) ∧
    (lowest_index_from (fun k => decide (L.getD k 0 < t.node_table.originator_start_idx ∧
        (t.path (L.getD k 0)).port_id = port_id)) n i = none →
      (tsm_neighbour_get_scan t port_id (L.drop i) i e).1 = UINT16_MAX ∧
      (e ≠ UINT16_MAX → (tsm_neighbour_get_scan t port_id (L.drop i) i e).2 = e) ∧
      (e = UINT16_MAX →
        (∀ k, lowest_index_from (fun k => decide (L.getD k 0 = UINT16_MAX)) n i = some k →
          (tsm_neighbour_get_scan t port_id (L.drop i) i e).2 = k) ∧
        (lowest_index_from (fun k => decide (L.getD k 0 = UINT16_MAX)) n i = none →
          (tsm_neighbour_get_scan t port_id (L.drop i) i e).2 = UINT16_MAX))) := by
  induction n generalizing i e with
  | zero =>
    rw [drop_length_nil L i (by omega)]
    refine ⟨fun k h => ?_, fun _ => ⟨rfl, fun _ => rfl, fun h => ⟨fun k h' => ?_, fun _ => h⟩⟩⟩
    · simp [lowest_index_from] at h
    · simp [lowest_index_from] at h'
  | succ m ih =>
    have hi : i < L.length := by omega
    have hi255 : i ≠ UINT16_MAX := by simp only [UINT16_MAX, UINT8_MAX] at *; omega
    have he1 : e = UINT16_MAX ∨ e < i + 1 := by
      rcases he with he | he
      · left; exact he
      · right; omega
    rw [drop_eq_getD_cons L i 0 hi, neighbour_get_scan_cons]
    by_cases h1 : L.getD i 0 = UINT16_MAX
    · -- an empty reference
      have hpm : decide (L.getD i 0 < t.node_table.originator_start_idx ∧
          (t.path (L.getD i 0)).port_id = port_id) = false := by
        rw [decide_eq_false_iff_not]
        intro h; have := h.1; omega
      have hpe : decide (L.getD i 0 = UINT16_MAX) = true := by
        rw [decide_eq_true_iff]; exact h1
      rw [if_pos h1, lowest_index_from_succ_false _ _ _ hpm,
        lowest_index_from_succ_true (fun k => decide (L.getD k 0 = UINT16_MAX)) _ _ hpe]
      have he' : (if e = UINT16_MAX then i else e) = UINT16_MAX ∨
          (if e = UINT16_MAX then i else e) < i + 1 := by
        split_ifs with hh
        · right; omega
        · right; rcases he with he | he
          · exact absurd he hh
          · omega
      have hne' : (if e = UINT16_MAX then i else e) ≠ UINT16_MAX := by
        split_ifs with hh
        · exact hi255
        · exact hh
      obtain ⟨iha, ihb⟩ := ih (i + 1) (if e = UINT16_MAX then i else e) (by omega) he'
      refine ⟨iha, ?_⟩
      intro hnone
      obtain ⟨hb1, hb2, _⟩ := ihb hnone
      refine ⟨hb1, ?_, ?_⟩
      · intro hene
        rw [hb2 hne', if_neg hene]
      · intro hee
        refine ⟨?_, fun h => by cases h⟩
        intro k hk
        rw [hb2 hne', if_pos hee]
        exact Option.some.inj hk
    · have hpe : decide (L.getD i 0 = UINT16_MAX) = false := by
        rw [decide_eq_false_iff_not]; exact h1
      rw [if_neg h1, lowest_index_from_succ_false
        (fun k => decide (L.getD k 0 = UINT16_MAX)) _ _ hpe]
      by_cases h2 : L.getD i 0 < t.node_table.originator_start_idx
      · rw [if_pos h2]
        by_cases h3 : (t.path (L.getD i 0)).port_id = port_id
        · have hpm : decide (L.getD i 0 < t.node_table.originator_start_idx ∧
              (t.path (L.getD i 0)).port_id = port_id) = true := by
            rw [decide_eq_true_iff]; exact ⟨h2, h3⟩
          rw [if_pos h3, lowest_index_from_succ_true _ _ _ hpm]
          refine ⟨?_, fun h => by cases h⟩
          intro k hk
          rw [← Option.some.inj hk]
        · have hpm : decide (L.getD i 0 < t.node_table.originator_start_idx ∧
              (t.path (L.getD i 0)).port_id = port_id) = false := by
            rw [decide_eq_false_iff_not]; intro h; exact h3 h.2
          rw [if_neg h3, lowest_index_from_succ_false _ _ _ hpm]
          exact ih (i + 1) e (by omega) he1
      · have hpm : decide (L.getD i 0 < t.node_table.originator_start_idx ∧
            (t.path (L.getD i 0)).port_id = port_id) = false := by
          rw [decide_eq_false_iff_not]; intro h; exact h2 h.1
        rw [if_neg h2, lowest_index_from_succ_false _ _ _ hpm]
        exact ih (i + 1) e (by omega) he1

theorem neighbour_lookup_scan_spec (t : tsm_context) (port_id : Nat) (L : List Nat)
    (n i : Nat) (hn : i + n = L.length) :
    tsm_neighbour_lookup_scan t port_id (L.drop i) =
      match lowest_index_from (fun k => decide (L.getD k 0 < t.node_table.originator_start_idx ∧
          (t.path (L.getD k 0)).port_id = port_id)) n i with
      | some k => .ok (L.getD k 0)
      | none => .err .ENOLINK := by
  induction n generalizing i with
  | zero =>
    rw [drop_length_nil L i (by omega)]
    simp only [lowest_index_from, tsm_neighbour_lookup_scan]
  | succ m ih =>
    have hi : i < L.length := by omega
    rw [drop_eq_getD_cons L i 0 hi, tsm_neighbour_lookup_scan]
    by_cases h2 : L.getD i 0 < t.node_table.originator_start_idx
    · rw [if_pos h2]
      by_cases h3 : (t.path (L.getD i 0)).port_id = port_id
      · have hpm : decide (L.getD i 0 < t.node_table.originator_start_idx ∧
            (t.path (L.getD i 0)).port_id = port_id) = true := by
          rw [decide_eq_true_iff]; exact ⟨h2, h3⟩
        rw [if_pos h3, lowest_index_from_succ_true _ _ _ hpm]
      · have hpm : decide (L.getD i 0 < t.node_table.originator_start_idx ∧
            (t.path (L.getD i 0)).port_id = port_id) = false := by
          rw [decide_eq_false_iff_not]; intro h; exact h3 h.2
        rw [if_neg h3, lowest_index_from_succ_false _ _ _ hpm]
        exact ih (i + 1) (by omega)
    · have hpm : decide (L.getD i 0 < t.node_table.originator_start_idx ∧
          (t.path (L.getD i 0)).port_id = port_id) = false := by
        rw [decide_eq_false_iff_not]; intro h; exact h2 h.1
      rw [if_neg h2, lowest_index_from_succ_false _ _ _ hpm]
      exact ih (i + 1) (by omega)

theorem neighbour_get_alloc_spec (t : tsm_context) (n i : Nat)
    (hn : i + n = t.node_table.originator_start_idx) :
    tsm_neighbour_get_alloc t (n + 1) i =
      match lowest_index_from (fun i => decide ((t.path i).first = UINT8_MAX)) n i with
      | some slot => .ok (slot, t.node_table.originator_start_idx)
      | none =>
        if t.node_table.originator_start_idx < t.node_table.paths.length ∧
            (t.path t.node_table.originator_start_idx).first = UINT8_MAX then
          .ok (t.node_table.originator_start_idx, t.node_table.originator_start_idx + 1)
        else .err .ENOMEM := by
  induction n generalizing i with
  | zero =>
    have hi : i = t.node_table.originator_start_idx := by omega
    simp only [lowest_index_from, tsm_neighbour_get_alloc]
    rw [if_pos hi, ← hi]
    simp only [tsm_path.throughput]
    split_ifs with a b c d <;> first | rfl | omega
  | succ m ih =>
    have hi : i ≠ t.node_table.originator_start_idx := by omega
    rw [tsm_neighbour_get_alloc, if_neg hi]
    simp only [tsm_path.heartbeat_period_s]
    by_cases hf : (t.path i).first = UINT8_MAX
    · have hp : decide ((t.path i).first = UINT8_MAX) = true := by
        rw [decide_eq_true_iff]; exact hf
      rw [if_pos hf, lowest_index_from_succ_true _ _ _ hp]
    · have hp : decide ((t.path i).first = UINT8_MAX) = false := by
        rw [decide_eq_false_iff_not]; exact hf
      rw [if_neg hf, lowest_index_from_succ_false _ _ _ hp]
      exact ih (i + 1) (by omega)

/-- What `tsm_node_free` leaves alone in the path table and in the shape of the node table. -/
theorem tsm_node_free_shape (tsm : tsm_context) (r : Nat) :
    (tsm_node_free tsm r).node_table.originator_start_idx
      = tsm.node_table.originator_start_idx ∧
    (tsm_node_free tsm r).node_table.paths.length = tsm.node_table.paths.length ∧
    ∀ o, ((tsm_node_free tsm r).node o).paths_refs.length = (tsm.node o).paths_refs.length := by
  by_cases h : (tsm.node r).protect_window.last_idx < TSM_NODE_SEQNO_CACHE_SIZE
  · rw [tsm_node_free_eq tsm r h]
    have hrel := free_rel_refs_loop r (tsm.node r).paths_refs.length tsm
    refine ⟨hrel.start_idx, hrel.paths_len, ?_⟩
    intro o
    rw [node_set_node]
    split_ifs with ho
    · rw [← ho.1]; exact hrel.refs_len r
    · exact hrel.refs_len o
  · rw [tsm_node_free_empty tsm r (by omega)]
    exact ⟨rfl, rfl, fun _ => rfl⟩

theorem tsm_node_init_phantom_shape (t : tsm_context) (o node_id : Nat) :
    (tsm_node_init_phantom t o node_id).node_table.originator_start_idx
      = t.node_table.originator_start_idx ∧
    (tsm_node_init_phantom t o node_id).node_table.paths.length = t.node_table.paths.length ∧
    ∀ j, ((tsm_node_init_phantom t o node_id).node j).paths_refs.length
      = (t.node j).paths_refs.length := by
  refine ⟨rfl, rfl, ?_⟩
  intro j
  rw [node_init_phantom]
  split_ifs with h
  · rw [← h.1]; simp
  · rfl

/-- The function `tsm_node_get` keeps the split index and the sizes of the arrays. -/
theorem tsm_node_get_shape (now : Nat) (tsm : tsm_context) (node_id idx : Nat)
    (t1 : tsm_context) (h : tsm_node_get now tsm node_id = some (idx, t1)) :
    t1.node_table.originator_start_idx = tsm.node_table.originator_start_idx ∧
    t1.node_table.paths.length = tsm.node_table.paths.length ∧
    ∀ o, (t1.node o).paths_refs.length = (tsm.node o).paths_refs.length := by
  unfold tsm_node_get at h
  simp only [] at h
  split_ifs at h with h1 h2 h3
  · simp only [Option.some.injEq, Prod.mk.injEq] at h
    obtain ⟨_, ht⟩ := h
    subst ht
    have hp := tsm_node_init_phantom_shape (tsm_node_free tsm (tsm_node_evict now tsm))
      (tsm_node_evict now tsm) node_id
    have hf := tsm_node_free_shape tsm (tsm_node_evict now tsm)
    exact ⟨hp.1.trans hf.1, hp.2.1.trans hf.2.1, fun o => (hp.2.2 o).trans (hf.2.2 o)⟩
  · simp only [Option.some.injEq, Prod.mk.injEq] at h
    obtain ⟨_, ht⟩ := h
    subst ht
    exact tsm_node_init_phantom_shape tsm _ node_id
  · simp only [Option.some.injEq, Prod.mk.injEq] at h
    obtain ⟨_, ht⟩ := h
    subst ht
    exact ⟨rfl, rfl, fun _ => rfl⟩

/-- On a state that satisfies the size constraints, the part of `tsm_neighbour_get` behind
`tsm_node_get` is the specified sequence of steps. -/
theorem neighbour_get_at_spec (t1 : tsm_context) (idx port_id : Nat)
    (hstart : t1.node_table.originator_start_idx ≤ UINT16_MAX)
    (hrefs : (t1.node idx).paths_refs.length ≤ UINT8_MAX) :
    tsm_neighbour_get_at t1 idx port_id = spec_neighbour_get t1 idx port_id := by
  have hscan := neighbour_get_scan_spec t1 port_id (t1.node idx).paths_refs hstart hrefs
    (t1.node idx).paths_refs.length 0 UINT16_MAX (by omega) (Or.inl rfl)
  have halloc := neighbour_get_alloc_spec t1 t1.node_table.originator_start_idx 0 (by omega)
  simp only [List.drop_zero] at hscan
  obtain ⟨hs1, hs2⟩ := hscan
  unfold tsm_neighbour_get_at spec_neighbour_get lowest_index
  simp only []
  cases hm : lowest_index_from (fun k =>
      decide ((t1.node idx).paths_refs.getD k 0 < t1.node_table.originator_start_idx ∧
        (t1.path ((t1.node idx).paths_refs.getD k 0)).port_id = port_id))
      (t1.node idx).paths_refs.length 0 with
  | some k =>
    have h1 := hs1 k hm
    have hk := (lowest_index_from_some _ _ _ _).1 hm
    have hlt : (t1.node idx).paths_refs.getD k 0 < t1.node_table.originator_start_idx := by
      have := hk.2.2.1
      rw [decide_eq_true_iff] at this
      exact this.1
    rw [if_neg (by rw [h1]; omega), h1]
  | none =>
    obtain ⟨h1, _, h3⟩ := hs2 hm
    obtain ⟨h3a, h3b⟩ := h3 trivial
    rw [if_pos h1]
    cases he : lowest_index_from (fun k =>
        decide ((t1.node idx).paths_refs.getD k 0 = UINT16_MAX))
        (t1.node idx).paths_refs.length 0 with
    | none =>
      rw [if_pos (h3b he)]
    | some e =>
      have h2 := h3a e he
      have hek := (lowest_index_from_some _ _ _ _).1 he
      rw [if_neg (by rw [h2]; simp only [UINT16_MAX, UINT8_MAX] at *; omega), h2, halloc]
      cases hf : lowest_index_from (fun i => decide ((t1.path i).first = UINT8_MAX))
          t1.node_table.originator_start_idx 0 with
      | some slot => rfl
      | none =>
        simp only []
        split_ifs <;> rfl

/-- Claim C10: on a state with `originator_start_idx <= N` (the assertion of the function) and
array sizes within the index types, `tsm_neighbour_get`, once `tsm_node_get` has yielded the
node entry, is the four specified steps `spec_neighbour_get`; and for a known node that already
references a neighbour slot with the port it returns that slot and the node index, changes
nothing, and `tsm_neighbour_lookup` returns the same pair. -/
theorem tsm_neighbour_get_steps (now : Nat) (tsm : tsm_context) (node_id port_id : Nat)
    (hstart : tsm.node_table.originator_start_idx ≤ tsm.node_table.paths.length)
    (hpaths : tsm.node_table.paths.length ≤ UINT16_MAX)
    (hnodes : tsm.node_table.nodes.length ≤ UINT16_MAX)
    (hrefs : ∀ o, o < tsm.node_table.nodes.length →
      (tsm.node o).paths_refs.length ≤ UINT8_MAX) :
    tsm_neighbour_get now tsm node_id port_id =
      (tsm_node_get now tsm node_id).map (fun r => spec_neighbour_get r.2 r.1 port_id) ∧
    (∀ i k, tsm_node_lookup tsm node_id = .ok i →
      lowest_index (fun k =>
        decide ((tsm.node i).paths_refs.getD k 0 < tsm.node_table.originator_start_idx ∧
          (tsm.path ((tsm.node i).paths_refs.getD k 0)).port_id = port_id))
        (tsm.node i).paths_refs.length = some k →
      tsm_neighbour_get now tsm node_id port_id
        = some (.ok (i, (tsm.node i).paths_refs.getD k 0), tsm) ∧
      tsm_neighbour_lookup tsm node_id port_id
        = .ok (i, (tsm.node i).paths_refs.getD k 0)) := by
  have hfirst : tsm_neighbour_get now tsm node_id port_id =
      (tsm_node_get now tsm node_id).map (fun r => spec_neighbour_get r.2 r.1 port_id) := by
    unfold tsm_neighbour_get
    cases hget : tsm_node_get now tsm node_id with
    | none => rfl
    | some r =>
      obtain ⟨idx, t1⟩ := r
      have hs := tsm_node_get_shape now tsm node_id idx t1 hget
      simp only [Option.map_some']
      have hr : (tsm.node idx).paths_refs.length ≤ UINT8_MAX := by
        by_cases hidx : idx < tsm.node_table.nodes.length
        · exact hrefs idx hidx
        · rw [node_default_of_le tsm idx (by omega)]
          simp [default]
      rw [neighbour_get_at_spec t1 idx port_id (by rw [hs.1]; omega)
        (by rw [hs.2.2 idx]; exact hr)]
  refine ⟨hfirst, ?_⟩
  intro i k hlook hk
  constructor
  · rw [hfirst, tsm_node_get_of_lookup now tsm node_id i hnodes hlook]
    simp only [Option.map_some']
    unfold spec_neighbour_get
    simp only [hk]
  · unfold tsm_neighbour_lookup
    rw [hlook]
    simp only []
    have := neighbour_lookup_scan_spec tsm port_id (tsm.node i).paths_refs
      (tsm.node i).paths_refs.length 0 (by omega)
    simp only [List.drop_zero] at this
    unfold lowest_index at hk
    rw [this, hk]

/-- Witness of `tsm_neighbour_get_steps`: in `mesh_example` the neighbour 0 is known on port 0
and returned unchanged; on port 1 it gets the slot at the split index, which grows to 2. -/
theorem tsm_neighbour_get_steps_witness :
    mesh_example.node_table.originator_start_idx ≤ mesh_example.node_table.paths.length ∧
    tsm_neighbour_get 200 mesh_example 0xCAFFE7E1 0 = some (.ok (0, 0), mesh_example) ∧
    tsm_neighbour_lookup mesh_example 0xCAFFE7E1 0 = .ok (0, 0) ∧
    tsm_neighbour_get 200 mesh_example 0xCAFFE7E1 1 =
      (tsm_node_get 200 mesh_example 0xCAFFE7E1).map
        (fun r => spec_neighbour_get r.2 r.1 1) ∧
    (tsm_neighbour_get 200 mesh_example 0xCAFFE7E1 1).map (fun r => r.1) = some (.ok (0, 1)) ∧
    (tsm_neighbour_get 200 mesh_example 0xCAFFE7E1 1).map
      (fun r => (r.2.node_table.originator_start_idx, (r.2.node 0).paths_refs, r.2.path 1))
      = some (2, [0, 1], ⟨0, 1, 0⟩) :=
  ⟨by decide,
    ((tsm_neighbour_get_steps 200 mesh_example 0xCAFFE7E1 0 (by decide) (by decide)
      (by decide) (by decide)).2 0 0 (by decide) (by decide)).1,
    ((tsm_neighbour_get_steps 200 mesh_example 0xCAFFE7E1 0 (by decide) (by decide)
      (by decide) (by decide)).2 0 0 (by decide) (by decide)).2,
    (tsm_neighbour_get_steps 200 mesh_example 0xCAFFE7E1 1 (by decide) (by decide)
      (by decide) (by decide)).1,
    by decide, by decide⟩

/-! ## Claim C1: RBBQ round trip across a wrap -/

set_option maxRecDepth 100000 in
/-- Claim C1 fails on the code, on a target of either byte order.  On a local device with 20
data bytes per transfer buffer the first frame (channel 1, 12 bytes) goes from A to B
unchanged.

On a big-endian target the second frame (channel 2, 4 bytes) is placed at the start of the
buffer with the watermark at 16, and B, whose read index stays at the watermark, does not
receive it: `rbbq_receive` finds nothing (`-ENOMEM`) or, when the wait for the receive signal
succeeds, delivers the bytes behind the watermark (channel 0, size 0).

On a little-endian target the device stores the read index 16 of B in the member
`other_read_idx` and A decodes 4096 from it.  With the write index 16 the second frame is
served in the middle, at offset 16: its payload pointer 20 is the end of the data region, the
four payload bytes fall on the members `this_write_idx` and `this_watermark_idx` of the control
record, which `rbbq_local_transmit` then sets to 24 and 20, and B receives channel 2 with the
payload bytes 24, 0, 20, 0. -/
theorem rbbq_wrap_frame_not_received :
    ((rbbq_send (rbbq_local_running 20) .A 1 [1, 2, 3, 4, 5, 6, 7, 8, 9, 10, 11, 12]).1 = .ok () ∧
    (rbbq_take (rbbq_send (rbbq_local_running 20) .A 1
        [1, 2, 3, 4, 5, 6, 7, 8, 9, 10, 11, 12]).2 .B false).1
      = .ok (1, [1, 2, 3, 4, 5, 6, 7, 8, 9, 10, 11, 12]) ∧
    (rbbq_send (rbbq_take (rbbq_send (rbbq_local_running 20) .A 1
        [1, 2, 3, 4, 5, 6, 7, 8, 9, 10, 11, 12]).2 .B false).2 .A 2 [0xA1, 0xA2, 0xA3, 0xA4]).1
      = .ok () ∧
    rbbq_wrap_state.a2b.data
      = [0, 2, 0, 4, 0xA1, 0xA2, 0xA3, 0xA4, 5, 6, 7, 8, 9, 10, 11, 12, 0, 0, 0, 0] ∧
    rbbq_wrap_state.a2b.control = ⟨8, 16, 0⟩ ∧
    rbbq_wrap_state.b.free_read_idx = 16 ∧
    (rbbq_take rbbq_wrap_state .B false).1 = .err .ENOMEM ∧
    (rbbq_take rbbq_wrap_state .B true).1 = .ok (0, []) ∧
    rbbq_wrap_state.little_endian = false) ∧
    (rbbq_wrap_state_le.little_endian = true ∧
    (rbbq_local_running_le 20).tx_data_size .A = 20 ∧
    (rbbq_send (rbbq_local_running_le 20) .A 1 [1, 2, 3, 4, 5, 6, 7, 8, 9, 10, 11, 12]).1
      = .ok () ∧
    (rbbq_take (rbbq_send (rbbq_local_running_le 20) .A 1
        [1, 2, 3, 4, 5, 6, 7, 8, 9, 10, 11, 12]).2 .B false).1
      = .ok (1, [1, 2, 3, 4, 5, 6, 7, 8, 9, 10, 11, 12]) ∧
    rbbq_taken_state_le.b.free_read_idx = 16 ∧
    rbbq_taken_state_le.b2a.control.other_read_idx = 16 ∧
    rbbq_taken_state_le.a.tx_shadow_read_idx = 4096 ∧
    rbbq_taken_state_le.a.alloc_write_idx = 16 ∧
    rbbq_alloc_avail rbbq_taken_state_le .A 8 = RBBQ_MESSAGE_ALLOC_AT_MIDDLE ∧
    (rbbq_alloc rbbq_taken_state_le .A 2 4).1 = .ok (some 20) ∧
    (rbbq_send rbbq_taken_state_le .A 2 [0xA1, 0xA2, 0xA3, 0xA4]).1 = .ok () ∧
    rbbq_wrap_state_le.a2b.data
      = [0, 1, 0, 12, 1, 2, 3, 4, 5, 6, 7, 8, 9, 10, 11, 12, 0, 2, 0, 4] ∧
    rbbq_wrap_state_le.a2b.control = ⟨24, 20, 0⟩ ∧
    (rbbq_take rbbq_wrap_state_le .B false).1 = .ok (2, [24, 0, 20, 0])) := by
  refine ⟨by decide, by decide⟩

/-! ## Claims C16, C17, C18: best next hop and eviction -/

/-- Claim C16: `tsm_node_best_next_hop` returns `-ENAVAIL` when the best path reference is not a
path index (in particular when it is `0xFFFF`); when it names a neighbour slot (an index below
`originator_start_idx`) the hop is the node's own index and the throughput is the transmit
throughput of the slot's port; otherwise the hop is the originator slot's `router_idx` and the
throughput the one stored in the slot. -/
theorem tsm_node_best_next_hop_contract (tsm : tsm_context) (node_idx : Nat)
    (hN : tsm.node_table.paths.length ≤ UINT16_MAX) :
    ((tsm.node node_idx).paths_refs.getD TSM_NODE_PATHS_BEST 0 = UINT16_MAX →
      tsm_node_best_next_hop tsm node_idx = .err .ENAVAIL) ∧
    (tsm.node_table.paths.length ≤ (tsm.node node_idx).paths_refs.getD TSM_NODE_PATHS_BEST 0 →
      tsm_node_best_next_hop tsm node_idx = .err .ENAVAIL) ∧
    ((tsm.node node_idx).paths_refs.getD TSM_NODE_PATHS_BEST 0 < tsm.node_table.paths.length →
      (tsm.node node_idx).paths_refs.getD TSM_NODE_PATHS_BEST 0
        < tsm.node_table.originator_start_idx →
      tsm_node_best_next_hop tsm node_idx =
        .ok (node_idx,
          tsm.ports.getD
            (tsm.path ((tsm.node node_idx).paths_refs.getD TSM_NODE_PATHS_BEST 0)).port_id 0)) ∧
    ((tsm.node node_idx).paths_refs.getD TSM_NODE_PATHS_BEST 0 < tsm.node_table.paths.length →
      tsm.node_table.originator_start_idx
        ≤ (tsm.node node_idx).paths_refs.getD TSM_NODE_PATHS_BEST 0 →
      tsm_node_best_next_hop tsm node_idx =
        .ok ((tsm.path ((tsm.node node_idx).paths_refs.getD TSM_NODE_PATHS_BEST 0)).router_idx,
          (tsm.path ((tsm.node node_idx).paths_refs.getD TSM_NODE_PATHS_BEST 0)).first)) := by
  have hge : ∀ (h : tsm.node_table.paths.length
      ≤ (tsm.node node_idx).paths_refs.getD TSM_NODE_PATHS_BEST 0),
      tsm_node_best_next_hop tsm node_idx = .err .ENAVAIL := by
    intro h
    unfold tsm_node_best_next_hop
    simp only []
    rw [if_pos h]
  refine ⟨?_, hge, ?_, ?_⟩
  · intro h
    apply hge
    rw [h]
    exact hN
  · intro h1 h2
    unfold tsm_node_best_next_hop tsm_neighbour_link_throughput
    simp only []
    rw [if_neg (Nat.not_le.mpr h1), if_pos h2]
  · intro h1 h2
    unfold tsm_node_best_next_hop tsm_path.throughput
    simp only []
    rw [if_neg (Nat.not_le.mpr h1), if_neg (Nat.not_lt.mpr h2)]

/-- Witness of `tsm_node_best_next_hop_contract`: in `hop_example` the unused entry 2 has no next
hop, the neighbour 0 is its own next hop with the throughput 7 of port 0, and the originator 1
is reached through the router 0 with the stored throughput 1. -/
theorem tsm_node_best_next_hop_contract_witness :
    hop_example.node_table.paths.length ≤ UINT16_MAX ∧
    tsm_node_best_next_hop hop_example 2 = .err .ENAVAIL ∧
    tsm_node_best_next_hop hop_example 0 = .ok (0, 7) ∧
    tsm_node_best_next_hop hop_example 1 = .ok (0, 1) :=
  ⟨by decide,
    (tsm_node_best_next_hop_contract hop_example 2 (by decide)).1 (by decide),
    (tsm_node_best_next_hop_contract hop_example 0 (by decide)).2.2.1 (by decide) (by decide),
    (tsm_node_best_next_hop_contract hop_example 1 (by decide)).2.2.2 (by decide) (by decide)⟩

/-- The loop of `tsm_node_evict` after `n` iterations: either no slot matched so far and every
slot seen is younger than the clock, or the state holds the last slot among those with the
smallest `last_seen_time` seen. -/
theorem evict_loop_spec (tsm : tsm_context) (now n : Nat) :
    ((for_loop (tsm_node_evict_step tsm) n (UINT16_MAX, now)).1 = UINT16_MAX ∧
      (for_loop (tsm_node_evict_step tsm) n (UINT16_MAX, now)).2 = now ∧
      ∀ j, j < n → now < (tsm.node j).protect_window.last_seen_time) ∨
    ((for_loop (tsm_node_evict_step tsm) n (UINT16_MAX, now)).1 < n ∧
      (for_loop (tsm_node_evict_step tsm) n (UINT16_MAX, now)).2 =
        (tsm.node (for_loop (tsm_node_evict_step tsm) n
          (UINT16_MAX, now)).1).protect_window.last_seen_time ∧
      (for_loop (tsm_node_evict_step tsm) n (UINT16_MAX, now)).2 ≤ now ∧
      (∀ j, j < n → (for_loop (tsm_node_evict_step tsm) n (UINT16_MAX, now)).2
        ≤ (tsm.node j).protect_window.last_seen_time) ∧
      ∀ j, (for_loop (tsm_node_evict_step tsm) n (UINT16_MAX, now)).1 < j → j < n →
        (for_loop (tsm_node_evict_step tsm) n (UINT16_MAX, now)).2
          < (tsm.node j).protect_window.last_seen_time) := by
  induction n with
  | zero =>
    left
    exact ⟨rfl, rfl, fun j hj => absurd hj (Nat.not_lt_zero j)⟩
  | succ n ih =>
    show (_ ∧ _ ∧ _) ∨ _
    rw [show for_loop (tsm_node_evict_step tsm) (n + 1) (UINT16_MAX, now) =
      tsm_node_evict_step tsm n (for_loop (tsm_node_evict_step tsm) n (UINT16_MAX, now))
      from rfl]
    generalize for_loop (tsm_node_evict_step tsm) n (UINT16_MAX, now) = st at ih
    unfold tsm_node_evict_step
    simp only []
    by_cases hc : (tsm.node n).protect_window.last_seen_time ≤ st.2
    · rw [if_pos hc]
      right
      refine ⟨Nat.lt_succ_self n, rfl, ?_, ?_, ?_⟩
      · rcases ih with ⟨_, h2, _⟩ | ⟨_, _, h3, _, _⟩
        · rw [h2] at hc; exact hc
        · exact Nat.le_trans hc h3
      · intro j hj
        rcases Nat.lt_succ_iff_lt_or_eq.mp hj with hj | hj
        · rcases ih with ⟨_, h2, h3⟩ | ⟨_, _, _, h4, _⟩
          · rw [h2] at hc
            exact Nat.le_of_lt (Nat.lt_of_le_of_lt hc (h3 j hj))
          · exact Nat.le_trans hc (h4 j hj)
        · rw [hj]
      · intro j h1 h2
        exact absurd h2 (Nat.not_lt.mpr (Nat.succ_le_of_lt h1))
    · rw [if_neg hc]
      have hc' := Nat.not_le.mp hc
      rcases ih with ⟨h1, h2, h3⟩ | ⟨h1, h2, h3, h4, h5⟩
      · left
        refine ⟨h1, h2, ?_⟩
        intro j hj
        rcases Nat.lt_succ_iff_lt_or_eq.mp hj with hj | hj
        · exact h3 j hj
        · rw [hj, ← h2]; exact hc'
      · right
        refine ⟨Nat.lt_succ_of_lt h1, h2, h3, ?_, ?_⟩
        · intro j hj
          rcases Nat.lt_succ_iff_lt_or_eq.mp hj with hj | hj
          · exact h4 j hj
          · rw [hj]; exact Nat.le_of_lt hc'
        · intro j hj1 hj2
          rcases Nat.lt_succ_iff_lt_or_eq.mp hj2 with hj2 | hj2
          · exact h5 j hj1 hj2
          · rw [hj2]; exact hc'

set_option maxRecDepth 100000 in
/-- Claim C17 does not hold as stated: in the full table `mesh_full 100` all 16 slots share the
smallest `last_seen_time`; at the clock 200 `tsm_node_evict` returns the highest index 15, not
the lowest index 0 the specification names. -/
theorem tsm_node_evict_tie_counterexample :
    (∀ j, j < (mesh_full 100).node_table.nodes.length →
      ((mesh_full 100).node j).protect_window.last_idx < TSM_NODE_SEQNO_CACHE_SIZE) ∧
    tsm_node_evict 200 (mesh_full 100) = 15 ∧
    spec_evict_choice (mesh_full 100) 0 ∧
    ¬ spec_evict_choice (mesh_full 100) (tsm_node_evict 200 (mesh_full 100)) := by
  decide

/-- Claim C17, amended: when some slot was last seen at or before the current clock,
`tsm_node_evict` returns the index of a slot whose `last_seen_time` is the smallest of all
slots, and when several slots share the smallest `last_seen_time` it returns the highest such
index. -/
theorem tsm_node_evict_oldest (now : Nat) (tsm : tsm_context)
    (h : ∃ j, j < tsm.node_table.nodes.length ∧
      (tsm.node j).protect_window.last_seen_time ≤ now) :
    tsm_node_evict now tsm < tsm.node_table.nodes.length ∧
    (∀ j, j < tsm.node_table.nodes.length →
      (tsm.node (tsm_node_evict now tsm)).protect_window.last_seen_time
        ≤ (tsm.node j).protect_window.last_seen_time) ∧
    (∀ j, tsm_node_evict now tsm < j → j < tsm.node_table.nodes.length →
      (tsm.node (tsm_node_evict now tsm)).protect_window.last_seen_time
        < (tsm.node j).protect_window.last_seen_time) := by
  obtain ⟨j0, hj0, ht0⟩ := h
  unfold tsm_node_evict
  rcases evict_loop_spec tsm now tsm.node_table.nodes.length with
    ⟨_, _, h3⟩ | ⟨h1, h2, _, h4, h5⟩
  · exact absurd ht0 (Nat.not_le.mpr (h3 j0 hj0))
  · rw [← h2]
    exact ⟨h1, h4, h5⟩

set_option maxRecDepth 100000 in
/-- Witness of `tsm_node_evict_oldest` on the table `mesh_full 100` at the clock 200. -/
theorem tsm_node_evict_oldest_witness :
    (∃ j, j < (mesh_full 100).node_table.nodes.length ∧
      ((mesh_full 100).node j).protect_window.last_seen_time ≤ 200) ∧
    tsm_node_evict 200 (mesh_full 100) < (mesh_full 100).node_table.nodes.length ∧
    (∀ j, j < (mesh_full 100).node_table.nodes.length →
      ((mesh_full 100).node (tsm_node_evict 200 (mesh_full 100))).protect_window.last_seen_time
        ≤ ((mesh_full 100).node j).protect_window.last_seen_time) ∧
    (∀ j, tsm_node_evict 200 (mesh_full 100) < j → j < (mesh_full 100).node_table.nodes.length →
      ((mesh_full 100).node (tsm_node_evict 200 (mesh_full 100))).protect_window.last_seen_time
        < ((mesh_full 100).node j).protect_window.last_seen_time) :=
  ⟨⟨0, by decide, by decide⟩,
    tsm_node_evict_oldest 200 (mesh_full 100) ⟨0, by decide, by decide⟩⟩

set_option maxRecDepth 100000 in
/-- Claim C18 fails on the code: in the full table `mesh_full 4294967000` (16 slots in use, none
by the id 7, every slot last seen shortly before the 32-bit millisecond clock wraps) at the
clock 5, behind the wrap, no slot passes the comparison of `tsm_node_evict`, which returns
`UINT16_MAX` against its own assertion, and `tsm_node_get` has no slot to hand out. -/
theorem tsm_node_get_fails_behind_clock_wrap :
    (∀ j, j < (mesh_full 4294967000).node_table.nodes.length →
      ((mesh_full 4294967000).node j).protect_window.last_idx < TSM_NODE_SEQNO_CACHE_SIZE ∧
      ((mesh_full 4294967000).node j).node_id ≠ 7 ∧
      ((mesh_full 4294967000).node j).protect_window.last_seen_time ≤ TS_TIME_MS_MAX) ∧
    tsm_node_lookup (mesh_full 4294967000) 7 = .err .ENODEV ∧
    tsm_node_evict 5 (mesh_full 4294967000) = UINT16_MAX ∧
    tsm_node_get 5 (mesh_full 4294967000) 7 = none := by
  decide

/-! ## Claim C19: the phantom state of a new node -/

/-- When the node id is not in the table and `k` is the lowest empty slot, `tsm_node_get`
initialises the slot `k` to the phantom state and returns it. -/
theorem tsm_node_get_lowest_empty (now : Nat) (tsm : tsm_context) (node_id k : Nat)
    (hlen : tsm.node_table.nodes.length ≤ UINT16_MAX)
    (hno : tsm_node_lookup tsm node_id = .err .ENODEV)
    (hk1 : k < tsm.node_table.nodes.length)
    (hk2 : TSM_NODE_SEQNO_CACHE_SIZE ≤ (tsm.node k).protect_window.last_idx)
    (hk3 : ∀ j, j < k → (tsm.node j).protect_window.last_idx < TSM_NODE_SEQNO_CACHE_SIZE) :
    tsm_node_get now tsm node_id = some (k, tsm_node_init_phantom tsm k node_id) := by
  have hm := get_scan_match node_id tsm.node_table.nodes 0 UINT16_MAX
  have hno' := hno
  unfold tsm_node_lookup at hno'
  rw [hno'] at hm
  simp only [] at hm
  have hnone := (lookup_scan_err_iff _ _ _).1 hno'
  unfold tsm_node_get
  simp only []
  rw [if_pos hm]
  rcases get_scan_empty node_id tsm.node_table.nodes 0 UINT16_MAX hnone (by omega)
    with h | h | h
  · have := h.2 k hk1
    unfold tsm_context.node at hk2
    omega
  · obtain ⟨_, k', hk1', hk2', hk3', hk4'⟩ := h
    have hkk : k' = k := by
      rcases Nat.lt_trichotomy k' k with hlt | heq | hgt
      · have := hk3 k' hlt
        unfold tsm_context.node at this
        omega
      · exact heq
      · have := hk4' k hgt
        unfold tsm_context.node at hk2
        omega
    subst hkk
    rw [hk1', if_neg (by omega)]
    simp only [Nat.zero_add]
  · exact absurd rfl h.1

/-- Claim C19: if the id is in no slot in use and some slot is empty, `tsm_node_get` returns the
lowest empty slot in phantom state: it holds the id, `tsm_node_name_mapping_id` returns
`-ENAVAIL`, every path reference is `0xFFFF`, `tsm_node_seqno` fails for every clock value; no
other node slot, no path slot and not `originator_start_idx` is changed. -/
theorem tsm_node_get_phantom (now : Nat) (tsm : tsm_context) (node_id e : Nat)
    (hlen : tsm.node_table.nodes.length ≤ UINT16_MAX)
    (hno : ∀ j, j < tsm.node_table.nodes.length →
      (tsm.node j).protect_window.last_idx < TSM_NODE_SEQNO_CACHE_SIZE →
        (tsm.node j).node_id ≠ node_id)
    (he : e < tsm.node_table.nodes.length)
    (hempty : TSM_NODE_SEQNO_CACHE_SIZE ≤ (tsm.node e).protect_window.last_idx)
    (hcache : ∀ j, j < tsm.node_table.nodes.length →
      0 < (tsm.node j).protect_window.node_seqno_cache.length) :
    ∃ k t, tsm_node_get now tsm node_id = some (k, t) ∧
      k < tsm.node_table.nodes.length ∧
      TSM_NODE_SEQNO_CACHE_SIZE ≤ (tsm.node k).protect_window.last_idx ∧
      (∀ j, j < k → (tsm.node j).protect_window.last_idx < TSM_NODE_SEQNO_CACHE_SIZE) ∧
      (t.node k).node_id = node_id ∧
      (t.node k).protect_window.last_idx < TSM_NODE_SEQNO_CACHE_SIZE ∧
      tsm_node_name_mapping_id t k = .err .ENAVAIL ∧
      (t.node k).paths_refs.length = (tsm.node k).paths_refs.length ∧
      (∀ i, i < (t.node k).paths_refs.length → (t.node k).paths_refs.getD i 0 = UINT16_MAX) ∧
      (∀ clock, ∃ err, tsm_node_seqno clock t k = .err err) ∧
      (∀ j, j ≠ k → t.node j = tsm.node j) ∧
      t.node_table.nodes.length = tsm.node_table.nodes.length ∧
      t.node_table.paths = tsm.node_table.paths ∧
      t.node_table.originator_start_idx = tsm.node_table.originator_start_idx := by
  have hex : ∃ k, lowest_index
      (fun j => decide (TSM_NODE_SEQNO_CACHE_SIZE ≤ (tsm.node j).protect_window.last_idx))
      tsm.node_table.nodes.length = some k := by
    cases hl : lowest_index
      (fun j => decide (TSM_NODE_SEQNO_CACHE_SIZE ≤ (tsm.node j).protect_window.last_idx))
      tsm.node_table.nodes.length with
    | some k => exact ⟨k, rfl⟩
    | none =>
      have := (lowest_index_none _ _).1 hl e he
      simp only [decide_eq_false_iff_not] at this
      exact absurd hempty this
  obtain ⟨k, hk⟩ := hex
  obtain ⟨hk1, hk2, hk3⟩ := (lowest_index_some _ _ _).1 hk
  simp only [decide_eq_true_eq] at hk2
  have hk3' : ∀ j, j < k →
      (tsm.node j).protect_window.last_idx < TSM_NODE_SEQNO_CACHE_SIZE := by
    intro j hj
    have := hk3 j hj
    simp only [decide_eq_false_iff_not] at this
    omega
  have hlook : tsm_node_lookup tsm node_id = .err .ENODEV := by
    rw [tsm_node_lookup_err_iff]
    intro j hj hm
    exact hno j hj hm.1 hm.2.symm
  have hnode := node_init_phantom tsm k node_id k
  rw [if_pos ⟨rfl, hk1⟩] at hnode
  refine ⟨k, tsm_node_init_phantom tsm k node_id,
    tsm_node_get_lowest_empty now tsm node_id k hlen hlook hk1 hk2 hk3', hk1, hk2, hk3',
    ?_, ?_, ?_, ?_, ?_, ?_, ?_, nodes_length_init_phantom tsm k node_id, rfl, rfl⟩
  · rw [hnode]
  · rw [hnode]
    show 0 < TSM_NODE_SEQNO_CACHE_SIZE
    decide
  · unfold tsm_node_name_mapping_id
    rw [hnode]
    simp only [if_true]
  · rw [hnode]
    simp only [List.length_map]
  · intro i hi
    rw [hnode] at hi ⊢
    simp only [List.length_map] at hi
    exact getD_map_const _ _ _ _ hi
  · intro clock
    unfold tsm_node_seqno
    rw [hnode]
    simp only []
    rw [if_neg (by decide)]
    by_cases hage : ts_time_ms_delta clock 0 ≥ TSM_NODE_SEQNO_MAX_AGE_S * 1000
    · rw [if_pos hage]
      exact ⟨_, rfl⟩
    · rw [if_neg hage]
      rw [getD_map_const _ _ _ _ (hcache k hk1), if_pos rfl]
      exact ⟨_, rfl⟩
  · intro j hj
    rw [node_init_phantom, if_neg (fun h => hj h.1.symm)]

/-- Witness of `tsm_node_get_phantom`: in `mesh_example` an unknown id gets the unused entry 2. -/
theorem tsm_node_get_phantom_witness :
    ∃ k t, tsm_node_get 1000 mesh_example 0xCAFFE999 = some (k, t) ∧
      k < mesh_example.node_table.nodes.length ∧
      TSM_NODE_SEQNO_CACHE_SIZE ≤ (mesh_example.node k).protect_window.last_idx ∧
      (∀ j, j < k →
        (mesh_example.node j).protect_window.last_idx < TSM_NODE_SEQNO_CACHE_SIZE) ∧
      (t.node k).node_id = 0xCAFFE999 ∧
      (t.node k).protect_window.last_idx < TSM_NODE_SEQNO_CACHE_SIZE ∧
      tsm_node_name_mapping_id t k = .err .ENAVAIL ∧
      (t.node k).paths_refs.length = (mesh_example.node k).paths_refs.length ∧
      (∀ i, i < (t.node k).paths_refs.length → (t.node k).paths_refs.getD i 0 = UINT16_MAX) ∧
      (∀ clock, ∃ err, tsm_node_seqno clock t k = .err err) ∧
      (∀ j, j ≠ k → t.node j = mesh_example.node j) ∧
      t.node_table.nodes.length = mesh_example.node_table.nodes.length ∧
      t.node_table.paths = mesh_example.node_table.paths ∧
      t.node_table.originator_start_idx = mesh_example.node_table.originator_start_idx :=
  tsm_node_get_phantom 1000 mesh_example 0xCAFFE999 2 (by decide) (by decide) (by decide)
    (by decide) (by decide)

/-! ## Claims C12, C13: the modes of `rbbq_alloc` -/

theorem buffer_set_buffer (s : rbbq_local) (side : rbbq_side) (b : rbbq) :
    (s.set_buffer side b).buffer side = b := by
  cases side <;> rfl

theorem tx_set_buffer (s : rbbq_local) (side side' : rbbq_side) (b : rbbq) :
    (s.set_buffer side b).tx side' = s.tx side' := by
  cases side <;> cases side' <;> rfl

theorem rx_set_buffer (s : rbbq_local) (side side' : rbbq_side) (b : rbbq) :
    (s.set_buffer side b).rx side' = s.rx side' := by
  cases side <;> cases side' <;> rfl

theorem tx_set_tx (s : rbbq_local) (side : rbbq_side) (t : rbbq_transfer) :
    (s.set_tx side t).tx side = t := by
  cases side <;> rfl

theorem buffer_set_tx (s : rbbq_local) (side side' : rbbq_side) (t : rbbq_transfer) :
    (s.set_tx side t).buffer side' = s.buffer side' := by
  cases side <;> cases side' <;> rfl

theorem set_buffer_set_buffer (s : rbbq_local) (side : rbbq_side) (b b' : rbbq) :
    (s.set_buffer side b).set_buffer side b' = s.set_buffer side b' := by
  cases side <;> rfl

theorem set_buffer_buffer (s : rbbq_local) (side : rbbq_side) :
    s.set_buffer side (s.buffer side) = s := by
  cases side <;> rfl

theorem be16_put_get (val : Nat) (data : List Nat) (off : Nat) (hv : val < 65536)
    (h : off + 1 < data.length) :
    sys_get_be16 (sys_put_be16 val data off) off = val := by
  unfold sys_get_be16 sys_put_be16
  rw [getD_set, getD_set, getD_set, getD_set]
  rw [List.length_set]
  rw [if_neg (by omega), if_pos ⟨rfl, by omega⟩, if_pos ⟨rfl, by omega⟩]
  omega

theorem be16_put_get_ne (val : Nat) (data : List Nat) (off off' : Nat)
    (h : off' + 1 < off ∨ off + 1 < off') :
    sys_get_be16 (sys_put_be16 val data off) off' = sys_get_be16 data off' := by
  unfold sys_get_be16 sys_put_be16
  rw [getD_set, getD_set, getD_set, getD_set]
  rw [if_neg (by omega), if_neg (by omega), if_neg (by omega), if_neg (by omega)]

theorem be16_put_length (val : Nat) (data : List Nat) (off : Nat) :
    (sys_put_be16 val data off).length = data.length := by
  unfold sys_put_be16
  simp only [List.length_set]

/-- The common part of the successful cases of `rbbq_alloc` when the header lies inside the
data region. -/
theorem rbbq_alloc_at_spec (s : rbbq_local) (side : rbbq_side)
    (channel size raw watermark_idx write_base : Nat)
    (hsize : size + RBBQ_MESSAGE_HEADER_SIZE < 65536)
    (hraw : raw + 3 < s.tx_data_size side) (hbase : write_base + (size + 4) < 65536) :
    (rbbq_alloc_at s side channel size raw watermark_idx write_base).1
      = .ok (some (raw + RBBQ_MESSAGE_HEADER_SIZE)) ∧
    ((rbbq_alloc_at s side channel size raw watermark_idx write_base).2.buffer side)
      = { s.buffer side with
          alloc_message := some raw
          alloc_watermark_idx := watermark_idx
          alloc_write_idx := write_base + (size + 4) } ∧
    (channel < 65536 → rbbq_message_channel
      ((rbbq_alloc_at s side channel size raw watermark_idx write_base).2.tx side).data raw
      = channel) ∧
    rbbq_message_payload_size
      ((rbbq_alloc_at s side channel size raw watermark_idx write_base).2.tx side).data raw
      = size := by
  unfold rbbq_local.tx_data_size at hraw
  have hsz : RBBQ_MESSAGE_HEADER_SIZE = 4 := rfl
  rw [hsz] at hsize
  have hps : sys_get_be16 (rbbq_message_payload_size_set
      (rbbq_message_channel_set (s.tx side).data raw channel) raw size) (raw + 2) = size := by
    unfold rbbq_message_payload_size_set rbbq_message_channel_set
    rw [be16_put_get _ _ _ (by omega) (by rw [be16_put_length]; omega)]
  unfold rbbq_alloc_at
  simp only [buffer_set_buffer, tx_set_buffer, tx_set_tx, buffer_set_tx]
  refine ⟨rfl, ?_, ?_, ?_⟩
  · unfold rbbq_message_size
    rw [hps, hsz, Nat.mod_eq_of_lt (by omega : size + 4 < 65536), Nat.mod_eq_of_lt hbase]
  · intro hch
    unfold rbbq_message_channel rbbq_message_payload_size_set rbbq_message_channel_set
    rw [be16_put_get_ne _ _ _ _ (Or.inl (by omega)),
      be16_put_get _ _ _ hch (by omega)]
  · unfold rbbq_message_payload_size
    exact hps

theorem to_u16_of_lt (n : Nat) (h : n < 65536) : to_u16 (n : Int) = n := by
  unfold to_u16
  omega

theorem alloc_avail_set_mutex (s : rbbq_local) (side : rbbq_side) (m : Bool) (size : Nat) :
    rbbq_alloc_avail (s.set_buffer side { s.buffer side with alloc_mutex := m }) side size
      = rbbq_alloc_avail s side size := by
  unfold rbbq_alloc_avail rbbq_local.tx_data_size
  simp only [buffer_set_buffer, tx_set_buffer]

/-- A running buffer whose alloc mutex is free: `rbbq_alloc` is decided by `rbbq_alloc_avail`
alone; the `default` case of the `switch` is not reached. -/
theorem rbbq_alloc_running (s : rbbq_local) (side : rbbq_side) (channel size : Nat)
    (hrun : (s.buffer side).state = RBBQ_BUFFER_STATE_RUNNING)
    (hmutex : (s.buffer side).alloc_mutex = false)
    (hsize : size + RBBQ_MESSAGE_HEADER_SIZE < 65536) :
    rbbq_alloc s side channel size =
      if rbbq_alloc_avail s side (size + RBBQ_MESSAGE_HEADER_SIZE) = RBBQ_MESSAGE_ALLOC_AT_END then
        rbbq_alloc_at (s.set_buffer side { s.buffer side with alloc_mutex := true }) side
          channel size (s.buffer side).alloc_write_idx (s.tx_data_size side)
          (s.buffer side).alloc_write_idx
      else if rbbq_alloc_avail s side (size + RBBQ_MESSAGE_HEADER_SIZE)
          = RBBQ_MESSAGE_ALLOC_AT_START then
        rbbq_alloc_at (s.set_buffer side { s.buffer side with alloc_mutex := true }) side
          channel size 0 (s.buffer side).alloc_write_idx 0
      else if rbbq_alloc_avail s side (size + RBBQ_MESSAGE_HEADER_SIZE)
          = RBBQ_MESSAGE_ALLOC_AT_MIDDLE then
        rbbq_alloc_at (s.set_buffer side { s.buffer side with alloc_mutex := true }) side
          channel size (s.buffer side).alloc_write_idx (s.buffer side).alloc_watermark_idx
          (s.buffer side).alloc_write_idx
      else
        (.err .ENOMEM, s) := by
  have hu : to_u16 ((size : Int) + (RBBQ_MESSAGE_HEADER_SIZE : Nat))
      = size + RBBQ_MESSAGE_HEADER_SIZE := by
    rw [← Int.natCast_add]
    exact to_u16_of_lt _ hsize
  unfold rbbq_alloc
  simp only []
  rw [if_neg (not_not.mpr hrun), hmutex]
  simp only [ts_mutex_lock]
  rw [if_neg (by decide : ¬ (false = true))]
  simp only []
  rw [alloc_avail_set_mutex, hu]
  have htx : (s.set_buffer side { s.buffer side with alloc_mutex := true }).tx_data_size side
      = s.tx_data_size side := by
    unfold rbbq_local.tx_data_size
    rw [tx_set_buffer]
  rw [htx]
  have hfour : rbbq_alloc_avail s side (size + RBBQ_MESSAGE_HEADER_SIZE)
        = RBBQ_MESSAGE_ALLOC_AT_END ∨
      rbbq_alloc_avail s side (size + RBBQ_MESSAGE_HEADER_SIZE)
        = RBBQ_MESSAGE_ALLOC_AT_START ∨
      rbbq_alloc_avail s side (size + RBBQ_MESSAGE_HEADER_SIZE)
        = RBBQ_MESSAGE_ALLOC_AT_MIDDLE ∨
      rbbq_alloc_avail s side (size + RBBQ_MESSAGE_HEADER_SIZE)
        = RBBQ_MESSAGE_ALLOC_NOMEM := by
    unfold rbbq_alloc_avail
    simp only []
    split_ifs <;> simp
  have hback : (s.set_buffer side { s.buffer side with alloc_mutex := true }).set_buffer side
      { (s.set_buffer side { s.buffer side with alloc_mutex := true }).buffer side with
        alloc_mutex := false } = s := by
    rw [set_buffer_set_buffer, buffer_set_buffer]
    have : ({ ({ s.buffer side with alloc_mutex := true } : rbbq) with alloc_mutex := false }
        : rbbq) = s.buffer side := by
      cases hb : s.buffer side with
      | mk a1 a2 a3 a4 a5 a6 a7 a8 a9 a10 a11 =>
        rw [hb] at hmutex
        simp only at hmutex
        subst hmutex
        rfl
    rw [this, set_buffer_buffer]
  rw [hback]
  rcases hfour with h | h | h | h <;> rw [h] <;> simp only [if_true]

/-- The three outcomes of `rbbq_alloc_avail` that reserve, and the fourth, in terms of the
indices. -/
theorem rbbq_alloc_avail_cases (s : rbbq_local) (side : rbbq_side) (size : Nat) :
    (rbbq_alloc_avail s side size = RBBQ_MESSAGE_ALLOC_AT_END ↔
      (s.buffer side).tx_shadow_read_idx % 65536 ≤ (s.buffer side).alloc_write_idx ∧
      (size : Int) ≤ (s.tx_data_size side : Int) - (s.buffer side).alloc_write_idx) ∧
    (rbbq_alloc_avail s side size = RBBQ_MESSAGE_ALLOC_AT_START ↔
      (s.buffer side).tx_shadow_read_idx % 65536 ≤ (s.buffer side).alloc_write_idx ∧
      ¬ (size : Int) ≤ (s.tx_data_size side : Int) - (s.buffer side).alloc_write_idx ∧
      size < (s.buffer side).tx_shadow_read_idx % 65536) ∧
    (rbbq_alloc_avail s side size = RBBQ_MESSAGE_ALLOC_AT_MIDDLE ↔
      (s.buffer side).alloc_write_idx < (s.buffer side).tx_shadow_read_idx % 65536 ∧
      (size : Int) < (((s.buffer side).tx_shadow_read_idx % 65536 : Nat) : Int)
        - (s.buffer side).alloc_write_idx) := by
  unfold rbbq_alloc_avail
  simp only []
  have h01 : RBBQ_MESSAGE_ALLOC_AT_END ≠ RBBQ_MESSAGE_ALLOC_AT_START := by decide
  have h02 : RBBQ_MESSAGE_ALLOC_AT_END ≠ RBBQ_MESSAGE_ALLOC_AT_MIDDLE := by decide
  have h12 : RBBQ_MESSAGE_ALLOC_AT_START ≠ RBBQ_MESSAGE_ALLOC_AT_MIDDLE := by decide
  have hn0 : RBBQ_MESSAGE_ALLOC_NOMEM ≠ RBBQ_MESSAGE_ALLOC_AT_END := by decide
  have hn1 : RBBQ_MESSAGE_ALLOC_NOMEM ≠ RBBQ_MESSAGE_ALLOC_AT_START := by decide
  have hn2 : RBBQ_MESSAGE_ALLOC_NOMEM ≠ RBBQ_MESSAGE_ALLOC_AT_MIDDLE := by decide
  by_cases hwr : (s.buffer side).alloc_write_idx ≥ (s.buffer side).tx_shadow_read_idx % 65536
  · rw [if_pos hwr]
    by_cases hend : (size : Int) ≤ (s.tx_data_size side : Int) - (s.buffer side).alloc_write_idx
    · rw [if_pos hend]
      exact ⟨⟨fun _ => ⟨hwr, hend⟩, fun _ => rfl⟩,
        ⟨fun h => absurd h h01, fun h => absurd hend h.2.1⟩,
        ⟨fun h => absurd h h02, fun h => absurd hwr (Nat.not_le.mpr h.1)⟩⟩
    · rw [if_neg hend]
      by_cases hst : size < (s.buffer side).tx_shadow_read_idx % 65536
      · rw [if_pos hst]
        exact ⟨⟨fun h => absurd h.symm h01, fun h => absurd h.2 hend⟩,
          ⟨fun _ => ⟨hwr, hend, hst⟩, fun _ => rfl⟩,
          ⟨fun h => absurd h h12, fun h => absurd hwr (Nat.not_le.mpr h.1)⟩⟩
      · rw [if_neg hst]
        exact ⟨⟨fun h => absurd h hn0, fun h => absurd h.2 hend⟩,
          ⟨fun h => absurd h hn1, fun h => absurd h.2.2 hst⟩,
          ⟨fun h => absurd h hn2, fun h => absurd hwr (Nat.not_le.mpr h.1)⟩⟩
  · rw [if_neg hwr]
    by_cases hmid : (size : Int) < (((s.buffer side).tx_shadow_read_idx % 65536 : Nat) : Int)
        - (s.buffer side).alloc_write_idx
    · rw [if_pos hmid]
      exact ⟨⟨fun h => absurd h.symm h02, fun h => absurd h.1 hwr⟩,
        ⟨fun h => absurd h.symm h12, fun h => absurd h.1 hwr⟩,
        ⟨fun _ => ⟨Nat.not_le.mp hwr, hmid⟩, fun _ => rfl⟩⟩
    · rw [if_neg hmid]
      exact ⟨⟨fun h => absurd h hn0, fun h => absurd h.1 hwr⟩,
        ⟨fun h => absurd h hn1, fun h => absurd h.1 hwr⟩,
        ⟨fun h => absurd h hn2, fun h => absurd h.2 hmid⟩⟩

/-- The reservation made by `rbbq_alloc_at` on a buffer whose alloc mutex was just taken. -/
theorem rbbq_alloc_at_reserved (s : rbbq_local) (side : rbbq_side)
    (channel size raw watermark_idx write_base : Nat)
    (hch : channel ≤ UINT16_MAX) (hsize : size + RBBQ_MESSAGE_HEADER_SIZE ≤ UINT16_MAX)
    (hraw : raw + 3 < s.tx_data_size side) (hbase : write_base + (size + 4) ≤ UINT16_MAX) :
    rbbq_reserved
      (rbbq_alloc_at (s.set_buffer side { s.buffer side with alloc_mutex := true }) side
        channel size raw watermark_idx write_base).2 side
      (rbbq_alloc_at (s.set_buffer side { s.buffer side with alloc_mutex := true }) side
        channel size raw watermark_idx write_base).1
      channel size raw (write_base + (size + 4)) watermark_idx := by
  have hmax : UINT16_MAX = 65535 := rfl
  have hraw' : raw + 3 < (s.set_buffer side
      { s.buffer side with alloc_mutex := true }).tx_data_size side := by
    unfold rbbq_local.tx_data_size at hraw ⊢
    rw [tx_set_buffer]
    exact hraw
  obtain ⟨h1, h2, h3, h4⟩ := rbbq_alloc_at_spec
    (s.set_buffer side { s.buffer side with alloc_mutex := true }) side channel size raw
    watermark_idx write_base (by omega) hraw' (by omega)
  unfold rbbq_reserved
  rw [h2, buffer_set_buffer]
  exact ⟨h1, rfl, rfl, rfl, rfl, h3 (by omega), h4⟩

/-- Claim C12: for a running buffer whose alloc mutex is free, with write index `W`, observed
read index `R`, capacity `E` and `S = size + 4` without 16-bit wrap, `rbbq_alloc` reserves at
`W` with watermark `E` and write index `W + S` when `W ≥ R` and `S ≤ E - W`; at 0 with
watermark `W` and write index `S` when `W ≥ R`, `S > E - W` and `S < R`; at `W` with the
watermark unchanged and write index `W + S` when `W < R` and `S < R - W`; in every other case it
returns `-ENOMEM` and the state is unchanged.  A reservation holds `channel` and `size` in the
frame header and returns the payload 4 bytes behind the offset. -/
theorem rbbq_alloc_modes (s : rbbq_local) (side : rbbq_side) (channel size W R E : Nat)
    (hrun : (s.buffer side).state = RBBQ_BUFFER_STATE_RUNNING)
    (hmutex : (s.buffer side).alloc_mutex = false)
    (hW : (s.buffer side).alloc_write_idx = W)
    (hR : (s.buffer side).tx_shadow_read_idx % 65536 = R)
    (hE : s.tx_data_size side = E)
    (hch : channel ≤ UINT16_MAX)
    (hsize : size + RBBQ_MESSAGE_HEADER_SIZE ≤ UINT16_MAX)
    (hEmax : E ≤ UINT16_MAX) :
    (R ≤ W → ((size + 4 : Nat) : Int) ≤ (E : Int) - W →
      rbbq_reserved (rbbq_alloc s side channel size).2 side (rbbq_alloc s side channel size).1
        channel size W (W + (size + 4)) E) ∧
    (R ≤ W → ¬ ((size + 4 : Nat) : Int) ≤ (E : Int) - W → size + 4 < R → R ≤ E →
      rbbq_reserved (rbbq_alloc s side channel size).2 side (rbbq_alloc s side channel size).1
        channel size 0 (size + 4) W) ∧
    (W < R → ((size + 4 : Nat) : Int) < (R : Int) - W → R ≤ E →
      rbbq_reserved (rbbq_alloc s side channel size).2 side (rbbq_alloc s side channel size).1
        channel size W (W + (size + 4)) (s.buffer side).alloc_watermark_idx) ∧
    (¬ (R ≤ W ∧ ((size + 4 : Nat) : Int) ≤ (E : Int) - W) →
      ¬ (R ≤ W ∧ ¬ ((size + 4 : Nat) : Int) ≤ (E : Int) - W ∧ size + 4 < R) →
      ¬ (W < R ∧ ((size + 4 : Nat) : Int) < (R : Int) - W) →
      rbbq_alloc s side channel size = (.err .ENOMEM, s)) := by
  have hmax : UINT16_MAX = 65535 := rfl
  have hhdr : RBBQ_MESSAGE_HEADER_SIZE = 4 := rfl
  subst hW hR hE
  obtain ⟨cend, cstart, cmid⟩ := rbbq_alloc_avail_cases s side (size + RBBQ_MESSAGE_HEADER_SIZE)
  rw [hhdr] at cend cstart cmid
  have hne01 : RBBQ_MESSAGE_ALLOC_AT_START ≠ RBBQ_MESSAGE_ALLOC_AT_END := by decide
  have hne02 : RBBQ_MESSAGE_ALLOC_AT_MIDDLE ≠ RBBQ_MESSAGE_ALLOC_AT_END := by decide
  have hne12 : RBBQ_MESSAGE_ALLOC_AT_MIDDLE ≠ RBBQ_MESSAGE_ALLOC_AT_START := by decide
  rw [rbbq_alloc_running s side channel size hrun hmutex (by omega), hhdr]
  refine ⟨?_, ?_, ?_, ?_⟩
  · intro h1 h2
    rw [if_pos (cend.2 ⟨h1, h2⟩)]
    exact rbbq_alloc_at_reserved s side channel size _ _ _ hch hsize (by omega) (by omega)
  · intro h1 h2 h3 h4
    have hm := cstart.2 ⟨h1, h2, h3⟩
    rw [hm, if_neg hne01, if_pos rfl]
    have := rbbq_alloc_at_reserved s side channel size 0 (s.buffer side).alloc_write_idx 0
      hch hsize (by omega) (by omega)
    rw [Nat.zero_add] at this
    exact this
  · intro h1 h2 h3
    have hm := cmid.2 ⟨h1, h2⟩
    rw [hm, if_neg hne02, if_neg hne12, if_pos rfl]
    exact rbbq_alloc_at_reserved s side channel size _ _ _ hch hsize (by omega) (by omega)
  · intro h1 h2 h3
    rw [if_neg (fun h => h1 (cend.1 h)), if_neg (fun h => h2 (cstart.1 h)),
      if_neg (fun h => h3 (cmid.1 h))]

set_option maxRecDepth 100000 in
/-- Witness of `rbbq_alloc_modes` on transfer buffers of 20 data bytes: a first frame of 16 bytes
is reserved at the end (offset 0); with write and read index at 16 a frame of 8 bytes is
reserved at the start and the watermark becomes 16; with write index 8 and read index 16 a
frame of 6 bytes is reserved in the middle; a frame of 14 bytes gets `-ENOMEM`. -/
theorem rbbq_alloc_modes_witness :
    rbbq_reserved (rbbq_alloc (rbbq_local_running 20) .A 1 12).2 .A
      (rbbq_alloc (rbbq_local_running 20) .A 1 12).1 1 12 0 (0 + (12 + 4)) 20 ∧
    rbbq_reserved (rbbq_alloc rbbq_taken_state .A 2 4).2 .A
      (rbbq_alloc rbbq_taken_state .A 2 4).1 2 4 0 (4 + 4) 16 ∧
    rbbq_reserved (rbbq_alloc rbbq_wrap_state .A 3 2).2 .A
      (rbbq_alloc rbbq_wrap_state .A 3 2).1 3 2 8 (8 + (2 + 4))
      (rbbq_wrap_state.buffer .A).alloc_watermark_idx ∧
    rbbq_alloc rbbq_wrap_state .A 3 10 = (.err .ENOMEM, rbbq_wrap_state) :=
  ⟨(rbbq_alloc_modes (rbbq_local_running 20) .A 1 12 0 0 20 (by decide) (by decide)
      (by decide) (by decide) (by decide) (by decide) (by decide) (by decide)).1
      (by decide) (by decide),
    (rbbq_alloc_modes rbbq_taken_state .A 2 4 16 16 20 (by decide) (by decide)
      (by decide) (by decide) (by decide) (by decide) (by decide) (by decide)).2.1
      (by decide) (by decide) (by decide) (by decide),
    (rbbq_alloc_modes rbbq_wrap_state .A 3 2 8 16 20 (by decide) (by decide)
      (by decide) (by decide) (by decide) (by decide) (by decide) (by decide)).2.2.1
      (by decide) (by decide) (by decide),
    (rbbq_alloc_modes rbbq_wrap_state .A 3 10 8 16 20 (by decide) (by decide)
      (by decide) (by decide) (by decide) (by decide) (by decide) (by decide)).2.2.2
      (by decide) (by decide) (by decide)⟩

/-- A successful `rbbq_alloc` was called on a running buffer whose alloc mutex was free. -/
theorem rbbq_alloc_ok_running (s : rbbq_local) (side : rbbq_side) (channel size : Nat)
    (msg : Option Nat) (hok : (rbbq_alloc s side channel size).1 = .ok msg) :
    (s.buffer side).state = RBBQ_BUFFER_STATE_RUNNING ∧ (s.buffer side).alloc_mutex = false := by
  unfold rbbq_alloc at hok
  simp only [] at hok
  by_cases hrun : (s.buffer side).state = RBBQ_BUFFER_STATE_RUNNING
  · refine ⟨hrun, ?_⟩
    rw [if_neg (not_not.mpr hrun)] at hok
    cases hm : (s.buffer side).alloc_mutex with
    | false => rfl
    | true =>
      rw [hm] at hok
      simp only [ts_mutex_lock, if_true] at hok
      cases hok
  · rw [if_pos hrun] at hok
    cases hok

/-- Claim C13: for a producer state with write index `W ≤ E`, observed read index `R ≤ E` and a
payload size with `size + 4 ≤ E`, after a successful `rbbq_alloc` the new write index is at most
`E`, the reserved span `[offset, offset + size + 4)` lies inside `[0, E)` and ends at the new
write index, and whenever the reservation is made behind the read index (AtStart or AtMiddle)
the new write index is strictly below `R`. -/
theorem rbbq_alloc_within_capacity (s : rbbq_local) (side : rbbq_side)
    (channel size W R E : Nat) (msg : Option Nat)
    (hW : (s.buffer side).alloc_write_idx = W)
    (hR : (s.buffer side).tx_shadow_read_idx % 65536 = R)
    (hE : s.tx_data_size side = E)
    (hEmax : E ≤ UINT16_MAX)
    (hWE : W ≤ E) (hRE : R ≤ E) (hSE : size + RBBQ_MESSAGE_HEADER_SIZE ≤ E)
    (hok : (rbbq_alloc s side channel size).1 = .ok msg) :
    ∃ offset,
      ((rbbq_alloc s side channel size).2.buffer side).alloc_message = some offset ∧
      msg = some (offset + RBBQ_MESSAGE_HEADER_SIZE) ∧
      ((rbbq_alloc s side channel size).2.buffer side).alloc_write_idx ≤ E ∧
      offset + (size + RBBQ_MESSAGE_HEADER_SIZE) ≤ E ∧
      ((rbbq_alloc s side channel size).2.buffer side).alloc_write_idx
        = offset + (size + RBBQ_MESSAGE_HEADER_SIZE) ∧
      ((rbbq_alloc_avail s side (size + RBBQ_MESSAGE_HEADER_SIZE) = RBBQ_MESSAGE_ALLOC_AT_START ∨
          rbbq_alloc_avail s side (size + RBBQ_MESSAGE_HEADER_SIZE)
            = RBBQ_MESSAGE_ALLOC_AT_MIDDLE) →
        ((rbbq_alloc s side channel size).2.buffer side).alloc_write_idx < R) ∧
      (offset < R →
        ((rbbq_alloc s side channel size).2.buffer side).alloc_write_idx < R) := by
  have hmax : UINT16_MAX = 65535 := rfl
  have hhdr : RBBQ_MESSAGE_HEADER_SIZE = 4 := rfl
  obtain ⟨hrun, hmutex⟩ := rbbq_alloc_ok_running s side channel size msg hok
  subst hW hR hE
  obtain ⟨cend, cstart, cmid⟩ := rbbq_alloc_avail_cases s side (size + RBBQ_MESSAGE_HEADER_SIZE)
  have hne01 : RBBQ_MESSAGE_ALLOC_AT_START ≠ RBBQ_MESSAGE_ALLOC_AT_END := by decide
  have hne02 : RBBQ_MESSAGE_ALLOC_AT_MIDDLE ≠ RBBQ_MESSAGE_ALLOC_AT_END := by decide
  have hne12 : RBBQ_MESSAGE_ALLOC_AT_MIDDLE ≠ RBBQ_MESSAGE_ALLOC_AT_START := by decide
  have htx : (s.set_buffer side { s.buffer side with alloc_mutex := true }).tx_data_size side
      = s.tx_data_size side := by
    unfold rbbq_local.tx_data_size
    rw [tx_set_buffer]
  rw [rbbq_alloc_running s side channel size hrun hmutex (by omega)] at hok ⊢
  by_cases h0 : rbbq_alloc_avail s side (size + RBBQ_MESSAGE_HEADER_SIZE)
      = RBBQ_MESSAGE_ALLOC_AT_END
  · rw [if_pos h0] at hok ⊢
    have hc := cend.1 h0
    obtain ⟨h1, h2, _, _⟩ := rbbq_alloc_at_spec
      (s.set_buffer side { s.buffer side with alloc_mutex := true }) side channel size
      (s.buffer side).alloc_write_idx (s.tx_data_size side) (s.buffer side).alloc_write_idx
      (by omega) (by rw [htx]; omega) (by omega)
    rw [h1] at hok
    rw [h2]
    refine ⟨(s.buffer side).alloc_write_idx, rfl, ?_, ?_, ?_, ?_, ?_, ?_⟩
    · cases hok; rfl
    · show (s.buffer side).alloc_write_idx + (size + 4) ≤ _
      omega
    · omega
    · rfl
    · intro h
      rcases h with h | h
      · exact absurd (h0.symm.trans h) hne01.symm
      · exact absurd (h0.symm.trans h) hne02.symm
    · intro h
      omega
  · rw [if_neg h0] at hok ⊢
    by_cases h1 : rbbq_alloc_avail s side (size + RBBQ_MESSAGE_HEADER_SIZE)
        = RBBQ_MESSAGE_ALLOC_AT_START
    · rw [if_pos h1] at hok ⊢
      have hc := cstart.1 h1
      obtain ⟨h1', h2, _, _⟩ := rbbq_alloc_at_spec
        (s.set_buffer side { s.buffer side with alloc_mutex := true }) side channel size
        0 (s.buffer side).alloc_write_idx 0
        (by omega) (by rw [htx]; omega) (by omega)
      rw [h1'] at hok
      rw [h2]
      refine ⟨0, rfl, ?_, ?_, ?_, ?_, ?_, ?_⟩
      · cases hok; rfl
      · show 0 + (size + 4) ≤ _
        omega
      · omega
      · rfl
      · intro _
        show 0 + (size + 4) < _
        omega
      · intro _
        show 0 + (size + 4) < _
        omega
    · rw [if_neg h1] at hok ⊢
      by_cases h2 : rbbq_alloc_avail s side (size + RBBQ_MESSAGE_HEADER_SIZE)
          = RBBQ_MESSAGE_ALLOC_AT_MIDDLE
      · rw [if_pos h2] at hok ⊢
        have hc := cmid.1 h2
        obtain ⟨h1', h2', _, _⟩ := rbbq_alloc_at_spec
          (s.set_buffer side { s.buffer side with alloc_mutex := true }) side channel size
          (s.buffer side).alloc_write_idx (s.buffer side).alloc_watermark_idx
          (s.buffer side).alloc_write_idx
          (by omega) (by rw [htx]; omega) (by omega)
        rw [h1'] at hok
        rw [h2']
        refine ⟨(s.buffer side).alloc_write_idx, rfl, ?_, ?_, ?_, ?_, ?_, ?_⟩
        · cases hok; rfl
        · show (s.buffer side).alloc_write_idx + (size + 4) ≤ _
          omega
        · omega
        · rfl
        · intro _
          show (s.buffer side).alloc_write_idx + (size + 4) < _
          omega
        · intro _
          show (s.buffer side).alloc_write_idx + (size + 4) < _
          omega
      · rw [if_neg h2] at hok
        cases hok

set_option maxRecDepth 100000 in
/-- Witness of `rbbq_alloc_within_capacity`: with write and read index at 16 of 20 bytes, a
frame of 8 bytes is reserved at the start and the new write index 8 stays below 16. -/
theorem rbbq_alloc_within_capacity_witness :
    ∃ offset,
      ((rbbq_alloc rbbq_taken_state .A 2 4).2.buffer .A).alloc_message = some offset ∧
      some 4 = some (offset + RBBQ_MESSAGE_HEADER_SIZE) ∧
      ((rbbq_alloc rbbq_taken_state .A 2 4).2.buffer .A).alloc_write_idx ≤ 20 ∧
      offset + (4 + RBBQ_MESSAGE_HEADER_SIZE) ≤ 20 ∧
      ((rbbq_alloc rbbq_taken_state .A 2 4).2.buffer .A).alloc_write_idx
        = offset + (4 + RBBQ_MESSAGE_HEADER_SIZE) ∧
      ((rbbq_alloc_avail rbbq_taken_state .A (4 + RBBQ_MESSAGE_HEADER_SIZE)
            = RBBQ_MESSAGE_ALLOC_AT_START ∨
          rbbq_alloc_avail rbbq_taken_state .A (4 + RBBQ_MESSAGE_HEADER_SIZE)
            = RBBQ_MESSAGE_ALLOC_AT_MIDDLE) →
        ((rbbq_alloc rbbq_taken_state .A 2 4).2.buffer .A).alloc_write_idx < 16) ∧
      (offset < 16 →
        ((rbbq_alloc rbbq_taken_state .A 2 4).2.buffer .A).alloc_write_idx < 16) :=
  rbbq_alloc_within_capacity rbbq_taken_state .A 2 4 16 16 20 (some 4) (by decide) (by decide)
    (by decide) (by decide) (by decide) (by decide) (by decide) (by decide)

/-! ## Claim C11: the steps of `tsm_originator_get` -/

theorem highest_index_from_some (p : Nat → Bool) (n lo k : Nat) :
    highest_index_from p n lo = some k ↔
      lo ≤ k ∧ k < lo + n ∧ p k = true ∧ ∀ j, k < j → j < lo + n → p j = false := by
  induction n with
  | zero =>
    simp only [highest_index_from]
    constructor
    · intro h; cases h
    · intro h; omega
  | succ m ih =>
    simp only [highest_index_from]
    by_cases hp : p (lo + m) = true
    · rw [if_pos hp]
      constructor
      · intro h
        have := Option.some.inj h
        subst this
        exact ⟨by omega, by omega, hp, fun j h1 h2 => by omega⟩
      · intro ⟨h1, h2, h3, h4⟩
        by_cases hk : k = lo + m
        · rw [hk]
        · have := h4 (lo + m) (by omega) (by omega)
          rw [hp] at this
          cases this
    · rw [if_neg hp, ih]
      have hp' : p (lo + m) = false := by
        cases h : p (lo + m) with
        | true => exact absurd h hp
        | false => rfl
      constructor
      · intro ⟨h1, h2, h3, h4⟩
        refine ⟨h1, by omega, h3, ?_⟩
        intro j hj1 hj2
        by_cases hj : j = lo + m
        · rw [hj]; exact hp'
        · exact h4 j hj1 (by omega)
      · intro ⟨h1, h2, h3, h4⟩
        have hk : k ≠ lo + m := by
          intro hk
          rw [hk, hp'] at h3
          cases h3
        exact ⟨h1, by omega, h3, fun j hj1 hj2 => h4 j hj1 (by omega)⟩

theorem lowest_index_from_congr (p q : Nat → Bool) (n i : Nat)
    (h : ∀ k, i ≤ k → k < i + n → p k = q k) :
    lowest_index_from p n i = lowest_index_from q n i := by
  induction n generalizing i with
  | zero => rfl
  | succ m ih =>
    simp only [lowest_index_from]
    rw [h i (Nat.le_refl i) (by omega), ih (i + 1) (fun k h1 h2 => h k (by omega) (by omega))]

theorem originator_get_scan_cons (t : tsm_context) (router v : Nat) (rest : List Nat)
    (i e : Nat) :
    tsm_originator_get_scan t router (v :: rest) i e =
      if v = UINT16_MAX then
        tsm_originator_get_scan t router rest (i + 1) (if e = UINT16_MAX then i else e)
      else if v ≥ t.node_table.originator_start_idx then
        if (t.path v).router_idx = router then (v, e)
        else tsm_originator_get_scan t router rest (i + 1) e
      else tsm_originator_get_scan t router rest (i + 1) e := rfl

theorem originator_get_scan_spec (t : tsm_context) (router : Nat) (L : List Nat)
    (hL : L.length ≤ UINT8_MAX) (n i e : Nat) (hn : i + n = L.length)
    (he : e = UINT16_MAX ∨ e < i) :
    (∀ k, lowest_index_from (fun k => decide (L.getD k 0 ≠ UINT16_MAX ∧
        t.node_table.originator_start_idx ≤ L.getD k 0 ∧
        (t.path (L.getD k 0)).router_idx = router)) n i = some k →
      (tsm_originator_get_scan t router (L.drop i) i e).1 = L.getD k 0) ∧
    (lowest_index_from (fun k => decide (L.getD k 0 ≠ UINT16_MAX ∧
        t.node_table.originator_start_idx ≤ L.getD k 0 ∧
        (t.path (L.getD k 0)).router_idx = router)) n i = none →
      (tsm_originator_get_scan t router (L.drop i) i e).1 = UINT16_MAX ∧
      (e ≠ UINT16_MAX → (tsm_originator_get_scan t router (L.drop i) i e).2 = e) ∧
      (e = UINT16_MAX →
        (∀ k, lowest_index_from (fun k => decide (L.getD k 0 = UINT16_MAX)) n i = some k →
          (tsm_originator_get_scan t router (L.drop i) i e).2 = k) ∧
        (lowest_index_from (fun k => decide (L.getD k 0 = UINT16_MAX)) n i = none →
          (tsm_originator_get_scan t router (L.drop i) i e).2 = UINT16_MAX))) := by
  induction n generalizing i e with
  | zero =>
    rw [drop_length_nil L i (by omega)]
    refine ⟨fun k h => ?_, fun _ => ⟨rfl, fun _ => rfl, fun h => ⟨fun k h' => ?_, fun _ => h⟩⟩⟩
    · simp [lowest_index_from] at h
    · simp [lowest_index_from] at h'
  | succ m ih =>
    have hi : i < L.length := by omega
    have hi255 : i ≠ UINT16_MAX := by simp only [UINT16_MAX, UINT8_MAX] at *; omega
    have he1 : e = UINT16_MAX ∨ e < i + 1 := by
      rcases he with he | he
      · left; exact he
      · right; omega
    rw [drop_eq_getD_cons L i 0 hi, originator_get_scan_cons]
    by_cases h1 : L.getD i 0 = UINT16_MAX
    · -- an empty reference
      have hpm : decide (L.getD i 0 ≠ UINT16_MAX ∧
          t.node_table.originator_start_idx ≤ L.getD i 0 ∧
          (t.path (L.getD i 0)).router_idx = router) = false := by
        rw [decide_eq_false_iff_not]
        intro h; exact h.1 h1
      have hpe : decide (L.getD i 0 = UINT16_MAX) = true := by
        rw [decide_eq_true_iff]; exact h1
      rw [if_pos h1, lowest_index_from_succ_false _ _ _ hpm,
        lowest_index_from_succ_true (fun k => decide (L.getD k 0 = UINT16_MAX)) _ _ hpe]
      have he' : (if e = UINT16_MAX then i else e) = UINT16_MAX ∨
          (if e = UINT16_MAX then i else e) < i + 1 := by
        split_ifs with hh
        · right; omega
        · right; rcases he with he | he
          · exact absurd he hh
          · omega
      have hne' : (if e = UINT16_MAX then i else e) ≠ UINT16_MAX := by
        split_ifs with hh
        · exact hi255
        · exact hh
      obtain ⟨iha, ihb⟩ := ih (i + 1) (if e = UINT16_MAX then i else e) (by omega) he'
      refine ⟨iha, ?_⟩
      intro hnone
      obtain ⟨hb1, hb2, _⟩ := ihb hnone
      refine ⟨hb1, ?_, ?_⟩
      · intro hene
        rw [hb2 hne', if_neg hene]
      · intro hee
        refine ⟨?_, fun h => by cases h⟩
        intro k hk
        rw [hb2 hne', if_pos hee]
        exact Option.some.inj hk
    · have hpe : decide (L.getD i 0 = UINT16_MAX) = false := by
        rw [decide_eq_false_iff_not]; exact h1
      rw [if_neg h1, lowest_index_from_succ_false
        (fun k => decide (L.getD k 0 = UINT16_MAX)) _ _ hpe]
      by_cases h2 : L.getD i 0 ≥ t.node_table.originator_start_idx
      · rw [if_pos h2]
        by_cases h3 : (t.path (L.getD i 0)).router_idx = router
        · have hpm : decide (L.getD i 0 ≠ UINT16_MAX ∧
              t.node_table.originator_start_idx ≤ L.getD i 0 ∧
              (t.path (L.getD i 0)).router_idx = router) = true := by
            rw [decide_eq_true_iff]; exact ⟨h1, h2, h3⟩
          rw [if_pos h3, lowest_index_from_succ_true _ _ _ hpm]
          refine ⟨?_, fun h => by cases h⟩
          intro k hk
          rw [← Option.some.inj hk]
        · have hpm : decide (L.getD i 0 ≠ UINT16_MAX ∧
              t.node_table.originator_start_idx ≤ L.getD i 0 ∧
              (t.path (L.getD i 0)).router_idx = router) = false := by
            rw [decide_eq_false_iff_not]; intro h; exact h3 h.2.2
          rw [if_neg h3, lowest_index_from_succ_false _ _ _ hpm]
          exact ih (i + 1) e (by omega) he1
      · have hpm : decide (L.getD i 0 ≠ UINT16_MAX ∧
            t.node_table.originator_start_idx ≤ L.getD i 0 ∧
            (t.path (L.getD i 0)).router_idx = router) = false := by
          rw [decide_eq_false_iff_not]; intro h; exact h2 h.2.1
        rw [if_neg h2, lowest_index_from_succ_false _ _ _ hpm]
        exact ih (i + 1) e (by omega) he1

theorem highest_index_from_succ_true (p : Nat → Bool) (n lo : Nat) (h : p (lo + n) = true) :
    highest_index_from p (n + 1) lo = some (lo + n) := by
  simp only [highest_index_from, h, if_true]

theorem highest_index_from_succ_false (p : Nat → Bool) (n lo : Nat) (h : p (lo + n) = false) :
    highest_index_from p (n + 1) lo = highest_index_from p n lo := by
  simp only [highest_index_from, h, Bool.false_eq_true, if_false]

theorem originator_get_alloc_succ (t : tsm_context) (fuel i : Nat) :
    tsm_originator_get_alloc t (fuel + 1) i =
      if i < t.node_table.originator_start_idx then
        .ok (UINT16_MAX, t.node_table.originator_start_idx)
      else if i < t.node_table.paths.length ∧ (t.path i).first = UINT8_MAX then
        .ok (i, t.node_table.originator_start_idx)
      else if i = t.node_table.originator_start_idx then
        if i = 0 then
          .err .ENOMEM
        else if (t.path (t.node_table.originator_start_idx - 1)).first ≠ UINT8_MAX then
          .err .ENOMEM
        else
          .ok (i - 1, i - 1)
      else
        tsm_originator_get_alloc t fuel (i - 1) := rfl

/-- The boundary case of the second loop of `tsm_originator_get`. -/
theorem originator_get_alloc_boundary (t : tsm_context) :
    (if t.node_table.originator_start_idx = 0 then (.err .ENOMEM : Ret (Nat × Nat))
      else if (t.path (t.node_table.originator_start_idx - 1)).first ≠ UINT8_MAX then
        .err .ENOMEM
      else
        .ok (t.node_table.originator_start_idx - 1, t.node_table.originator_start_idx - 1)) =
    if 0 < t.node_table.originator_start_idx ∧
        (t.path (t.node_table.originator_start_idx - 1)).first = UINT8_MAX then
      .ok (t.node_table.originator_start_idx - 1, t.node_table.originator_start_idx - 1)
    else .err .ENOMEM := by
  by_cases h0 : t.node_table.originator_start_idx = 0
  · rw [if_pos h0, if_neg (fun h => by omega)]
  · rw [if_neg h0]
    by_cases hf : (t.path (t.node_table.originator_start_idx - 1)).first = UINT8_MAX
    · rw [if_neg (not_not.mpr hf), if_pos ⟨by omega, hf⟩]
    · rw [if_pos hf, if_neg (fun h => hf h.2)]

/-- The second loop of `tsm_originator_get` at an index `i` inside the path table, with enough
fuel: the highest free slot from `originator_start_idx` up to `i`, else the slot below the
split index. -/
theorem originator_get_alloc_below (t : tsm_context) (n fuel i : Nat)
    (hn : t.node_table.originator_start_idx + n = i) (hi : i < t.node_table.paths.length)
    (hfuel : n < fuel) :
    tsm_originator_get_alloc t fuel i =
      match highest_index_from (fun i => decide ((t.path i).first = UINT8_MAX)) (n + 1)
          t.node_table.originator_start_idx with
      | some slot => .ok (slot, t.node_table.originator_start_idx)
      | none =>
        if 0 < t.node_table.originator_start_idx ∧
            (t.path (t.node_table.originator_start_idx - 1)).first = UINT8_MAX then
          .ok (t.node_table.originator_start_idx - 1, t.node_table.originator_start_idx - 1)
        else .err .ENOMEM := by
  induction n generalizing fuel i with
  | zero =>
    have hio : i = t.node_table.originator_start_idx := by omega
    obtain ⟨f, rfl⟩ : ∃ f, fuel = f + 1 := ⟨fuel - 1, by omega⟩
    subst hio
    have hlt : ¬ t.node_table.originator_start_idx < t.node_table.originator_start_idx :=
      Nat.lt_irrefl _
    rw [originator_get_alloc_succ, if_neg hlt]
    by_cases hf : (t.path t.node_table.originator_start_idx).first = UINT8_MAX
    · have hp : (fun i => decide ((t.path i).first = UINT8_MAX))
          (t.node_table.originator_start_idx + 0) = true := by
        simp only [Nat.add_zero, decide_eq_true_eq]; exact hf
      rw [if_pos ⟨hi, hf⟩, highest_index_from_succ_true _ _ _ hp]
      rfl
    · have hp : (fun i => decide ((t.path i).first = UINT8_MAX))
          (t.node_table.originator_start_idx + 0) = false := by
        simp only [Nat.add_zero, decide_eq_false_iff_not]; exact hf
      rw [if_neg (fun h => hf h.2), if_pos rfl, highest_index_from_succ_false _ _ _ hp]
      simp only [highest_index_from]
      exact originator_get_alloc_boundary t
  | succ m ih =>
    obtain ⟨f, rfl⟩ : ∃ f, fuel = f + 1 := ⟨fuel - 1, by omega⟩
    have hlt : ¬ i < t.node_table.originator_start_idx := by omega
    have hne : ¬ i = t.node_table.originator_start_idx := by omega
    rw [originator_get_alloc_succ, if_neg hlt]
    by_cases hf : (t.path i).first = UINT8_MAX
    · have hp : (fun i => decide ((t.path i).first = UINT8_MAX))
          (t.node_table.originator_start_idx + (m + 1)) = true := by
        simp only [decide_eq_true_eq]; rw [hn]; exact hf
      rw [if_pos ⟨hi, hf⟩, highest_index_from_succ_true _ _ _ hp, hn]
    · have hp : (fun i => decide ((t.path i).first = UINT8_MAX))
          (t.node_table.originator_start_idx + (m + 1)) = false := by
        simp only [decide_eq_false_iff_not]; rw [hn]; exact hf
      rw [if_neg (fun h => hf h.2), if_neg hne, highest_index_from_succ_false _ _ _ hp]
      exact ih f (i - 1) (by omega) (by omega) (by omega)

/-- The second loop of `tsm_originator_get` as it is started, at `ARRAY_SIZE(paths)`: the highest
free slot of the originator region, else the slot below the split index. -/
theorem originator_get_alloc_spec (t : tsm_context)
    (hstart : t.node_table.originator_start_idx ≤ t.node_table.paths.length) :
    tsm_originator_get_alloc t (t.node_table.paths.length + 1) t.node_table.paths.length =
      match highest_index_from (fun i => decide ((t.path i).first = UINT8_MAX))
          (t.node_table.paths.length - t.node_table.originator_start_idx)
          t.node_table.originator_start_idx with
      | some slot => .ok (slot, t.node_table.originator_start_idx)
      | none =>
        if 0 < t.node_table.originator_start_idx ∧
            (t.path (t.node_table.originator_start_idx - 1)).first = UINT8_MAX then
          .ok (t.node_table.originator_start_idx - 1, t.node_table.originator_start_idx - 1)
        else .err .ENOMEM := by
  have hlt : ¬ t.node_table.paths.length < t.node_table.originator_start_idx := by omega
  have hnn : ¬ (t.node_table.paths.length < t.node_table.paths.length ∧
      (t.path t.node_table.paths.length).first = UINT8_MAX) := fun h => Nat.lt_irrefl _ h.1
  rw [originator_get_alloc_succ, if_neg hlt, if_neg hnn]
  by_cases heq : t.node_table.paths.length = t.node_table.originator_start_idx
  · rw [if_pos heq, heq, Nat.sub_self]
    simp only [highest_index_from]
    exact originator_get_alloc_boundary t
  · rw [if_neg heq]
    have hsub : t.node_table.paths.length - t.node_table.originator_start_idx
        = (t.node_table.paths.length - 1 - t.node_table.originator_start_idx) + 1 := by omega
    rw [hsub]
    exact originator_get_alloc_below t _ _ _ (by omega) (by omega) (by omega)

/-- On a state that satisfies the assertion and the size constraints and whose node entry holds
valid path references, the part of `tsm_originator_get` behind `tsm_node_get` is the specified
sequence of steps. -/
theorem originator_get_at_spec (t1 : tsm_context) (idx router : Nat)
    (hstart : t1.node_table.originator_start_idx ≤ t1.node_table.paths.length)
    (hpaths : t1.node_table.paths.length ≤ UINT16_MAX)
    (hrefs : (t1.node idx).paths_refs.length ≤ UINT8_MAX)
    (hvalid : ∀ k, k < (t1.node idx).paths_refs.length →
      (t1.node idx).paths_refs.getD k 0 = UINT16_MAX ∨
      (t1.node idx).paths_refs.getD k 0 < t1.node_table.paths.length) :
    tsm_originator_get_at t1 idx router = spec_originator_get t1 idx router := by
  have hscan := originator_get_scan_spec t1 router (t1.node idx).paths_refs hrefs
    (t1.node idx).paths_refs.length 0 UINT16_MAX (by omega) (Or.inl rfl)
  have halloc := originator_get_alloc_spec t1 hstart
  have hcongr : lowest_index_from (fun k =>
        decide (t1.node_table.originator_start_idx ≤ (t1.node idx).paths_refs.getD k 0 ∧
          (t1.node idx).paths_refs.getD k 0 < t1.node_table.paths.length ∧
          (t1.path ((t1.node idx).paths_refs.getD k 0)).router_idx = router))
        (t1.node idx).paths_refs.length 0 =
      lowest_index_from (fun k =>
        decide ((t1.node idx).paths_refs.getD k 0 ≠ UINT16_MAX ∧
          t1.node_table.originator_start_idx ≤ (t1.node idx).paths_refs.getD k 0 ∧
          (t1.path ((t1.node idx).paths_refs.getD k 0)).router_idx = router))
        (t1.node idx).paths_refs.length 0 := by
    apply lowest_index_from_congr
    intro k _ hk
    rw [decide_eq_decide]
    rcases hvalid k (by omega) with hv | hv
    · constructor
      · intro h; omega
      · intro h; exact absurd hv h.1
    · constructor
      · intro h; exact ⟨by omega, h.1, h.2.2⟩
      · intro h; exact ⟨h.2.1, hv, h.2.2⟩
  simp only [List.drop_zero] at hscan
  obtain ⟨hs1, hs2⟩ := hscan
  unfold tsm_originator_get_at spec_originator_get lowest_index
  simp only []
  rw [hcongr]
  cases hm : lowest_index_from (fun k =>
      decide ((t1.node idx).paths_refs.getD k 0 ≠ UINT16_MAX ∧
        t1.node_table.originator_start_idx ≤ (t1.node idx).paths_refs.getD k 0 ∧
        (t1.path ((t1.node idx).paths_refs.getD k 0)).router_idx = router))
      (t1.node idx).paths_refs.length 0 with
  | some k =>
    have h1 := hs1 k hm
    have hk := (lowest_index_from_some _ _ _ _).1 hm
    have hne : (t1.node idx).paths_refs.getD k 0 ≠ UINT16_MAX := by
      have := hk.2.2.1
      rw [decide_eq_true_iff] at this
      exact this.1
    rw [if_neg (by rw [h1]; exact hne), h1]
  | none =>
    obtain ⟨h1, _, h3⟩ := hs2 hm
    obtain ⟨h3a, h3b⟩ := h3 trivial
    rw [if_pos h1]
    cases he : lowest_index_from (fun k =>
        decide ((t1.node idx).paths_refs.getD k 0 = UINT16_MAX))
        (t1.node idx).paths_refs.length 0 with
    | none =>
      rw [if_pos (h3b he)]
    | some e =>
      have h2 := h3a e he
      have hek := (lowest_index_from_some _ _ _ _).1 he
      rw [if_neg (by rw [h2]; simp only [UINT16_MAX, UINT8_MAX] at *; omega), h2, halloc]
      cases hf : highest_index_from (fun i => decide ((t1.path i).first = UINT8_MAX))
          (t1.node_table.paths.length - t1.node_table.originator_start_idx)
          t1.node_table.originator_start_idx with
      | some slot => rfl
      | none =>
        simp only []
        split_ifs <;> rfl

/-- The node entry `tsm_node_get` returns is either an entry of the unchanged table or a
phantom, whose path references are all `0xFFFF`. -/
theorem tsm_node_get_refs (now : Nat) (tsm : tsm_context) (node_id idx : Nat)
    (t1 : tsm_context) (h : tsm_node_get now tsm node_id = some (idx, t1)) :
    (t1 = tsm ∧ idx < tsm.node_table.nodes.length) ∨
    (∀ k, k < (t1.node idx).paths_refs.length →
      (t1.node idx).paths_refs.getD k 0 = UINT16_MAX) := by
  have hphantom : ∀ (t : tsm_context),
      ∀ k, k < ((tsm_node_init_phantom t idx node_id).node idx).paths_refs.length →
        ((tsm_node_init_phantom t idx node_id).node idx).paths_refs.getD k 0 = UINT16_MAX := by
    intro t k hk
    rw [node_init_phantom] at hk ⊢
    by_cases hidx : idx < t.node_table.nodes.length
    · rw [if_pos ⟨rfl, hidx⟩] at hk ⊢
      simp only [List.length_map] at hk
      exact getD_map_const _ _ _ _ hk
    · rw [if_neg (fun h => hidx h.2)] at hk
      rw [node_default_of_le t idx (by omega)] at hk
      simp [default] at hk
  have hm := get_scan_match node_id tsm.node_table.nodes 0 UINT16_MAX
  unfold tsm_node_get at h
  simp only [] at h
  by_cases hmatch : (tsm_node_get_scan node_id tsm.node_table.nodes 0 UINT16_MAX).1
      = UINT16_MAX
  · rw [if_pos hmatch] at h
    right
    by_cases hempty : (tsm_node_get_scan node_id tsm.node_table.nodes 0 UINT16_MAX).2
        = UINT16_MAX
    · rw [if_pos hempty] at h
      by_cases hev : tsm_node_evict now tsm = UINT16_MAX
      · rw [if_pos hev] at h; cases h
      · rw [if_neg hev] at h
        simp only [Option.some.injEq, Prod.mk.injEq] at h
        obtain ⟨hi, ht⟩ := h
        subst ht
        rw [hi]
        exact hphantom _
    · rw [if_neg hempty] at h
      simp only [Option.some.injEq, Prod.mk.injEq] at h
      obtain ⟨hi, ht⟩ := h
      subst ht
      rw [hi]
      exact hphantom _
  · rw [if_neg hmatch] at h
    simp only [Option.some.injEq, Prod.mk.injEq] at h
    obtain ⟨hi, ht⟩ := h
    left
    refine ⟨ht.symm, ?_⟩
    cases hl : tsm_node_lookup_scan node_id tsm.node_table.nodes 0 with
    | ok m =>
      rw [hl] at hm
      simp only [] at hm
      obtain ⟨k, hk, hk2, _⟩ := (lookup_scan_ok_iff _ _ _ _).1 hl
      omega
    | err e =>
      rw [hl] at hm
      exact absurd hm hmatch

/-- Claim C11: on a state with `originator_start_idx <= N` (the assertion of the function),
array sizes within the index types and valid path references, `tsm_originator_get`, once
`tsm_node_get` has yielded the node entry, is the specified sequence of steps
`spec_originator_get`: an originator slot the node already references with the router is
returned unchanged; otherwise `-EBUSY` when the node has no empty path reference; otherwise the
highest free slot in `[originator_start_idx, N)`, or, if there is none, the slot below
`originator_start_idx`, which is decremented, when that slot exists and is free, else `-ENOMEM`;
the new slot is set to `{throughput = 0, router_idx}`. -/
theorem tsm_originator_get_steps (now : Nat) (tsm : tsm_context) (node_id router_idx : Nat)
    (hstart : tsm.node_table.originator_start_idx ≤ tsm.node_table.paths.length)
    (hpaths : tsm.node_table.paths.length ≤ UINT16_MAX)
    (hrefs : ∀ o, o < tsm.node_table.nodes.length →
      (tsm.node o).paths_refs.length ≤ UINT8_MAX)
    (hvalid : ∀ o, o < tsm.node_table.nodes.length →
      ∀ k, k < (tsm.node o).paths_refs.length →
        (tsm.node o).paths_refs.getD k 0 = UINT16_MAX ∨
        (tsm.node o).paths_refs.getD k 0 < tsm.node_table.paths.length) :
    tsm_originator_get now tsm node_id router_idx =
      (tsm_node_get now tsm node_id).map
        (fun r => spec_originator_get r.2 r.1 router_idx) := by
  unfold tsm_originator_get
  cases hget : tsm_node_get now tsm node_id with
  | none => rfl
  | some r =>
    obtain ⟨idx, t1⟩ := r
    have hs := tsm_node_get_shape now tsm node_id idx t1 hget
    simp only [Option.map_some']
    have hr : (tsm.node idx).paths_refs.length ≤ UINT8_MAX := by
      by_cases hidx : idx < tsm.node_table.nodes.length
      · exact hrefs idx hidx
      · rw [node_default_of_le tsm idx (by omega)]
        simp [default]
    have hv : ∀ k, k < (t1.node idx).paths_refs.length →
        (t1.node idx).paths_refs.getD k 0 = UINT16_MAX ∨
        (t1.node idx).paths_refs.getD k 0 < t1.node_table.paths.length := by
      rcases tsm_node_get_refs now tsm node_id idx t1 hget with ⟨ht, hidx⟩ | hall
      · subst ht
        exact hvalid idx hidx
      · intro k hk
        exact Or.inl (hall k hk)
    rw [originator_get_at_spec t1 idx router_idx (by rw [hs.1, hs.2.1]; exact hstart)
      (by rw [hs.2.1]; exact hpaths) (by rw [hs.2.2 idx]; exact hr) hv]

set_option maxRecDepth 100000 in
/-- Witness of `tsm_originator_get_steps`, the scenario of the specification: with 4 path slots
and the split index 1 on an empty table, two neighbour slots on distinct ports for the node
`0xCAFFE7E1` make the split index 2, and a following originator for `0xCAFFE031` with that node
(index 0) as router is placed at index 3 with the split index still 2; asking again returns the
same slot and changes nothing. -/
theorem tsm_originator_get_steps_witness :
    mesh_empty4.node_table.paths.length = 4 ∧
    mesh_empty4.node_table.originator_start_idx = 1 ∧
    mesh_two_neighbours.node_table.originator_start_idx = 2 ∧
    (mesh_two_neighbours.node 0).node_id = 0xCAFFE7E1 ∧
    (mesh_two_neighbours.node 0).paths_refs = [0, 1] ∧
    tsm_originator_get 0 mesh_two_neighbours 0xCAFFE031 0 =
      (tsm_node_get 0 mesh_two_neighbours 0xCAFFE031).map
        (fun r => spec_originator_get r.2 r.1 0) ∧
    (tsm_originator_get 0 mesh_two_neighbours 0xCAFFE031 0).map
      (fun r => (r.1, r.2.node_table.originator_start_idx, (r.2.node 1).paths_refs,
        r.2.path 3)) = some (.ok (1, 3), 2, [3, 0xFFFF], ⟨0, 0, 0⟩) ∧
    (tsm_originator_get 0 mesh_two_neighbours 0xCAFFE031 0).bind
      (fun r => (tsm_originator_get 0 r.2 0xCAFFE031 0).map
        (fun r2 => (r2.1, decide (r2.2 = r.2))))
      = some (.ok (1, 3), true) :=
  ⟨by decide, by decide, by decide, by decide, by decide,
    tsm_originator_get_steps 0 mesh_two_neighbours 0xCAFFE031 0 (by decide) (by decide)
      (by decide) (by decide),
    by decide, by decide⟩

/-! ## Claim C20: `tsm_neighbour_update` for an unknown node -/

/-- The state Get-neighbour leaves behind, as stores to the node and the path table. -/
theorem spec_neighbour_install_eq (tsm : tsm_context)
    (node_idx ref_idx slot start_idx port_id : Nat) :
    spec_neighbour_install tsm node_idx ref_idx slot start_idx port_id =
      (({ tsm with node_table :=
            { tsm.node_table with originator_start_idx := start_idx } } : tsm_context).set_node
          node_idx { tsm.node node_idx with
            paths_refs := (tsm.node node_idx).paths_refs.set ref_idx slot }).set_path slot
        { tsm.path slot with first := 0, port_id := port_id } := rfl

/-- For a node id that is not in the table, with `k` the lowest empty node slot and room in the
neighbour region, `tsm_neighbour_get` makes the slot `k` a phantom, takes a free neighbour
slot `nb` (below the split index, or the slot at the split index, which then grows by one) and
stores it in the first path reference of the node. -/
theorem tsm_neighbour_get_new (now : Nat) (tsm : tsm_context) (node_id port_id k : Nat)
    (hnodes : tsm.node_table.nodes.length ≤ UINT16_MAX)
    (hstart : tsm.node_table.originator_start_idx ≤ tsm.node_table.paths.length)
    (hpaths : tsm.node_table.paths.length ≤ UINT16_MAX)
    (hrefs : 0 < (tsm.node k).paths_refs.length ∧
      (tsm.node k).paths_refs.length ≤ UINT8_MAX)
    (hno : tsm_node_lookup tsm node_id = .err .ENODEV)
    (hk1 : k < tsm.node_table.nodes.length)
    (hk2 : TSM_NODE_SEQNO_CACHE_SIZE ≤ (tsm.node k).protect_window.last_idx)
    (hk3 : ∀ j, j < k → (tsm.node j).protect_window.last_idx < TSM_NODE_SEQNO_CACHE_SIZE)
    (hroom : (∃ i, i < tsm.node_table.originator_start_idx ∧ (tsm.path i).first = UINT8_MAX) ∨
      (tsm.node_table.originator_start_idx < tsm.node_table.paths.length ∧
        (tsm.path tsm.node_table.originator_start_idx).first = UINT8_MAX)) :
    ∃ nb start_idx,
      nb < start_idx ∧ start_idx ≤ tsm.node_table.paths.length ∧
      (tsm.path nb).first = UINT8_MAX ∧
      tsm_neighbour_get now tsm node_id port_id =
        some (.ok (k, nb),
          spec_neighbour_install (tsm_node_init_phantom tsm k node_id) k 0 nb start_idx
            port_id) := by
  have hget := tsm_node_get_lowest_empty now tsm node_id k hnodes hno hk1 hk2 hk3
  have hnode := node_init_phantom tsm k node_id k
  rw [if_pos ⟨rfl, hk1⟩] at hnode
  have hmax : UINT16_MAX = 65535 := rfl
  unfold tsm_neighbour_get
  rw [hget]
  simp only []
  rw [neighbour_get_at_spec _ k port_id (by show tsm.node_table.originator_start_idx ≤ _; omega)
    (by rw [hnode]; simp only [List.length_map]; exact hrefs.2)]
  unfold spec_neighbour_get
  simp only []
  rw [hnode]
  simp only [List.length_map]
  have h1 : lowest_index (fun j =>
      decide ((List.map (fun _ => UINT16_MAX) (tsm.node k).paths_refs).getD j 0
          < (tsm_node_init_phantom tsm k node_id).node_table.originator_start_idx ∧
        ((tsm_node_init_phantom tsm k node_id).path
          ((List.map (fun _ => UINT16_MAX) (tsm.node k).paths_refs).getD j 0)).port_id
            = port_id))
      (tsm.node k).paths_refs.length = none := by
    rw [lowest_index_none]
    intro j hj
    rw [decide_eq_false_iff_not, getD_map_const _ _ _ _ hj]
    intro h
    have : UINT16_MAX < tsm.node_table.originator_start_idx := h.1
    omega
  have h2 : lowest_index (fun j =>
      decide ((List.map (fun _ => UINT16_MAX) (tsm.node k).paths_refs).getD j 0 = UINT16_MAX))
      (tsm.node k).paths_refs.length = some 0 := by
    rw [lowest_index_some]
    refine ⟨hrefs.1, ?_, fun j hj => absurd hj (Nat.not_lt_zero j)⟩
    rw [decide_eq_true_iff, getD_map_const _ _ _ _ hrefs.1]
  rw [h1, h2]
  simp only []
  cases h3 : lowest_index (fun i =>
      decide (((tsm_node_init_phantom tsm k node_id).path i).first = UINT8_MAX))
      (tsm_node_init_phantom tsm k node_id).node_table.originator_start_idx with
  | some slot =>
    obtain ⟨hs1, hs2, _⟩ := (lowest_index_some _ _ _).1 h3
    rw [decide_eq_true_iff] at hs2
    exact ⟨slot, tsm.node_table.originator_start_idx, hs1, hstart, hs2, rfl⟩
  | none =>
    have hnone := (lowest_index_none _ _).1 h3
    have hat : tsm.node_table.originator_start_idx < tsm.node_table.paths.length ∧
        (tsm.path tsm.node_table.originator_start_idx).first = UINT8_MAX := by
      rcases hroom with ⟨i, hi1, hi2⟩ | h
      · have := hnone i hi1
        rw [decide_eq_false_iff_not] at this
        exact absurd hi2 this
      · exact h
    have hat' : (tsm_node_init_phantom tsm k node_id).node_table.originator_start_idx
          < (tsm_node_init_phantom tsm k node_id).node_table.paths.length ∧
        ((tsm_node_init_phantom tsm k node_id).path
          (tsm_node_init_phantom tsm k node_id).node_table.originator_start_idx).first
            = UINT8_MAX := hat
    simp only []
    rw [if_pos hat']
    exact ⟨tsm.node_table.originator_start_idx, tsm.node_table.originator_start_idx + 1,
      Nat.lt_succ_self _, hat.1, hat.2, rfl⟩

/-- On a phantom window `tsm_node_protect_window_update` stores the sequence number, whatever
the clock. -/
theorem update_phantom_window (now : Nat) (tsm : tsm_context) (i s : Nat) (cache : List Nat)
    (hlen : 0 < cache.length)
    (hw : (tsm.node i).protect_window =
      { node_seqno_cache := cache.map (fun _ => TSM_NODE_SEQNO_INVALID)
        last_idx := 0
        last_seen_time := 0 }) :
    tsm_node_protect_window_update now tsm i s =
      (.ok (), tsm.set_node i
        { tsm.node i with
          protect_window := protect_window_insert now (tsm.node i).protect_window s }) := by
  have hseq : tsm_node_seqno now tsm i = .err .ETIMEDOUT ∨
      tsm_node_seqno now tsm i = .err .EINVAL := by
    unfold tsm_node_seqno
    simp only [hw]
    rw [if_neg (by decide)]
    by_cases hage : ts_time_ms_delta now 0 ≥ TSM_NODE_SEQNO_MAX_AGE_S * 1000
    · left; rw [if_pos hage]
    · right; rw [if_neg hage, getD_map_const _ _ _ _ hlen, if_pos rfl]
  unfold tsm_node_protect_window_update
  simp only []
  rcases hseq with h | h
  · rw [h]
    simp only []
    have : ({ (tsm.node i).protect_window with
        node_seqno_cache := (tsm.node i).protect_window.node_seqno_cache.map
          (fun _ => TSM_NODE_SEQNO_INVALID) } : tsm_protect_window)
        = (tsm.node i).protect_window := by
      rw [hw]
      simp only [List.map_map]
      rfl
    rw [this]
  · rw [h]

/-- The state `tsm_neighbour_update` leaves behind for a node id that is not in the table, with
`k` the lowest empty node slot and room in the neighbour region. -/
theorem tsm_neighbour_update_new (now : Nat) (tsm : tsm_context)
    (node_seqno node_id period_s name_mapping_id port_id k : Nat)
    (hown : node_id ≠ tsm.node_id)
    (hnodes : tsm.node_table.nodes.length ≤ UINT16_MAX)
    (hstart : tsm.node_table.originator_start_idx ≤ tsm.node_table.paths.length)
    (hpaths : tsm.node_table.paths.length ≤ UINT16_MAX)
    (hrefs : 0 < (tsm.node k).paths_refs.length ∧
      (tsm.node k).paths_refs.length ≤ UINT8_MAX)
    (hcache : 0 < (tsm.node k).protect_window.node_seqno_cache.length)
    (hno : tsm_node_lookup tsm node_id = .err .ENODEV)
    (hk1 : k < tsm.node_table.nodes.length)
    (hk2 : TSM_NODE_SEQNO_CACHE_SIZE ≤ (tsm.node k).protect_window.last_idx)
    (hk3 : ∀ j, j < k → (tsm.node j).protect_window.last_idx < TSM_NODE_SEQNO_CACHE_SIZE)
    (hroom : (∃ i, i < tsm.node_table.originator_start_idx ∧ (tsm.path i).first = UINT8_MAX) ∨
      (tsm.node_table.originator_start_idx < tsm.node_table.paths.length ∧
        (tsm.path tsm.node_table.originator_start_idx).first = UINT8_MAX)) :
    ∃ nb t,
      tsm_neighbour_update now tsm node_seqno node_id TSM_VERSION period_s name_mapping_id
        port_id = some (.ok (), t) ∧
      nb < t.node_table.originator_start_idx ∧
      t.node_table.originator_start_idx ≤ t.node_table.paths.length ∧
      t.node_table.paths.length = tsm.node_table.paths.length ∧
      t.node_table.nodes.length = tsm.node_table.nodes.length ∧
      t.ports = tsm.ports ∧
      t.node k =
        { node_id := node_id
          name_mapping_id := name_mapping_id
          protect_window := protect_window_insert now
            { node_seqno_cache := (tsm.node k).protect_window.node_seqno_cache.map
                (fun _ => TSM_NODE_SEQNO_INVALID)
              last_idx := 0
              last_seen_time := 0 } node_seqno
          paths_refs := ((tsm.node k).paths_refs.map (fun _ => UINT16_MAX)).set 0 nb } ∧
      t.path nb = { tsm.path nb with first := period_s, port_id := port_id } ∧
      (∀ j, j ≠ k → t.node j = tsm.node j) := by
  obtain ⟨nb, start_idx, hnb1, hnb2, hnb3, hget⟩ :=
    tsm_neighbour_get_new now tsm node_id port_id k hnodes hstart hpaths hrefs hno hk1 hk2 hk3
      hroom
  have hnode := node_init_phantom tsm k node_id k
  rw [if_pos ⟨rfl, hk1⟩] at hnode
  have hlen1 := nodes_length_init_phantom tsm k node_id
  -- the state behind `tsm_neighbour_get`
  have h2node : (spec_neighbour_install (tsm_node_init_phantom tsm k node_id) k 0 nb start_idx
      port_id).node k =
      { node_id := node_id
        name_mapping_id := TSM_NODE_NAME_MAPPING_ID_INVALID
        protect_window :=
          { node_seqno_cache := (tsm.node k).protect_window.node_seqno_cache.map
              (fun _ => TSM_NODE_SEQNO_INVALID)
            last_idx := 0
            last_seen_time := 0 }
        paths_refs := ((tsm.node k).paths_refs.map (fun _ => UINT16_MAX)).set 0 nb } := by
    rw [spec_neighbour_install_eq, node_set_path, node_set_node_self _ _ _ (by
      show k < (tsm_node_init_phantom tsm k node_id).node_table.nodes.length
      rw [hlen1]; exact hk1), hnode]
  have h2other : ∀ j, j ≠ k → (spec_neighbour_install (tsm_node_init_phantom tsm k node_id) k 0
      nb start_idx port_id).node j = tsm.node j := by
    intro j hj
    rw [spec_neighbour_install_eq, node_set_path, node_set_node_ne _ _ _ _ (Ne.symm hj)]
    show (tsm_node_init_phantom tsm k node_id).node j = _
    rw [node_init_phantom, if_neg (fun h => hj h.1.symm)]
  have h2len : (spec_neighbour_install (tsm_node_init_phantom tsm k node_id) k 0 nb start_idx
      port_id).node_table.nodes.length = tsm.node_table.nodes.length := by
    rw [spec_neighbour_install_eq]
    simp only [tsm_context.set_path, tsm_context.set_node, List.length_set]
    exact hlen1
  have h2path : (spec_neighbour_install (tsm_node_init_phantom tsm k node_id) k 0 nb start_idx
      port_id).path nb = { tsm.path nb with first := 0, port_id := port_id } := by
    rw [spec_neighbour_install_eq, path_set_path_self _ _ _ (by
      show nb < tsm.node_table.paths.length
      omega)]
    rfl
  have h2osi : (spec_neighbour_install (tsm_node_init_phantom tsm k node_id) k 0 nb start_idx
      port_id).node_table.originator_start_idx = start_idx := rfl
  have h2plen : (spec_neighbour_install (tsm_node_init_phantom tsm k node_id) k 0 nb start_idx
      port_id).node_table.paths.length = tsm.node_table.paths.length := by
    rw [spec_neighbour_install_eq]
    simp only [tsm_context.set_path, tsm_context.set_node, List.length_set]
    rfl
  have h2ports : (spec_neighbour_install (tsm_node_init_phantom tsm k node_id) k 0 nb start_idx
      port_id).ports = tsm.ports := rfl
  generalize spec_neighbour_install (tsm_node_init_phantom tsm k node_id) k 0 nb start_idx
      port_id = t2 at hget h2node h2other h2len h2path h2osi h2plen h2ports
  -- the protection window
  have hupd := update_phantom_window now t2 k node_seqno
    (tsm.node k).protect_window.node_seqno_cache hcache (by rw [h2node])
  unfold tsm_neighbour_update
  rw [if_neg (not_not.mpr rfl), if_neg hown, hget]
  simp only []
  rw [hupd]
  simp only []
  have hbest : tsm_neighbour_update_best_next_hop
      (((t2.set_node k { t2.node k with
            protect_window := protect_window_insert now (t2.node k).protect_window
              node_seqno }).set_node k
          { (t2.set_node k { t2.node k with
              protect_window := protect_window_insert now (t2.node k).protect_window
                node_seqno }).node k with name_mapping_id := name_mapping_id }).set_path nb
        { ((t2.set_node k { t2.node k with
            protect_window := protect_window_insert now (t2.node k).protect_window
              node_seqno }).set_node k
          { (t2.set_node k { t2.node k with
              protect_window := protect_window_insert now (t2.node k).protect_window
                node_seqno }).node k with name_mapping_id := name_mapping_id }).path nb with
          port_id := port_id, first := period_s }) k nb =
      (((t2.set_node k { t2.node k with
            protect_window := protect_window_insert now (t2.node k).protect_window
              node_seqno }).set_node k
          { (t2.set_node k { t2.node k with
              protect_window := protect_window_insert now (t2.node k).protect_window
                node_seqno }).node k with name_mapping_id := name_mapping_id }).set_path nb
        { ((t2.set_node k { t2.node k with
            protect_window := protect_window_insert now (t2.node k).protect_window
              node_seqno }).set_node k
          { (t2.set_node k { t2.node k with
              protect_window := protect_window_insert now (t2.node k).protect_window
                node_seqno }).node k with name_mapping_id := name_mapping_id }).path nb with
          port_id := port_id, first := period_s }) := by
    unfold tsm_neighbour_update_best_next_hop
    simp only []
    rw [if_pos]
    rw [node_set_path, node_set_node_self _ _ _ (by rw [nodes_length_set_node, h2len]; exact hk1),
      node_set_node_self _ _ _ (by rw [h2len]; exact hk1), h2node]
    show (((tsm.node k).paths_refs.map (fun _ => UINT16_MAX)).set 0 nb).getD 0 0 = nb
    rw [getD_set_self _ _ _ _ (by simp only [List.length_map]; exact hrefs.1)]
  rw [hbest]
  refine ⟨nb, _, rfl, ?_, ?_, ?_, ?_, ?_, ?_, ?_, ?_⟩
  · show nb < t2.node_table.originator_start_idx
    rw [h2osi]; exact hnb1
  · simp only [tsm_context.set_path, tsm_context.set_node, List.length_set]
    rw [h2osi, h2plen]; exact hnb2
  · simp only [tsm_context.set_path, tsm_context.set_node, List.length_set]
    exact h2plen
  · simp only [tsm_context.set_path, tsm_context.set_node, List.length_set]
    exact h2len
  · exact h2ports
  · rw [node_set_path, node_set_node_self _ _ _ (by rw [nodes_length_set_node, h2len]; exact hk1),
      node_set_node_self _ _ _ (by rw [h2len]; exact hk1), h2node]
  · rw [path_set_path_self _ _ _ (by
      simp only [tsm_context.set_node]
      rw [h2plen]; omega), path_set_node, path_set_node, h2path]
  · intro j hj
    rw [node_set_path, node_set_node_ne _ _ _ _ (Ne.symm hj),
      node_set_node_ne _ _ _ _ (Ne.symm hj)]
    exact h2other j hj

/-- Claim C20: in a state in which the node id `X`, different from the own node id, is unknown,
a node slot is empty and the neighbour region has room, `tsm_neighbour_update` with a sequence
number up to 23 and the version 0 returns 0; afterwards `tsm_neighbour_lookup(X, port)`
succeeds, the latest sequence number of `X` is `seqno`, its name-mapping id is
`name_mapping_id`, its `last_seen_time` is the current clock, the neighbour slot holds
`{period_s, port}`, `paths_refs[BEST]` is that neighbour slot with every other reference
`0xFFFF`, and `tsm_node_best_next_hop` returns the node's own index with the transmit
throughput of the port. -/
theorem tsm_neighbour_update_unknown (now : Nat) (tsm : tsm_context)
    (seqno node_id period_s name_mapping_id port_id e : Nat)
    (hown : node_id ≠ tsm.node_id)
    (hseq : seqno ≤ TSM_NODE_SEQNO_MAX)
    (hnodes : tsm.node_table.nodes.length ≤ UINT16_MAX)
    (hstart : tsm.node_table.originator_start_idx ≤ tsm.node_table.paths.length)
    (hpaths : tsm.node_table.paths.length ≤ UINT16_MAX)
    (hshape : ∀ o, o < tsm.node_table.nodes.length →
      0 < (tsm.node o).paths_refs.length ∧ (tsm.node o).paths_refs.length ≤ UINT8_MAX ∧
      (tsm.node o).protect_window.node_seqno_cache.length = TSM_NODE_SEQNO_CACHE_SIZE)
    (hunknown : ∀ j, j < tsm.node_table.nodes.length →
      (tsm.node j).protect_window.last_idx < TSM_NODE_SEQNO_CACHE_SIZE →
        (tsm.node j).node_id ≠ node_id)
    (he : e < tsm.node_table.nodes.length)
    (hempty : TSM_NODE_SEQNO_CACHE_SIZE ≤ (tsm.node e).protect_window.last_idx)
    (hroom : (∃ i, i < tsm.node_table.originator_start_idx ∧ (tsm.path i).first = UINT8_MAX) ∨
      (tsm.node_table.originator_start_idx < tsm.node_table.paths.length ∧
        (tsm.path tsm.node_table.originator_start_idx).first = UINT8_MAX)) :
    ∃ idx nb t,
      tsm_neighbour_update now tsm seqno node_id TSM_VERSION period_s name_mapping_id port_id
        = some (.ok (), t) ∧
      tsm_neighbour_lookup t node_id port_id = .ok (idx, nb) ∧
      tsm_node_seqno now t idx = .ok seqno ∧
      (t.node idx).name_mapping_id = name_mapping_id ∧
      (name_mapping_id ≠ TSM_NODE_NAME_MAPPING_ID_INVALID →
        tsm_node_name_mapping_id t idx = .ok name_mapping_id) ∧
      (t.node idx).protect_window.last_seen_time = now ∧
      nb < t.node_table.originator_start_idx ∧
      (t.path nb).heartbeat_period_s = period_s ∧
      (t.path nb).port_id = port_id ∧
      (t.node idx).paths_refs.getD TSM_NODE_PATHS_BEST 0 = nb ∧
      (∀ j, j < (t.node idx).paths_refs.length → j ≠ TSM_NODE_PATHS_BEST →
        (t.node idx).paths_refs.getD j 0 = UINT16_MAX) ∧
      tsm_node_best_next_hop t idx = .ok (idx, t.ports.getD port_id 0) := by
  -- the lowest empty node slot
  have hex : ∃ k, lowest_index
      (fun j => decide (TSM_NODE_SEQNO_CACHE_SIZE ≤ (tsm.node j).protect_window.last_idx))
      tsm.node_table.nodes.length = some k := by
    cases hl : lowest_index
      (fun j => decide (TSM_NODE_SEQNO_CACHE_SIZE ≤ (tsm.node j).protect_window.last_idx))
      tsm.node_table.nodes.length with
    | some k => exact ⟨k, rfl⟩
    | none =>
      have := (lowest_index_none _ _).1 hl e he
      simp only [decide_eq_false_iff_not] at this
      exact absurd hempty this
  obtain ⟨k, hk⟩ := hex
  obtain ⟨hk1, hk2, hk3⟩ := (lowest_index_some _ _ _).1 hk
  simp only [decide_eq_true_eq] at hk2
  have hk3' : ∀ j, j < k →
      (tsm.node j).protect_window.last_idx < TSM_NODE_SEQNO_CACHE_SIZE := by
    intro j hj
    have := hk3 j hj
    simp only [decide_eq_false_iff_not] at this
    omega
  have hlook : tsm_node_lookup tsm node_id = .err .ENODEV := by
    rw [tsm_node_lookup_err_iff]
    intro j hj hm
    exact hunknown j hj hm.1 hm.2.symm
  obtain ⟨hr1, hr2, hc⟩ := hshape k hk1
  have hsz : TSM_NODE_SEQNO_CACHE_SIZE = 8 := rfl
  obtain ⟨nb, t, hupd, hnb, hosi, hplen, hnlen, hports, hnode, hpath, hother⟩ :=
    tsm_neighbour_update_new now tsm seqno node_id period_s name_mapping_id port_id k hown
      hnodes hstart hpaths ⟨hr1, hr2⟩ (by omega) hlook hk1 hk2 hk3' hroom
  -- the window after the update
  have hlast : (t.node k).protect_window.last_idx = 1 := by
    rw [hnode, insert_last_idx now _ seqno (by show 0 < TSM_NODE_SEQNO_CACHE_SIZE; decide)]
    rfl
  have hnl : tsm_node_lookup t node_id = .ok k := by
    unfold tsm_node_lookup
    rw [lookup_scan_ok_iff]
    refine ⟨k, by omega, by omega, ?_, ?_⟩
    · show node_matches node_id (t.node k)
      refine ⟨by rw [hlast]; decide, ?_⟩
      rw [hnode]
    · intro j hj hm
      have hm' : node_matches node_id (t.node j) := hm
      rw [hother j (by omega)] at hm'
      exact hunknown j (by omega) hm'.1 hm'.2.symm
  have hrefs : (t.node k).paths_refs =
      ((tsm.node k).paths_refs.map (fun _ => UINT16_MAX)).set 0 nb := by rw [hnode]
  refine ⟨k, nb, t, hupd, ?_, ?_, ?_, ?_, ?_, hnb, ?_, ?_, ?_, ?_, ?_⟩
  · unfold tsm_neighbour_lookup
    rw [hnl]
    simp only []
    rw [hrefs]
    cases hl : (tsm.node k).paths_refs with
    | nil => rw [hl] at hr1; simp at hr1
    | cons a as =>
      simp only [List.map_cons, List.set_cons_zero, tsm_neighbour_lookup_scan]
      rw [if_pos hnb, if_pos (by rw [hpath])]
  · rw [tsm_node_seqno_ok_iff]
    refine ⟨by rw [hlast]; decide, ?_, ?_, ?_⟩
    · rw [hnode, insert_time, ts_time_ms_delta_self]
      decide
    · have hl1 := hlast
      rw [hnode] at hl1
      rw [hlast, hnode, insert_cache, hl1]
      exact getD_set_self _ _ _ _ (by simp only [List.length_map]; omega)
    · have : TSM_NODE_SEQNO_MAX = 23 := rfl
      have : TSM_NODE_SEQNO_INVALID = 255 := rfl
      omega
  · rw [hnode]
  · intro hne
    unfold tsm_node_name_mapping_id
    rw [hnode]
    simp only []
    rw [if_neg hne]
  · rw [hnode, insert_time]
  · rw [hpath]; rfl
  · rw [hpath]
  · rw [hrefs]
    exact getD_set_self _ _ _ _ (by simp only [List.length_map]; exact hr1)
  · intro j hj hne
    rw [hrefs] at hj ⊢
    simp only [List.length_set, List.length_map] at hj
    have hne0 : (0 : Nat) ≠ j := Ne.symm hne
    rw [getD_set_ne _ _ _ _ _ hne0, getD_map_const _ _ _ _ hj]
  · unfold tsm_node_best_next_hop tsm_neighbour_link_throughput
    simp only []
    have hb : (t.node k).paths_refs.getD TSM_NODE_PATHS_BEST 0 = nb := by
      rw [hrefs]
      exact getD_set_self _ _ _ _ (by simp only [List.length_map]; exact hr1)
    rw [hb, if_neg (by omega), if_pos hnb, hpath]

set_option maxRecDepth 100000 in
/-- Witness of `tsm_neighbour_update_unknown`: in `mesh_example` the unknown node `0xCAFFE999`
heard on port 1 gets the empty node slot 2 and the neighbour slot 1 at the split index. -/
theorem tsm_neighbour_update_unknown_witness :
    (∃ idx nb t,
      tsm_neighbour_update 1000 mesh_example 5 0xCAFFE999 TSM_VERSION 10 0x1234 1
        = some (.ok (), t) ∧
      tsm_neighbour_lookup t 0xCAFFE999 1 = .ok (idx, nb) ∧
      tsm_node_seqno 1000 t idx = .ok 5 ∧
      (t.node idx).name_mapping_id = 0x1234 ∧
      (0x1234 ≠ TSM_NODE_NAME_MAPPING_ID_INVALID →
        tsm_node_name_mapping_id t idx = .ok 0x1234) ∧
      (t.node idx).protect_window.last_seen_time = 1000 ∧
      nb < t.node_table.originator_start_idx ∧
      (t.path nb).heartbeat_period_s = 10 ∧
      (t.path nb).port_id = 1 ∧
      (t.node idx).paths_refs.getD TSM_NODE_PATHS_BEST 0 = nb ∧
      (∀ j, j < (t.node idx).paths_refs.length → j ≠ TSM_NODE_PATHS_BEST →
        (t.node idx).paths_refs.getD j 0 = UINT16_MAX) ∧
      tsm_node_best_next_hop t idx = .ok (idx, t.ports.getD 1 0)) ∧
    (tsm_neighbour_update 1000 mesh_example 5 0xCAFFE999 TSM_VERSION 10 0x1234 1).map
      (fun r => (tsm_neighbour_lookup r.2 0xCAFFE999 1, tsm_node_seqno 1000 r.2 2,
        tsm_node_best_next_hop r.2 2, r.2.node_table.originator_start_idx))
      = some (.ok (2, 1), .ok 5, .ok (2, 1), 2) :=
  ⟨tsm_neighbour_update_unknown 1000 mesh_example 5 0xCAFFE999 10 0x1234 1 2 (by decide)
    (by decide) (by decide) (by decide) (by decide) (by decide) (by decide) (by decide)
    (by decide) (Or.inr (by decide)), by decide⟩

/-! ## Claims C14, C15: `rbbq_receive` on an oversized frame and behind the wait -/

set_option maxRecDepth 100000 in
/-- Claim C14 fails on the code: in `rbbq_oversized_state` B is running with read index 0, the
peer write index is 3, so 3 bytes are available, and the frame header at offset 0 declares a
payload of 65535 bytes, a frame of 65539 bytes.  `rbbq_message_size` wraps to 3, the frame is
not found corrupted, and `rbbq_receive` delivers channel 1, size 65535 and advances the read
index by 3. -/
theorem rbbq_receive_oversized_frame_delivered :
    (rbbq_oversized_state.buffer .B).state = RBBQ_BUFFER_STATE_RUNNING ∧
    (rbbq_oversized_state.buffer .B).free_read_idx = 0 ∧
    (rbbq_oversized_state.rx .B).control.this_write_idx = 3 ∧
    rbbq_message_payload_size (rbbq_oversized_state.rx .B).data 0 = 65535 ∧
    rbbq_message_size (rbbq_oversized_state.rx .B).data 0 = 3 ∧
    rbbq_message_free_avail_unprotected rbbq_oversized_state .B = RBBQ_MESSAGE_FREE_TO_WRITE ∧
    (rbbq_receive rbbq_oversized_state .B false).1 = .ok (1, 65535, some 4) ∧
    ((rbbq_receive rbbq_oversized_state .B false).2.buffer .B).free_read_idx = 3 := by
  decide

set_option maxRecDepth 100000 in
/-- Claim C15 fails on the code: in `rbbq_idle_state` nothing is available to B (read index and
peer write index are 0).  When the wait for the receive signal succeeds, `rbbq_receive` does not
check again: it returns 0 with the bytes at the read index as a frame (channel 0, size 0),
advances the read index behind the write index, so that the bytes up to the watermark count as
available from then on, and leaves the receive mutex released.  When the wait times out it
returns `-ENOMEM`. -/
theorem rbbq_receive_signalled_without_frame :
    (rbbq_idle_state.buffer .B).state = RBBQ_BUFFER_STATE_RUNNING ∧
    (rbbq_idle_state.buffer .B).receive_mutex = false ∧
    (rbbq_idle_state.buffer .B).free_read_idx = 0 ∧
    (rbbq_idle_state.rx .B).control.this_write_idx = 0 ∧
    rbbq_message_free_avail_unprotected rbbq_idle_state .B = RBBQ_MESSAGE_FREE_NOMEM ∧
    (rbbq_receive rbbq_idle_state .B true).1 = .ok (0, 0, some 4) ∧
    ((rbbq_receive rbbq_idle_state .B true).2.buffer .B).receive_mutex = false ∧
    ((rbbq_receive rbbq_idle_state .B true).2.buffer .B).free_read_idx = 4 ∧
    rbbq_message_free_avail_unprotected (rbbq_receive rbbq_idle_state .B true).2 .B
      = RBBQ_MESSAGE_FREE_TO_WATERMARK ∧
    (rbbq_receive rbbq_idle_state .B false).1 = .err .ENOMEM := by
  decide

/-! ## Claims C25, C29, C30: silent drops of the updates, and `rbbq_free` -/

/-- Claim C25: `tsm_neighbour_update` with a version other than `TSM_VERSION` or with the own
node id, and `tsm_originator_update` with a version other than `TSM_VERSION`, with the own node
as originator or as router, or with the router equal to the originator, return 0 and leave the
whole context as it was. -/
theorem tsm_update_silent_drop (now : Nat) (tsm : tsm_context)
    (node_seqno node_id version period_s age_ms name_mapping_id router_node_id throughput
      port_id : Nat) :
    ((version ≠ TSM_VERSION ∨ node_id = tsm.node_id) →
      tsm_neighbour_update now tsm node_seqno node_id version period_s name_mapping_id port_id
        = some (.ok (), tsm)) ∧
    ((version ≠ TSM_VERSION ∨ node_id = tsm.node_id ∨ router_node_id = tsm.node_id ∨
        router_node_id = node_id) →
      tsm_originator_update now tsm node_seqno node_id version age_ms name_mapping_id
        router_node_id throughput port_id = some (.ok (), tsm)) := by
  constructor
  · intro h
    unfold tsm_neighbour_update
    by_cases hv : version ≠ TSM_VERSION
    · rw [if_pos hv]
    · rw [if_neg hv]
      rcases h with h | h
      · exact absurd h hv
      · rw [if_pos h]
  · intro h
    unfold tsm_originator_update
    by_cases hv : version ≠ TSM_VERSION
    · rw [if_pos hv]
    · rw [if_neg hv]
      by_cases h1 : node_id = tsm.node_id
      · rw [if_pos h1]
      · rw [if_neg h1]
        by_cases h2 : router_node_id = tsm.node_id
        · rw [if_pos h2]
        · rw [if_neg h2]
          rcases h with h | h | h | h
          · exact absurd h hv
          · exact absurd h h1
          · exact absurd h h2
          · rw [if_pos h]

/-- Witness of `tsm_update_silent_drop` on `mesh_example`: a heartbeat with version 1, a
heartbeat of the own node, and originator statements with version 1, from the own node, routed
by the own node and routed by the originator itself. -/
theorem tsm_update_silent_drop_witness :
    tsm_neighbour_update 200 mesh_example 5 0xCAFFE999 1 10 0x1234 0
      = some (.ok (), mesh_example) ∧
    tsm_neighbour_update 200 mesh_example 5 0xCAFFECAB TSM_VERSION 10 0x1234 0
      = some (.ok (), mesh_example) ∧
    tsm_originator_update 200 mesh_example 5 0xCAFFE999 1 0 0x1234 0xCAFFE7E1 3 0
      = some (.ok (), mesh_example) ∧
    tsm_originator_update 200 mesh_example 5 0xCAFFECAB TSM_VERSION 0 0x1234 0xCAFFE7E1 3 0
      = some (.ok (), mesh_example) ∧
    tsm_originator_update 200 mesh_example 5 0xCAFFE999 TSM_VERSION 0 0x1234 0xCAFFECAB 3 0
      = some (.ok (), mesh_example) ∧
    tsm_originator_update 200 mesh_example 5 0xCAFFE999 TSM_VERSION 0 0x1234 0xCAFFE999 3 0
      = some (.ok (), mesh_example) :=
  ⟨(tsm_update_silent_drop 200 mesh_example 5 0xCAFFE999 1 10 0 0x1234 0 0 0).1
      (Or.inl (by decide)),
    (tsm_update_silent_drop 200 mesh_example 5 0xCAFFECAB TSM_VERSION 10 0 0x1234 0 0 0).1
      (Or.inr (by decide)),
    (tsm_update_silent_drop 200 mesh_example 5 0xCAFFE999 1 0 0 0x1234 0xCAFFE7E1 3 0).2
      (Or.inl (by decide)),
    (tsm_update_silent_drop 200 mesh_example 5 0xCAFFECAB TSM_VERSION 0 0 0x1234 0xCAFFE7E1 3
      0).2 (Or.inr (Or.inl (by decide))),
    (tsm_update_silent_drop 200 mesh_example 5 0xCAFFE999 TSM_VERSION 0 0 0x1234 0xCAFFECAB 3
      0).2 (Or.inr (Or.inr (Or.inl (by decide)))),
    (tsm_update_silent_drop 200 mesh_example 5 0xCAFFE999 TSM_VERSION 0 0 0x1234 0xCAFFE999 3
      0).2 (Or.inr (Or.inr (Or.inr (by decide))))⟩

set_option maxRecDepth 100000 in
/-- Claim C29 does not hold for `rbbq_free`: on a buffer that was never initialised (state
None) it returns `-ENODEV`, not `-EAGAIN`; and on the suspended buffer of `rbbq_stopped_state`,
which holds a received message, it returns 0, clears the outstanding message and publishes the
read index. -/
theorem rbbq_free_not_running_counterexample :
    ((rbbq_local_fresh 20).buffer .A).state = RBBQ_BUFFER_STATE_NONE ∧
    rbbq_free (rbbq_local_fresh 20) .A (some 4) = (.err .ENODEV, rbbq_local_fresh 20) ∧
    (rbbq_stopped_state.buffer .B).state = RBBQ_BUFFER_STATE_SUSPENDED ∧
    (rbbq_stopped_state.buffer .B).free_message = some 0 ∧
    (rbbq_stopped_state.tx .B).control.other_read_idx = 0 ∧
    (rbbq_free rbbq_stopped_state .B (some 4)).1 = .ok () ∧
    ((rbbq_free rbbq_stopped_state .B (some 4)).2.buffer .B).free_message = none ∧
    ((rbbq_free rbbq_stopped_state .B (some 4)).2.tx .B).control.other_read_idx = 5 := by
  decide

/-- Claim C29, amended: `rbbq_alloc`, `rbbq_transmit` and `rbbq_receive` return `-EAGAIN` and
change nothing whenever the buffer is not running.  `rbbq_free` does not ask for a running
buffer: in the state None it returns `-ENODEV` and changes nothing, in every other state it
returns `-ENOMEM` without an outstanding message, `-EINVAL` for a pointer that is not the
payload of the outstanding message, both without a change, and 0 for the payload of the
outstanding message. -/
theorem rbbq_not_running (s : rbbq_local) (side : rbbq_side) (channel size : Nat)
    (message : Option Nat) (signalled : Bool) :
    ((s.buffer side).state ≠ RBBQ_BUFFER_STATE_RUNNING →
      rbbq_alloc s side channel size = (.err .EAGAIN, s) ∧
      rbbq_transmit s side message = (.err .EAGAIN, s) ∧
      rbbq_receive s side signalled = (.err .EAGAIN, s)) ∧
    ((s.buffer side).state = RBBQ_BUFFER_STATE_NONE →
      rbbq_free s side message = (.err .ENODEV, s)) ∧
    ((s.buffer side).state ≠ RBBQ_BUFFER_STATE_NONE →
      ((s.buffer side).free_message = none → rbbq_free s side message = (.err .ENOMEM, s)) ∧
      (∀ raw, (s.buffer side).free_message = some raw →
        message ≠ some (raw + RBBQ_MESSAGE_HEADER_SIZE) →
        rbbq_free s side message = (.err .EINVAL, s)) ∧
      (∀ raw, (s.buffer side).free_message = some raw →
        message = some (raw + RBBQ_MESSAGE_HEADER_SIZE) →
        (rbbq_free s side message).1 = .ok ())) := by
  refine ⟨?_, ?_, ?_⟩
  · intro h
    refine ⟨?_, ?_, ?_⟩
    · unfold rbbq_alloc
      simp only []
      rw [if_pos h]
    · unfold rbbq_transmit
      simp only []
      rw [if_pos h]
    · unfold rbbq_receive
      simp only []
      rw [if_pos h]
  · intro h
    unfold rbbq_free
    simp only []
    rw [if_pos h]
  · intro h
    refine ⟨?_, ?_, ?_⟩
    · intro hm
      unfold rbbq_free
      simp only []
      rw [if_neg h, if_pos hm]
    · intro raw hm hne
      unfold rbbq_free
      simp only []
      rw [if_neg h, hm, if_neg (by simp)]
      rw [if_pos]
      cases message with
      | none => exact Or.inl rfl
      | some m =>
        right
        simp only [rbbq_message_payload, Option.map_some']
        exact hne
    · intro raw hm heq
      unfold rbbq_free
      simp only []
      rw [if_neg h, hm, if_neg (by simp), if_neg]
      rw [heq]
      simp [rbbq_message_payload]

set_option maxRecDepth 100000 in
/-- Witness of `rbbq_not_running`: the suspended buffer B of `rbbq_stopped_state` rejects
`rbbq_alloc`, `rbbq_transmit` and `rbbq_receive`; a buffer in the state None rejects
`rbbq_free`; the suspended buffer B accepts the free of its outstanding message. -/
theorem rbbq_not_running_witness :
    (rbbq_alloc rbbq_stopped_state .B 1 1 = (.err .EAGAIN, rbbq_stopped_state) ∧
      rbbq_transmit rbbq_stopped_state .B (some 4) = (.err .EAGAIN, rbbq_stopped_state) ∧
      rbbq_receive rbbq_stopped_state .B true = (.err .EAGAIN, rbbq_stopped_state)) ∧
    rbbq_free (rbbq_local_fresh 20) .A (some 4) = (.err .ENODEV, rbbq_local_fresh 20) ∧
    (rbbq_free rbbq_stopped_state .B (some (0 + RBBQ_MESSAGE_HEADER_SIZE))).1 = .ok () :=
  ⟨(rbbq_not_running rbbq_stopped_state .B 1 1 (some 4) true).1 (by decide),
    (rbbq_not_running (rbbq_local_fresh 20) .A 1 1 (some 4) true).2.1 (by decide),
    ((rbbq_not_running rbbq_stopped_state .B 1 1 (some (0 + RBBQ_MESSAGE_HEADER_SIZE))
      true).2.2 (by decide)).2.2 0 (by decide) rfl⟩

theorem rbbq_free_nomem (s : rbbq_local) (side : rbbq_side) (message : Option Nat)
    (hstate : (s.buffer side).state ≠ RBBQ_BUFFER_STATE_NONE)
    (hm : (s.buffer side).free_message = none) :
    rbbq_free s side message = (.err .ENOMEM, s) := by
  unfold rbbq_free
  simp only []
  rw [if_neg hstate, if_pos hm]

/-- What `rbbq_control_other_read_idx` decodes from a control record whose member
`other_read_idx` holds `r`: `r` itself on a big-endian target, `r` with its two bytes exchanged
on a little-endian target. -/
theorem rbbq_control_other_read_idx_bytes (little_endian : Bool) (c : rbbq_control) :
    rbbq_control_other_read_idx (rbbq_control_bytes little_endian c) 0
      = (if little_endian then c.other_read_idx % 256 * 256 + c.other_read_idx / 256 % 256
          else c.other_read_idx % 65536) := by
  cases little_endian
  · show c.other_read_idx / 256 % 256 * 256 + c.other_read_idx % 256 = c.other_read_idx % 65536
    omega
  · rfl

set_option maxRecDepth 10000 in
/-- Claim C30: on an initialised buffer, `rbbq_free` without an outstanding received message
returns `-ENOMEM`, and with a pointer that is not the payload of the outstanding message
`-EINVAL`, both without any change of the state; with the payload of the outstanding message
it returns 0, publishes the read index as `other_read_idx` of its control record through the
device hook, clears the outstanding message and releases the receive mutex, and a second free
of the same message returns `-ENOMEM`.  The hook also raises the receive signal of the
producer and hands it what `sys_get_be16` decodes from the member: the read index on a
big-endian target, the read index with its two bytes exchanged on a little-endian target. -/
theorem rbbq_free_contract (s : rbbq_local) (side : rbbq_side) (message : Option Nat)
    (hstate : (s.buffer side).state ≠ RBBQ_BUFFER_STATE_NONE) :
    ((s.buffer side).free_message = none → rbbq_free s side message = (.err .ENOMEM, s)) ∧
    (∀ raw, (s.buffer side).free_message = some raw →
      message ≠ some (raw + RBBQ_MESSAGE_HEADER_SIZE) →
      rbbq_free s side message = (.err .EINVAL, s)) ∧
    (∀ raw, (s.buffer side).free_message = some raw →
      message = some (raw + RBBQ_MESSAGE_HEADER_SIZE) →
      (rbbq_free s side message).1 = .ok () ∧
      ((rbbq_free s side message).2.tx side).control.other_read_idx
        = (s.buffer side).free_read_idx ∧
      ((rbbq_free s side message).2.buffer side).free_read_idx
        = (s.buffer side).free_read_idx ∧
      ((rbbq_free s side message).2.buffer side).free_message = none ∧
      ((rbbq_free s side message).2.buffer side).receive_mutex = false ∧
      ((rbbq_free s side message).2.buffer side.other).tx_shadow_read_idx
        = (if s.little_endian then
            (s.buffer side).free_read_idx % 256 * 256 + (s.buffer side).free_read_idx / 256 % 256
          else (s.buffer side).free_read_idx % 65536) ∧
      ((rbbq_free s side message).2.buffer side.other).signal_device_receive = true ∧
      (rbbq_free (rbbq_free s side message).2 side message).1 = .err .ENOMEM) := by
  refine ⟨?_, ?_, ?_⟩
  · intro hm
    unfold rbbq_free
    simp only []
    rw [if_neg hstate, if_pos hm]
  · intro raw hm hne
    unfold rbbq_free
    simp only []
    rw [if_neg hstate, hm, if_neg (by simp)]
    rw [if_pos]
    cases message with
    | none => exact Or.inl rfl
    | some m =>
      right
      simp only [rbbq_message_payload, Option.map_some']
      exact hne
  · intro raw hm heq
    have hfree : rbbq_free s side message =
        (.ok (), (rbbq_local_receive s side).set_buffer side
          { (rbbq_local_receive s side).buffer side with
            free_message := none, receive_mutex := false }) := by
      unfold rbbq_free
      simp only []
      rw [if_neg hstate, hm, if_neg (by simp), if_neg]
      rw [heq]
      simp [rbbq_message_payload]
    rw [hfree]
    obtain ⟨a, b, a2b, b2a, le⟩ := s
    cases side with
    | A =>
      have hst : a.state ≠ RBBQ_BUFFER_STATE_NONE := hstate
      refine ⟨rfl, rfl, rfl, rfl, rfl, ?_, rfl, ?_⟩
      · cases le
        · show a.free_read_idx / 256 % 256 * 256 + a.free_read_idx % 256
            = a.free_read_idx % 65536
          omega
        · rfl
      · exact congrArg Prod.fst (rbbq_free_nomem _ _ _ (by exact hst) (by rfl))
    | B =>
      have hst : b.state ≠ RBBQ_BUFFER_STATE_NONE := hstate
      refine ⟨rfl, rfl, rfl, rfl, rfl, ?_, rfl, ?_⟩
      · cases le
        · show b.free_read_idx / 256 % 256 * 256 + b.free_read_idx % 256
            = b.free_read_idx % 65536
          omega
        · rfl
      · exact congrArg Prod.fst (rbbq_free_nomem _ _ _ (by exact hst) (by rfl))

set_option maxRecDepth 100000 in
/-- Witness of `rbbq_free_contract`: B of `rbbq_taken_state` has freed its message, a further
free gets `-ENOMEM`; B of `rbbq_stopped_state` holds the message at offset 0, the pointer 5 is
rejected and the pointer 4 is accepted, after which the read index 5 is published and, on this
big-endian target, handed to A as 5.  On a little-endian target B of `rbbq_received_state_le`
holds the message at offset 0 and the read index 16; after the free the member
`other_read_idx` is 16 and A is handed 4096. -/
theorem rbbq_free_contract_witness :
    rbbq_free rbbq_taken_state .B (some 4) = (.err .ENOMEM, rbbq_taken_state) ∧
    rbbq_free rbbq_stopped_state .B (some 5) = (.err .EINVAL, rbbq_stopped_state) ∧
    ((rbbq_free rbbq_stopped_state .B (some (0 + RBBQ_MESSAGE_HEADER_SIZE))).1 = .ok () ∧
      ((rbbq_free rbbq_stopped_state .B
        (some (0 + RBBQ_MESSAGE_HEADER_SIZE))).2.tx .B).control.other_read_idx
        = (rbbq_stopped_state.buffer .B).free_read_idx ∧
      ((rbbq_free rbbq_stopped_state .B
        (some (0 + RBBQ_MESSAGE_HEADER_SIZE))).2.buffer .B).free_read_idx
        = (rbbq_stopped_state.buffer .B).free_read_idx ∧
      ((rbbq_free rbbq_stopped_state .B
        (some (0 + RBBQ_MESSAGE_HEADER_SIZE))).2.buffer .B).free_message = none ∧
      ((rbbq_free rbbq_stopped_state .B
        (some (0 + RBBQ_MESSAGE_HEADER_SIZE))).2.buffer .B).receive_mutex = false ∧
      ((rbbq_free rbbq_stopped_state .B
        (some (0 + RBBQ_MESSAGE_HEADER_SIZE))).2.buffer rbbq_side.B.other).tx_shadow_read_idx
        = (if rbbq_stopped_state.little_endian then
            (rbbq_stopped_state.buffer .B).free_read_idx % 256 * 256
              + (rbbq_stopped_state.buffer .B).free_read_idx / 256 % 256
          else (rbbq_stopped_state.buffer .B).free_read_idx % 65536) ∧
      ((rbbq_free rbbq_stopped_state .B
        (some (0 + RBBQ_MESSAGE_HEADER_SIZE))).2.buffer
          rbbq_side.B.other).signal_device_receive = true ∧
      (rbbq_free (rbbq_free rbbq_stopped_state .B (some (0 + RBBQ_MESSAGE_HEADER_SIZE))).2 .B
        (some (0 + RBBQ_MESSAGE_HEADER_SIZE))).1 = .err .ENOMEM) ∧
    (rbbq_stopped_state.buffer .B).free_read_idx = 5 ∧
    ((rbbq_free rbbq_stopped_state .B (some 4)).2.buffer .A).tx_shadow_read_idx = 5 ∧
    (rbbq_received_state_le.buffer .B).free_read_idx = 16 ∧
    ((rbbq_free rbbq_received_state_le .B (some 4)).2.tx .B).control.other_read_idx = 16 ∧
    ((rbbq_free rbbq_received_state_le .B (some 4)).2.buffer .A).tx_shadow_read_idx = 4096 :=
  ⟨(rbbq_free_contract rbbq_taken_state .B (some 4) (by decide)).1 (by decide),
    (rbbq_free_contract rbbq_stopped_state .B (some 5) (by decide)).2.1 0 (by decide)
      (by decide),
    (rbbq_free_contract rbbq_stopped_state .B (some (0 + RBBQ_MESSAGE_HEADER_SIZE))
      (by decide)).2.2 0 (by decide) rfl,
    by decide, by decide, by decide,
    ((rbbq_free_contract rbbq_received_state_le .B (some 4) (by decide)).2.2 0 (by decide)
      rfl).2.1.trans (by decide),
    ((rbbq_free_contract rbbq_received_state_le .B (some 4) (by decide)).2.2 0 (by decide)
      rfl).2.2.2.2.2.1.trans (by decide)⟩

/-! ## Claims C24, C26, C27: the updates on concrete tables -/

set_option maxRecDepth 100000 in
/-- Claim C26 fails on the code: after `tsm_node_init`, a heartbeat of the node 100 with the
period 255 leaves the node with a reference to the path slot 0, whose first byte is the free
marker `0xFF`; a following heartbeat of the node 101 gets the same path slot 0, so that two
nodes in use reference it. -/
theorem tsm_neighbour_update_period_ff_shares_slot :
    tsm_neighbour_update 1 mesh_init 1 100 TSM_VERSION 255 0x1234 0
      = some (.ok (), mesh_period_ff) ∧
    (mesh_period_ff.node 0).node_id = 100 ∧
    (mesh_period_ff.node 0).protect_window.last_idx < TSM_NODE_SEQNO_CACHE_SIZE ∧
    (mesh_period_ff.node 0).paths_refs.getD 0 0 = 0 ∧
    (mesh_period_ff.path 0).first = UINT8_MAX ∧
    tsm_neighbour_update 2 mesh_period_ff 1 101 TSM_VERSION 5 0x1234 0
      = some (.ok (), mesh_shared_slot) ∧
    (mesh_shared_slot.node 0).node_id = 100 ∧
    (mesh_shared_slot.node 0).protect_window.last_idx < TSM_NODE_SEQNO_CACHE_SIZE ∧
    (mesh_shared_slot.node 0).paths_refs.getD 0 0 = 0 ∧
    (mesh_shared_slot.node 1).node_id = 101 ∧
    (mesh_shared_slot.node 1).protect_window.last_idx < TSM_NODE_SEQNO_CACHE_SIZE ∧
    (mesh_shared_slot.node 1).paths_refs.getD 0 0 = 0 ∧
    tsm_neighbour_lookup mesh_shared_slot 100 0 = .ok (0, 0) ∧
    tsm_neighbour_lookup mesh_shared_slot 101 0 = .ok (1, 0) := by
  decide

set_option maxRecDepth 100000 in
/-- Claim C27 fails on the code: after `tsm_node_init` and heartbeats of 15 nodes, the node
table has one empty slot, 15.  An originator statement of the unknown node 500 routed by the
unknown node 600 puts the router into the slot 15 as a phantom, last seen at 0; the node table
is full then, and `tsm_node_get` for the originator evicts the oldest node, which is the
router, and hands out the slot 15 again, against the assertion of `tsm_originator_get` that the
node is not its own router.  Afterwards the router is not in the table and the originator slot
of the node 500 names the node 500 itself as router. -/
theorem tsm_originator_update_evicts_router :
    (∀ j, j < 15 →
      ((mesh_with_neighbours 15).node j).protect_window.last_idx < TSM_NODE_SEQNO_CACHE_SIZE) ∧
    TSM_NODE_SEQNO_CACHE_SIZE ≤ ((mesh_with_neighbours 15).node 15).protect_window.last_idx ∧
    (tsm_neighbour_get 16 (mesh_with_neighbours 15) 600 0).map (fun r => r.1)
      = some (.ok (15, 15)) ∧
    (tsm_neighbour_get 16 (mesh_with_neighbours 15) 600 0).bind
      (fun r => (tsm_node_get 16 r.2 500).map (fun q => q.1)) = some 15 ∧
    tsm_originator_update 16 (mesh_with_neighbours 15) 1 500 TSM_VERSION 0 0x77 600 5 0
      = some (.ok (), mesh_router_evicted) ∧
    tsm_node_lookup mesh_router_evicted 600 = .err .ENODEV ∧
    tsm_originator_lookup mesh_router_evicted 500 = .ok (15, 15) ∧
    (mesh_router_evicted.path 15).router_idx = 15 ∧
    tsm_node_best_next_hop mesh_router_evicted 15 = .ok (15, 1) ∧
    (∀ p, p < mesh_router_evicted.node_table.originator_start_idx →
      ∀ k, k < 2 → (mesh_router_evicted.node 15).paths_refs.getD k 0 ≠ p) := by
  decide

set_option maxRecDepth 100000 in
/-- Claim C24 fails on the code: in `mesh_two_ports` the node 100 is in the node table at
index 0 and both of its path references are in use.  For an originator statement of the node
100 routed by the node 200, `tsm_originator_get` returns `-EBUSY` and does not store the node
index, so `tsm_originator_update` goes on with the index `UINT16_MAX`, which is not an index of
the node table; the protection window of the node 100 does not learn the sequence number 7. -/
theorem tsm_originator_update_busy_index :
    tsm_node_lookup mesh_two_ports 100 = .ok 0 ∧
    (mesh_two_ports.node 0).paths_refs = [0, 1] ∧
    (tsm_neighbour_get 3 mesh_two_ports 200 0).map (fun r => r.1) = some (.ok (1, 2)) ∧
    (tsm_neighbour_get 3 mesh_two_ports 200 0).bind
      (fun r => (tsm_originator_get 3 r.2 100 1).map (fun q => q.1)) = some (.err .EBUSY) ∧
    (tsm_originator_update_idx (.err .EBUSY)).1 = UINT16_MAX ∧
    mesh_two_ports.node_table.nodes.length ≤ (tsm_originator_update_idx (.err .EBUSY)).1 ∧
    tsm_originator_update 3 mesh_two_ports 7 100 TSM_VERSION 0 0x99 200 5 0
      = some (.ok (), mesh_busy_originator) ∧
    tsm_node_lookup mesh_busy_originator 100 = .ok 0 ∧
    (mesh_busy_originator.node 0).protect_window = (mesh_two_ports.node 0).protect_window ∧
    (mesh_busy_originator.node 0).protect_window.node_seqno_cache
      = [255, 1, 2, 255, 255, 255, 255, 255] ∧
    tsm_node_seqno 3 mesh_busy_originator 0 = .ok 2 := by
  decide

/-! ## Claims C22, C23: the stored throughput and sequence numbers already seen -/

/-- What `tsm_node_protect_window_update` leaves alone: the path table, the split index, the
ports and the own node id. -/
theorem update_frame (now : Nat) (tsm : tsm_context) (i s : Nat) :
    (tsm_node_protect_window_update now tsm i s).2.node_table.paths = tsm.node_table.paths ∧
    (tsm_node_protect_window_update now tsm i s).2.node_table.originator_start_idx
      = tsm.node_table.originator_start_idx ∧
    (tsm_node_protect_window_update now tsm i s).2.ports = tsm.ports ∧
    (tsm_node_protect_window_update now tsm i s).2.node_id = tsm.node_id := by
  unfold tsm_node_protect_window_update
  simp only []
  cases tsm_node_seqno now tsm i with
  | ok L =>
    simp only []
    split_ifs <;> exact ⟨rfl, rfl, rfl, rfl⟩
  | err e =>
    cases e <;> exact ⟨rfl, rfl, rfl, rfl⟩

/-- A rejected update of the protection window leaves the state as it was. -/
theorem update_err_state (now : Nat) (tsm : tsm_context) (i s : Nat) (e : Errno)
    (h : (tsm_node_protect_window_update now tsm i s).1 = .err e) :
    (tsm_node_protect_window_update now tsm i s).2 = tsm := by
  unfold tsm_node_protect_window_update at h ⊢
  simp only [] at h ⊢
  cases hs : tsm_node_seqno now tsm i with
  | ok L =>
    rw [hs] at h
    simp only [] at h ⊢
    split_ifs at h ⊢ <;> rfl
  | err e' =>
    rw [hs] at h
    cases e' <;> cases h

/-- The path element `tsm_originator_update_best_next_hop` stores the throughput to. -/
theorem path_originator_update_best_next_hop (tsm : tsm_context)
    (node_idx originator_idx throughput : Nat)
    (h : originator_idx < tsm.node_table.paths.length) :
    (tsm_originator_update_best_next_hop tsm node_idx originator_idx throughput).path
      originator_idx = { tsm.path originator_idx with first := throughput } := by
  unfold tsm_originator_update_best_next_hop
  simp only []
  split_ifs
  all_goals exact path_set_path_self _ _ _ h

/-- The throughput calculation is the hop penalty on the smaller of the two throughputs. -/
theorem originator_update_throughput_spec (l t node_idx router_node_idx : Nat)
    (hne : node_idx ≠ router_node_idx) :
    tsm_originator_update_throughput l t node_idx router_node_idx
      = spec_hop_penalty (min t l) := by
  unfold tsm_originator_update_throughput spec_hop_penalty
  simp only []
  have hmin : (if l < t then l else t) = min t l := by
    by_cases h : l < t
    · rw [if_pos h, Nat.min_eq_right (Nat.le_of_lt h)]
    · rw [if_neg h, Nat.min_eq_left (Nat.not_lt.mp h)]
  rw [hmin]
  by_cases h1 : min t l > 1
  · rw [if_pos ⟨hne, h1⟩, if_pos h1]
  · rw [if_neg (fun h => h1 h.2), if_neg h1]

/-- The state `tsm_originator_update_process` leaves in the originator slot. -/
theorem path_originator_update_process (now : Nat) (tsm : tsm_context)
    (router_node_idx router_neighbour_idx node_idx originator_idx : Nat)
    (name_mapping_id throughput : Nat)
    (h : originator_idx < tsm.node_table.paths.length) :
    (tsm_originator_update_process now tsm router_node_idx router_neighbour_idx node_idx
      originator_idx name_mapping_id throughput).path originator_idx =
      { tsm.path originator_idx with
        first := tsm_originator_update_throughput
          (tsm_neighbour_link_throughput tsm router_neighbour_idx) throughput node_idx
          router_node_idx } := by
  unfold tsm_originator_update_process
  simp only []
  rw [path_originator_update_best_next_hop _ _ _ _ (by
    simp only [tsm_context.set_node]
    exact h)]
  rfl

/-- The function `tsm_originator_update` behind its four checks and the two get calls. -/
theorem tsm_originator_update_eq (now : Nat) (tsm : tsm_context)
    (node_seqno node_id age_ms name_mapping_id router_node_id throughput port_id : Nat)
    (ri rn oi os : Nat) (t1 t2 : tsm_context)
    (hO : node_id ≠ tsm.node_id) (hR : router_node_id ≠ tsm.node_id)
    (hRO : router_node_id ≠ node_id)
    (hrouter : tsm_neighbour_get now tsm router_node_id port_id = some (.ok (ri, rn), t1))
    (horig : tsm_originator_get now t1 node_id ri = some (.ok (oi, os), t2)) :
    tsm_originator_update now tsm node_seqno node_id TSM_VERSION age_ms name_mapping_id
      router_node_id throughput port_id =
      some (tsm_originator_update_at now t2 node_seqno ri rn oi os name_mapping_id
        throughput) := by
  unfold tsm_originator_update
  rw [if_neg (not_not.mpr rfl), if_neg hO, if_neg hR, if_neg hRO, hrouter]
  simp only []
  rw [horig]
  rfl

/-- The stored throughput when the node indices differ: for an originator statement that
`tsm_originator_update` does not drop and whose originator has another node index than its
router, the throughput stored in the originator slot is the hop penalty applied to the smaller
of the incoming throughput and the throughput of the link to the router, and it is not the
free marker `0xFF`. -/
theorem tsm_originator_update_stored_throughput (now : Nat) (tsm : tsm_context)
    (node_seqno node_id age_ms name_mapping_id router_node_id throughput port_id : Nat)
    (ri rn oi os : Nat) (t1 t2 : tsm_context)
    (hO : node_id ≠ tsm.node_id) (hR : router_node_id ≠ tsm.node_id)
    (hRO : router_node_id ≠ node_id)
    (ht : throughput ≤ UINT8_MAX)
    (hrouter : tsm_neighbour_get now tsm router_node_id port_id = some (.ok (ri, rn), t1))
    (horig : tsm_originator_get now t1 node_id ri = some (.ok (oi, os), t2))
    (hos : os < t2.node_table.paths.length)
    (hne : oi ≠ ri)
    (hproc : tsm_originator_update_drop (tsm_node_protect_window_update now t2 oi node_seqno).1
      (tsm_node_protect_window_update now t2 oi node_seqno).2 oi throughput = false) :
    ∃ t, tsm_originator_update now tsm node_seqno node_id TSM_VERSION age_ms name_mapping_id
        router_node_id throughput port_id = some (.ok (), t) ∧
      (t.path os).first
        = spec_hop_penalty (min throughput (tsm_neighbour_link_throughput t2 rn)) ∧
      (t.path os).first ≠ UINT8_MAX := by
  have hfr := update_frame now t2 oi node_seqno
  have hlink : tsm_neighbour_link_throughput
      (tsm_node_protect_window_update now t2 oi node_seqno).2 rn
      = tsm_neighbour_link_throughput t2 rn := by
    unfold tsm_neighbour_link_throughput tsm_context.path
    rw [hfr.1, hfr.2.2.1]
  have hval : ((tsm_originator_update_process now
      (tsm_node_protect_window_update now t2 oi node_seqno).2 ri rn oi os name_mapping_id
      throughput).path os).first
      = spec_hop_penalty (min throughput (tsm_neighbour_link_throughput t2 rn)) := by
    rw [path_originator_update_process _ _ _ _ _ _ _ _ (by rw [hfr.1]; exact hos), hlink,
      originator_update_throughput_spec _ _ _ _ hne]
  refine ⟨tsm_originator_update_process now
    (tsm_node_protect_window_update now t2 oi node_seqno).2 ri rn oi os name_mapping_id
    throughput, ?_, hval, ?_⟩
  · rw [tsm_originator_update_eq now tsm node_seqno node_id age_ms name_mapping_id
      router_node_id throughput port_id ri rn oi os t1 t2 hO hR hRO hrouter horig]
    unfold tsm_originator_update_at
    simp only []
    rw [hproc]
    rfl
  · rw [hval]
    unfold spec_hop_penalty
    have hmax : UINT8_MAX = 255 := rfl
    have hmin : min throughput (tsm_neighbour_link_throughput t2 rn) ≤ throughput :=
      Nat.min_le_left _ _
    split_ifs <;> omega

/-- Claim C23: when the protection window reports the sequence number of an originator
statement as already seen, `tsm_originator_update` drops the statement, leaving the state as
it is behind the two get calls, if the node has a best next hop whose throughput is at least
the throughput of the statement; if the throughput of the statement is greater, or the node has
no best next hop, it goes on with the same processing as for a statement with a new sequence
number. -/
theorem tsm_originator_update_already_seen (now : Nat) (tsm : tsm_context)
    (node_seqno node_id age_ms name_mapping_id router_node_id throughput port_id : Nat)
    (ri rn oi os : Nat) (t1 t2 : tsm_context)
    (hO : node_id ≠ tsm.node_id) (hR : router_node_id ≠ tsm.node_id)
    (hRO : router_node_id ≠ node_id)
    (hrouter : tsm_neighbour_get now tsm router_node_id port_id = some (.ok (ri, rn), t1))
    (horig : tsm_originator_get now t1 node_id ri = some (.ok (oi, os), t2))
    (halready : (tsm_node_protect_window_update now t2 oi node_seqno).1 = .err .EALREADY) :
    (∀ hop best, tsm_node_best_next_hop t2 oi = .ok (hop, best) → best ≥ throughput →
      tsm_originator_update now tsm node_seqno node_id TSM_VERSION age_ms name_mapping_id
        router_node_id throughput port_id = some (.ok (), t2)) ∧
    ((∀ hop best, tsm_node_best_next_hop t2 oi = .ok (hop, best) → best < throughput) →
      tsm_originator_update now tsm node_seqno node_id TSM_VERSION age_ms name_mapping_id
        router_node_id throughput port_id =
        some (.ok (), tsm_originator_update_process now t2 ri rn oi os name_mapping_id
          throughput)) ∧
    (∀ new_seqno t3, tsm_node_protect_window_update now t2 oi new_seqno = (.ok (), t3) →
      tsm_originator_update now tsm new_seqno node_id TSM_VERSION age_ms name_mapping_id
        router_node_id throughput port_id =
        some (.ok (), tsm_originator_update_process now t3 ri rn oi os name_mapping_id
          throughput)) := by
  have hst := update_err_state now t2 oi node_seqno _ halready
  have hne : (Ret.err Errno.EALREADY : Ret Unit) ≠ .err .EINVAL := by decide
  refine ⟨?_, ?_, ?_⟩
  · intro hop best hb hge
    rw [tsm_originator_update_eq now tsm node_seqno node_id age_ms name_mapping_id
      router_node_id throughput port_id ri rn oi os t1 t2 hO hR hRO hrouter horig]
    unfold tsm_originator_update_at tsm_originator_update_drop
    simp only []
    rw [halready, hst, if_neg hne, if_pos rfl, hb]
    simp only [decide_eq_true hge, if_true]
  · intro hlt
    rw [tsm_originator_update_eq now tsm node_seqno node_id age_ms name_mapping_id
      router_node_id throughput port_id ri rn oi os t1 t2 hO hR hRO hrouter horig]
    unfold tsm_originator_update_at tsm_originator_update_drop
    simp only []
    rw [halready, hst, if_neg hne, if_pos rfl]
    cases hb : tsm_node_best_next_hop t2 oi with
    | err e => rfl
    | ok p =>
      obtain ⟨hop, best⟩ := p
      have := hlt hop best hb
      simp only [decide_eq_false (Nat.not_le.mpr this)]
      rfl
  · intro new_seqno t3 hnew
    rw [tsm_originator_update_eq now tsm new_seqno node_id age_ms name_mapping_id
      router_node_id throughput port_id ri rn oi os t1 t2 hO hR hRO hrouter horig]
    unfold tsm_originator_update_at tsm_originator_update_drop
    simp only []
    rw [hnew]
    rfl

set_option maxRecDepth 100000 in
/-- An instance of `tsm_originator_update_stored_throughput`: in `hop_example` a statement of the
originator `0xCAFFE031` with the new sequence number 4 and throughput 9, routed by the
neighbour `0xCAFFE7E1` on port 0 with link throughput 7, stores 6 in the originator slot 3. -/
theorem tsm_originator_update_stored_throughput_witness :
    (∃ t, tsm_originator_update 200 hop_example 4 0xCAFFE031 TSM_VERSION 0 0x1234 0xCAFFE7E1 9 0
        = some (.ok (), t) ∧
      (t.path 3).first
        = spec_hop_penalty (min 9 (tsm_neighbour_link_throughput hop_example 0)) ∧
      (t.path 3).first ≠ UINT8_MAX) ∧
    spec_hop_penalty (min 9 (tsm_neighbour_link_throughput hop_example 0)) = 6 :=
  ⟨tsm_originator_update_stored_throughput 200 hop_example 4 0xCAFFE031 0 0x1234 0xCAFFE7E1 9 0
    0 0 1 3 hop_example hop_example (by decide) (by decide) (by decide) (by decide) (by decide)
    (by decide) (by decide) (by decide) (by decide), by decide⟩

set_option maxRecDepth 100000 in
/-- Witness of `tsm_originator_update_already_seen`: in `hop_example` the originator
`0xCAFFE031` has the best next hop throughput 1 and has seen the sequence number 3.  A statement
with the sequence number 3 and throughput 1 is dropped, one with throughput 9 is processed, as
is one with the new sequence number 4. -/
theorem tsm_originator_update_already_seen_witness :
    tsm_originator_update 200 hop_example 3 0xCAFFE031 TSM_VERSION 0 0x1234 0xCAFFE7E1 1 0
      = some (.ok (), hop_example) ∧
    tsm_originator_update 200 hop_example 3 0xCAFFE031 TSM_VERSION 0 0x1234 0xCAFFE7E1 9 0
      = some (.ok (), tsm_originator_update_process 200 hop_example 0 0 1 3 0x1234 9) ∧
    tsm_originator_update 200 hop_example 4 0xCAFFE031 TSM_VERSION 0 0x1234 0xCAFFE7E1 9 0
      = some (.ok (), tsm_originator_update_process 200
          (tsm_node_protect_window_update 200 hop_example 1 4).2 0 0 1 3 0x1234 9) :=
  ⟨(tsm_originator_update_already_seen 200 hop_example 3 0xCAFFE031 0 0x1234 0xCAFFE7E1 1 0
      0 0 1 3 hop_example hop_example (by decide) (by decide) (by decide) (by decide)
      (by decide) (by decide)).1 0 1 (by decide) (by decide),
    (tsm_originator_update_already_seen 200 hop_example 3 0xCAFFE031 0 0x1234 0xCAFFE7E1 9 0
      0 0 1 3 hop_example hop_example (by decide) (by decide) (by decide) (by decide)
      (by decide) (by decide)).2.1 (by
        intro hop best h
        have hb : tsm_node_best_next_hop hop_example 1 = .ok (0, 1) := by decide
        rw [hb] at h
        cases h
        decide),
    (tsm_originator_update_already_seen 200 hop_example 3 0xCAFFE031 0 0x1234 0xCAFFE7E1 9 0
      0 0 1 3 hop_example hop_example (by decide) (by decide) (by decide) (by decide)
      (by decide) (by decide)).2.2 4 _ (by decide)⟩

set_option maxRecDepth 100000 in
/-- Claim C22 fails on the code: the hop penalty depends on the node indices, not on the node
ids.  After `tsm_node_init` with two ports of transmit throughput 255 and heartbeats of 15
nodes, the node table has one empty slot, 15.  An originator statement of the unknown node 500
routed by the unknown node 600 puts the router into the slot 15; `tsm_node_get` for the
originator then evicts the router and hands out the slot 15 again, so that the originator and
its router have the same node index, against the assertion of `tsm_originator_get`.  The
statement is processed without the hop penalty: with the incoming throughput 255 and the link
throughput 255 the originator slot 15 of the node 500 gets the throughput 255, the free marker
`0xFF`, where the hop penalty gives 254; with the incoming throughput 5 it gets 5, where the
hop penalty gives 4. -/
theorem tsm_originator_update_stores_free_marker :
    (∀ j, j < 15 →
      ((mesh_fast_neighbours 15).node j).protect_window.last_idx < TSM_NODE_SEQNO_CACHE_SIZE) ∧
    TSM_NODE_SEQNO_CACHE_SIZE ≤ ((mesh_fast_neighbours 15).node 15).protect_window.last_idx ∧
    (mesh_fast_neighbours 15).node_id ≠ 500 ∧ (mesh_fast_neighbours 15).node_id ≠ 600 ∧
    (tsm_neighbour_get 16 (mesh_fast_neighbours 15) 600 0).map (fun r => r.1)
      = some (.ok (15, 15)) ∧
    (tsm_neighbour_get 16 (mesh_fast_neighbours 15) 600 0).bind
      (fun r => (tsm_originator_get 16 r.2 500 15).map (fun q => q.1)) = some (.ok (15, 15)) ∧
    (tsm_neighbour_get 16 (mesh_fast_neighbours 15) 600 0).bind
      (fun r => (tsm_originator_get 16 r.2 500 15).map
        (fun q => tsm_neighbour_link_throughput q.2 15)) = some 255 ∧
    tsm_originator_update 16 (mesh_fast_neighbours 15) 1 500 TSM_VERSION 0 0x77 600 255 0
      = some (.ok (), mesh_marker_stored) ∧
    (mesh_marker_stored.node 15).node_id = 500 ∧
    (mesh_marker_stored.node 15).paths_refs = [15, 0xFFFF] ∧
    tsm_node_lookup mesh_marker_stored 600 = .err .ENODEV ∧
    mesh_marker_stored.node_table.originator_start_idx = 15 ∧
    (mesh_marker_stored.path 15).router_idx = 15 ∧
    (mesh_marker_stored.path 15).throughput = UINT8_MAX ∧
    spec_hop_penalty (min 255 255) = 254 ∧
    ((mesh_after (mesh_fast_neighbours 15)
      (tsm_originator_update 16 (mesh_fast_neighbours 15) 1 500 TSM_VERSION 0 0x77 600 5
        0)).path 15).throughput = 5 ∧
    spec_hop_penalty (min 5 255) = 4 := by
  decide

/-! ## Claim C28: the split index -/

/-- A path index found by the first loop of `tsm_neighbour_get` lies below the split index. -/
theorem neighbour_get_scan_bound (t : tsm_context) (port_id : Nat) (L : List Nat) :
    ∀ i e, (tsm_neighbour_get_scan t port_id L i e).1 = UINT16_MAX ∨
      (tsm_neighbour_get_scan t port_id L i e).1 < t.node_table.originator_start_idx := by
  induction L with
  | nil => intro i e; exact Or.inl rfl
  | cons v rest ih =>
    intro i e
    simp only [tsm_neighbour_get_scan]
    split_ifs <;> first | exact ih _ _ | (right; assumption)

/-- A path index found by the first loop of `tsm_originator_get` lies at or above the split
index. -/
theorem originator_get_scan_bound (t : tsm_context) (router : Nat) (L : List Nat) :
    ∀ i e, (tsm_originator_get_scan t router L i e).1 = UINT16_MAX ∨
      t.node_table.originator_start_idx ≤ (tsm_originator_get_scan t router L i e).1 := by
  induction L with
  | nil => intro i e; exact Or.inl rfl
  | cons v rest ih =>
    intro i e
    simp only [tsm_originator_get_scan]
    split_ifs <;> first | exact ih _ _ | (right; assumption)

theorem paths_length_set_path (tsm : tsm_context) (i : Nat) (p : tsm_path) :
    (tsm.set_path i p).node_table.paths.length = tsm.node_table.paths.length := by
  simp only [tsm_context.set_path, List.length_set]

/-- The part of `tsm_neighbour_get` behind `tsm_node_get` keeps the size of the path table,
moves the split index by at most one step up and only across a free slot, and yields a path
index below the split index. -/
theorem neighbour_get_at_split (t1 : tsm_context) (idx port_id : Nat) :
    (tsm_neighbour_get_at t1 idx port_id).2.node_table.paths.length
        = t1.node_table.paths.length ∧
    ((tsm_neighbour_get_at t1 idx port_id).2.node_table.originator_start_idx
        = t1.node_table.originator_start_idx ∨
      ((tsm_neighbour_get_at t1 idx port_id).2.node_table.originator_start_idx
          = t1.node_table.originator_start_idx + 1 ∧
        t1.node_table.originator_start_idx < t1.node_table.paths.length ∧
        (t1.path t1.node_table.originator_start_idx).first = UINT8_MAX)) ∧
    ∀ n nb, (tsm_neighbour_get_at t1 idx port_id).1 = .ok (n, nb) →
      nb < (tsm_neighbour_get_at t1 idx port_id).2.node_table.originator_start_idx := by
  unfold tsm_neighbour_get_at
  simp only []
  split_ifs with h1 h2
  · exact ⟨rfl, Or.inl rfl, fun n nb h => by cases h⟩
  · rw [neighbour_get_alloc_spec t1 t1.node_table.originator_start_idx 0 (by omega)]
    cases hl : lowest_index_from (fun i => decide ((t1.path i).first = UINT8_MAX))
        t1.node_table.originator_start_idx 0 with
    | some slot =>
      have hs := (lowest_index_from_some _ _ _ _).1 hl
      simp only []
      refine ⟨by rw [paths_length_set_path]; rfl, Or.inl rfl, ?_⟩
      intro n nb h
      simp only [Ret.ok.injEq, Prod.mk.injEq] at h
      obtain ⟨_, hnb⟩ := h
      subst hnb
      show slot < t1.node_table.originator_start_idx
      omega
    | none =>
      simp only []
      split_ifs with h3
      · simp only []
        refine ⟨by rw [paths_length_set_path]; rfl, Or.inr ⟨rfl, h3.1, h3.2⟩, ?_⟩
        intro n nb h
        simp only [Ret.ok.injEq, Prod.mk.injEq] at h
        obtain ⟨_, hnb⟩ := h
        subst hnb
        show t1.node_table.originator_start_idx < t1.node_table.originator_start_idx + 1
        omega
      · exact ⟨rfl, Or.inl rfl, fun n nb h => by cases h⟩
  · refine ⟨rfl, Or.inl rfl, ?_⟩
    intro n nb h
    simp only [Ret.ok.injEq, Prod.mk.injEq] at h
    obtain ⟨_, hnb⟩ := h
    rcases neighbour_get_scan_bound t1 port_id (t1.node idx).paths_refs 0 UINT16_MAX with hb | hb
    · exact absurd hb h1
    · rw [← hnb]; exact hb

/-- The part of `tsm_originator_get` behind `tsm_node_get` keeps the size of the path table,
moves the split index by at most one step down and only across a free slot, and yields a path
index at or above the split index. -/
theorem originator_get_at_split (t1 : tsm_context) (idx router : Nat)
    (hstart : t1.node_table.originator_start_idx ≤ t1.node_table.paths.length) :
    (tsm_originator_get_at t1 idx router).2.node_table.paths.length
        = t1.node_table.paths.length ∧
    ((tsm_originator_get_at t1 idx router).2.node_table.originator_start_idx
        = t1.node_table.originator_start_idx ∨
      ((tsm_originator_get_at t1 idx router).2.node_table.originator_start_idx + 1
          = t1.node_table.originator_start_idx ∧
        (t1.path (tsm_originator_get_at t1 idx router).2.node_table.originator_start_idx).first
          = UINT8_MAX)) ∧
    ∀ n os, (tsm_originator_get_at t1 idx router).1 = .ok (n, os) →
      (tsm_originator_get_at t1 idx router).2.node_table.originator_start_idx ≤ os := by
  unfold tsm_originator_get_at
  simp only []
  split_ifs with h1 h2
  · exact ⟨rfl, Or.inl rfl, fun n nb h => by cases h⟩
  · rw [originator_get_alloc_spec t1 hstart]
    cases hl : highest_index_from (fun i => decide ((t1.path i).first = UINT8_MAX))
        (t1.node_table.paths.length - t1.node_table.originator_start_idx)
        t1.node_table.originator_start_idx with
    | some slot =>
      have hs := (highest_index_from_some _ _ _ _).1 hl
      simp only []
      refine ⟨by rw [paths_length_set_path]; rfl, Or.inl rfl, ?_⟩
      intro n nb h
      simp only [Ret.ok.injEq, Prod.mk.injEq] at h
      obtain ⟨_, hnb⟩ := h
      subst hnb
      show t1.node_table.originator_start_idx ≤ slot
      omega
    | none =>
      simp only []
      split_ifs with h3
      · simp only []
        refine ⟨by rw [paths_length_set_path]; rfl, Or.inr ⟨?_, h3.2⟩, ?_⟩
        · show t1.node_table.originator_start_idx - 1 + 1 = t1.node_table.originator_start_idx
          omega
        · intro n nb h
          simp only [Ret.ok.injEq, Prod.mk.injEq] at h
          obtain ⟨_, hnb⟩ := h
          subst hnb
          exact Nat.le_refl _
      · exact ⟨rfl, Or.inl rfl, fun n nb h => by cases h⟩
  · refine ⟨rfl, Or.inl rfl, ?_⟩
    intro n nb h
    simp only [Ret.ok.injEq, Prod.mk.injEq] at h
    obtain ⟨_, hnb⟩ := h
    rcases originator_get_scan_bound t1 router (t1.node idx).paths_refs 0 UINT16_MAX with hb | hb
    · exact absurd hb h1
    · rw [← hnb]; exact hb

/-- In every reachable state the split index is at most the size of the path table. -/
theorem mesh_get_reachable_start (t : tsm_context) (h : mesh_get_reachable t) :
    t.node_table.originator_start_idx ≤ t.node_table.paths.length := by
  induction h with
  | init node_id ports =>
    simp only [tsm_node_init, List.length_replicate]
    decide
  | neighbour_get now tsm node_id port_id r t _ hget ih =>
    unfold tsm_neighbour_get at hget
    cases hg : tsm_node_get now tsm node_id with
    | none => rw [hg] at hget; cases hget
    | some p =>
      obtain ⟨idx, t1⟩ := p
      rw [hg] at hget
      simp only [Option.some.injEq] at hget
      have hshape := tsm_node_get_shape now tsm node_id idx t1 hg
      have hsplit := neighbour_get_at_split t1 idx port_id
      rw [hget] at hsplit
      obtain ⟨hlen, hmove, _⟩ := hsplit
      simp only [] at hlen hmove
      rcases hmove with hm | ⟨hm, hlt, _⟩ <;> omega
  | originator_get now tsm node_id router r t _ hget ih =>
    unfold tsm_originator_get at hget
    cases hg : tsm_node_get now tsm node_id with
    | none => rw [hg] at hget; cases hget
    | some p =>
      obtain ⟨idx, t1⟩ := p
      rw [hg] at hget
      simp only [Option.some.injEq] at hget
      have hshape := tsm_node_get_shape now tsm node_id idx t1 hg
      have hsplit := originator_get_at_split t1 idx router (by omega)
      rw [hget] at hsplit
      obtain ⟨hlen, hmove, _⟩ := hsplit
      simp only [] at hlen hmove
      rcases hmove with hm | ⟨hm, _⟩ <;> omega
  | node_free tsm node_idx _ ih =>
    have hf := tsm_node_free_shape tsm node_idx
    omega

/-- In every reachable state the path table has `TSM_NODE_COUNT` elements. -/
theorem mesh_get_reachable_paths (t : tsm_context) (h : mesh_get_reachable t) :
    t.node_table.paths.length = TSM_NODE_COUNT := by
  induction h with
  | init node_id ports =>
    simp only [tsm_node_init, List.length_replicate]
  | neighbour_get now tsm node_id port_id r t _ hget ih =>
    unfold tsm_neighbour_get at hget
    cases hg : tsm_node_get now tsm node_id with
    | none => rw [hg] at hget; cases hget
    | some p =>
      obtain ⟨idx, t1⟩ := p
      rw [hg] at hget
      simp only [Option.some.injEq] at hget
      have hshape := tsm_node_get_shape now tsm node_id idx t1 hg
      have hsplit := neighbour_get_at_split t1 idx port_id
      rw [hget] at hsplit
      obtain ⟨hlen, _, _⟩ := hsplit
      simp only [] at hlen
      omega
  | originator_get now tsm node_id router r t hprev hget ih =>
    have hstart := mesh_get_reachable_start tsm hprev
    unfold tsm_originator_get at hget
    cases hg : tsm_node_get now tsm node_id with
    | none => rw [hg] at hget; cases hget
    | some p =>
      obtain ⟨idx, t1⟩ := p
      rw [hg] at hget
      simp only [Option.some.injEq] at hget
      have hshape := tsm_node_get_shape now tsm node_id idx t1 hg
      have hsplit := originator_get_at_split t1 idx router (by omega)
      rw [hget] at hsplit
      obtain ⟨hlen, _, _⟩ := hsplit
      simp only [] at hlen
      omega
  | node_free tsm node_idx _ ih =>
    have hf := tsm_node_free_shape tsm node_idx
    omega

/-- One call of `tsm_neighbour_get`: the split index is untouched by the node step and then
moves by at most one step up, across a free slot only. -/
theorem neighbour_get_split_step (now : Nat) (t : tsm_context) (node_id port_id : Nat)
    (r : Ret (Nat × Nat)) (t2 : tsm_context)
    (hget : tsm_neighbour_get now t node_id port_id = some (r, t2)) :
    ∃ idx t1, tsm_node_get now t node_id = some (idx, t1) ∧
      t1.node_table.originator_start_idx = t.node_table.originator_start_idx ∧
      t1.node_table.paths.length = t.node_table.paths.length ∧
      t2.node_table.paths.length = t.node_table.paths.length ∧
      (t2.node_table.originator_start_idx = t1.node_table.originator_start_idx ∨
        (t2.node_table.originator_start_idx = t1.node_table.originator_start_idx + 1 ∧
          t1.node_table.originator_start_idx < t1.node_table.paths.length ∧
          (t1.path t1.node_table.originator_start_idx).first = UINT8_MAX)) ∧
      (∀ p, (t1.path p).first ≠ UINT8_MAX →
        (p < t1.node_table.originator_start_idx ↔ p < t2.node_table.originator_start_idx)) ∧
      ∀ n nb, r = .ok (n, nb) → nb < t2.node_table.originator_start_idx := by
  unfold tsm_neighbour_get at hget
  cases hg : tsm_node_get now t node_id with
  | none => rw [hg] at hget; cases hget
  | some p =>
    obtain ⟨idx, t1⟩ := p
    rw [hg] at hget
    simp only [Option.some.injEq] at hget
    have hshape := tsm_node_get_shape now t node_id idx t1 hg
    have hsplit := neighbour_get_at_split t1 idx port_id
    rw [hget] at hsplit
    obtain ⟨hlen, hmove, hres⟩ := hsplit
    simp only [] at hlen hmove hres
    refine ⟨idx, t1, rfl, hshape.1, hshape.2.1, hlen.trans hshape.2.1, hmove, ?_, hres⟩
    intro p hp
    rcases hmove with hm | ⟨hm, _, hfree⟩
    · rw [hm]
    · have hne : p ≠ t1.node_table.originator_start_idx := fun h => hp (h ▸ hfree)
      omega

/-- One call of `tsm_originator_get`: the split index is untouched by the node step and then
moves by at most one step down, across a free slot only. -/
theorem originator_get_split_step (now : Nat) (t : tsm_context) (node_id router : Nat)
    (r : Ret (Nat × Nat)) (t2 : tsm_context)
    (hstart : t.node_table.originator_start_idx ≤ t.node_table.paths.length)
    (hget : tsm_originator_get now t node_id router = some (r, t2)) :
    ∃ idx t1, tsm_node_get now t node_id = some (idx, t1) ∧
      t1.node_table.originator_start_idx = t.node_table.originator_start_idx ∧
      t1.node_table.paths.length = t.node_table.paths.length ∧
      t2.node_table.paths.length = t.node_table.paths.length ∧
      (t2.node_table.originator_start_idx = t1.node_table.originator_start_idx ∨
        (t2.node_table.originator_start_idx + 1 = t1.node_table.originator_start_idx ∧
          (t1.path t2.node_table.originator_start_idx).first = UINT8_MAX)) ∧
      (∀ p, (t1.path p).first ≠ UINT8_MAX →
        (p < t1.node_table.originator_start_idx ↔ p < t2.node_table.originator_start_idx)) ∧
      ∀ n os, r = .ok (n, os) → t2.node_table.originator_start_idx ≤ os := by
  unfold tsm_originator_get at hget
  cases hg : tsm_node_get now t node_id with
  | none => rw [hg] at hget; cases hget
  | some p =>
    obtain ⟨idx, t1⟩ := p
    rw [hg] at hget
    simp only [Option.some.injEq] at hget
    have hshape := tsm_node_get_shape now t node_id idx t1 hg
    have hsplit := originator_get_at_split t1 idx router (by omega)
    rw [hget] at hsplit
    obtain ⟨hlen, hmove, hres⟩ := hsplit
    simp only [] at hlen hmove hres
    refine ⟨idx, t1, rfl, hshape.1, hshape.2.1, hlen.trans hshape.2.1, hmove, ?_, hres⟩
    intro p hp
    rcases hmove with hm | ⟨hm, hfree⟩
    · rw [hm]
    · have hne : p ≠ t2.node_table.originator_start_idx := fun h => hp (h ▸ hfree)
      omega

/-- Claim C28: after `tsm_node_init` every node slot is empty, every path slot is free and
`originator_start_idx = N/4 < N`; in every state `t` reachable from there through
`tsm_neighbour_get`, `tsm_originator_get` and `tsm_node_free`, `originator_start_idx <= N`,
`tsm_node_free` and the node step of both get functions leave the split index alone,
`tsm_neighbour_get` moves it at most one step up and `tsm_originator_get` at most one step down,
in both cases only across a slot that is free at that moment, so that every slot in use stays
on its side of the split index; the slot handed out by `tsm_neighbour_get` lies below the new
split index and the one handed out by `tsm_originator_get` at or above it. -/
theorem tsm_split_index_invariant (node_id : Nat) (ports : List Nat) (t : tsm_context)
    (hreach : mesh_get_reachable t) :
    ((tsm_node_init node_id ports).node_table.nodes.length = TSM_NODE_COUNT ∧
      (tsm_node_init node_id ports).node_table.paths.length = TSM_NODE_COUNT ∧
      (∀ j, j < TSM_NODE_COUNT →
        ((tsm_node_init node_id ports).node j).protect_window.last_idx
          = TSM_NODE_SEQNO_CACHE_SIZE) ∧
      (∀ p, p < TSM_NODE_COUNT → ((tsm_node_init node_id ports).path p).first = UINT8_MAX) ∧
      (tsm_node_init node_id ports).node_table.originator_start_idx = TSM_NODE_COUNT / 4 ∧
      (tsm_node_init node_id ports).node_table.originator_start_idx < TSM_NODE_COUNT) ∧
    t.node_table.paths.length = TSM_NODE_COUNT ∧
    t.node_table.originator_start_idx ≤ TSM_NODE_COUNT ∧
    (∀ node_idx,
      (tsm_node_free t node_idx).node_table.originator_start_idx
        = t.node_table.originator_start_idx) ∧
    (∀ now id port_id r t2, tsm_neighbour_get now t id port_id = some (r, t2) →
      ∃ idx t1, tsm_node_get now t id = some (idx, t1) ∧
        t1.node_table.originator_start_idx = t.node_table.originator_start_idx ∧
        (t2.node_table.originator_start_idx = t1.node_table.originator_start_idx ∨
          (t2.node_table.originator_start_idx = t1.node_table.originator_start_idx + 1 ∧
            t1.node_table.originator_start_idx < TSM_NODE_COUNT ∧
            (t1.path t1.node_table.originator_start_idx).first = UINT8_MAX)) ∧
        (∀ p, (t1.path p).first ≠ UINT8_MAX →
          (p < t1.node_table.originator_start_idx ↔ p < t2.node_table.originator_start_idx)) ∧
        ∀ n nb, r = .ok (n, nb) → nb < t2.node_table.originator_start_idx) ∧
    (∀ now id router r t2, tsm_originator_get now t id router = some (r, t2) →
      ∃ idx t1, tsm_node_get now t id = some (idx, t1) ∧
        t1.node_table.originator_start_idx = t.node_table.originator_start_idx ∧
        (t2.node_table.originator_start_idx = t1.node_table.originator_start_idx ∨
          (t2.node_table.originator_start_idx + 1 = t1.node_table.originator_start_idx ∧
            (t1.path t2.node_table.originator_start_idx).first = UINT8_MAX)) ∧
        (∀ p, (t1.path p).first ≠ UINT8_MAX →
          (p < t1.node_table.originator_start_idx ↔ p < t2.node_table.originator_start_idx)) ∧
        ∀ n os, r = .ok (n, os) → t2.node_table.originator_start_idx ≤ os) := by
  have hlen : t.node_table.paths.length = TSM_NODE_COUNT := mesh_get_reachable_paths t hreach
  have hstart := mesh_get_reachable_start t hreach
  refine ⟨⟨?_, ?_, ?_, ?_, rfl, (by decide : TSM_NODE_COUNT / 4 < TSM_NODE_COUNT)⟩, hlen, by omega, ?_, ?_, ?_⟩
  · simp only [tsm_node_init, List.length_replicate]
  · simp only [tsm_node_init, List.length_replicate]
  · intro j hj
    have hj16 : j < 16 := hj
    interval_cases j <;> rfl
  · intro p hp
    have hp16 : p < 16 := hp
    interval_cases p <;> rfl
  · intro node_idx
    exact (tsm_node_free_shape t node_idx).1
  · intro now id port_id r t2 hget
    obtain ⟨idx, t1, hg, h1, h2, _, hmove, hside, hres⟩ :=
      neighbour_get_split_step now t id port_id r t2 hget
    refine ⟨idx, t1, hg, h1, ?_, hside, hres⟩
    rcases hmove with hm | ⟨hm, hlt, hfree⟩
    · exact Or.inl hm
    · exact Or.inr ⟨hm, by omega, hfree⟩
  · intro now id router r t2 hget
    obtain ⟨idx, t1, hg, h1, _, _, hmove, hside, hres⟩ :=
      originator_get_split_step now t id router r t2 hstart hget
    exact ⟨idx, t1, hg, h1, hmove, hside, hres⟩

/-- Witness of `tsm_split_index_invariant`: the state after `tsm_neighbour_get` of node 100 on
a fresh table is reachable, its split index is within the table, and every further
`tsm_neighbour_get` moves the split index across a free slot only. -/
theorem tsm_split_index_invariant_witness :
    mesh_get_reachable mesh_one_neighbour ∧
    mesh_one_neighbour.node_table.originator_start_idx ≤ TSM_NODE_COUNT ∧
    (∀ now id port_id r t2,
      tsm_neighbour_get now mesh_one_neighbour id port_id = some (r, t2) →
      ∃ idx t1, tsm_node_get now mesh_one_neighbour id = some (idx, t1) ∧
        t1.node_table.originator_start_idx
          = mesh_one_neighbour.node_table.originator_start_idx ∧
        (t2.node_table.originator_start_idx = t1.node_table.originator_start_idx ∨
          (t2.node_table.originator_start_idx = t1.node_table.originator_start_idx + 1 ∧
            t1.node_table.originator_start_idx < TSM_NODE_COUNT ∧
            (t1.path t1.node_table.originator_start_idx).first = UINT8_MAX)) ∧
        (∀ p, (t1.path p).first ≠ UINT8_MAX →
          (p < t1.node_table.originator_start_idx ↔ p < t2.node_table.originator_start_idx)) ∧
        ∀ n nb, r = .ok (n, nb) → nb < t2.node_table.originator_start_idx) :=
  have hreach : mesh_get_reachable mesh_one_neighbour :=
    mesh_get_reachable.neighbour_get 1 (tsm_node_init 0xCAFFECAB [1, 1]) 100 0 (.ok (0, 0))
      mesh_one_neighbour (mesh_get_reachable.init 0xCAFFECAB [1, 1]) (by decide)
  ⟨hreach,
    (tsm_split_index_invariant 0xCAFFECAB [1, 1] mesh_one_neighbour hreach).2.2.1,
    (tsm_split_index_invariant 0xCAFFECAB [1, 1] mesh_one_neighbour hreach).2.2.2.2.1⟩

/-! ## Claim C21: `tsm_originator_update` for an unknown originator -/

/-- The result of `tsm_node_lookup` in terms of the entries of the node table. -/
theorem tsm_node_lookup_ok_iff (tsm : tsm_context) (node_id m : Nat) :
    tsm_node_lookup tsm node_id = .ok m ↔
      m < tsm.node_table.nodes.length ∧ node_matches node_id (tsm.node m) ∧
        ∀ j, j < m → ¬ node_matches node_id (tsm.node j) := by
  unfold tsm_node_lookup
  rw [lookup_scan_ok_iff]
  constructor
  · rintro ⟨k, hk, hk1, hk2, hk3⟩
    have : m = k := by omega
    subst this
    exact ⟨hk1, hk2, hk3⟩
  · rintro ⟨h1, h2, h3⟩
    exact ⟨m, by omega, h1, h2, h3⟩

/-- The three ways `tsm_node_get` yields an entry: the entry `tsm_node_lookup` finds, in the
unchanged state; or, for an id that is not in the table, a phantom in an empty entry or in the
entry freed by the eviction. -/
theorem tsm_node_get_cases (now : Nat) (tsm : tsm_context) (node_id i : Nat) (t1 : tsm_context)
    (hlen : tsm.node_table.nodes.length ≤ UINT16_MAX)
    (hget : tsm_node_get now tsm node_id = some (i, t1)) :
    (tsm_node_lookup tsm node_id = .ok i ∧ t1 = tsm) ∨
    (tsm_node_lookup tsm node_id = .err .ENODEV ∧ i < tsm.node_table.nodes.length ∧
      ∃ t0, t1 = tsm_node_init_phantom t0 i node_id ∧ (t0 = tsm ∨ t0 = tsm_node_free tsm i)) := by
  have hm := get_scan_match node_id tsm.node_table.nodes 0 UINT16_MAX
  unfold tsm_node_get at hget
  simp only [] at hget
  by_cases hmatch : (tsm_node_get_scan node_id tsm.node_table.nodes 0 UINT16_MAX).1
      = UINT16_MAX
  · rw [if_pos hmatch] at hget
    have hno : ∀ k, k < tsm.node_table.nodes.length →
        ¬ node_matches node_id (tsm.node_table.nodes.getD k default) := by
      rw [hmatch] at hm
      cases hl : tsm_node_lookup_scan node_id tsm.node_table.nodes 0 with
      | ok m =>
        rw [hl] at hm
        simp only [] at hm
        obtain ⟨k, hk, hk2, _⟩ := (lookup_scan_ok_iff _ _ _ _).1 hl
        omega
      | err e =>
        have := lookup_scan_err _ _ _ _ hl
        subst this
        exact (lookup_scan_err_iff _ _ _).1 hl
    have herr : tsm_node_lookup tsm node_id = .err .ENODEV :=
      (tsm_node_lookup_err_iff tsm node_id).2 hno
    right
    by_cases hempty : (tsm_node_get_scan node_id tsm.node_table.nodes 0 UINT16_MAX).2
        = UINT16_MAX
    · rw [if_pos hempty] at hget
      by_cases hev : tsm_node_evict now tsm = UINT16_MAX
      · rw [if_pos hev] at hget; cases hget
      · rw [if_neg hev] at hget
        simp only [Option.some.injEq, Prod.mk.injEq] at hget
        obtain ⟨hi, ht⟩ := hget
        subst hi ht
        have ho : tsm_node_evict now tsm < tsm.node_table.nodes.length := by
          rcases tsm_node_evict_bound now tsm with h | h
          · exact absurd h hev
          · exact h
        exact ⟨herr, ho, _, rfl, Or.inr rfl⟩
    · rw [if_neg hempty] at hget
      simp only [Option.some.injEq, Prod.mk.injEq] at hget
      obtain ⟨hi, ht⟩ := hget
      subst ht
      rcases get_scan_empty node_id tsm.node_table.nodes 0 UINT16_MAX hno (by omega)
        with h | h | h
      · exact absurd h.1 hempty
      · obtain ⟨_, k, hk1, hk2, _, _⟩ := h
        have hik : i = k := by omega
        subst hik
        refine ⟨herr, hk2, tsm, ?_, Or.inl rfl⟩
        rw [hi]
      · exact absurd rfl h.1
  · rw [if_neg hmatch] at hget
    simp only [Option.some.injEq, Prod.mk.injEq] at hget
    obtain ⟨hi, ht⟩ := hget
    subst ht
    left
    refine ⟨?_, rfl⟩
    unfold tsm_node_lookup
    cases hl : tsm_node_lookup_scan node_id tsm.node_table.nodes 0 with
    | ok m =>
      rw [hl] at hm
      simp only [] at hm
      rw [← hi, hm]
    | err e =>
      rw [hl] at hm
      exact absurd hm hmatch

/-- The sequence number cache of every node keeps its size in `tsm_node_free`. -/
theorem tsm_node_free_cache (tsm : tsm_context) (r j : Nat) :
    ((tsm_node_free tsm r).node j).protect_window.node_seqno_cache
      = (tsm.node j).protect_window.node_seqno_cache := by
  by_cases h : (tsm.node r).protect_window.last_idx < TSM_NODE_SEQNO_CACHE_SIZE
  · rw [tsm_node_free_eq tsm r h]
    have hrel := free_rel_refs_loop r (tsm.node r).paths_refs.length tsm
    rw [node_set_node]
    split_ifs with hj
    · obtain ⟨hj, _⟩ := hj
      subst hj
      show ((for_loop (tsm_node_free_ref r) (tsm.node r).paths_refs.length tsm).node
        r).protect_window.node_seqno_cache = _
      rw [hrel.window r]
    · rw [hrel.window j]
  · rw [tsm_node_free_empty tsm r (by omega)]

/-- After `tsm_node_get` the node is found by `tsm_node_lookup` at the index returned, ids that
were not in the table and differ from the one asked for are still not in the table, and the
node table and the sequence number caches keep their sizes. -/
theorem tsm_node_get_table (now : Nat) (tsm : tsm_context) (node_id i : Nat) (t1 : tsm_context)
    (hlen : tsm.node_table.nodes.length ≤ UINT16_MAX)
    (hget : tsm_node_get now tsm node_id = some (i, t1)) :
    t1.node_table.nodes.length = tsm.node_table.nodes.length ∧
    tsm_node_lookup t1 node_id = .ok i ∧
    (∀ other, other ≠ node_id → tsm_node_lookup tsm other = .err .ENODEV →
      tsm_node_lookup t1 other = .err .ENODEV) ∧
    ∀ j, (t1.node j).protect_window.node_seqno_cache.length
      = (tsm.node j).protect_window.node_seqno_cache.length := by
  rcases tsm_node_get_cases now tsm node_id i t1 hlen hget with ⟨hl, ht⟩ | ⟨herr, hi, t0, ht, h0⟩
  · subst ht
    exact ⟨rfl, hl, fun _ _ h => h, fun _ => rfl⟩
  · have hframe : t0.node_table.nodes.length = tsm.node_table.nodes.length ∧
        (∀ j, (t0.node j).node_id = (tsm.node j).node_id ∧
          (j ≠ i → (t0.node j).protect_window = (tsm.node j).protect_window)) ∧
        ∀ j, (t0.node j).protect_window.node_seqno_cache
          = (tsm.node j).protect_window.node_seqno_cache := by
      rcases h0 with h0 | h0
      · subst h0
        exact ⟨rfl, fun j => ⟨rfl, fun _ => rfl⟩, fun _ => rfl⟩
      · subst h0
        exact ⟨(tsm_node_free_frame tsm i).1, (tsm_node_free_frame tsm i).2,
          tsm_node_free_cache tsm i⟩
    obtain ⟨hf1, hf2, hf3⟩ := hframe
    have hno := (tsm_node_lookup_err_iff tsm node_id).1 herr
    subst ht
    refine ⟨?_, ?_, ?_, ?_⟩
    · rw [nodes_length_init_phantom, hf1]
    · apply lookup_after_phantom
      · rw [hf1]; exact hi
      · intro j hj
        unfold node_matches
        rw [(hf2 j).1, (hf2 j).2 (by omega)]
        exact hno j (by omega)
    · intro other hother hunknown
      rw [tsm_node_lookup_err_iff] at hunknown ⊢
      intro j hj
      rw [nodes_length_init_phantom, hf1] at hj
      rw [node_init_phantom]
      split_ifs with hij
      · intro hmat
        exact hother hmat.2
      · have hne : j ≠ i := by
          intro h
          exact hij ⟨h.symm, by rw [hf1]; exact hi⟩
        unfold node_matches
        rw [(hf2 j).1, (hf2 j).2 hne]
        exact hunknown j hj
    · intro j
      rw [node_init_phantom]
      split_ifs with hij
      · obtain ⟨hij, _⟩ := hij
        subst hij
        simp only [List.length_map]
        rw [hf3 i]
      · rw [hf3 j]

/-- What the first loop of `tsm_neighbour_get` yields: a path reference of the node that lies
below the split index and has the port, and an empty index within the references. -/
theorem neighbour_get_scan_post (t : tsm_context) (port_id : Nat) (L : List Nat) :
    ∀ i e, ((tsm_neighbour_get_scan t port_id L i e).1 = UINT16_MAX ∨
        ((tsm_neighbour_get_scan t port_id L i e).1 ∈ L ∧
          (tsm_neighbour_get_scan t port_id L i e).1 < t.node_table.originator_start_idx ∧
          (t.path (tsm_neighbour_get_scan t port_id L i e).1).port_id = port_id)) ∧
      ((tsm_neighbour_get_scan t port_id L i e).2 = e ∨
        (i ≤ (tsm_neighbour_get_scan t port_id L i e).2 ∧
          (tsm_neighbour_get_scan t port_id L i e).2 < i + L.length)) := by
  induction L with
  | nil => intro i e; exact ⟨Or.inl rfl, Or.inl rfl⟩
  | cons v rest ih =>
    intro i e
    simp only [tsm_neighbour_get_scan, List.length_cons, List.mem_cons]
    by_cases h1 : v = UINT16_MAX
    · rw [if_pos h1]
      obtain ⟨ha, hb⟩ := ih (i + 1) (if e = UINT16_MAX then i else e)
      refine ⟨?_, ?_⟩
      · rcases ha with ha | ⟨ha1, ha2⟩
        · exact Or.inl ha
        · exact Or.inr ⟨Or.inr ha1, ha2⟩
      · rcases hb with hb | hb
        · rw [hb]
          split_ifs with he
          · right; omega
          · left; rfl
        · right; omega
    · rw [if_neg h1]
      by_cases h2 : v < t.node_table.originator_start_idx
      · rw [if_pos h2]
        by_cases h3 : (t.path v).port_id = port_id
        · rw [if_pos h3]
          exact ⟨Or.inr ⟨Or.inl rfl, h2, h3⟩, Or.inl rfl⟩
        · rw [if_neg h3]
          obtain ⟨ha, hb⟩ := ih (i + 1) e
          refine ⟨?_, ?_⟩
          · rcases ha with ha | ⟨ha1, ha2⟩
            · exact Or.inl ha
            · exact Or.inr ⟨Or.inr ha1, ha2⟩
          · rcases hb with hb | hb
            · exact Or.inl hb
            · right; omega
      · rw [if_neg h2]
        obtain ⟨ha, hb⟩ := ih (i + 1) e
        refine ⟨?_, ?_⟩
        · rcases ha with ha | ⟨ha1, ha2⟩
          · exact Or.inl ha
          · exact Or.inr ⟨Or.inr ha1, ha2⟩
        · rcases hb with hb | hb
          · exact Or.inl hb
          · right; omega

/-- The loop of `tsm_neighbour_lookup` succeeds when one of the references lies below the split
index and has the port. -/
theorem neighbour_lookup_scan_of_mem (t : tsm_context) (port_id v : Nat) (L : List Nat)
    (hv : v ∈ L) (hlt : v < t.node_table.originator_start_idx)
    (hport : (t.path v).port_id = port_id) :
    ∃ nb, tsm_neighbour_lookup_scan t port_id L = .ok nb := by
  induction L with
  | nil => cases hv
  | cons w rest ih =>
    simp only [tsm_neighbour_lookup_scan]
    by_cases h2 : w < t.node_table.originator_start_idx
    · rw [if_pos h2]
      by_cases h3 : (t.path w).port_id = port_id
      · rw [if_pos h3]
        exact ⟨w, rfl⟩
      · rw [if_neg h3]
        rcases List.mem_cons.1 hv with h | h
        · subst h; exact absurd hport h3
        · exact ih h
    · rw [if_neg h2]
      rcases List.mem_cons.1 hv with h | h
      · subst h; exact absurd hlt h2
      · exact ih h

/-- The loop of `tsm_neighbour_lookup` yields the same in two states that agree in the split
index and in the ports of the path elements below it. -/
theorem neighbour_lookup_scan_congr (a b : tsm_context) (port_id : Nat) (L : List Nat)
    (hstart : b.node_table.originator_start_idx = a.node_table.originator_start_idx)
    (hport : ∀ v, v < a.node_table.originator_start_idx →
      (b.path v).port_id = (a.path v).port_id) :
    tsm_neighbour_lookup_scan b port_id L = tsm_neighbour_lookup_scan a port_id L := by
  induction L with
  | nil => rfl
  | cons w rest ih =>
    simp only [tsm_neighbour_lookup_scan]
    rw [hstart]
    by_cases h2 : w < a.node_table.originator_start_idx
    · rw [if_pos h2, if_pos h2, hport w h2, ih]
    · rw [if_neg h2, if_neg h2, ih]

/-- What `tsm_neighbour_get` behind `tsm_node_get` leaves alone in the node table: the size,
the node ids, the protection windows and the number of path references. -/
theorem neighbour_get_at_nodes (t1 : tsm_context) (idx port_id : Nat) :
    (tsm_neighbour_get_at t1 idx port_id).2.node_table.nodes.length
        = t1.node_table.nodes.length ∧
    ∀ j, ((tsm_neighbour_get_at t1 idx port_id).2.node j).node_id = (t1.node j).node_id ∧
      ((tsm_neighbour_get_at t1 idx port_id).2.node j).protect_window
        = (t1.node j).protect_window ∧
      ((tsm_neighbour_get_at t1 idx port_id).2.node j).paths_refs.length
        = (t1.node j).paths_refs.length := by
  unfold tsm_neighbour_get_at
  simp only []
  split_ifs with h1 h2
  · exact ⟨rfl, fun _ => ⟨rfl, rfl, rfl⟩⟩
  · cases tsm_neighbour_get_alloc t1 (t1.node_table.originator_start_idx + 1) 0 with
    | err e => exact ⟨rfl, fun _ => ⟨rfl, rfl, rfl⟩⟩
    | ok p =>
      obtain ⟨nb, s⟩ := p
      simp only []
      refine ⟨?_, ?_⟩
      · simp only [tsm_context.set_path, tsm_context.set_node, List.length_set]
      · intro j
        rw [node_set_path, node_set_node]
        split_ifs with hj
        · obtain ⟨hj, _⟩ := hj
          subst hj
          refine ⟨rfl, rfl, ?_⟩
          simp only [List.length_set]
          rfl
        · exact ⟨rfl, rfl, rfl⟩
  · exact ⟨rfl, fun _ => ⟨rfl, rfl, rfl⟩⟩

/-- What a successful `tsm_neighbour_get` behind `tsm_node_get` establishes: the neighbour
slot returned is referenced by the node, lies below the split index and has the port. -/
theorem neighbour_get_at_post (t1 : tsm_context) (idx port_id n nb : Nat)
    (hstart : t1.node_table.originator_start_idx ≤ t1.node_table.paths.length)
    (h : (tsm_neighbour_get_at t1 idx port_id).1 = .ok (n, nb)) :
    n = idx ∧ nb ∈ ((tsm_neighbour_get_at t1 idx port_id).2.node idx).paths_refs ∧
    nb < (tsm_neighbour_get_at t1 idx port_id).2.node_table.originator_start_idx ∧
    ((tsm_neighbour_get_at t1 idx port_id).2.path nb).port_id = port_id := by
  have hscan := neighbour_get_scan_post t1 port_id (t1.node idx).paths_refs 0 UINT16_MAX
  obtain ⟨hs1, hs2⟩ := hscan
  unfold tsm_neighbour_get_at at h ⊢
  simp only [] at h ⊢
  by_cases h1 : (tsm_neighbour_get_scan t1 port_id (t1.node idx).paths_refs 0 UINT16_MAX).1
      = UINT16_MAX
  · rw [if_pos h1] at h ⊢
    by_cases h2 : (tsm_neighbour_get_scan t1 port_id (t1.node idx).paths_refs 0 UINT16_MAX).2
        = UINT16_MAX
    · rw [if_pos h2] at h; cases h
    · rw [if_neg h2] at h ⊢
      have he : (tsm_neighbour_get_scan t1 port_id (t1.node idx).paths_refs 0 UINT16_MAX).2
          < (t1.node idx).paths_refs.length := by
        rcases hs2 with hs2 | hs2
        · exact absurd hs2 h2
        · omega
      have hidx : idx < t1.node_table.nodes.length := lt_nodes_of_refs t1 idx _ he
      rw [neighbour_get_alloc_spec t1 t1.node_table.originator_start_idx 0 (by omega)] at h ⊢
      cases hl : lowest_index_from (fun i => decide ((t1.path i).first = UINT8_MAX))
          t1.node_table.originator_start_idx 0 with
      | some slot =>
        have hs := (lowest_index_from_some _ _ _ _).1 hl
        rw [hl] at h
        simp only [Ret.ok.injEq, Prod.mk.injEq] at h ⊢
        obtain ⟨hn, hnb⟩ := h
        subst hnb
        refine ⟨hn.symm, ?_, ?_, ?_⟩
        · rw [node_set_path, node_set_node, if_pos ⟨rfl, hidx⟩]
          exact List.mem_set _ _ he _
        · show slot < t1.node_table.originator_start_idx
          omega
        · rw [path_set_path_self _ _ _ (by
            show slot < t1.node_table.paths.length
            omega)]
      | none =>
        rw [hl] at h
        simp only [] at h ⊢
        by_cases h3 : t1.node_table.originator_start_idx < t1.node_table.paths.length ∧
            (t1.path t1.node_table.originator_start_idx).first = UINT8_MAX
        · rw [if_pos h3] at h ⊢
          simp only [Ret.ok.injEq, Prod.mk.injEq] at h ⊢
          obtain ⟨hn, hnb⟩ := h
          subst hnb
          refine ⟨hn.symm, ?_, ?_, ?_⟩
          · rw [node_set_path, node_set_node, if_pos ⟨rfl, hidx⟩]
            exact List.mem_set _ _ he _
          · show t1.node_table.originator_start_idx < t1.node_table.originator_start_idx + 1
            omega
          · rw [path_set_path_self _ _ _ (by
              show t1.node_table.originator_start_idx < t1.node_table.paths.length
              exact h3.1)]
        · rw [if_neg h3] at h; cases h
  · rw [if_neg h1] at h ⊢
    simp only [Ret.ok.injEq, Prod.mk.injEq] at h
    obtain ⟨hn, hnb⟩ := h
    rcases hs1 with hs1 | ⟨hs1, hs3, hs4⟩
    · exact absurd hs1 h1
    · rw [← hnb]
      exact ⟨hn.symm, hs1, hs3, hs4⟩

/-- The search from the top finds a slot when there is one with the property. -/
theorem highest_index_from_exists (p : Nat → Bool) (n lo k : Nat)
    (h1 : lo ≤ k) (h2 : k < lo + n) (h3 : p k = true) :
    ∃ s, highest_index_from p n lo = some s := by
  induction n with
  | zero => omega
  | succ m ih =>
    by_cases hp : p (lo + m) = true
    · exact ⟨lo + m, highest_index_from_succ_true p m lo hp⟩
    · have hp' : p (lo + m) = false := by
        cases hq : p (lo + m)
        · rfl
        · exact absurd hq hp
      rw [highest_index_from_succ_false p m lo hp']
      have hne : k ≠ lo + m := by
        intro h
        rw [h] at h3
        exact hp h3
      exact ih (by omega)

theorem spec_originator_install_eq (tsm : tsm_context)
    (node_idx ref_idx slot start_idx router_idx : Nat) :
    spec_originator_install tsm node_idx ref_idx slot start_idx router_idx =
      (({ tsm with node_table :=
            { tsm.node_table with originator_start_idx := start_idx } } : tsm_context).set_node
          node_idx { tsm.node node_idx with
            paths_refs := (tsm.node node_idx).paths_refs.set ref_idx slot }).set_path slot
        { tsm.path slot with router_idx := router_idx, first := 0 } := rfl

/-- For a node id that is not in the table, with `k` the lowest empty node slot and a free slot
in the originator region, `tsm_originator_get` makes the slot `k` a phantom, takes a free
originator slot at or above the split index, which stays where it is, and stores it in the
first path reference of the node. -/
theorem tsm_originator_get_new (now : Nat) (tsm : tsm_context) (node_id router k : Nat)
    (hnodes : tsm.node_table.nodes.length ≤ UINT16_MAX)
    (hstart : tsm.node_table.originator_start_idx ≤ tsm.node_table.paths.length)
    (hpaths : tsm.node_table.paths.length ≤ UINT16_MAX)
    (hrefs : 0 < (tsm.node k).paths_refs.length ∧
      (tsm.node k).paths_refs.length ≤ UINT8_MAX)
    (hno : tsm_node_lookup tsm node_id = .err .ENODEV)
    (hk1 : k < tsm.node_table.nodes.length)
    (hk2 : TSM_NODE_SEQNO_CACHE_SIZE ≤ (tsm.node k).protect_window.last_idx)
    (hk3 : ∀ j, j < k → (tsm.node j).protect_window.last_idx < TSM_NODE_SEQNO_CACHE_SIZE)
    (hfree : ∃ f, tsm.node_table.originator_start_idx ≤ f ∧ f < tsm.node_table.paths.length ∧
      (tsm.path f).first = UINT8_MAX) :
    ∃ slot,
      tsm.node_table.originator_start_idx ≤ slot ∧ slot < tsm.node_table.paths.length ∧
      (tsm.path slot).first = UINT8_MAX ∧
      tsm_originator_get now tsm node_id router =
        some (.ok (k, slot),
          spec_originator_install (tsm_node_init_phantom tsm k node_id) k 0 slot
            tsm.node_table.originator_start_idx router) := by
  have hget := tsm_node_get_lowest_empty now tsm node_id k hnodes hno hk1 hk2 hk3
  have hnode := node_init_phantom tsm k node_id k
  rw [if_pos ⟨rfl, hk1⟩] at hnode
  have hmax : UINT16_MAX = 65535 := rfl
  unfold tsm_originator_get
  rw [hget]
  simp only []
  rw [originator_get_at_spec _ k router
    (by show tsm.node_table.originator_start_idx ≤ tsm.node_table.paths.length; exact hstart)
    (by show tsm.node_table.paths.length ≤ _; exact hpaths)
    (by rw [hnode]; simp only [List.length_map]; exact hrefs.2)
    (by
      intro j hj
      rw [hnode] at hj ⊢
      simp only [List.length_map] at hj
      left
      exact getD_map_const _ _ _ _ hj)]
  unfold spec_originator_get
  simp only []
  rw [hnode]
  simp only [List.length_map]
  have h1 : lowest_index (fun j =>
      decide ((tsm_node_init_phantom tsm k node_id).node_table.originator_start_idx
          ≤ (List.map (fun _ => UINT16_MAX) (tsm.node k).paths_refs).getD j 0 ∧
        (List.map (fun _ => UINT16_MAX) (tsm.node k).paths_refs).getD j 0
          < (tsm_node_init_phantom tsm k node_id).node_table.paths.length ∧
        ((tsm_node_init_phantom tsm k node_id).path
          ((List.map (fun _ => UINT16_MAX) (tsm.node k).paths_refs).getD j 0)).router_idx
            = router))
      (tsm.node k).paths_refs.length = none := by
    rw [lowest_index_none]
    intro j hj
    rw [decide_eq_false_iff_not, getD_map_const _ _ _ _ hj]
    intro h
    have : UINT16_MAX < tsm.node_table.paths.length := h.2.1
    omega
  have h2 : lowest_index (fun j =>
      decide ((List.map (fun _ => UINT16_MAX) (tsm.node k).paths_refs).getD j 0 = UINT16_MAX))
      (tsm.node k).paths_refs.length = some 0 := by
    rw [lowest_index_some]
    refine ⟨hrefs.1, ?_, fun j hj => absurd hj (Nat.not_lt_zero j)⟩
    rw [decide_eq_true_iff, getD_map_const _ _ _ _ hrefs.1]
  rw [h1, h2]
  simp only []
  obtain ⟨f, hf1, hf2, hf3⟩ := hfree
  obtain ⟨s, hs⟩ := highest_index_from_exists
    (fun i => decide (((tsm_node_init_phantom tsm k node_id).path i).first = UINT8_MAX))
    ((tsm_node_init_phantom tsm k node_id).node_table.paths.length
      - (tsm_node_init_phantom tsm k node_id).node_table.originator_start_idx)
    (tsm_node_init_phantom tsm k node_id).node_table.originator_start_idx f hf1
    (by
      show f < tsm.node_table.originator_start_idx
        + (tsm.node_table.paths.length - tsm.node_table.originator_start_idx)
      omega)
    (by rw [decide_eq_true_iff]; exact hf3)
  rw [hs]
  obtain ⟨hs1, hs2, hs3, _⟩ := (highest_index_from_some _ _ _ _).1 hs
  rw [decide_eq_true_iff] at hs3
  refine ⟨s, hs1, ?_, hs3, rfl⟩
  have : s < tsm.node_table.originator_start_idx
      + (tsm.node_table.paths.length - tsm.node_table.originator_start_idx) := hs2
  omega

theorem originator_update_process_eq (now : Nat) (tsm : tsm_context)
    (router_node_idx router_neighbour_idx node_idx originator_idx : Nat)
    (name_mapping_id throughput : Nat) :
    tsm_originator_update_process now tsm router_node_idx router_neighbour_idx node_idx
      originator_idx name_mapping_id throughput =
    tsm_originator_update_best_next_hop
      (tsm_originator_update_stamped now tsm router_node_idx node_idx name_mapping_id)
      node_idx originator_idx
      (tsm_originator_update_throughput
        (tsm_neighbour_link_throughput
          (tsm_originator_update_stamped now tsm router_node_idx node_idx name_mapping_id)
          router_neighbour_idx)
        throughput node_idx router_node_idx) := rfl

/-- A store to a node entry that keeps the id, the index of the protection window and the path
references keeps them for every entry. -/
theorem node_set_node_keep (tsm : tsm_context) (i j : Nat) (n : tsm_node)
    (h1 : n.node_id = (tsm.node i).node_id)
    (h2 : n.protect_window.last_idx = (tsm.node i).protect_window.last_idx)
    (h3 : n.paths_refs = (tsm.node i).paths_refs) :
    ((tsm.set_node i n).node j).node_id = (tsm.node j).node_id ∧
    ((tsm.set_node i n).node j).protect_window.last_idx
      = (tsm.node j).protect_window.last_idx ∧
    ((tsm.set_node i n).node j).paths_refs = (tsm.node j).paths_refs := by
  rw [node_set_node]
  split_ifs with h
  · obtain ⟨h, _⟩ := h
    subst h
    exact ⟨h1, h2, h3⟩
  · exact ⟨rfl, rfl, rfl⟩

/-- The stamps of `tsm_originator_update` keep the ids, the indices of the protection windows
and the path references of all nodes, and the whole path table. -/
theorem originator_update_stamped_frame (now : Nat) (tsm : tsm_context)
    (router_node_idx node_idx name_mapping_id : Nat) :
    (tsm_originator_update_stamped now tsm router_node_idx node_idx
      name_mapping_id).node_table.nodes.length = tsm.node_table.nodes.length ∧
    (tsm_originator_update_stamped now tsm router_node_idx node_idx
      name_mapping_id).node_table.paths = tsm.node_table.paths ∧
    (tsm_originator_update_stamped now tsm router_node_idx node_idx
      name_mapping_id).node_table.originator_start_idx
        = tsm.node_table.originator_start_idx ∧
    ∀ j, ((tsm_originator_update_stamped now tsm router_node_idx node_idx
        name_mapping_id).node j).node_id = (tsm.node j).node_id ∧
      ((tsm_originator_update_stamped now tsm router_node_idx node_idx
        name_mapping_id).node j).protect_window.last_idx
          = (tsm.node j).protect_window.last_idx ∧
      ((tsm_originator_update_stamped now tsm router_node_idx node_idx
        name_mapping_id).node j).paths_refs = (tsm.node j).paths_refs := by
  unfold tsm_originator_update_stamped
  simp only []
  refine ⟨by simp only [nodes_length_set_node], rfl, rfl, ?_⟩
  intro j
  have a := node_set_node_keep tsm router_node_idx j
    { tsm.node router_node_idx with
      protect_window := { (tsm.node router_node_idx).protect_window with
        last_seen_time := now } } rfl rfl rfl
  have b := node_set_node_keep (tsm.set_node router_node_idx
    { tsm.node router_node_idx with
      protect_window := { (tsm.node router_node_idx).protect_window with
        last_seen_time := now } }) node_idx j
    { (tsm.set_node router_node_idx
        { tsm.node router_node_idx with
          protect_window := { (tsm.node router_node_idx).protect_window with
            last_seen_time := now } }).node node_idx with
      protect_window := { ((tsm.set_node router_node_idx
        { tsm.node router_node_idx with
          protect_window := { (tsm.node router_node_idx).protect_window with
            last_seen_time := now } }).node node_idx).protect_window with
        last_seen_time := now } } rfl rfl rfl
  have c := node_set_node_keep ((tsm.set_node router_node_idx
    { tsm.node router_node_idx with
      protect_window := { (tsm.node router_node_idx).protect_window with
        last_seen_time := now } }).set_node node_idx
    { (tsm.set_node router_node_idx
        { tsm.node router_node_idx with
          protect_window := { (tsm.node router_node_idx).protect_window with
            last_seen_time := now } }).node node_idx with
      protect_window := { ((tsm.set_node router_node_idx
        { tsm.node router_node_idx with
          protect_window := { (tsm.node router_node_idx).protect_window with
            last_seen_time := now } }).node node_idx).protect_window with
        last_seen_time := now } }) node_idx j
    { (((tsm.set_node router_node_idx
        { tsm.node router_node_idx with
          protect_window := { (tsm.node router_node_idx).protect_window with
            last_seen_time := now } }).set_node node_idx
        { (tsm.set_node router_node_idx
            { tsm.node router_node_idx with
              protect_window := { (tsm.node router_node_idx).protect_window with
                last_seen_time := now } }).node node_idx with
          protect_window := { ((tsm.set_node router_node_idx
            { tsm.node router_node_idx with
              protect_window := { (tsm.node router_node_idx).protect_window with
                last_seen_time := now } }).node node_idx).protect_window with
            last_seen_time := now } }).node node_idx) with
      name_mapping_id := name_mapping_id } rfl rfl rfl
  exact ⟨c.1.trans (b.1.trans a.1), c.2.1.trans (b.2.1.trans a.2.1),
    c.2.2.trans (b.2.2.trans a.2.2)⟩

/-- When the best path reference of the node is the originator slot already,
`tsm_originator_update_best_next_hop` only stores the throughput. -/
theorem originator_update_best_next_hop_best (tsm : tsm_context)
    (node_idx originator_idx throughput : Nat)
    (hbest : (tsm.node node_idx).paths_refs.getD TSM_NODE_PATHS_BEST 0 = originator_idx) :
    tsm_originator_update_best_next_hop tsm node_idx originator_idx throughput =
      tsm.set_path originator_idx { tsm.path originator_idx with first := throughput } := by
  unfold tsm_originator_update_best_next_hop
  simp only []
  have hb : ((tsm.set_path originator_idx
      { tsm.path originator_idx with first := throughput }).node node_idx).paths_refs.getD
        TSM_NODE_PATHS_BEST 0 = originator_idx := hbest
  rw [if_pos hb]

/-- What `tsm_originator_update_process` leaves alone when the best path reference of the node
is the originator slot: the sizes, the split index, the other path elements, and the ids, the
indices of the protection windows and the path references of all nodes. -/
theorem originator_update_process_frame (now : Nat) (tsm : tsm_context)
    (router_node_idx router_neighbour_idx node_idx originator_idx : Nat)
    (name_mapping_id throughput : Nat)
    (hbest : (tsm.node node_idx).paths_refs.getD TSM_NODE_PATHS_BEST 0 = originator_idx) :
    (tsm_originator_update_process now tsm router_node_idx router_neighbour_idx node_idx
      originator_idx name_mapping_id throughput).node_table.nodes.length
        = tsm.node_table.nodes.length ∧
    (tsm_originator_update_process now tsm router_node_idx router_neighbour_idx node_idx
      originator_idx name_mapping_id throughput).node_table.paths.length
        = tsm.node_table.paths.length ∧
    (tsm_originator_update_process now tsm router_node_idx router_neighbour_idx node_idx
      originator_idx name_mapping_id throughput).node_table.originator_start_idx
        = tsm.node_table.originator_start_idx ∧
    (∀ p, p ≠ originator_idx →
      (tsm_originator_update_process now tsm router_node_idx router_neighbour_idx node_idx
        originator_idx name_mapping_id throughput).path p = tsm.path p) ∧
    ∀ j, ((tsm_originator_update_process now tsm router_node_idx router_neighbour_idx node_idx
        originator_idx name_mapping_id throughput).node j).node_id = (tsm.node j).node_id ∧
      ((tsm_originator_update_process now tsm router_node_idx router_neighbour_idx node_idx
        originator_idx name_mapping_id throughput).node j).protect_window.last_idx
          = (tsm.node j).protect_window.last_idx ∧
      ((tsm_originator_update_process now tsm router_node_idx router_neighbour_idx node_idx
        originator_idx name_mapping_id throughput).node j).paths_refs
          = (tsm.node j).paths_refs := by
  obtain ⟨hs1, hs2, hs3, hs4⟩ := originator_update_stamped_frame now tsm router_node_idx
    node_idx name_mapping_id
  rw [originator_update_process_eq,
    originator_update_best_next_hop_best _ _ _ _ (by rw [(hs4 node_idx).2.2]; exact hbest)]
  refine ⟨hs1, ?_, hs3, ?_, ?_⟩
  · rw [paths_length_set_path, hs2]
  · intro p hp
    rw [path_set_path_ne _ _ _ _ (Ne.symm hp)]
    simp only [tsm_context.path, hs2]
  · intro j
    rw [node_set_path]
    exact hs4 j

/-- What a successful `tsm_neighbour_get` establishes in the tables: the sizes are kept, the
split index stays within the path table, the node is found by `tsm_node_lookup` at the index
returned, other ids that were not in the table are still not in it, and the neighbour slot
returned is referenced by the node, lies below the split index and has the port. -/
theorem tsm_neighbour_get_table (now : Nat) (tsm : tsm_context) (node_id port_id ri rn : Nat)
    (t1 : tsm_context)
    (hnodes : tsm.node_table.nodes.length ≤ UINT16_MAX)
    (hstart : tsm.node_table.originator_start_idx ≤ tsm.node_table.paths.length)
    (hget : tsm_neighbour_get now tsm node_id port_id = some (.ok (ri, rn), t1)) :
    t1.node_table.nodes.length = tsm.node_table.nodes.length ∧
    t1.node_table.paths.length = tsm.node_table.paths.length ∧
    t1.node_table.originator_start_idx ≤ t1.node_table.paths.length ∧
    tsm_node_lookup t1 node_id = .ok ri ∧
    (∀ other, other ≠ node_id → tsm_node_lookup tsm other = .err .ENODEV →
      tsm_node_lookup t1 other = .err .ENODEV) ∧
    (∀ j, (t1.node j).paths_refs.length = (tsm.node j).paths_refs.length) ∧
    (∀ j, (t1.node j).protect_window.node_seqno_cache.length
      = (tsm.node j).protect_window.node_seqno_cache.length) ∧
    rn ∈ (t1.node ri).paths_refs ∧ rn < t1.node_table.originator_start_idx ∧
    (t1.path rn).port_id = port_id := by
  unfold tsm_neighbour_get at hget
  cases hg : tsm_node_get now tsm node_id with
  | none => rw [hg] at hget; cases hget
  | some p =>
    obtain ⟨idx, t0⟩ := p
    rw [hg] at hget
    simp only [Option.some.injEq] at hget
    obtain ⟨hshape1, hshape2, hshape3⟩ := tsm_node_get_shape now tsm node_id idx t0 hg
    obtain ⟨htab1, htab2, htab3, htab4⟩ := tsm_node_get_table now tsm node_id idx t0 hnodes hg
    have hnd := neighbour_get_at_nodes t0 idx port_id
    have hsp := neighbour_get_at_split t0 idx port_id
    have hpost := neighbour_get_at_post t0 idx port_id ri rn (by omega) (by rw [hget])
    rw [hget] at hnd hsp hpost
    simp only [] at hnd hsp hpost
    obtain ⟨hnd1, hnd2⟩ := hnd
    obtain ⟨hsp1, hsp2, _⟩ := hsp
    obtain ⟨hri, hp1, hp2, hp3⟩ := hpost
    subst hri
    have hmatch : ∀ id j, node_matches id (t1.node j) ↔ node_matches id (t0.node j) := by
      intro id j
      unfold node_matches
      rw [(hnd2 j).1, (hnd2 j).2.1]
    refine ⟨hnd1.trans htab1, hsp1.trans hshape2, ?_, ?_, ?_, ?_, ?_, hp1, hp2, hp3⟩
    · rcases hsp2 with h | ⟨h, hlt, _⟩ <;> omega
    · rw [tsm_node_lookup_ok_iff] at htab2 ⊢
      obtain ⟨h1, h2, h3⟩ := htab2
      exact ⟨by omega, (hmatch _ _).2 h2, fun j hj hm => h3 j hj ((hmatch _ _).1 hm)⟩
    · intro other hother hunknown
      have h0 := htab3 other hother hunknown
      rw [tsm_node_lookup_err_iff] at h0 ⊢
      intro j hj hm
      exact h0 j (by omega) ((hmatch _ _).1 hm)
    · intro j
      rw [(hnd2 j).2.2, hshape3 j]
    · intro j
      rw [(hnd2 j).2.1, htab4 j]

/-- Of the empty node table entries there is a lowest one. -/
theorem lowest_empty_entry (t : tsm_context)
    (h : ∃ k, k < t.node_table.nodes.length ∧
      TSM_NODE_SEQNO_CACHE_SIZE ≤ (t.node k).protect_window.last_idx) :
    ∃ k, k < t.node_table.nodes.length ∧
      TSM_NODE_SEQNO_CACHE_SIZE ≤ (t.node k).protect_window.last_idx ∧
      ∀ j, j < k → (t.node j).protect_window.last_idx < TSM_NODE_SEQNO_CACHE_SIZE := by
  classical
  refine ⟨Nat.find h, (Nat.find_spec h).1, (Nat.find_spec h).2, ?_⟩
  intro j hj
  have hmin := Nat.find_min h hj
  have hjlt : j < t.node_table.nodes.length := Nat.lt_trans hj (Nat.find_spec h).1
  by_contra hcon
  exact hmin ⟨hjlt, by omega⟩

/-- The loop of `tsm_originator_lookup` stops at the first path reference when it is an
originator slot. -/
theorem originator_lookup_scan_head (t : tsm_context) (L : List Nat) (v : Nat)
    (hlen : 0 < L.length) (hv : L.getD 0 0 = v)
    (h1 : t.node_table.originator_start_idx ≤ v) (h2 : v < t.node_table.paths.length) :
    tsm_originator_lookup_scan t L = .ok v := by
  cases L with
  | nil => simp at hlen
  | cons w rest =>
    simp only [List.getD_cons_zero] at hv
    subst hv
    simp only [tsm_originator_lookup_scan]
    rw [if_pos ⟨h1, h2⟩]

/-- The state after the phantom of a new originator got its slot: the entry `k` is the phantom
with the slot in its first path reference, the slot names the router, and nothing else is
changed. -/
theorem originator_install_phantom_state (t1 : tsm_context) (k node_id slot router : Nat)
    (hk : k < t1.node_table.nodes.length) (hs : slot < t1.node_table.paths.length) :
    (spec_originator_install (tsm_node_init_phantom t1 k node_id) k 0 slot
      t1.node_table.originator_start_idx router).node_table.nodes.length
        = t1.node_table.nodes.length ∧
    (spec_originator_install (tsm_node_init_phantom t1 k node_id) k 0 slot
      t1.node_table.originator_start_idx router).node_table.paths.length
        = t1.node_table.paths.length ∧
    (spec_originator_install (tsm_node_init_phantom t1 k node_id) k 0 slot
      t1.node_table.originator_start_idx router).node_table.originator_start_idx
        = t1.node_table.originator_start_idx ∧
    (spec_originator_install (tsm_node_init_phantom t1 k node_id) k 0 slot
      t1.node_table.originator_start_idx router).node k =
      { node_id := node_id
        name_mapping_id := TSM_NODE_NAME_MAPPING_ID_INVALID
        protect_window :=
          { node_seqno_cache :=
              (t1.node k).protect_window.node_seqno_cache.map (fun _ => TSM_NODE_SEQNO_INVALID)
            last_idx := 0
            last_seen_time := 0 }
        paths_refs := ((t1.node k).paths_refs.map (fun _ => UINT16_MAX)).set 0 slot } ∧
    (∀ j, j ≠ k →
      (spec_originator_install (tsm_node_init_phantom t1 k node_id) k 0 slot
        t1.node_table.originator_start_idx router).node j = t1.node j) ∧
    (∀ p, p ≠ slot →
      (spec_originator_install (tsm_node_init_phantom t1 k node_id) k 0 slot
        t1.node_table.originator_start_idx router).path p = t1.path p) ∧
    ((spec_originator_install (tsm_node_init_phantom t1 k node_id) k 0 slot
      t1.node_table.originator_start_idx router).path slot).router_idx = router := by
  have hnode := node_init_phantom t1 k node_id k
  rw [if_pos ⟨rfl, hk⟩] at hnode
  have hlen : (tsm_node_init_phantom t1 k node_id).node_table.nodes.length
      = t1.node_table.nodes.length := nodes_length_init_phantom t1 k node_id
  rw [spec_originator_install_eq]
  refine ⟨?_, ?_, rfl, ?_, ?_, ?_, ?_⟩
  · simp only [tsm_context.set_path, tsm_context.set_node, List.length_set]
    exact hlen
  · rw [paths_length_set_path]
    rfl
  · rw [node_set_path, node_set_node, if_pos ⟨rfl, by
      show k < (tsm_node_init_phantom t1 k node_id).node_table.nodes.length
      rw [hlen]; exact hk⟩, hnode]
  · intro j hj
    rw [node_set_path, node_set_node, if_neg (fun h => hj h.1.symm)]
    show (tsm_node_init_phantom t1 k node_id).node j = t1.node j
    rw [node_init_phantom, if_neg (fun h => hj h.1.symm)]
  · intro p hp
    rw [path_set_path_ne _ _ _ _ (Ne.symm hp)]
    rfl
  · rw [path_set_path_self _ _ _ (by
      show slot < t1.node_table.paths.length
      exact hs)]

/-- On a node whose protection window is that of a phantom, `tsm_originator_update` stores the
sequence number and processes the statement. -/
theorem originator_update_at_phantom (now : Nat) (t2 : tsm_context)
    (node_seqno ri rn k slot name_mapping_id throughput : Nat) (cache : List Nat)
    (hlen : 0 < cache.length)
    (hw : (t2.node k).protect_window =
      { node_seqno_cache := cache.map (fun _ => TSM_NODE_SEQNO_INVALID)
        last_idx := 0
        last_seen_time := 0 }) :
    tsm_originator_update_at now t2 node_seqno ri rn k slot name_mapping_id throughput =
      (.ok (), tsm_originator_update_process now
        (t2.set_node k
          { t2.node k with
            protect_window := protect_window_insert now (t2.node k).protect_window node_seqno })
        ri rn k slot name_mapping_id throughput) := by
  unfold tsm_originator_update_at
  simp only []
  rw [update_phantom_window now t2 k node_seqno cache hlen hw]
  simp only []
  have hdrop : ∀ s i thr, tsm_originator_update_drop (.ok ()) s i thr = false := by
    intro s i thr
    rfl
  rw [hdrop]
  rfl

/-- Claim C21: in a state in which the originator `node_id` is unknown, for an originator
statement with version 0 and a sequence number up to 23 (the values that the assertion of
`tsm_node_protect_window_update` admits), with the originator, the router and the own node id
pairwise different, whose router is accepted as a
neighbour on the port (`tsm_neighbour_get` returns Ok) and leaves an empty node table entry and
a free path slot in the originator region behind: `tsm_originator_update` returns Ok, and
afterwards `tsm_originator_lookup` finds the originator, `tsm_node_lookup` finds the router at
its node index, `tsm_neighbour_lookup` finds the router on the port, the originator slot names
the router node index in `router_idx`, and `tsm_node_best_next_hop` of the originator returns
the router node index as the hop. -/
theorem tsm_originator_update_unknown (now : Nat) (tsm : tsm_context)
    (node_seqno node_id age_ms name_mapping_id router_node_id throughput port_id : Nat)
    (ri rn : Nat) (t1 : tsm_context)
    (hO : node_id ≠ tsm.node_id) (hR : router_node_id ≠ tsm.node_id)
    (hRO : router_node_id ≠ node_id) (hseq : node_seqno ≤ TSM_NODE_SEQNO_MAX)
    (hnodes : tsm.node_table.nodes.length ≤ UINT16_MAX)
    (hstart : tsm.node_table.originator_start_idx ≤ tsm.node_table.paths.length)
    (hpaths : tsm.node_table.paths.length ≤ UINT16_MAX)
    (hrefs : ∀ o, o < tsm.node_table.nodes.length →
      0 < (tsm.node o).paths_refs.length ∧ (tsm.node o).paths_refs.length ≤ UINT8_MAX)
    (hcache : ∀ o, o < tsm.node_table.nodes.length →
      0 < (tsm.node o).protect_window.node_seqno_cache.length)
    (hunknown : tsm_node_lookup tsm node_id = .err .ENODEV)
    (hrouter : tsm_neighbour_get now tsm router_node_id port_id = some (.ok (ri, rn), t1))
    (hempty : ∃ k, k < t1.node_table.nodes.length ∧
      TSM_NODE_SEQNO_CACHE_SIZE ≤ (t1.node k).protect_window.last_idx)
    (hfree : ∃ f, t1.node_table.originator_start_idx ≤ f ∧ f < t1.node_table.paths.length ∧
      (t1.path f).first = UINT8_MAX) :
    ∃ oi os t,
      tsm_originator_update now tsm node_seqno node_id TSM_VERSION age_ms name_mapping_id
        router_node_id throughput port_id = some (.ok (), t) ∧
      tsm_originator_lookup t node_id = .ok (oi, os) ∧
      tsm_node_lookup t router_node_id = .ok ri ∧
      (∃ nb, tsm_neighbour_lookup t router_node_id port_id = .ok (ri, nb)) ∧
      (t.path os).router_idx = ri ∧
      ∃ thr, tsm_node_best_next_hop t oi = .ok (ri, thr) := by
  have _ := hseq
  obtain ⟨ht1, ht2, ht3, ht4, ht5, ht6, ht7, ht8, ht9, ht10⟩ :=
    tsm_neighbour_get_table now tsm router_node_id port_id ri rn t1 hnodes hstart hrouter
  have hunk1 : tsm_node_lookup t1 node_id = .err .ENODEV := ht5 node_id (Ne.symm hRO) hunknown
  obtain ⟨k, hk1, hk2, hk3⟩ := lowest_empty_entry t1 hempty
  have hkr : 0 < (t1.node k).paths_refs.length ∧ (t1.node k).paths_refs.length ≤ UINT8_MAX := by
    rw [ht6 k]; exact hrefs k (by omega)
  have hkc : 0 < (t1.node k).protect_window.node_seqno_cache.length := by
    rw [ht7 k]; exact hcache k (by omega)
  obtain ⟨slot, hs1, hs2, _, horig⟩ := tsm_originator_get_new now t1 node_id ri k (by omega) ht3
    (by omega) hkr hunk1 hk1 hk2 hk3 hfree
  have hupd := tsm_originator_update_eq now tsm node_seqno node_id age_ms name_mapping_id
    router_node_id throughput port_id ri rn k slot t1 _ hO hR hRO hrouter horig
  obtain ⟨hri1, hri2, hri3⟩ := (tsm_node_lookup_ok_iff t1 router_node_id ri).1 ht4
  have hkri : k ≠ ri := by
    intro h
    subst h
    have := hri2.1
    omega
  have hno1 := (tsm_node_lookup_err_iff t1 node_id).1 hunk1
  -- the state after the originator got its slot
  obtain ⟨h2a, h2b, h2c, h2d, h2e, h2f, h2g⟩ :=
    originator_install_phantom_state t1 k node_id slot ri hk1 hs2
  generalize spec_originator_install (tsm_node_init_phantom t1 k node_id) k 0 slot
    t1.node_table.originator_start_idx ri = t2 at hupd h2a h2b h2c h2d h2e h2f h2g
  have hw : (t2.node k).protect_window =
      { node_seqno_cache :=
          (t1.node k).protect_window.node_seqno_cache.map (fun _ => TSM_NODE_SEQNO_INVALID)
        last_idx := 0
        last_seen_time := 0 } := by rw [h2d]
  rw [originator_update_at_phantom now t2 node_seqno ri rn k slot name_mapping_id throughput
    _ hkc hw] at hupd
  -- the state after the protection window update
  have h3k : ((t2.set_node k
      { t2.node k with
        protect_window := protect_window_insert now (t2.node k).protect_window
          node_seqno }).node k) =
      { t2.node k with
        protect_window := protect_window_insert now (t2.node k).protect_window node_seqno } := by
    rw [node_set_node, if_pos ⟨rfl, by omega⟩]
  have h3j : ∀ j, j ≠ k → (t2.set_node k
      { t2.node k with
        protect_window := protect_window_insert now (t2.node k).protect_window
          node_seqno }).node j = t1.node j := by
    intro j hj
    rw [node_set_node, if_neg (fun h => hj h.1.symm)]
    exact h2e j hj
  have h3len : (t2.set_node k
      { t2.node k with
        protect_window := protect_window_insert now (t2.node k).protect_window
          node_seqno }).node_table.nodes.length = t1.node_table.nodes.length := by
    rw [nodes_length_set_node]; exact h2a
  have h3p : ∀ p, (t2.set_node k
      { t2.node k with
        protect_window := protect_window_insert now (t2.node k).protect_window
          node_seqno }).path p = t2.path p := fun _ => rfl
  have h3pl : (t2.set_node k
      { t2.node k with
        protect_window := protect_window_insert now (t2.node k).protect_window
          node_seqno }).node_table.paths.length = t1.node_table.paths.length := h2b
  have h3osi : (t2.set_node k
      { t2.node k with
        protect_window := protect_window_insert now (t2.node k).protect_window
          node_seqno }).node_table.originator_start_idx
        = t1.node_table.originator_start_idx := h2c
  have h3id : ({ t2.node k with
      protect_window := protect_window_insert now (t2.node k).protect_window
        node_seqno } : tsm_node).node_id = node_id := by
    show (t2.node k).node_id = node_id
    rw [h2d]
  have h3refs : ({ t2.node k with
      protect_window := protect_window_insert now (t2.node k).protect_window
        node_seqno } : tsm_node).paths_refs
      = ((t1.node k).paths_refs.map (fun _ => UINT16_MAX)).set 0 slot := by
    show (t2.node k).paths_refs = _
    rw [h2d]
  have h3idx : ({ t2.node k with
      protect_window := protect_window_insert now (t2.node k).protect_window
        node_seqno } : tsm_node).protect_window.last_idx < TSM_NODE_SEQNO_CACHE_SIZE := by
    show (protect_window_insert now (t2.node k).protect_window node_seqno).last_idx < _
    rw [hw]
    simp only [protect_window_insert]
    decide
  generalize ht3def : t2.set_node k
      { t2.node k with
        protect_window := protect_window_insert now (t2.node k).protect_window
          node_seqno } = t3 at hupd h3k h3j h3len h3p h3pl h3osi
  rw [← h3k] at h3id h3refs h3idx
  have hbest : (t3.node k).paths_refs.getD TSM_NODE_PATHS_BEST 0 = slot := by
    rw [h3refs]
    exact getD_set_self _ _ _ _ (by rw [List.length_map]; exact hkr.1)
  have hrlen : 0 < (t3.node k).paths_refs.length := by
    rw [h3refs, List.length_set, List.length_map]; exact hkr.1
  -- the final state
  obtain ⟨hf1, hf2, hf3, hf4, hf5⟩ := originator_update_process_frame now t3 ri rn k slot
    name_mapping_id throughput hbest
  have hfslot := path_originator_update_process now t3 ri rn k slot name_mapping_id throughput
    (by omega)
  generalize tsm_originator_update_process now t3 ri rn k slot name_mapping_id throughput = t
    at hupd hf1 hf2 hf3 hf4 hf5 hfslot
  have hmatch : ∀ id j, j ≠ k → (node_matches id (t.node j) ↔ node_matches id (t1.node j)) := by
    intro id j hj
    unfold node_matches
    rw [(hf5 j).1, (hf5 j).2.1, h3j j hj]
  have hlookO : tsm_node_lookup t node_id = .ok k := by
    rw [tsm_node_lookup_ok_iff]
    refine ⟨by omega, ⟨?_, ?_⟩, ?_⟩
    · rw [(hf5 k).2.1]; exact h3idx
    · rw [(hf5 k).1]; exact h3id.symm
    · intro j hj hm
      exact hno1 j (by omega) ((hmatch _ j (by omega)).1 hm)
  have hlookR : tsm_node_lookup t router_node_id = .ok ri := by
    rw [tsm_node_lookup_ok_iff]
    refine ⟨by omega, (hmatch _ ri (Ne.symm hkri)).2 hri2, ?_⟩
    intro j hj hm
    by_cases hjk : j = k
    · subst hjk
      have : router_node_id = (t.node j).node_id := hm.2
      rw [(hf5 j).1, h3id] at this
      exact hRO this
    · exact hri3 j hj ((hmatch _ j hjk).1 hm)
  have hslotr : (t.path slot).router_idx = ri := by
    rw [hfslot]
    show (t3.path slot).router_idx = ri
    rw [h3p]
    exact h2g
  refine ⟨k, slot, t, hupd, ?_, hlookR, ?_, hslotr, ?_⟩
  · unfold tsm_originator_lookup
    rw [hlookO]
    simp only []
    rw [originator_lookup_scan_head t _ slot (by rw [(hf5 k).2.2]; exact hrlen)
      (by rw [(hf5 k).2.2]; exact hbest) (by omega) (by omega)]
  · obtain ⟨nb, hnb⟩ := neighbour_lookup_scan_of_mem t1 port_id rn _ ht8 ht9 ht10
    refine ⟨nb, ?_⟩
    unfold tsm_neighbour_lookup
    rw [hlookR]
    simp only []
    rw [(hf5 ri).2.2, h3j ri (Ne.symm hkri),
      neighbour_lookup_scan_congr t1 t port_id _ (by omega) (by
        intro v hv
        rw [hf4 v (by omega), h3p, h2f v (by omega)]), hnb]
  · unfold tsm_node_best_next_hop
    simp only []
    rw [(hf5 k).2.2, hbest, if_neg (by omega), if_neg (by omega), hslotr]
    exact ⟨_, rfl⟩

set_option maxRecDepth 100000 in
/-- Witness of `tsm_originator_update_unknown`: on a fresh table at clock 1 the statement of the
unknown originator 500 with the sequence number 7 arrives through the unknown router 100 on
port 0; the router gets the node entry 0 and the neighbour slot 0. -/
theorem tsm_originator_update_unknown_witness :
    tsm_neighbour_get 1 mesh_init 100 0 = some (.ok (0, 0), mesh_one_neighbour) ∧
    ∃ oi os t,
      tsm_originator_update 1 mesh_init 7 500 TSM_VERSION 0 0x1234 100 9 0
        = some (.ok (), t) ∧
      tsm_originator_lookup t 500 = .ok (oi, os) ∧
      tsm_node_lookup t 100 = .ok 0 ∧
      (∃ nb, tsm_neighbour_lookup t 100 0 = .ok (0, nb)) ∧
      (t.path os).router_idx = 0 ∧
      ∃ thr, tsm_node_best_next_hop t oi = .ok (0, thr) :=
  ⟨by decide,
    tsm_originator_update_unknown 1 mesh_init 7 500 0 0x1234 100 9 0 0 0 mesh_one_neighbour
      (by decide) (by decide) (by decide) (by decide) (by decide) (by decide) (by decide)
      (by decide) (by decide) (by decide) (by decide) ⟨1, by decide, by decide⟩
      ⟨15, by decide, by decide, by decide⟩⟩

/-! ## Claim C31: the state machine of `rbbq_init`, `rbbq_start`, `rbbq_stop` -/

/-- The outcome of `rbbq_init` on a buffer in the state None, by the result of the device
hook. -/
theorem rbbq_init_with_none (init : rbbq_local → rbbq_side → Ret Unit × rbbq_local)
    (s : rbbq_local) (side : rbbq_side)
    (h : (s.buffer side).state = RBBQ_BUFFER_STATE_NONE) :
    (rbbq_init_with init s side).1 = (init (rbbq_init_enter s side) side).1 ∧
    ((rbbq_init_with init s side).1 = .ok () →
      ((rbbq_init_with init s side).2.buffer side).state = RBBQ_BUFFER_STATE_READY) ∧
    (∀ e, (rbbq_init_with init s side).1 = .err e →
      ((rbbq_init_with init s side).2.buffer side).state = RBBQ_BUFFER_STATE_NONE) := by
  unfold rbbq_init_with
  rw [if_neg (not_not.mpr h)]
  cases hh : init (rbbq_init_enter s side) side with
  | mk r s2 =>
    cases r with
    | ok u =>
      cases u
      simp [buffer_set_buffer]
    | err e =>
      simp [buffer_set_buffer]

/-- The outcome of `rbbq_start` on a buffer in the state Ready or Suspended, by the result of
the device hook. -/
theorem rbbq_start_with_ready (start : rbbq_local → rbbq_side → Ret Unit × rbbq_local)
    (s : rbbq_local) (side : rbbq_side)
    (h : (s.buffer side).state = RBBQ_BUFFER_STATE_READY ∨
      (s.buffer side).state = RBBQ_BUFFER_STATE_SUSPENDED) :
    (rbbq_start_with start s side).1 =
      (start (s.set_buffer side
        { s.buffer side with state := RBBQ_BUFFER_STATE_START }) side).1 ∧
    ((rbbq_start_with start s side).1 = .ok () →
      ((rbbq_start_with start s side).2.buffer side).state = RBBQ_BUFFER_STATE_RUNNING) ∧
    (∀ e, (rbbq_start_with start s side).1 = .err e →
      ((rbbq_start_with start s side).2.buffer side).state = (s.buffer side).state) := by
  unfold rbbq_start_with
  simp only []
  rw [if_pos h]
  cases hh : start (s.set_buffer side
      { s.buffer side with state := RBBQ_BUFFER_STATE_START }) side with
  | mk r s2 =>
    cases r with
    | ok u =>
      cases u
      simp [buffer_set_buffer]
    | err e =>
      simp [buffer_set_buffer]

/-- The outcome of `rbbq_stop` on a running buffer, by the result of the device hook. -/
theorem rbbq_stop_with_running (stop : rbbq_local → rbbq_side → Ret Unit × rbbq_local)
    (s : rbbq_local) (side : rbbq_side)
    (h : (s.buffer side).state = RBBQ_BUFFER_STATE_RUNNING) :
    (rbbq_stop_with stop s side).1 =
      (stop (s.set_buffer side
        { s.buffer side with state := RBBQ_BUFFER_STATE_STOP }) side).1 ∧
    ((rbbq_stop_with stop s side).1 = .ok () →
      ((rbbq_stop_with stop s side).2.buffer side).state = RBBQ_BUFFER_STATE_SUSPENDED) ∧
    (∀ e, (rbbq_stop_with stop s side).1 = .err e →
      ((rbbq_stop_with stop s side).2.buffer side).state = RBBQ_BUFFER_STATE_RUNNING) := by
  unfold rbbq_stop_with
  simp only []
  rw [if_neg (by rw [h]; decide), if_pos h]
  cases hh : stop (s.set_buffer side
      { s.buffer side with state := RBBQ_BUFFER_STATE_STOP }) side with
  | mk r s2 =>
    cases r with
    | ok u =>
      cases u
      simp [buffer_set_buffer]
    | err e =>
      simp [buffer_set_buffer]

/-- Every result is Ok or an error. -/
theorem ret_unit_cases (r : Ret Unit) : r = .ok () ∨ ∃ e, r = .err e := by
  cases r with
  | ok u => cases u; exact Or.inl rfl
  | err e => exact Or.inr ⟨e, rfl⟩

/-- Claim C31: `rbbq_init` fails with `-EEXIST` and changes nothing unless the state is None;
from None it returns what the device hook returns and ends in Ready, or in None when the hook
fails.  `rbbq_start` fails with `-EBUSY` and changes nothing unless the state is Ready or
Suspended; from these it returns what the device hook returns and ends in Running, or in the
state it came from when the hook fails.  `rbbq_stop` returns 0 without a change when
Suspended, fails with `-EBUSY` without a change unless the state is Running, and from Running
returns what the device hook returns and ends in Suspended, or in Running when the hook
fails.  Hence a call on a buffer that is not in one of the states Init, Start, Stop does not
leave it in one of them, and a buffer that was not running is running afterwards only behind a
successful `rbbq_start`.  With the hooks of the local device these are the functions
`rbbq_init`, `rbbq_start` and `rbbq_stop` of the embedding. -/
theorem rbbq_state_machine (init start stop : rbbq_local → rbbq_side → Ret Unit × rbbq_local)
    (s : rbbq_local) (side : rbbq_side) :
    ((s.buffer side).state ≠ RBBQ_BUFFER_STATE_NONE →
      rbbq_init_with init s side = (.err .EEXIST, s)) ∧
    ((s.buffer side).state = RBBQ_BUFFER_STATE_NONE →
      (rbbq_init_with init s side).1 = (init (rbbq_init_enter s side) side).1 ∧
      ((rbbq_init_with init s side).1 = .ok () →
        ((rbbq_init_with init s side).2.buffer side).state = RBBQ_BUFFER_STATE_READY) ∧
      (∀ e, (rbbq_init_with init s side).1 = .err e →
        ((rbbq_init_with init s side).2.buffer side).state = RBBQ_BUFFER_STATE_NONE)) ∧
    (¬ ((s.buffer side).state = RBBQ_BUFFER_STATE_READY ∨
        (s.buffer side).state = RBBQ_BUFFER_STATE_SUSPENDED) →
      rbbq_start_with start s side = (.err .EBUSY, s)) ∧
    (((s.buffer side).state = RBBQ_BUFFER_STATE_READY ∨
        (s.buffer side).state = RBBQ_BUFFER_STATE_SUSPENDED) →
      (rbbq_start_with start s side).1 =
        (start (s.set_buffer side
          { s.buffer side with state := RBBQ_BUFFER_STATE_START }) side).1 ∧
      ((rbbq_start_with start s side).1 = .ok () →
        ((rbbq_start_with start s side).2.buffer side).state = RBBQ_BUFFER_STATE_RUNNING) ∧
      (∀ e, (rbbq_start_with start s side).1 = .err e →
        ((rbbq_start_with start s side).2.buffer side).state = (s.buffer side).state)) ∧
    ((s.buffer side).state = RBBQ_BUFFER_STATE_SUSPENDED →
      rbbq_stop_with stop s side = (.ok (), s)) ∧
    ((s.buffer side).state = RBBQ_BUFFER_STATE_RUNNING →
      (rbbq_stop_with stop s side).1 =
        (stop (s.set_buffer side
          { s.buffer side with state := RBBQ_BUFFER_STATE_STOP }) side).1 ∧
      ((rbbq_stop_with stop s side).1 = .ok () →
        ((rbbq_stop_with stop s side).2.buffer side).state = RBBQ_BUFFER_STATE_SUSPENDED) ∧
      (∀ e, (rbbq_stop_with stop s side).1 = .err e →
        ((rbbq_stop_with stop s side).2.buffer side).state = RBBQ_BUFFER_STATE_RUNNING)) ∧
    ((s.buffer side).state ≠ RBBQ_BUFFER_STATE_SUSPENDED →
      (s.buffer side).state ≠ RBBQ_BUFFER_STATE_RUNNING →
      rbbq_stop_with stop s side = (.err .EBUSY, s)) ∧
    (((s.buffer side).state ≠ RBBQ_BUFFER_STATE_INIT ∧
        (s.buffer side).state ≠ RBBQ_BUFFER_STATE_START ∧
        (s.buffer side).state ≠ RBBQ_BUFFER_STATE_STOP) →
      ∀ r, (r = rbbq_init_with init s side ∨ r = rbbq_start_with start s side ∨
          r = rbbq_stop_with stop s side) →
        (r.2.buffer side).state ≠ RBBQ_BUFFER_STATE_INIT ∧
        (r.2.buffer side).state ≠ RBBQ_BUFFER_STATE_START ∧
        (r.2.buffer side).state ≠ RBBQ_BUFFER_STATE_STOP) ∧
    ((s.buffer side).state ≠ RBBQ_BUFFER_STATE_RUNNING →
      ((rbbq_init_with init s side).2.buffer side).state ≠ RBBQ_BUFFER_STATE_RUNNING ∧
      ((rbbq_stop_with stop s side).2.buffer side).state ≠ RBBQ_BUFFER_STATE_RUNNING ∧
      (((rbbq_start_with start s side).2.buffer side).state = RBBQ_BUFFER_STATE_RUNNING →
        (rbbq_start_with start s side).1 = .ok ())) ∧
    (rbbq_init_with (fun t sd => (.ok (), rbbq_local_init t sd)) s side = rbbq_init s side ∧
      rbbq_start_with rbbq_local_start s side = rbbq_start s side ∧
      rbbq_stop_with rbbq_local_start s side = rbbq_stop s side) := by
  have hinit_ne : (s.buffer side).state ≠ RBBQ_BUFFER_STATE_NONE →
      rbbq_init_with init s side = (.err .EEXIST, s) := by
    intro h
    unfold rbbq_init_with
    rw [if_pos h]
  have hstart_ne : ¬ ((s.buffer side).state = RBBQ_BUFFER_STATE_READY ∨
        (s.buffer side).state = RBBQ_BUFFER_STATE_SUSPENDED) →
      rbbq_start_with start s side = (.err .EBUSY, s) := by
    intro h
    unfold rbbq_start_with
    simp only []
    rw [if_neg h]
  have hstop_s : (s.buffer side).state = RBBQ_BUFFER_STATE_SUSPENDED →
      rbbq_stop_with stop s side = (.ok (), s) := by
    intro h
    unfold rbbq_stop_with
    simp only []
    rw [if_pos h]
  have hstop_ne : (s.buffer side).state ≠ RBBQ_BUFFER_STATE_SUSPENDED →
      (s.buffer side).state ≠ RBBQ_BUFFER_STATE_RUNNING →
      rbbq_stop_with stop s side = (.err .EBUSY, s) := by
    intro h1 h2
    unfold rbbq_stop_with
    simp only []
    rw [if_neg h1, if_neg h2]
  have hI := rbbq_init_with_none init s side
  have hS := rbbq_start_with_ready start s side
  have hP := rbbq_stop_with_running stop s side
  have hc : RBBQ_BUFFER_STATE_NONE = 0 ∧ RBBQ_BUFFER_STATE_INIT = 1 ∧
      RBBQ_BUFFER_STATE_READY = 2 ∧ RBBQ_BUFFER_STATE_START = 3 ∧
      RBBQ_BUFFER_STATE_RUNNING = 4 ∧ RBBQ_BUFFER_STATE_STOP = 5 ∧
      RBBQ_BUFFER_STATE_SUSPENDED = 6 := ⟨rfl, rfl, rfl, rfl, rfl, rfl, rfl⟩
  obtain ⟨c0, c1, c2, c3, c4, c5, c6⟩ := hc
  -- the state behind each call
  have hinit_state : ((rbbq_init_with init s side).2.buffer side).state
        = (s.buffer side).state ∨
      ((rbbq_init_with init s side).2.buffer side).state = RBBQ_BUFFER_STATE_READY ∨
      ((rbbq_init_with init s side).2.buffer side).state = RBBQ_BUFFER_STATE_NONE := by
    by_cases h : (s.buffer side).state = RBBQ_BUFFER_STATE_NONE
    · rcases ret_unit_cases (rbbq_init_with init s side).1 with hr | ⟨e, hr⟩
      · exact Or.inr (Or.inl ((hI h).2.1 hr))
      · exact Or.inr (Or.inr ((hI h).2.2 e hr))
    · rw [hinit_ne h]; exact Or.inl rfl
  have hstart_state : ((rbbq_start_with start s side).2.buffer side).state
        = (s.buffer side).state ∨
      (((rbbq_start_with start s side).2.buffer side).state = RBBQ_BUFFER_STATE_RUNNING ∧
        (rbbq_start_with start s side).1 = .ok ()) := by
    by_cases h : (s.buffer side).state = RBBQ_BUFFER_STATE_READY ∨
        (s.buffer side).state = RBBQ_BUFFER_STATE_SUSPENDED
    · rcases ret_unit_cases (rbbq_start_with start s side).1 with hr | ⟨e, hr⟩
      · exact Or.inr ⟨(hS h).2.1 hr, hr⟩
      · exact Or.inl ((hS h).2.2 e hr)
    · rw [hstart_ne h]; exact Or.inl rfl
  have hstop_state : ((rbbq_stop_with stop s side).2.buffer side).state
        = (s.buffer side).state ∨
      ((rbbq_stop_with stop s side).2.buffer side).state = RBBQ_BUFFER_STATE_SUSPENDED := by
    by_cases h1 : (s.buffer side).state = RBBQ_BUFFER_STATE_SUSPENDED
    · rw [hstop_s h1]; exact Or.inl rfl
    · by_cases h2 : (s.buffer side).state = RBBQ_BUFFER_STATE_RUNNING
      · rcases ret_unit_cases (rbbq_stop_with stop s side).1 with hr | ⟨e, hr⟩
        · exact Or.inr ((hP h2).2.1 hr)
        · left; rw [(hP h2).2.2 e hr, h2]
      · rw [hstop_ne h1 h2]; exact Or.inl rfl
  refine ⟨hinit_ne, hI, hstart_ne, hS, hstop_s, hP, hstop_ne, ?_, ?_, ?_, ?_, ?_⟩
  · rintro ⟨t1, t2, t3⟩ r hr
    rcases hr with hr | hr | hr
    · subst hr
      rcases hinit_state with h | h | h <;> rw [h] <;> refine ⟨?_, ?_, ?_⟩ <;>
        first | assumption | omega
    · subst hr
      rcases hstart_state with h | ⟨h, _⟩ <;> rw [h] <;> refine ⟨?_, ?_, ?_⟩ <;>
        first | assumption | omega
    · subst hr
      rcases hstop_state with h | h <;> rw [h] <;> refine ⟨?_, ?_, ?_⟩ <;>
        first | assumption | omega
  · intro hnr
    refine ⟨?_, ?_, ?_⟩
    · rcases hinit_state with h | h | h <;> rw [h] <;> first | assumption | omega
    · rcases hstop_state with h | h <;> rw [h] <;> first | assumption | omega
    · intro hrun
      rcases hstart_state with h | ⟨_, h⟩
      · rw [h] at hrun; exact absurd hrun hnr
      · exact h
  · unfold rbbq_init_with rbbq_init rbbq_init_enter
    cases side <;> rfl
  · unfold rbbq_start_with rbbq_start rbbq_local_start
    simp only []
    split_ifs <;> cases side <;> rfl
  · unfold rbbq_stop_with rbbq_stop rbbq_local_start
    simp only []
    split_ifs <;> cases side <;> rfl

set_option maxRecDepth 100000 in
/-- Witness of `rbbq_state_machine`: on a fresh buffer a failing init hook leaves the state
None; on the suspended buffer of `rbbq_stopped_state` a second `rbbq_stop` returns 0 and
changes nothing, and `rbbq_start` leads to Running. -/
theorem rbbq_state_machine_witness :
    ((rbbq_init_with rbbq_hook_failing (rbbq_local_fresh 20) .A).2.buffer .A).state
      = RBBQ_BUFFER_STATE_NONE ∧
    rbbq_stop_with rbbq_local_start rbbq_stopped_state .B = (.ok (), rbbq_stopped_state) ∧
    ((rbbq_start_with rbbq_local_start rbbq_stopped_state .B).2.buffer .B).state
      = RBBQ_BUFFER_STATE_RUNNING :=
  ⟨((rbbq_state_machine rbbq_hook_failing rbbq_local_start rbbq_local_start
      (rbbq_local_fresh 20) .A).2.1 (by decide)).2.2 .ENODEV (by decide),
    (rbbq_state_machine rbbq_hook_failing rbbq_local_start rbbq_local_start
      rbbq_stopped_state .B).2.2.2.2.1 (by decide),
    ((rbbq_state_machine rbbq_hook_failing rbbq_local_start rbbq_local_start
      rbbq_stopped_state .B).2.2.2.1 (by decide)).2.1 (by decide)⟩

/-! ## Claim C32: big-endian headers and control records -/

/-- The two bytes `sys_put_be16` stores. -/
theorem be16_put_bytes (val : Nat) (data : List Nat) (off : Nat) (hv : val < 65536)
    (h : off + 1 < data.length) :
    (sys_put_be16 val data off).getD off 0 = val / 256 ∧
    (sys_put_be16 val data off).getD (off + 1) 0 = val % 256 := by
  unfold sys_put_be16
  rw [getD_set, getD_set, getD_set, getD_set, List.length_set]
  rw [if_neg (by omega), if_pos ⟨rfl, by omega⟩, if_pos ⟨rfl, by omega⟩]
  constructor
  · omega
  · rfl

/-- What `sys_put_be16` leaves alone. -/
theorem be16_put_byte_ne (val : Nat) (data : List Nat) (off j : Nat)
    (h : j ≠ off ∧ j ≠ off + 1) :
    (sys_put_be16 val data off).getD j 0 = data.getD j 0 := by
  unfold sys_put_be16
  rw [getD_set, getD_set, if_neg (fun hh => h.2 hh.1.symm), if_neg (fun hh => h.1 hh.1.symm)]

/-- Claim C32: after `rbbq_message_channel_set` and `rbbq_message_payload_size_set` with a
channel `c` and a payload size `s` of 16 bits, the four header bytes are
`[c >> 8, c & 0xFF, s >> 8, s & 0xFF]`, `rbbq_message_channel` and `rbbq_message_payload_size`
return `c` and `s`, and `rbbq_message_size` returns `(s + 4) mod 2^16`; and `rbbq_control`
behind `rbbq_control_set` returns the three indices that were set. -/
theorem rbbq_big_endian_fields (data : List Nat) (raw c sz : Nat) (mem : List Nat)
    (ctl w wm r : Nat)
    (hc : c < 65536) (hsz : sz < 65536) (hraw : raw + 4 ≤ data.length)
    (hw : w < 65536) (hwm : wm < 65536) (hr : r < 65536) (hctl : ctl + 6 ≤ mem.length) :
    (rbbq_message_payload_size_set (rbbq_message_channel_set data raw c) raw sz).getD raw 0
      = c >>> 8 ∧
    (rbbq_message_payload_size_set (rbbq_message_channel_set data raw c) raw sz).getD
      (raw + 1) 0 = c &&& 0xFF ∧
    (rbbq_message_payload_size_set (rbbq_message_channel_set data raw c) raw sz).getD
      (raw + 2) 0 = sz >>> 8 ∧
    (rbbq_message_payload_size_set (rbbq_message_channel_set data raw c) raw sz).getD
      (raw + 3) 0 = sz &&& 0xFF ∧
    rbbq_message_channel
      (rbbq_message_payload_size_set (rbbq_message_channel_set data raw c) raw sz) raw = c ∧
    rbbq_message_payload_size
      (rbbq_message_payload_size_set (rbbq_message_channel_set data raw c) raw sz) raw = sz ∧
    rbbq_message_size
      (rbbq_message_payload_size_set (rbbq_message_channel_set data raw c) raw sz) raw
      = (sz + 4) % 2 ^ 16 ∧
    rbbq_control_read (rbbq_control_set mem ctl w wm r) ctl = (w, wm, r) := by
  have hshift : ∀ x : Nat, x >>> 8 = x / 256 := fun x => by
    rw [Nat.shiftRight_eq_div_pow]
  have hand : ∀ x : Nat, x &&& 0xFF = x % 256 := fun x => by
    have := Nat.and_pow_two_sub_one_eq_mod x 8
    simpa using this
  unfold rbbq_message_payload_size_set rbbq_message_channel_set rbbq_message_channel
    rbbq_message_payload_size rbbq_message_size rbbq_control_read rbbq_control_set
  have hl1 := be16_put_length c data raw
  have hb1 := be16_put_bytes c data raw hc (by omega)
  have hb2 := be16_put_bytes sz (sys_put_be16 c data raw) (raw + 2) hsz (by omega)
  rw [hshift, hshift, hand, hand]
  refine ⟨?_, ?_, hb2.1, hb2.2, ?_, ?_, ?_, ?_⟩
  · rw [be16_put_byte_ne _ _ _ _ (by omega)]; exact hb1.1
  · rw [be16_put_byte_ne _ _ _ _ (by omega)]; exact hb1.2
  · rw [be16_put_get_ne _ _ _ _ (by omega)]
    exact be16_put_get c data raw hc (by omega)
  · exact be16_put_get sz _ (raw + 2) hsz (by omega)
  · rw [be16_put_get sz _ (raw + 2) hsz (by omega)]
    rfl
  · have l1 := be16_put_length w mem ctl
    have l2 := be16_put_length wm (sys_put_be16 w mem ctl) (ctl + 2)
    rw [be16_put_get_ne _ _ (ctl + 4) ctl (by omega),
      be16_put_get_ne _ _ (ctl + 2) ctl (by omega),
      be16_put_get w mem ctl hw (by omega),
      be16_put_get_ne _ _ (ctl + 4) (ctl + 2) (by omega),
      be16_put_get wm _ (ctl + 2) hwm (by omega),
      be16_put_get r _ (ctl + 4) hr (by omega)]

/-- Witness of `rbbq_big_endian_fields`: channel `0x0102` and payload size `0x0304` at offset
2 of eight bytes, and the control record `(0x0A0B, 0x0C0D, 0x0E0F)` at offset 1 of eight
bytes. -/
theorem rbbq_big_endian_fields_witness :
    rbbq_message_payload_size_set
      (rbbq_message_channel_set [0, 0, 0, 0, 0, 0, 0, 0] 2 0x0102) 2 0x0304
      = [0, 0, 1, 2, 3, 4, 0, 0] ∧
    rbbq_message_size
      (rbbq_message_payload_size_set
        (rbbq_message_channel_set [0, 0, 0, 0, 0, 0, 0, 0] 2 0x0102) 2 0x0304) 2
      = (0x0304 + 4) % 2 ^ 16 ∧
    rbbq_control_set [0, 0, 0, 0, 0, 0, 0, 0] 1 0x0A0B 0x0C0D 0x0E0F
      = [0, 0x0A, 0x0B, 0x0C, 0x0D, 0x0E, 0x0F, 0] ∧
    rbbq_control_read (rbbq_control_set [0, 0, 0, 0, 0, 0, 0, 0] 1 0x0A0B 0x0C0D 0x0E0F) 1
      = (0x0A0B, 0x0C0D, 0x0E0F) :=
  ⟨by decide,
    (rbbq_big_endian_fields [0, 0, 0, 0, 0, 0, 0, 0] 2 0x0102 0x0304 [0, 0, 0, 0, 0, 0, 0, 0]
      1 0x0A0B 0x0C0D 0x0E0F (by decide) (by decide) (by decide) (by decide) (by decide)
      (by decide) (by decide)).2.2.2.2.2.2.1,
    by decide,
    (rbbq_big_endian_fields [0, 0, 0, 0, 0, 0, 0, 0] 2 0x0102 0x0304 [0, 0, 0, 0, 0, 0, 0, 0]
      1 0x0A0B 0x0C0D 0x0E0F (by decide) (by decide) (by decide) (by decide) (by decide)
      (by decide) (by decide)).2.2.2.2.2.2.2⟩

/-! ## Claims C33, C40: the wrap scenario and oversized requests of `rbbq_alloc` -/

set_option maxRecDepth 100000 in
/-- Claim C33 does not hold with the read index 8: on transfer buffers of 20 data bytes the
12-byte payload is served AtEnd at offset 0 and leaves the write index 16, but with the
observed read index 8 a 4-byte payload, whose frame has 8 bytes, is refused, since AtStart
asks for a frame size below the read index. -/
theorem rbbq_wrap_scenario_read8_counterexample :
    (rbbq_local_running 20).tx_data_size .A = 20 ∧
    rbbq_alloc_avail (rbbq_local_running 20) .A 16 = RBBQ_MESSAGE_ALLOC_AT_END ∧
    (rbbq_alloc (rbbq_local_running 20) .A 1 12).1 = .ok (some 4) ∧
    ((rbbq_alloc (rbbq_local_running 20) .A 1 12).2.buffer .A).alloc_message = some 0 ∧
    ((rbbq_alloc (rbbq_local_running 20) .A 1 12).2.buffer .A).alloc_write_idx = 16 ∧
    ((rbbq_wrap_scenario 8).buffer .A).alloc_write_idx = 16 ∧
    ((rbbq_wrap_scenario 8).buffer .A).tx_shadow_read_idx = 8 ∧
    rbbq_alloc_avail (rbbq_wrap_scenario 8) .A 8 = RBBQ_MESSAGE_ALLOC_NOMEM ∧
    (rbbq_alloc (rbbq_wrap_scenario 8) .A 2 4).1 = .err .ENOMEM ∧
    ((rbbq_alloc (rbbq_wrap_scenario 8) .A 2 4).2.buffer .A).alloc_write_idx = 16 := by
  decide

set_option maxRecDepth 100000 in
/-- Claim C33, amended: on transfer buffers of 20 data bytes, with write and read index 0,
`rbbq_alloc` of a 12-byte payload is served AtEnd at offset 0 and leaves the write index 16.
After the frame is transmitted and the read index `R` of the consumer is observed,
`rbbq_alloc` of a 4-byte payload is served AtStart at offset 0, with the watermark 16 and the
new write index 8, exactly when `8 < R ≤ 16`; for every other `R` up to 20 it returns
`-ENOMEM` and leaves the write index and the watermark as they were. -/
theorem rbbq_wrap_scenario_alloc (R : Nat) (hR : R ≤ 20) :
    (rbbq_alloc_avail (rbbq_local_running 20) .A 16 = RBBQ_MESSAGE_ALLOC_AT_END ∧
      (rbbq_alloc (rbbq_local_running 20) .A 1 12).1 = .ok (some 4) ∧
      ((rbbq_alloc (rbbq_local_running 20) .A 1 12).2.buffer .A).alloc_message = some 0 ∧
      ((rbbq_alloc (rbbq_local_running 20) .A 1 12).2.buffer .A).alloc_write_idx = 16) ∧
    ((rbbq_wrap_scenario R).buffer .A).alloc_write_idx = 16 ∧
    ((rbbq_wrap_scenario R).buffer .A).tx_shadow_read_idx = R ∧
    (8 < R ∧ R ≤ 16 →
      rbbq_alloc_avail (rbbq_wrap_scenario R) .A 8 = RBBQ_MESSAGE_ALLOC_AT_START ∧
      (rbbq_alloc (rbbq_wrap_scenario R) .A 2 4).1 = .ok (some 4) ∧
      ((rbbq_alloc (rbbq_wrap_scenario R) .A 2 4).2.buffer .A).alloc_message = some 0 ∧
      ((rbbq_alloc (rbbq_wrap_scenario R) .A 2 4).2.buffer .A).alloc_watermark_idx = 16 ∧
      ((rbbq_alloc (rbbq_wrap_scenario R) .A 2 4).2.buffer .A).alloc_write_idx = 8) ∧
    (¬ (8 < R ∧ R ≤ 16) →
      rbbq_alloc_avail (rbbq_wrap_scenario R) .A 8 = RBBQ_MESSAGE_ALLOC_NOMEM ∧
      (rbbq_alloc (rbbq_wrap_scenario R) .A 2 4).1 = .err .ENOMEM ∧
      ((rbbq_alloc (rbbq_wrap_scenario R) .A 2 4).2.buffer .A).alloc_watermark_idx = 20 ∧
      ((rbbq_alloc (rbbq_wrap_scenario R) .A 2 4).2.buffer .A).alloc_write_idx = 16) := by
  interval_cases R <;> decide

/-- Witness of `rbbq_wrap_scenario_alloc`: with the observed read index 9 the 4-byte payload
is served at the start of the buffer. -/
theorem rbbq_wrap_scenario_alloc_witness :
    (rbbq_alloc (rbbq_wrap_scenario 9) .A 2 4).1 = .ok (some 4) ∧
    ((rbbq_alloc (rbbq_wrap_scenario 9) .A 2 4).2.buffer .A).alloc_message = some 0 ∧
    ((rbbq_alloc (rbbq_wrap_scenario 9) .A 2 4).2.buffer .A).alloc_watermark_idx = 16 ∧
    ((rbbq_alloc (rbbq_wrap_scenario 9) .A 2 4).2.buffer .A).alloc_write_idx = 8 :=
  ((rbbq_wrap_scenario_alloc 9 (by decide)).2.2.2.1 (by decide)).2

set_option maxRecDepth 100000 in
/-- Claim C40 fails on the code: on a running buffer with 20 data bytes and write and read
index 0, `rbbq_alloc` of a payload of 65535 bytes succeeds.  The frame size 65539 is narrowed
to the 16-bit value 3, which fits; the call returns the payload pointer 4, and the write index
moves by 3 only, while payload size plus header exceed the capacity.  The same holds for the
payload sizes 65532 to 65534. -/
theorem rbbq_alloc_oversized_succeeds :
    (rbbq_local_running 20).tx_data_size .A = 20 ∧
    ((rbbq_local_running 20).buffer .A).alloc_write_idx = 0 ∧
    ((rbbq_local_running 20).buffer .A).tx_shadow_read_idx = 0 ∧
    to_u16 ((65535 : Int) + RBBQ_MESSAGE_HEADER_SIZE) = 3 ∧
    (rbbq_alloc (rbbq_local_running 20) .A 1 65535).1 = .ok (some 4) ∧
    ((rbbq_alloc (rbbq_local_running 20) .A 1 65535).2.buffer .A).alloc_write_idx = 3 ∧
    ¬ (65535 + RBBQ_MESSAGE_HEADER_SIZE ≤ (rbbq_local_running 20).tx_data_size .A) ∧
    (∀ size, 65532 ≤ size → size ≤ 65535 →
      (rbbq_alloc (rbbq_local_running 20) .A 1 size).1 = .ok (some 4)) := by
  refine ⟨by decide, by decide, by decide, by decide, by decide, by decide, by decide, ?_⟩
  intro size h1 h2
  interval_cases size <;> decide

/-! ## Claims C34, C35: updates whose sequence number the window rejects -/

/-- What a successful loop of `tsm_neighbour_lookup` yields: one of the references, below the
split index and with the port. -/
theorem neighbour_lookup_scan_ok (t : tsm_context) (port_id nb : Nat) (L : List Nat)
    (h : tsm_neighbour_lookup_scan t port_id L = .ok nb) :
    nb ∈ L ∧ nb < t.node_table.originator_start_idx ∧ (t.path nb).port_id = port_id := by
  induction L with
  | nil => simp only [tsm_neighbour_lookup_scan] at h; cases h
  | cons w rest ih =>
    simp only [tsm_neighbour_lookup_scan] at h
    by_cases h2 : w < t.node_table.originator_start_idx
    · rw [if_pos h2] at h
      by_cases h3 : (t.path w).port_id = port_id
      · rw [if_pos h3] at h
        simp only [Ret.ok.injEq] at h
        subst h
        exact ⟨List.mem_cons_self _ _, h2, h3⟩
      · rw [if_neg h3] at h
        obtain ⟨a, b⟩ := ih h
        exact ⟨List.mem_cons_of_mem _ a, b⟩
    · rw [if_neg h2] at h
      obtain ⟨a, b⟩ := ih h
      exact ⟨List.mem_cons_of_mem _ a, b⟩

/-- The first loop of `tsm_neighbour_get` finds the slot that `tsm_neighbour_lookup` finds. -/
theorem neighbour_get_scan_of_lookup (t : tsm_context) (port_id nb : Nat) (L : List Nat)
    (hstart : t.node_table.originator_start_idx ≤ UINT16_MAX)
    (h : tsm_neighbour_lookup_scan t port_id L = .ok nb) :
    ∀ i e, (tsm_neighbour_get_scan t port_id L i e).1 = nb := by
  have hmax : UINT16_MAX = 65535 := rfl
  induction L with
  | nil => simp only [tsm_neighbour_lookup_scan] at h; cases h
  | cons w rest ih =>
    intro i e
    simp only [tsm_neighbour_lookup_scan] at h
    simp only [tsm_neighbour_get_scan]
    by_cases h1 : w = UINT16_MAX
    · rw [if_pos h1]
      rw [if_neg (by omega)] at h
      exact ih h _ _
    · rw [if_neg h1]
      by_cases h2 : w < t.node_table.originator_start_idx
      · rw [if_pos h2] at h ⊢
        by_cases h3 : (t.path w).port_id = port_id
        · rw [if_pos h3] at h ⊢
          simp only [Ret.ok.injEq] at h
          exact h
        · rw [if_neg h3] at h ⊢
          exact ih h _ _
      · rw [if_neg h2] at h ⊢
        exact ih h _ _

/-- For a neighbour that `tsm_neighbour_lookup` finds, `tsm_neighbour_get` returns the same
indices and changes nothing. -/
theorem tsm_neighbour_get_of_lookup (now : Nat) (tsm : tsm_context)
    (node_id port_id ni nb : Nat)
    (hnodes : tsm.node_table.nodes.length ≤ UINT16_MAX)
    (hstart : tsm.node_table.originator_start_idx ≤ UINT16_MAX)
    (h : tsm_neighbour_lookup tsm node_id port_id = .ok (ni, nb)) :
    tsm_node_lookup tsm node_id = .ok ni ∧
    tsm_neighbour_lookup_scan tsm port_id (tsm.node ni).paths_refs = .ok nb ∧
    tsm_neighbour_get now tsm node_id port_id = some (.ok (ni, nb), tsm) := by
  have hmax : UINT16_MAX = 65535 := rfl
  unfold tsm_neighbour_lookup at h
  cases hl : tsm_node_lookup tsm node_id with
  | err e => rw [hl] at h; cases h
  | ok m =>
    rw [hl] at h
    simp only [] at h
    cases hs : tsm_neighbour_lookup_scan tsm port_id (tsm.node m).paths_refs with
    | err e => rw [hs] at h; cases h
    | ok p =>
      rw [hs] at h
      simp only [Ret.ok.injEq, Prod.mk.injEq] at h
      obtain ⟨hm, hp⟩ := h
      subst hm hp
      refine ⟨rfl, hs, ?_⟩
      unfold tsm_neighbour_get
      rw [tsm_node_get_of_lookup now tsm node_id m hnodes hl]
      simp only []
      unfold tsm_neighbour_get_at
      simp only []
      rw [neighbour_get_scan_of_lookup tsm port_id p _ hstart hs]
      have := (neighbour_lookup_scan_ok tsm port_id p _ hs).2.1
      rw [if_neg (by omega)]

/-- What `tsm_neighbour_update_best_next_hop` leaves alone: the path table, the split index,
the size of the node table, and of every node everything but the path references. -/
theorem neighbour_update_best_next_hop_frame (tsm : tsm_context) (ni nb : Nat) :
    (tsm_neighbour_update_best_next_hop tsm ni nb).node_table.paths = tsm.node_table.paths ∧
    (tsm_neighbour_update_best_next_hop tsm ni nb).node_table.originator_start_idx
      = tsm.node_table.originator_start_idx ∧
    (tsm_neighbour_update_best_next_hop tsm ni nb).node_table.nodes.length
      = tsm.node_table.nodes.length ∧
    (∀ p, (tsm_neighbour_update_best_next_hop tsm ni nb).path p = tsm.path p) ∧
    ∀ j, ((tsm_neighbour_update_best_next_hop tsm ni nb).node j).node_id
        = (tsm.node j).node_id ∧
      ((tsm_neighbour_update_best_next_hop tsm ni nb).node j).name_mapping_id
        = (tsm.node j).name_mapping_id ∧
      ((tsm_neighbour_update_best_next_hop tsm ni nb).node j).protect_window
        = (tsm.node j).protect_window ∧
      (j ≠ ni → (tsm_neighbour_update_best_next_hop tsm ni nb).node j = tsm.node j) := by
  unfold tsm_neighbour_update_best_next_hop
  simp only []
  split_ifs with h1 h2
  · exact ⟨rfl, rfl, rfl, fun _ => rfl, fun _ => ⟨rfl, rfl, rfl, fun _ => rfl⟩⟩
  · refine ⟨rfl, rfl, nodes_length_set_node _ _ _, fun _ => rfl, ?_⟩
    intro j
    rw [node_set_node]
    split_ifs with hj
    · obtain ⟨hj, _⟩ := hj
      subst hj
      exact ⟨rfl, rfl, rfl, fun h => absurd rfl h⟩
    · exact ⟨rfl, rfl, rfl, fun _ => rfl⟩
  · exact ⟨rfl, rfl, rfl, fun _ => rfl, fun _ => ⟨rfl, rfl, rfl, fun _ => rfl⟩⟩

/-- Claim C34: for a neighbour that is known on the port and whose protection window rejects
the sequence number as out of range or as already seen, `tsm_neighbour_update` returns 0,
stores the name mapping id on the node and the period and the port in the neighbour slot, and
leaves the protection window of the node (cache, index and last-seen time) as it was. -/
theorem tsm_neighbour_update_ignores_window (now : Nat) (tsm : tsm_context)
    (node_seqno node_id period_s name_mapping_id port_id ni nb : Nat)
    (hO : node_id ≠ tsm.node_id)
    (hnodes : tsm.node_table.nodes.length ≤ UINT16_MAX)
    (hstart : tsm.node_table.originator_start_idx ≤ tsm.node_table.paths.length)
    (hpaths : tsm.node_table.paths.length ≤ UINT16_MAX)
    (hknown : tsm_neighbour_lookup tsm node_id port_id = .ok (ni, nb))
    (hrej : (tsm_node_protect_window_update now tsm ni node_seqno).1 = .err .EINVAL ∨
      (tsm_node_protect_window_update now tsm ni node_seqno).1 = .err .EALREADY) :
    ∃ t, tsm_neighbour_update now tsm node_seqno node_id TSM_VERSION period_s name_mapping_id
        port_id = some (.ok (), t) ∧
      (t.node ni).name_mapping_id = name_mapping_id ∧
      (t.path nb).first = period_s ∧ (t.path nb).port_id = port_id ∧
      (t.node ni).protect_window = (tsm.node ni).protect_window := by
  obtain ⟨hlook, hscan, hget⟩ := tsm_neighbour_get_of_lookup now tsm node_id port_id ni nb
    hnodes (by omega) hknown
  obtain ⟨hni, _, _⟩ := (tsm_node_lookup_ok_iff tsm node_id ni).1 hlook
  obtain ⟨_, hnb, _⟩ := neighbour_lookup_scan_ok tsm port_id nb _ hscan
  have hstate : (tsm_node_protect_window_update now tsm ni node_seqno).2 = tsm := by
    rcases hrej with h | h
    · exact update_err_state now tsm ni node_seqno _ h
    · exact update_err_state now tsm ni node_seqno _ h
  unfold tsm_neighbour_update
  rw [if_neg (not_not.mpr rfl), if_neg hO, hget]
  simp only []
  rw [hstate]
  refine ⟨_, rfl, ?_, ?_, ?_, ?_⟩
  · rw [((neighbour_update_best_next_hop_frame _ ni nb).2.2.2.2 ni).2.1, node_set_path,
      node_set_node, if_pos ⟨rfl, hni⟩]
  · rw [(neighbour_update_best_next_hop_frame _ ni nb).2.2.2.1 nb,
      path_set_path_self _ _ _ (by
        show nb < tsm.node_table.paths.length
        omega)]
  · rw [(neighbour_update_best_next_hop_frame _ ni nb).2.2.2.1 nb,
      path_set_path_self _ _ _ (by
        show nb < tsm.node_table.paths.length
        omega)]
  · rw [((neighbour_update_best_next_hop_frame _ ni nb).2.2.2.2 ni).2.2.1, node_set_path,
      node_set_node, if_pos ⟨rfl, hni⟩]

set_option maxRecDepth 100000 in
/-- Witness of `tsm_neighbour_update_ignores_window`: in `mesh_example` the neighbour
`0xCAFFE7E1` has seen the sequence number 3 at the time 100; at the time 200 a heartbeat with
the sequence number 14 is out of range and one with the sequence number 3 was already seen, and
both are stored all the same. -/
theorem tsm_neighbour_update_ignores_window_witness :
    (tsm_node_protect_window_update 200 mesh_example 0 14).1 = .err .EINVAL ∧
    (tsm_node_protect_window_update 200 mesh_example 0 3).1 = .err .EALREADY ∧
    (∃ t, tsm_neighbour_update 200 mesh_example 14 0xCAFFE7E1 TSM_VERSION 9 0x4321 0
        = some (.ok (), t) ∧
      (t.node 0).name_mapping_id = 0x4321 ∧
      (t.path 0).first = 9 ∧ (t.path 0).port_id = 0 ∧
      (t.node 0).protect_window = (mesh_example.node 0).protect_window) ∧
    (∃ t, tsm_neighbour_update 200 mesh_example 3 0xCAFFE7E1 TSM_VERSION 9 0x4321 0
        = some (.ok (), t) ∧
      (t.node 0).name_mapping_id = 0x4321 ∧
      (t.path 0).first = 9 ∧ (t.path 0).port_id = 0 ∧
      (t.node 0).protect_window = (mesh_example.node 0).protect_window) :=
  ⟨by decide, by decide,
    tsm_neighbour_update_ignores_window 200 mesh_example 14 0xCAFFE7E1 9 0x4321 0 0 0
      (by decide) (by decide) (by decide) (by decide) (by decide) (Or.inl (by decide)),
    tsm_neighbour_update_ignores_window 200 mesh_example 3 0xCAFFE7E1 9 0x4321 0 0 0
      (by decide) (by decide) (by decide) (by decide) (by decide) (Or.inr (by decide))⟩

set_option maxRecDepth 100000 in
/-- Claim C35 does not hold for the path references: in `hop_example` the originator
`0xCAFFE031` (node 1) is routed by the node 0 and has the path references `[3, 0xFFFF]`.  At
the time 200 a statement with the sequence number 14, which is out of range for its protection
window, arrives from the unknown router `0xCAFFE999`.  `tsm_originator_update` returns 0 and
leaves the last-seen time, the name mapping id and the best next hop of the originator as they
were, but the get-or-create steps ahead of the window check have made the router a neighbour
and stored a new originator slot 2, with the throughput 0, in the second path reference of the
originator. -/
theorem tsm_originator_update_out_of_range_counterexample :
    tsm_node_lookup hop_example 0xCAFFE031 = .ok 1 ∧
    (tsm_node_protect_window_update 200 hop_example 1 14).1 = .err .EINVAL ∧
    (hop_example.node 1).paths_refs = [3, 0xFFFF] ∧
    tsm_node_lookup hop_example 0xCAFFE999 = .err .ENODEV ∧
    (tsm_originator_update 200 hop_example 14 0xCAFFE031 TSM_VERSION 0 0x4321 0xCAFFE999 9
      0).map (fun r => r.1) = some (.ok ()) ∧
    ((mesh_after hop_example (tsm_originator_update 200 hop_example 14 0xCAFFE031 TSM_VERSION 0
      0x4321 0xCAFFE999 9 0)).node 1).paths_refs = [3, 2] ∧
    ((mesh_after hop_example (tsm_originator_update 200 hop_example 14 0xCAFFE031 TSM_VERSION 0
      0x4321 0xCAFFE999 9 0)).path 2) = ⟨0, 0, 2⟩ ∧
    tsm_node_lookup (mesh_after hop_example (tsm_originator_update 200 hop_example 14
      0xCAFFE031 TSM_VERSION 0 0x4321 0xCAFFE999 9 0)) 0xCAFFE999 = .ok 2 ∧
    ((mesh_after hop_example (tsm_originator_update 200 hop_example 14 0xCAFFE031 TSM_VERSION 0
      0x4321 0xCAFFE999 9 0)).node 1).protect_window = (hop_example.node 1).protect_window ∧
    ((mesh_after hop_example (tsm_originator_update 200 hop_example 14 0xCAFFE031 TSM_VERSION 0
      0x4321 0xCAFFE999 9 0)).node 1).name_mapping_id = (hop_example.node 1).name_mapping_id ∧
    tsm_node_best_next_hop (mesh_after hop_example (tsm_originator_update 200 hop_example 14
      0xCAFFE031 TSM_VERSION 0 0x4321 0xCAFFE999 9 0)) 1 = tsm_node_best_next_hop hop_example 1 := by
  decide

/-! ## Claims C36, C38: the best reference at the best-next-hop step -/

set_option maxRecDepth 100000 in
/-- Claim C36 fails on the code: after `tsm_node_init` and a heartbeat of the node 100 on port
0, a heartbeat of the same node on port 1 gets the second neighbour slot 1, stored in the
second path reference.  `tsm_neighbour_update_best_next_hop` is then called with the neighbour
slot 1 while the best path reference of the node is the neighbour slot 0, which is below the
split index 4, against the assertion of the function; the throughput it compares with is the
first byte of that neighbour slot, the heartbeat period 5. -/
theorem tsm_neighbour_update_best_is_neighbour :
    tsm_neighbour_update 1 mesh_init 1 100 TSM_VERSION 5 0x1234 0
      = some (.ok (), mesh_with_neighbours 1) ∧
    (tsm_neighbour_get 2 (mesh_with_neighbours 1) 100 1).map (fun r => r.1)
      = some (.ok (0, 1)) ∧
    tsm_neighbour_update 2 (mesh_with_neighbours 1) 2 100 TSM_VERSION 5 0x1234 1
      = some (.ok (), tsm_neighbour_update_best_next_hop mesh_two_ports_stored 0 1) ∧
    (mesh_two_ports_stored.node 0).paths_refs = [0, 1] ∧
    (mesh_two_ports_stored.node 0).paths_refs.getD TSM_NODE_PATHS_BEST 0 ≠ 1 ∧
    mesh_two_ports_stored.node_table.originator_start_idx = 4 ∧
    (mesh_two_ports_stored.node 0).paths_refs.getD TSM_NODE_PATHS_BEST 0
      < mesh_two_ports_stored.node_table.originator_start_idx ∧
    (mesh_two_ports_stored.path 0) = ⟨5, 0, 0⟩ ∧
    (mesh_two_ports_stored.path
      ((mesh_two_ports_stored.node 0).paths_refs.getD TSM_NODE_PATHS_BEST 0)).throughput = 5 := by
  decide

set_option maxRecDepth 100000 in
/-- Claim C38 fails on the code: the node 200 is an originator routed by the node 100 (best
path reference, originator slot 15) and a neighbour (second path reference, neighbour slot 1).
`tsm_node_free` of the router clears the best path reference of the node 200 by the cascade
and leaves the second one.  At the next heartbeat of the node 200
`tsm_neighbour_update_best_next_hop` is called for the node, which owns the neighbour slot 1,
with the best path reference `0xFFFF`, which is not an index of the path table, against the
assertion of the function. -/
theorem tsm_neighbour_update_best_cleared :
    (tsm_originator_update 2 (mesh_with_neighbours 1) 1 200 TSM_VERSION 0 0x77 100 5 0).map
      (fun r => r.1) = some (.ok ()) ∧
    (tsm_neighbour_update 3
      (mesh_after (mesh_with_neighbours 1)
        (tsm_originator_update 2 (mesh_with_neighbours 1) 1 200 TSM_VERSION 0 0x77 100 5 0))
      2 200 TSM_VERSION 5 0x77 0).map (fun r => r.1) = some (.ok ()) ∧
    tsm_node_lookup mesh_two_paths 100 = .ok 0 ∧
    tsm_node_lookup mesh_two_paths 200 = .ok 1 ∧
    (mesh_two_paths.node 1).paths_refs = [15, 1] ∧
    (mesh_two_paths.path 15).router_idx = 0 ∧
    (mesh_best_cleared.node 1).paths_refs = [0xFFFF, 1] ∧
    tsm_node_lookup mesh_best_cleared 200 = .ok 1 ∧
    tsm_neighbour_get 4 mesh_best_cleared 200 0 = some (.ok (1, 1), mesh_best_cleared) ∧
    tsm_neighbour_update 4 mesh_best_cleared 3 200 TSM_VERSION 5 0x77 0
      = some (.ok (), tsm_neighbour_update_best_next_hop mesh_best_cleared_stored 1 1) ∧
    (mesh_best_cleared_stored.node 1).paths_refs = [0xFFFF, 1] ∧
    mesh_best_cleared_stored.node_table.paths.length = 16 ∧
    ¬ ((mesh_best_cleared_stored.node 1).paths_refs.getD TSM_NODE_PATHS_BEST 0
      < mesh_best_cleared_stored.node_table.paths.length) := by
  decide

/-! ## Claim C37: the swap rule of the best-next-hop step -/

/-- What `tsm_originator_update_best_next_hop` leaves alone: the split index, the sizes, and
of every node everything but the path references. -/
theorem originator_update_best_next_hop_frame (tsm : tsm_context) (oi os thr : Nat) :
    (tsm_originator_update_best_next_hop tsm oi os thr).node_table.originator_start_idx
      = tsm.node_table.originator_start_idx ∧
    (tsm_originator_update_best_next_hop tsm oi os thr).node_table.nodes.length
      = tsm.node_table.nodes.length ∧
    (tsm_originator_update_best_next_hop tsm oi os thr).node_table.paths.length
      = tsm.node_table.paths.length ∧
    ∀ j, ((tsm_originator_update_best_next_hop tsm oi os thr).node j).node_id
        = (tsm.node j).node_id ∧
      ((tsm_originator_update_best_next_hop tsm oi os thr).node j).name_mapping_id
        = (tsm.node j).name_mapping_id ∧
      ((tsm_originator_update_best_next_hop tsm oi os thr).node j).protect_window
        = (tsm.node j).protect_window ∧
      (j ≠ oi → (tsm_originator_update_best_next_hop tsm oi os thr).node j = tsm.node j) := by
  have hswap : ∀ refs : List Nat,
      ((tsm.set_path os { tsm.path os with first := thr }).set_node oi
        { (tsm.set_path os { tsm.path os with first := thr }).node oi with
          paths_refs := refs }).node_table.originator_start_idx
        = tsm.node_table.originator_start_idx ∧
      ((tsm.set_path os { tsm.path os with first := thr }).set_node oi
        { (tsm.set_path os { tsm.path os with first := thr }).node oi with
          paths_refs := refs }).node_table.nodes.length = tsm.node_table.nodes.length ∧
      ((tsm.set_path os { tsm.path os with first := thr }).set_node oi
        { (tsm.set_path os { tsm.path os with first := thr }).node oi with
          paths_refs := refs }).node_table.paths.length = tsm.node_table.paths.length ∧
      ∀ j, (((tsm.set_path os { tsm.path os with first := thr }).set_node oi
          { (tsm.set_path os { tsm.path os with first := thr }).node oi with
            paths_refs := refs }).node j).node_id = (tsm.node j).node_id ∧
        (((tsm.set_path os { tsm.path os with first := thr }).set_node oi
          { (tsm.set_path os { tsm.path os with first := thr }).node oi with
            paths_refs := refs }).node j).name_mapping_id = (tsm.node j).name_mapping_id ∧
        (((tsm.set_path os { tsm.path os with first := thr }).set_node oi
          { (tsm.set_path os { tsm.path os with first := thr }).node oi with
            paths_refs := refs }).node j).protect_window = (tsm.node j).protect_window ∧
        (j ≠ oi → ((tsm.set_path os { tsm.path os with first := thr }).set_node oi
          { (tsm.set_path os { tsm.path os with first := thr }).node oi with
            paths_refs := refs }).node j = tsm.node j) := by
    intro refs
    refine ⟨rfl, ?_, paths_length_set_path _ _ _, ?_⟩
    · rw [nodes_length_set_node]; rfl
    · intro j
      rw [node_set_node]
      split_ifs with hj
      · obtain ⟨hj, _⟩ := hj
        subst hj
        exact ⟨rfl, rfl, rfl, fun h => absurd rfl h⟩
      · exact ⟨rfl, rfl, rfl, fun _ => rfl⟩
  unfold tsm_originator_update_best_next_hop
  simp only []
  split_ifs
  all_goals first
    | exact ⟨rfl, rfl, paths_length_set_path _ _ _, fun _ => ⟨rfl, rfl, rfl, fun _ => rfl⟩⟩
    | exact hswap _

theorem node_ids_sub_refl (a : tsm_context) : node_ids_sub a a :=
  ⟨rfl, fun _ _ h => h⟩

theorem node_ids_sub_trans {a b c : tsm_context} (h1 : node_ids_sub a b)
    (h2 : node_ids_sub b c) : node_ids_sub a c :=
  ⟨h2.1.trans h1.1, fun id j h => h1.2 id j (h2.2 id j h)⟩

theorem node_ids_distinct_of_sub {a b : tsm_context} (h : node_ids_sub a b)
    (ha : node_ids_distinct a) : node_ids_distinct b := by
  intro i j hi hj ui uj hid
  have mi := h.2 (b.node i).node_id i ⟨ui, rfl⟩
  have mj := h.2 (b.node i).node_id j ⟨uj, hid⟩
  exact ha i j (by rw [← h.1]; exact hi) (by rw [← h.1]; exact hj) mi.1 mj.1
    (mi.2.symm.trans mj.2)

/-- Entries that agree in the node id and in the index of the protection window are in use
for the same ids. -/
theorem node_ids_sub_of_keep (a b : tsm_context)
    (hlen : b.node_table.nodes.length = a.node_table.nodes.length)
    (h : ∀ j, (b.node j).node_id = (a.node j).node_id ∧
      (b.node j).protect_window.last_idx = (a.node j).protect_window.last_idx) :
    node_ids_sub a b := by
  refine ⟨hlen, ?_⟩
  intro id j hm
  unfold node_matches at hm ⊢
  rw [(h j).1, (h j).2] at hm
  exact hm

/-- The node table entries in use behind `tsm_node_free` were in use before. -/
theorem node_ids_sub_free (tsm : tsm_context) (r : Nat) :
    node_ids_sub tsm (tsm_node_free tsm r) := by
  refine ⟨(tsm_node_free_frame tsm r).1, ?_⟩
  intro id j hm
  by_cases hjr : j = r
  · subst hjr
    by_cases hu : (tsm.node j).protect_window.last_idx < TSM_NODE_SEQNO_CACHE_SIZE
    · rw [tsm_node_free_eq tsm j hu, node_set_node] at hm
      have hrel := free_rel_refs_loop j (tsm.node j).paths_refs.length tsm
      split_ifs at hm with hc
      · exact absurd hm.1 (Nat.lt_irrefl _)
      · unfold node_matches at hm ⊢
        rw [hrel.window j, hrel.node_id j] at hm
        exact hm
    · rw [tsm_node_free_empty tsm j (by omega)] at hm
      exact hm
  · unfold node_matches at hm ⊢
    rw [((tsm_node_free_frame tsm r).2 j).1, ((tsm_node_free_frame tsm r).2 j).2 hjr] at hm
    exact hm

/-- The node table entries in use behind `tsm_node_protect_window_update` were in use before,
when the index is that of an entry in use or lies outside the table. -/
theorem node_ids_sub_update (now : Nat) (tsm : tsm_context) (i s : Nat)
    (hi : tsm.node_table.nodes.length ≤ i ∨
      (tsm.node i).protect_window.last_idx < TSM_NODE_SEQNO_CACHE_SIZE) :
    node_ids_sub tsm (tsm_node_protect_window_update now tsm i s).2 := by
  have hset : ∀ cache : List Nat,
      node_ids_sub tsm (tsm.set_node i
        { tsm.node i with
          protect_window := protect_window_insert now
            { (tsm.node i).protect_window with node_seqno_cache := cache } s }) := by
    intro cache
    refine ⟨nodes_length_set_node _ _ _, ?_⟩
    intro id j hm
    rw [node_set_node] at hm
    split_ifs at hm with hc
    · obtain ⟨hc1, hc2⟩ := hc
      subst hc1
      rcases hi with hi | hi
      · omega
      · exact ⟨hi, hm.2⟩
    · exact hm
  unfold tsm_node_protect_window_update
  simp only []
  cases tsm_node_seqno now tsm i with
  | ok L =>
    simp only []
    split_ifs
    · exact node_ids_sub_refl tsm
    · exact node_ids_sub_refl tsm
    · exact hset (tsm.node i).protect_window.node_seqno_cache
  | err e =>
    cases e
    all_goals first
      | exact hset (tsm.node i).protect_window.node_seqno_cache
      | exact hset _

/-- What `tsm_originator_get` behind `tsm_node_get` leaves alone in the node table: the size,
the node ids, the protection windows and the number of path references. -/
theorem originator_get_at_nodes (t1 : tsm_context) (idx router : Nat) :
    (tsm_originator_get_at t1 idx router).2.node_table.nodes.length
        = t1.node_table.nodes.length ∧
    ∀ j, ((tsm_originator_get_at t1 idx router).2.node j).node_id = (t1.node j).node_id ∧
      ((tsm_originator_get_at t1 idx router).2.node j).protect_window
        = (t1.node j).protect_window ∧
      ((tsm_originator_get_at t1 idx router).2.node j).paths_refs.length
        = (t1.node j).paths_refs.length := by
  unfold tsm_originator_get_at
  simp only []
  split_ifs with h1 h2
  · exact ⟨rfl, fun _ => ⟨rfl, rfl, rfl⟩⟩
  · cases tsm_originator_get_alloc t1 (t1.node_table.paths.length + 1)
        t1.node_table.paths.length with
    | err e => exact ⟨rfl, fun _ => ⟨rfl, rfl, rfl⟩⟩
    | ok p =>
      obtain ⟨nb, s⟩ := p
      simp only []
      refine ⟨?_, ?_⟩
      · simp only [tsm_context.set_path, tsm_context.set_node, List.length_set]
      · intro j
        rw [node_set_path, node_set_node]
        split_ifs with hj
        · obtain ⟨hj, _⟩ := hj
          subst hj
          refine ⟨rfl, rfl, ?_⟩
          simp only [List.length_set]
          rfl
        · exact ⟨rfl, rfl, rfl⟩
  · exact ⟨rfl, fun _ => ⟨rfl, rfl, rfl⟩⟩

/-- A successful `tsm_neighbour_get` behind `tsm_node_get` returns the node index it was
given. -/
theorem neighbour_get_at_idx (t1 : tsm_context) (idx port_id n nb : Nat)
    (h : (tsm_neighbour_get_at t1 idx port_id).1 = .ok (n, nb)) : n = idx := by
  unfold tsm_neighbour_get_at at h
  simp only [] at h
  by_cases h1 : (tsm_neighbour_get_scan t1 port_id (t1.node idx).paths_refs 0 UINT16_MAX).1
      = UINT16_MAX
  · rw [if_pos h1] at h
    by_cases h2 : (tsm_neighbour_get_scan t1 port_id (t1.node idx).paths_refs 0 UINT16_MAX).2
        = UINT16_MAX
    · rw [if_pos h2] at h; cases h
    · rw [if_neg h2] at h
      cases ha : tsm_neighbour_get_alloc t1 (t1.node_table.originator_start_idx + 1) 0 with
      | err e => rw [ha] at h; cases h
      | ok p =>
        obtain ⟨a, b⟩ := p
        rw [ha] at h
        simp only [Ret.ok.injEq, Prod.mk.injEq] at h
        exact h.1.symm
  · rw [if_neg h1] at h
    simp only [Ret.ok.injEq, Prod.mk.injEq] at h
    exact h.1.symm

/-- A successful `tsm_originator_get` behind `tsm_node_get` returns the node index it was
given. -/
theorem originator_get_at_idx (t1 : tsm_context) (idx router n os : Nat)
    (h : (tsm_originator_get_at t1 idx router).1 = .ok (n, os)) : n = idx := by
  unfold tsm_originator_get_at at h
  simp only [] at h
  by_cases h1 : (tsm_originator_get_scan t1 router (t1.node idx).paths_refs 0 UINT16_MAX).1
      = UINT16_MAX
  · rw [if_pos h1] at h
    by_cases h2 : (tsm_originator_get_scan t1 router (t1.node idx).paths_refs 0 UINT16_MAX).2
        = UINT16_MAX
    · rw [if_pos h2] at h; cases h
    · rw [if_neg h2] at h
      cases ha : tsm_originator_get_alloc t1 (t1.node_table.paths.length + 1)
          t1.node_table.paths.length with
      | err e => rw [ha] at h; cases h
      | ok p =>
        obtain ⟨a, b⟩ := p
        rw [ha] at h
        simp only [Ret.ok.injEq, Prod.mk.injEq] at h
        exact h.1.symm
  · rw [if_neg h1] at h
    simp only [Ret.ok.injEq, Prod.mk.injEq] at h
    exact h.1.symm

/-- The entry that `tsm_node_get` returns is in use and holds the id, the size of the node
table is kept, and node ids that were distinct stay distinct. -/
theorem node_ids_distinct_get (now : Nat) (tsm : tsm_context) (node_id i : Nat)
    (t1 : tsm_context)
    (hlen : tsm.node_table.nodes.length ≤ UINT16_MAX)
    (hd : node_ids_distinct tsm)
    (hget : tsm_node_get now tsm node_id = some (i, t1)) :
    t1.node_table.nodes.length = tsm.node_table.nodes.length ∧
    node_matches node_id (t1.node i) ∧ i < t1.node_table.nodes.length ∧
    node_ids_distinct t1 := by
  obtain ⟨hl, hlook, _, _⟩ := tsm_node_get_table now tsm node_id i t1 hlen hget
  obtain ⟨hi, hm, _⟩ := (tsm_node_lookup_ok_iff t1 node_id i).1 hlook
  refine ⟨hl, hm, hi, ?_⟩
  rcases tsm_node_get_cases now tsm node_id i t1 hlen hget with ⟨_, ht⟩ | ⟨herr, hi', t0, ht, h0⟩
  · rw [ht]; exact hd
  · have hsub : node_ids_sub tsm t0 := by
      rcases h0 with h0 | h0
      · rw [h0]; exact node_ids_sub_refl tsm
      · rw [h0]; exact node_ids_sub_free tsm i
    have hd0 := node_ids_distinct_of_sub hsub hd
    have hno := (tsm_node_lookup_err_iff tsm node_id).1 herr
    have hlen0 : t0.node_table.nodes.length = tsm.node_table.nodes.length := hsub.1
    subst ht
    intro a b ha hb ua ub hid
    rw [nodes_length_init_phantom] at ha hb
    rw [node_init_phantom] at ua ub hid
    rw [node_init_phantom] at hid
    by_cases hai : i = a
    · by_cases hbi : i = b
      · omega
      · rw [if_pos ⟨hai, by omega⟩, if_neg (fun h => hbi h.1)] at hid
        rw [if_neg (fun h => hbi h.1)] at ub
        exact absurd (hsub.2 node_id b ⟨ub, hid⟩) (hno b (by omega))
    · by_cases hbi : i = b
      · rw [if_neg (fun h => hai h.1), if_pos ⟨hbi, by omega⟩] at hid
        rw [if_neg (fun h => hai h.1)] at ua
        exact absurd (hsub.2 node_id a ⟨ua, hid.symm⟩) (hno a (by omega))
      · rw [if_neg (fun h => hai h.1), if_neg (fun h => hbi h.1)] at hid
        rw [if_neg (fun h => hai h.1)] at ua
        rw [if_neg (fun h => hbi h.1)] at ub
        exact hd0 a b ha hb ua ub hid

/-- Behind `tsm_neighbour_get` the node table has its size, the node ids in use are distinct
when they were, and a node index returned is that of an entry in use. -/
theorem node_ids_distinct_neighbour_get (now : Nat) (tsm : tsm_context) (node_id port_id : Nat)
    (r : Ret (Nat × Nat)) (t1 : tsm_context)
    (hlen : tsm.node_table.nodes.length ≤ UINT16_MAX)
    (hd : node_ids_distinct tsm)
    (hget : tsm_neighbour_get now tsm node_id port_id = some (r, t1)) :
    t1.node_table.nodes.length = tsm.node_table.nodes.length ∧ node_ids_distinct t1 ∧
    ∀ n nb, r = .ok (n, nb) →
      (t1.node n).protect_window.last_idx < TSM_NODE_SEQNO_CACHE_SIZE := by
  unfold tsm_neighbour_get at hget
  cases hg : tsm_node_get now tsm node_id with
  | none => rw [hg] at hget; cases hget
  | some p =>
    obtain ⟨idx, t0⟩ := p
    rw [hg] at hget
    simp only [Option.some.injEq] at hget
    obtain ⟨hl0, hm0, _, hd0⟩ := node_ids_distinct_get now tsm node_id idx t0 hlen hd hg
    obtain ⟨hn1, hn2⟩ := neighbour_get_at_nodes t0 idx port_id
    have hidx := neighbour_get_at_idx t0 idx port_id
    rw [hget] at hn1 hn2 hidx
    simp only [] at hn1 hn2 hidx
    have hsub : node_ids_sub t0 t1 :=
      node_ids_sub_of_keep t0 t1 hn1 (fun j => ⟨(hn2 j).1, by rw [(hn2 j).2.1]⟩)
    refine ⟨hn1.trans hl0, node_ids_distinct_of_sub hsub hd0, ?_⟩
    intro n nb hr
    have := hidx n nb hr
    subst this
    rw [(hn2 n).2.1]
    exact hm0.1

/-- Behind `tsm_originator_get` the node table has its size, the node ids in use are distinct
when they were, and a node index returned is that of an entry in use. -/
theorem node_ids_distinct_originator_get (now : Nat) (tsm : tsm_context)
    (node_id router : Nat) (r : Ret (Nat × Nat)) (t1 : tsm_context)
    (hlen : tsm.node_table.nodes.length ≤ UINT16_MAX)
    (hd : node_ids_distinct tsm)
    (hget : tsm_originator_get now tsm node_id router = some (r, t1)) :
    t1.node_table.nodes.length = tsm.node_table.nodes.length ∧ node_ids_distinct t1 ∧
    ∀ n os, r = .ok (n, os) →
      (t1.node n).protect_window.last_idx < TSM_NODE_SEQNO_CACHE_SIZE := by
  unfold tsm_originator_get at hget
  cases hg : tsm_node_get now tsm node_id with
  | none => rw [hg] at hget; cases hget
  | some p =>
    obtain ⟨idx, t0⟩ := p
    rw [hg] at hget
    simp only [Option.some.injEq] at hget
    obtain ⟨hl0, hm0, _, hd0⟩ := node_ids_distinct_get now tsm node_id idx t0 hlen hd hg
    obtain ⟨hn1, hn2⟩ := originator_get_at_nodes t0 idx router
    have hidx := originator_get_at_idx t0 idx router
    rw [hget] at hn1 hn2 hidx
    simp only [] at hn1 hn2 hidx
    have hsub : node_ids_sub t0 t1 :=
      node_ids_sub_of_keep t0 t1 hn1 (fun j => ⟨(hn2 j).1, by rw [(hn2 j).2.1]⟩)
    refine ⟨hn1.trans hl0, node_ids_distinct_of_sub hsub hd0, ?_⟩
    intro n os hr
    have := hidx n os hr
    subst this
    rw [(hn2 n).2.1]
    exact hm0.1

/-- The steps of `tsm_neighbour_update` behind `tsm_neighbour_get` keep the node ids in use. -/
theorem node_ids_sub_neighbour_stored (now : Nat) (t1 : tsm_context)
    (node_seqno period_s name_mapping_id port_id ni nb : Nat)
    (hni : (t1.node ni).protect_window.last_idx < TSM_NODE_SEQNO_CACHE_SIZE) :
    node_ids_sub t1 (tsm_neighbour_update_best_next_hop
      (tsm_neighbour_update_stored now t1 node_seqno period_s name_mapping_id port_id ni nb)
      ni nb) := by
  have h1 := node_ids_sub_update now t1 ni node_seqno (Or.inr hni)
  have hf := neighbour_update_best_next_hop_frame
    (tsm_neighbour_update_stored now t1 node_seqno period_s name_mapping_id port_id ni nb) ni nb
  have h3 : node_ids_sub
      (tsm_neighbour_update_stored now t1 node_seqno period_s name_mapping_id port_id ni nb)
      (tsm_neighbour_update_best_next_hop
        (tsm_neighbour_update_stored now t1 node_seqno period_s name_mapping_id port_id ni nb)
        ni nb) :=
    node_ids_sub_of_keep _ _ hf.2.2.1
      (fun j => ⟨(hf.2.2.2.2 j).1, by rw [(hf.2.2.2.2 j).2.2.1]⟩)
  have h2 : node_ids_sub (tsm_node_protect_window_update now t1 ni node_seqno).2
      (tsm_neighbour_update_stored now t1 node_seqno period_s name_mapping_id port_id
        ni nb) := by
    unfold tsm_neighbour_update_stored
    simp only []
    refine node_ids_sub_of_keep _ _ ?_ ?_
    · simp only [tsm_context.set_path, tsm_context.set_node, List.length_set]
    · intro j
      rw [node_set_path]
      have := node_set_node_keep (tsm_node_protect_window_update now t1 ni node_seqno).2 ni j
        { (tsm_node_protect_window_update now t1 ni node_seqno).2.node ni with
          name_mapping_id := name_mapping_id } rfl rfl rfl
      exact ⟨this.1, this.2.1⟩
  exact node_ids_sub_trans h1 (node_ids_sub_trans h2 h3)

/-- The function `tsm_neighbour_update` behind a successful `tsm_neighbour_get`. -/
theorem tsm_neighbour_update_stored_eq (now : Nat) (tsm : tsm_context)
    (node_seqno node_id period_s name_mapping_id port_id ni nb : Nat) (t1 : tsm_context)
    (hO : node_id ≠ tsm.node_id)
    (hget : tsm_neighbour_get now tsm node_id port_id = some (.ok (ni, nb), t1)) :
    tsm_neighbour_update now tsm node_seqno node_id TSM_VERSION period_s name_mapping_id
      port_id = some (.ok (), tsm_neighbour_update_best_next_hop
        (tsm_neighbour_update_stored now t1 node_seqno period_s name_mapping_id port_id ni nb)
        ni nb) := by
  unfold tsm_neighbour_update
  rw [if_neg (not_not.mpr rfl), if_neg hO, hget]
  rfl

/-- The function `tsm_neighbour_update` keeps the node ids in use distinct. -/
theorem node_ids_distinct_neighbour_update (now : Nat) (tsm : tsm_context)
    (node_seqno node_id version period_s name_mapping_id port_id : Nat)
    (r : Ret Unit) (t : tsm_context)
    (hlen : tsm.node_table.nodes.length ≤ UINT16_MAX)
    (hd : node_ids_distinct tsm)
    (h : tsm_neighbour_update now tsm node_seqno node_id version period_s name_mapping_id
      port_id = some (r, t)) :
    t.node_table.nodes.length = tsm.node_table.nodes.length ∧ node_ids_distinct t := by
  by_cases hv : version = TSM_VERSION
  · subst hv
    by_cases hO : node_id = tsm.node_id
    · unfold tsm_neighbour_update at h
      rw [if_neg (not_not.mpr rfl), if_pos hO] at h
      simp only [Option.some.injEq, Prod.mk.injEq] at h
      rw [← h.2]
      exact ⟨rfl, hd⟩
    · cases hg : tsm_neighbour_get now tsm node_id port_id with
      | none =>
        unfold tsm_neighbour_update at h
        rw [if_neg (not_not.mpr rfl), if_neg hO, hg] at h
        cases h
      | some p =>
        obtain ⟨ret, t1⟩ := p
        obtain ⟨hl1, hd1, hu1⟩ := node_ids_distinct_neighbour_get now tsm node_id port_id ret t1
          hlen hd hg
        cases ret with
        | err e =>
          unfold tsm_neighbour_update at h
          rw [if_neg (not_not.mpr rfl), if_neg hO, hg] at h
          simp only [Option.some.injEq, Prod.mk.injEq] at h
          rw [← h.2]
          exact ⟨hl1, hd1⟩
        | ok q =>
          obtain ⟨ni, nb⟩ := q
          rw [tsm_neighbour_update_stored_eq now tsm node_seqno node_id period_s
            name_mapping_id port_id ni nb t1 hO hg] at h
          simp only [Option.some.injEq, Prod.mk.injEq] at h
          rw [← h.2]
          have hsub := node_ids_sub_neighbour_stored now t1 node_seqno period_s
            name_mapping_id port_id ni nb (hu1 ni nb rfl)
          exact ⟨hsub.1.trans hl1, node_ids_distinct_of_sub hsub hd1⟩
  · unfold tsm_neighbour_update at h
    rw [if_pos hv] at h
    simp only [Option.some.injEq, Prod.mk.injEq] at h
    rw [← h.2]
    exact ⟨rfl, hd⟩

/-- The function `tsm_originator_update_process` keeps the node ids in use. -/
theorem node_ids_sub_process (now : Nat) (tsm : tsm_context)
    (ri rn ni os name_mapping_id throughput : Nat) :
    node_ids_sub tsm
      (tsm_originator_update_process now tsm ri rn ni os name_mapping_id throughput) := by
  rw [originator_update_process_eq]
  obtain ⟨hs1, _, _, hs4⟩ := originator_update_stamped_frame now tsm ri ni name_mapping_id
  have h1 : node_ids_sub tsm (tsm_originator_update_stamped now tsm ri ni name_mapping_id) :=
    node_ids_sub_of_keep _ _ hs1 (fun j => ⟨(hs4 j).1, (hs4 j).2.1⟩)
  have hf := originator_update_best_next_hop_frame
    (tsm_originator_update_stamped now tsm ri ni name_mapping_id) ni os
    (tsm_originator_update_throughput
      (tsm_neighbour_link_throughput
        (tsm_originator_update_stamped now tsm ri ni name_mapping_id) rn)
      throughput ni ri)
  exact node_ids_sub_trans h1
    (node_ids_sub_of_keep _ _ hf.2.1 (fun j => ⟨(hf.2.2.2 j).1, by rw [(hf.2.2.2 j).2.2.1]⟩))

/-- The part of `tsm_originator_update` behind the two get calls keeps the node ids in use,
when the node index is that of an entry in use or lies outside the table. -/
theorem node_ids_sub_update_at (now : Nat) (tsm : tsm_context)
    (node_seqno ri rn ni os name_mapping_id throughput : Nat)
    (hni : tsm.node_table.nodes.length ≤ ni ∨
      (tsm.node ni).protect_window.last_idx < TSM_NODE_SEQNO_CACHE_SIZE) :
    node_ids_sub tsm
      (tsm_originator_update_at now tsm node_seqno ri rn ni os name_mapping_id throughput).2 := by
  have h1 := node_ids_sub_update now tsm ni node_seqno hni
  unfold tsm_originator_update_at
  simp only []
  split_ifs
  · exact h1
  · exact node_ids_sub_trans h1 (node_ids_sub_process now _ ri rn ni os name_mapping_id
      throughput)

/-- The function `tsm_originator_update` keeps the node ids in use distinct. -/
theorem node_ids_distinct_originator_update (now : Nat) (tsm : tsm_context)
    (node_seqno node_id version age_ms name_mapping_id router_node_id throughput port_id : Nat)
    (r : Ret Unit) (t : tsm_context)
    (hlen : tsm.node_table.nodes.length ≤ UINT16_MAX)
    (hd : node_ids_distinct tsm)
    (h : tsm_originator_update now tsm node_seqno node_id version age_ms name_mapping_id
      router_node_id throughput port_id = some (r, t)) :
    t.node_table.nodes.length = tsm.node_table.nodes.length ∧ node_ids_distinct t := by
  have hsame : ∀ x : Ret Unit, some (x, tsm) = some (r, t) →
      t.node_table.nodes.length = tsm.node_table.nodes.length ∧ node_ids_distinct t := by
    intro x hx
    simp only [Option.some.injEq, Prod.mk.injEq] at hx
    rw [← hx.2]
    exact ⟨rfl, hd⟩
  unfold tsm_originator_update at h
  by_cases h1 : version ≠ TSM_VERSION
  · rw [if_pos h1] at h; exact hsame _ h
  rw [if_neg h1] at h
  by_cases h2 : node_id = tsm.node_id
  · rw [if_pos h2] at h; exact hsame _ h
  rw [if_neg h2] at h
  by_cases h3 : router_node_id = tsm.node_id
  · rw [if_pos h3] at h; exact hsame _ h
  rw [if_neg h3] at h
  by_cases h4 : router_node_id = node_id
  · rw [if_pos h4] at h; exact hsame _ h
  rw [if_neg h4] at h
  cases hg : tsm_neighbour_get now tsm router_node_id port_id with
  | none => rw [hg] at h; cases h
  | some p =>
    obtain ⟨ret, t1⟩ := p
    obtain ⟨hl1, hd1, _⟩ := node_ids_distinct_neighbour_get now tsm router_node_id port_id
      ret t1 hlen hd hg
    rw [hg] at h
    cases ret with
    | err e =>
      simp only [Option.some.injEq, Prod.mk.injEq] at h
      rw [← h.2]
      exact ⟨hl1, hd1⟩
    | ok q =>
      obtain ⟨ri, rn⟩ := q
      simp only [] at h
      cases ho : tsm_originator_get now t1 node_id ri with
      | none => rw [ho] at h; cases h
      | some p2 =>
        obtain ⟨ret2, t2⟩ := p2
        obtain ⟨hl2, hd2, hu2⟩ := node_ids_distinct_originator_get now t1 node_id ri ret2 t2
          (by omega) hd1 ho
        rw [ho] at h
        simp only [] at h
        have hgo : ∀ x : Ret Unit × tsm_context,
            x = tsm_originator_update_at now t2 node_seqno ri rn
              (tsm_originator_update_idx ret2).1 (tsm_originator_update_idx ret2).2
              name_mapping_id throughput →
            (t2.node_table.nodes.length ≤ (tsm_originator_update_idx ret2).1 ∨
              (t2.node (tsm_originator_update_idx ret2).1).protect_window.last_idx
                < TSM_NODE_SEQNO_CACHE_SIZE) →
            some x = some (r, t) →
            t.node_table.nodes.length = tsm.node_table.nodes.length ∧
              node_ids_distinct t := by
          intro x hx hidx hxr
          simp only [Option.some.injEq] at hxr
          have hsub := node_ids_sub_update_at now t2 node_seqno ri rn
            (tsm_originator_update_idx ret2).1 (tsm_originator_update_idx ret2).2
            name_mapping_id throughput hidx
          rw [← hx, hxr] at hsub
          exact ⟨hsub.1.trans (hl2.trans hl1), node_ids_distinct_of_sub hsub hd2⟩
        have hmax : UINT16_MAX = 65535 := rfl
        cases ret2 with
        | ok q2 =>
          obtain ⟨oi, os⟩ := q2
          exact hgo _ rfl (Or.inr (hu2 oi os rfl)) h
        | err e =>
          have hout : t2.node_table.nodes.length
              ≤ (tsm_originator_update_idx (Ret.err e : Ret (Nat × Nat))).1 := by
            show t2.node_table.nodes.length ≤ UINT16_MAX
            omega
          cases e <;> first
            | exact hgo _ rfl (Or.inl hout) h
            | (simp only [Option.some.injEq, Prod.mk.injEq] at h
               rw [← h.2]
               exact ⟨hl2.trans hl1, hd2⟩)

/-- The function `tsm_node_protect_window_check` keeps the node ids in use distinct. -/
theorem node_ids_distinct_window_check (now : Nat) (tsm : tsm_context)
    (node_id node_seqno : Nat) (r : Ret Nat) (t : tsm_context)
    (hlen : tsm.node_table.nodes.length ≤ UINT16_MAX)
    (hd : node_ids_distinct tsm)
    (h : tsm_node_protect_window_check now tsm node_id node_seqno = some (r, t)) :
    t.node_table.nodes.length = tsm.node_table.nodes.length ∧ node_ids_distinct t := by
  unfold tsm_node_protect_window_check at h
  cases hg : tsm_node_get now tsm node_id with
  | none => rw [hg] at h; cases h
  | some p =>
    obtain ⟨idx, t1⟩ := p
    obtain ⟨hl1, hm1, _, hd1⟩ := node_ids_distinct_get now tsm node_id idx t1 hlen hd hg
    have hsub := node_ids_sub_update now t1 idx node_seqno (Or.inr hm1.1)
    rw [hg] at h
    simp only [] at h
    cases hu : tsm_node_protect_window_update now t1 idx node_seqno with
    | mk res t2 =>
      rw [hu] at h hsub
      have ht : t = t2 := by
        cases res with
        | ok u =>
          cases u
          simp only [Option.some.injEq, Prod.mk.injEq] at h
          exact h.2.symm
        | err e =>
          simp only [Option.some.injEq, Prod.mk.injEq] at h
          exact h.2.symm
      subst ht
      exact ⟨hsub.1.trans hl1, node_ids_distinct_of_sub hsub hd1⟩

/-- In every reachable state the node table has at most 65535 entries and no two entries in
use hold the same node id. -/
theorem mesh_reachable_distinct (t : tsm_context) (h : mesh_reachable t) :
    t.node_table.nodes.length ≤ UINT16_MAX ∧ node_ids_distinct t := by
  induction h with
  | init node_id ports =>
    refine ⟨?_, ?_⟩
    · simp only [tsm_node_init, List.length_replicate]
      decide
    · intro i j hi hj ui
      have hi16 : i < 16 := by
        simpa [tsm_node_init, TSM_NODE_COUNT] using hi
      exfalso
      have : ((tsm_node_init node_id ports).node i).protect_window.last_idx
          = TSM_NODE_SEQNO_CACHE_SIZE := by
        interval_cases i <;> rfl
      rw [this] at ui
      exact Nat.lt_irrefl _ ui
  | node_get now tsm node_id idx t _ hget ih =>
    obtain ⟨hl, _, _, hd⟩ := node_ids_distinct_get now tsm node_id idx t ih.1 ih.2 hget
    exact ⟨by omega, hd⟩
  | node_free tsm node_idx _ ih =>
    have hsub := node_ids_sub_free tsm node_idx
    exact ⟨by rw [hsub.1]; exact ih.1, node_ids_distinct_of_sub hsub ih.2⟩
  | neighbour_update now tsm node_seqno node_id version period_s name_mapping_id port_id r t
      _ hupd ih =>
    obtain ⟨hl, hd⟩ := node_ids_distinct_neighbour_update now tsm node_seqno node_id version
      period_s name_mapping_id port_id r t ih.1 ih.2 hupd
    exact ⟨by omega, hd⟩
  | originator_update now tsm node_seqno node_id version age_ms name_mapping_id router_node_id
      throughput port_id r t _ hupd ih =>
    obtain ⟨hl, hd⟩ := node_ids_distinct_originator_update now tsm node_seqno node_id version
      age_ms name_mapping_id router_node_id throughput port_id r t ih.1 ih.2 hupd
    exact ⟨by omega, hd⟩
  | window_check now tsm node_id node_seqno r t _ hchk ih =>
    obtain ⟨hl, hd⟩ := node_ids_distinct_window_check now tsm node_id node_seqno r t ih.1 ih.2
      hchk
    exact ⟨by omega, hd⟩

/-- The example state `mesh_with_neighbours 2` is reachable. -/
theorem mesh_with_neighbours_two_reachable : mesh_reachable (mesh_with_neighbours 2) :=
  mesh_reachable.neighbour_update 2 (mesh_with_neighbours 1) 1 101 TSM_VERSION 5 0x1234 0
    (.ok ()) (mesh_with_neighbours 2)
    (mesh_reachable.neighbour_update 1 mesh_init 1 100 TSM_VERSION 5 0x1234 0 (.ok ())
      (mesh_with_neighbours 1) (mesh_reachable.init 0xCAFFECAB [1, 1]) (by decide))
    (by decide)

/-- Claim C39: in every state reachable from `tsm_node_init` through `tsm_node_get`,
`tsm_node_free`, `tsm_neighbour_update`, `tsm_originator_update` and
`tsm_node_protect_window_check`, two different node table entries in use hold different node
ids. -/
theorem tsm_node_ids_unique (t : tsm_context) (hreach : mesh_reachable t) (i j : Nat)
    (hi : i < t.node_table.nodes.length) (hj : j < t.node_table.nodes.length)
    (hiu : (t.node i).protect_window.last_idx < TSM_NODE_SEQNO_CACHE_SIZE)
    (hju : (t.node j).protect_window.last_idx < TSM_NODE_SEQNO_CACHE_SIZE)
    (hne : i ≠ j) : (t.node i).node_id ≠ (t.node j).node_id :=
  fun hid => hne ((mesh_reachable_distinct t hreach).2 i j hi hj hiu hju hid)

/-- After the heartbeats of the nodes 100 and 101 the entries 0 and 1 of the node table are in
use and hold different node ids. -/
theorem tsm_node_ids_unique_witness :
    mesh_reachable (mesh_with_neighbours 2) ∧
    0 < (mesh_with_neighbours 2).node_table.nodes.length ∧
    1 < (mesh_with_neighbours 2).node_table.nodes.length ∧
    ((mesh_with_neighbours 2).node 0).protect_window.last_idx < TSM_NODE_SEQNO_CACHE_SIZE ∧
    ((mesh_with_neighbours 2).node 1).protect_window.last_idx < TSM_NODE_SEQNO_CACHE_SIZE ∧
    ((mesh_with_neighbours 2).node 0).node_id ≠ ((mesh_with_neighbours 2).node 1).node_id :=
  ⟨mesh_with_neighbours_two_reachable, by decide, by decide, by decide, by decide,
    tsm_node_ids_unique (mesh_with_neighbours 2) mesh_with_neighbours_two_reachable 0 1
      (by decide) (by decide) (by decide) (by decide) (by decide)⟩

/-! ## Claim C35: an originator statement out of range is dropped behind the get steps -/

/-- The part of `tsm_neighbour_get` behind `tsm_node_get` leaves the name mapping ids. -/
theorem neighbour_get_at_mapping (t1 : tsm_context) (idx port_id : Nat) :
    ∀ j, ((tsm_neighbour_get_at t1 idx port_id).2.node j).name_mapping_id
      = (t1.node j).name_mapping_id := by
  unfold tsm_neighbour_get_at
  simp only []
  split_ifs with h1 h2
  · exact fun _ => rfl
  · cases tsm_neighbour_get_alloc t1 (t1.node_table.originator_start_idx + 1) 0 with
    | err e => exact fun _ => rfl
    | ok p =>
      obtain ⟨nb, s⟩ := p
      simp only []
      intro j
      rw [node_set_path, node_set_node]
      split_ifs with hj
      · obtain ⟨hj, _⟩ := hj
        subst hj
        rfl
      · rfl
  · exact fun _ => rfl

/-- The part of `tsm_originator_get` behind `tsm_node_get` leaves the name mapping ids. -/
theorem originator_get_at_mapping (t1 : tsm_context) (idx router : Nat) :
    ∀ j, ((tsm_originator_get_at t1 idx router).2.node j).name_mapping_id
      = (t1.node j).name_mapping_id := by
  unfold tsm_originator_get_at
  simp only []
  split_ifs with h1 h2
  · exact fun _ => rfl
  · cases tsm_originator_get_alloc t1 (t1.node_table.paths.length + 1)
        t1.node_table.paths.length with
    | err e => exact fun _ => rfl
    | ok p =>
      obtain ⟨nb, s⟩ := p
      simp only []
      intro j
      rw [node_set_path, node_set_node]
      split_ifs with hj
      · obtain ⟨hj, _⟩ := hj
        subst hj
        rfl
      · rfl
  · exact fun _ => rfl

/-- The function `tsm_node_free` leaves the node id, the protection window and the name mapping
id of every other entry. -/
theorem tsm_node_free_kept (tsm : tsm_context) (r j : Nat) (hj : j ≠ r) :
    ((tsm_node_free tsm r).node j).node_id = (tsm.node j).node_id ∧
    ((tsm_node_free tsm r).node j).protect_window = (tsm.node j).protect_window ∧
    ((tsm_node_free tsm r).node j).name_mapping_id = (tsm.node j).name_mapping_id := by
  by_cases h : (tsm.node r).protect_window.last_idx < TSM_NODE_SEQNO_CACHE_SIZE
  · rw [tsm_node_free_eq tsm r h]
    have hrel := free_rel_refs_loop r (tsm.node r).paths_refs.length tsm
    rw [node_set_node, if_neg (fun hc => hj hc.1.symm)]
    exact ⟨hrel.node_id j, hrel.window j, hrel.mapping j⟩
  · rw [tsm_node_free_empty tsm r (by omega)]
    exact ⟨rfl, rfl, rfl⟩

/-- The function `tsm_node_get` leaves the node id, the protection window and the name mapping
id of every entry but the one it returns. -/
theorem tsm_node_get_kept (now : Nat) (tsm : tsm_context) (node_id i : Nat) (t1 : tsm_context)
    (hlen : tsm.node_table.nodes.length ≤ UINT16_MAX)
    (hget : tsm_node_get now tsm node_id = some (i, t1)) (j : Nat) (hj : j ≠ i) :
    (t1.node j).node_id = (tsm.node j).node_id ∧
    (t1.node j).protect_window = (tsm.node j).protect_window ∧
    (t1.node j).name_mapping_id = (tsm.node j).name_mapping_id := by
  rcases tsm_node_get_cases now tsm node_id i t1 hlen hget with ⟨_, h⟩ | ⟨_, _, t0, ht1, ht0⟩
  · rw [h]
    exact ⟨rfl, rfl, rfl⟩
  · rw [ht1, node_init_phantom, if_neg (fun hc => hj hc.1.symm)]
    rcases ht0 with h | h
    · rw [h]
      exact ⟨rfl, rfl, rfl⟩
    · rw [h]
      exact tsm_node_free_kept tsm i j hj

/-- An entry that `tsm_node_get` has just installed accepts every sequence number: the update of
its protection window does not report a sequence number out of range. -/
theorem tsm_node_get_new_accepts (now now2 : Nat) (tsm : tsm_context) (node_id i : Nat)
    (t1 t2 : tsm_context) (s : Nat)
    (hlen : tsm.node_table.nodes.length ≤ UINT16_MAX)
    (hcache : ∀ j, j < tsm.node_table.nodes.length →
      0 < (tsm.node j).protect_window.node_seqno_cache.length)
    (hget : tsm_node_get now tsm node_id = some (i, t1))
    (hnew : tsm_node_lookup tsm node_id ≠ .ok i)
    (hw : (t2.node i).protect_window = (t1.node i).protect_window) :
    (tsm_node_protect_window_update now2 t2 i s).1 = .ok () := by
  rcases tsm_node_get_cases now tsm node_id i t1 hlen hget with ⟨h, _⟩ | ⟨_, hi, t0, ht1, ht0⟩
  · exact absurd h hnew
  · have hc0 : (t0.node i).protect_window.node_seqno_cache
        = (tsm.node i).protect_window.node_seqno_cache := by
      rcases ht0 with h | h
      · rw [h]
      · rw [h]
        exact tsm_node_free_cache tsm i i
    have hl0 : t0.node_table.nodes.length = tsm.node_table.nodes.length := by
      rcases ht0 with h | h
      · rw [h]
      · rw [h]
        exact (tsm_node_free_frame tsm i).1
    have hwin : (t2.node i).protect_window =
        { node_seqno_cache :=
            (tsm.node i).protect_window.node_seqno_cache.map (fun _ => TSM_NODE_SEQNO_INVALID)
          last_idx := 0
          last_seen_time := 0 } := by
      rw [hw, ht1, node_init_phantom, if_pos ⟨rfl, by omega⟩, hc0]
    rw [update_phantom_window now2 t2 i s _ (hcache i hi) hwin]

/-- The first loop of `tsm_originator_get` finds an originator slot routed by the router when
the path references hold one. -/
theorem originator_get_scan_found (t : tsm_context) (router : Nat) (L : List Nat) :
    ∀ i e, (∃ v, v ∈ L ∧ v ≠ UINT16_MAX ∧ t.node_table.originator_start_idx ≤ v ∧
        (t.path v).router_idx = router) →
      (tsm_originator_get_scan t router L i e).1 ≠ UINT16_MAX ∧
      (tsm_originator_get_scan t router L i e).1 ∈ L ∧
      t.node_table.originator_start_idx ≤ (tsm_originator_get_scan t router L i e).1 ∧
      (t.path (tsm_originator_get_scan t router L i e).1).router_idx = router := by
  induction L with
  | nil => rintro i e ⟨v, hv, _⟩; cases hv
  | cons w rest ih =>
    rintro i e ⟨v, hv, h1, h2, h3⟩
    rw [originator_get_scan_cons]
    have hrest : w ≠ v → ∃ v, v ∈ rest ∧ v ≠ UINT16_MAX ∧
        t.node_table.originator_start_idx ≤ v ∧ (t.path v).router_idx = router := by
      intro hne
      rcases List.mem_cons.1 hv with h | h
      · exact absurd h.symm hne
      · exact ⟨v, h, h1, h2, h3⟩
    have hcons : ∀ i e,
        (tsm_originator_get_scan t router rest i e).1 ≠ UINT16_MAX ∧
        (tsm_originator_get_scan t router rest i e).1 ∈ rest ∧
        t.node_table.originator_start_idx ≤ (tsm_originator_get_scan t router rest i e).1 ∧
        (t.path (tsm_originator_get_scan t router rest i e).1).router_idx = router →
        (tsm_originator_get_scan t router rest i e).1 ≠ UINT16_MAX ∧
        (tsm_originator_get_scan t router rest i e).1 ∈ w :: rest ∧
        t.node_table.originator_start_idx ≤ (tsm_originator_get_scan t router rest i e).1 ∧
        (t.path (tsm_originator_get_scan t router rest i e).1).router_idx = router :=
      fun i e h => ⟨h.1, List.mem_cons_of_mem _ h.2.1, h.2.2⟩
    by_cases hw1 : w = UINT16_MAX
    · rw [if_pos hw1]
      exact hcons _ _ (ih _ _ (hrest (fun hc => h1 (hc ▸ hw1))))
    · rw [if_neg hw1]
      by_cases hw2 : w ≥ t.node_table.originator_start_idx
      · rw [if_pos hw2]
        by_cases hw3 : (t.path w).router_idx = router
        · rw [if_pos hw3]
          exact ⟨hw1, List.mem_cons_self _ _, hw2, hw3⟩
        · rw [if_neg hw3]
          exact hcons _ _ (ih _ _ (hrest (fun hc => hw3 (hc ▸ h3))))
      · rw [if_neg hw2]
        exact hcons _ _ (ih _ _ (hrest (fun hc => hw2 (hc ▸ h2))))

/-- For a node in the table that has an originator slot routed by the router,
`tsm_originator_get` returns the node and the slot found by its first loop and leaves the
state. -/
theorem tsm_originator_get_of_slot (now : Nat) (tsm : tsm_context) (node_id router oi : Nat)
    (hlen : tsm.node_table.nodes.length ≤ UINT16_MAX)
    (hnode : tsm_node_lookup tsm node_id = .ok oi)
    (hslot : ∃ v, v ∈ (tsm.node oi).paths_refs ∧ v ≠ UINT16_MAX ∧
      tsm.node_table.originator_start_idx ≤ v ∧ (tsm.path v).router_idx = router) :
    tsm_originator_get now tsm node_id router =
      some (.ok (oi, (tsm_originator_get_scan tsm router (tsm.node oi).paths_refs 0
        UINT16_MAX).1), tsm) := by
  have hfound := originator_get_scan_found tsm router (tsm.node oi).paths_refs 0 UINT16_MAX hslot
  unfold tsm_originator_get
  rw [tsm_node_get_of_lookup now tsm node_id oi hlen hnode]
  simp only []
  unfold tsm_originator_get_at
  simp only []
  rw [if_neg hfound.1]

/-- Claim C35, amended: an originator statement that passes the four checks, whose router
`tsm_neighbour_get` accepts and whose originator slot `tsm_originator_get` returns, and whose
sequence number is out of range for the protection window of the originator node, is dropped:
`tsm_originator_update` returns 0 and leaves the state as the two get-or-create steps left it.
The originator was in the node table before the call, at the index the steps return, and its
protection window (cache, index and last-seen time) and its name mapping id are those before
the call.  When the router is a neighbour on the port already and the originator holds an
originator slot routed by it, the call leaves the whole state as it was. -/
theorem tsm_originator_update_out_of_range (now : Nat) (tsm : tsm_context)
    (node_seqno node_id age_ms name_mapping_id router_node_id throughput port_id : Nat)
    (hO : node_id ≠ tsm.node_id) (hR : router_node_id ≠ tsm.node_id)
    (hRO : router_node_id ≠ node_id)
    (hnodes : tsm.node_table.nodes.length ≤ UINT16_MAX)
    (hstart : tsm.node_table.originator_start_idx ≤ UINT16_MAX)
    (hcache : ∀ j, j < tsm.node_table.nodes.length →
      0 < (tsm.node j).protect_window.node_seqno_cache.length) :
    (∀ ri rn oi os t1 t2,
      tsm_neighbour_get now tsm router_node_id port_id = some (.ok (ri, rn), t1) →
      tsm_originator_get now t1 node_id ri = some (.ok (oi, os), t2) →
      (tsm_node_protect_window_update now t2 oi node_seqno).1 = .err .EINVAL →
      tsm_originator_update now tsm node_seqno node_id TSM_VERSION age_ms name_mapping_id
        router_node_id throughput port_id = some (.ok (), t2) ∧
      oi < tsm.node_table.nodes.length ∧
      node_matches node_id (tsm.node oi) ∧
      (t2.node oi).protect_window = (tsm.node oi).protect_window ∧
      (t2.node oi).name_mapping_id = (tsm.node oi).name_mapping_id) ∧
    (∀ ri rn oi,
      tsm_neighbour_lookup tsm router_node_id port_id = .ok (ri, rn) →
      tsm_node_lookup tsm node_id = .ok oi →
      (∃ v, v ∈ (tsm.node oi).paths_refs ∧ v ≠ UINT16_MAX ∧
        tsm.node_table.originator_start_idx ≤ v ∧ (tsm.path v).router_idx = ri) →
      (tsm_node_protect_window_update now tsm oi node_seqno).1 = .err .EINVAL →
      tsm_originator_update now tsm node_seqno node_id TSM_VERSION age_ms name_mapping_id
        router_node_id throughput port_id = some (.ok (), tsm)) := by
  -- the drop behind the two get steps
  have hdrop : ∀ ri rn oi os t1 t2,
      tsm_neighbour_get now tsm router_node_id port_id = some (.ok (ri, rn), t1) →
      tsm_originator_get now t1 node_id ri = some (.ok (oi, os), t2) →
      (tsm_node_protect_window_update now t2 oi node_seqno).1 = .err .EINVAL →
      tsm_originator_update now tsm node_seqno node_id TSM_VERSION age_ms name_mapping_id
        router_node_id throughput port_id = some (.ok (), t2) := by
    intro ri rn oi os t1 t2 hrouter horig hrange
    rw [tsm_originator_update_eq now tsm node_seqno node_id age_ms name_mapping_id
      router_node_id throughput port_id ri rn oi os t1 t2 hO hR hRO hrouter horig]
    have hstate := update_err_state now t2 oi node_seqno _ hrange
    unfold tsm_originator_update_at
    simp only []
    have hd : tsm_originator_update_drop
        (tsm_node_protect_window_update now t2 oi node_seqno).1
        (tsm_node_protect_window_update now t2 oi node_seqno).2 oi throughput = true := by
      rw [hrange]
      rfl
    rw [hd, hstate]
    rfl
  refine ⟨?_, ?_⟩
  · intro ri rn oi os t1 t2 hrouter horig hrange
    refine ⟨hdrop ri rn oi os t1 t2 hrouter horig hrange, ?_⟩
    -- the router step
    unfold tsm_neighbour_get at hrouter
    cases hg : tsm_node_get now tsm router_node_id with
    | none => rw [hg] at hrouter; cases hrouter
    | some p =>
      obtain ⟨m, tb⟩ := p
      rw [hg] at hrouter
      simp only [Option.some.injEq] at hrouter
      obtain ⟨hbl, hbm, _, hbc⟩ := tsm_node_get_table now tsm router_node_id m tb hnodes hg
      obtain ⟨hn1, hn2⟩ := neighbour_get_at_nodes tb m port_id
      have hmap1 := neighbour_get_at_mapping tb m port_id
      have hri := neighbour_get_at_idx tb m port_id ri rn (by rw [hrouter])
      rw [hrouter] at hn1 hn2 hmap1
      simp only [] at hn1 hn2 hmap1
      have hl1 : t1.node_table.nodes.length = tsm.node_table.nodes.length := hn1.trans hbl
      -- the originator step
      unfold tsm_originator_get at horig
      cases hg2 : tsm_node_get now t1 node_id with
      | none => rw [hg2] at horig; cases horig
      | some p2 =>
        obtain ⟨k, ta⟩ := p2
        rw [hg2] at horig
        simp only [Option.some.injEq] at horig
        obtain ⟨ho1, ho2⟩ := originator_get_at_nodes ta k ri
        have hmap2 := originator_get_at_mapping ta k ri
        have hoi := originator_get_at_idx ta k ri oi os (by rw [horig])
        rw [horig] at ho1 ho2 hmap2
        simp only [] at ho1 ho2 hmap2
        subst hoi
        have hcache1 : ∀ j, j < t1.node_table.nodes.length →
            0 < (t1.node j).protect_window.node_seqno_cache.length := by
          intro j hj
          rw [(hn2 j).2.1, hbc j]
          exact hcache j (by omega)
        have hfound : tsm_node_lookup t1 node_id = .ok oi := by
          by_contra hc
          have := tsm_node_get_new_accepts now now t1 node_id oi ta t2 node_seqno (by omega)
            hcache1 hg2 hc (ho2 oi).2.1
          rw [this] at hrange
          cases hrange
        have hta : ta = t1 := by
          have := tsm_node_get_of_lookup now t1 node_id oi (by omega) hfound
          rw [this] at hg2
          simp only [Option.some.injEq, Prod.mk.injEq] at hg2
          exact hg2.2.symm
        subst hta
        obtain ⟨hoi1, hoi2, _⟩ := (tsm_node_lookup_ok_iff ta node_id oi).1 hfound
        -- the entry of the originator is not the one the router step has returned
        have hne : oi ≠ m := by
          intro hc
          obtain ⟨_, hm2, _⟩ := (tsm_node_lookup_ok_iff tb router_node_id m).1 hbm
          have h1 : (ta.node oi).node_id = router_node_id := by
            rw [(hn2 oi).1, hc]
            exact hm2.2.symm
          exact hRO (h1.symm.trans hoi2.2.symm)
        obtain ⟨hk1, hk2, hk3⟩ := tsm_node_get_kept now tsm router_node_id m tb hnodes hg oi hne
        refine ⟨by omega, ⟨?_, ?_⟩, ?_, ?_⟩
        · rw [← hk2, ← (hn2 oi).2.1]
          exact hoi2.1
        · rw [← hk1, ← (hn2 oi).1]
          exact hoi2.2
        · rw [(ho2 oi).2.1, (hn2 oi).2.1, hk2]
        · rw [hmap2 oi, hmap1 oi, hk3]
  · intro ri rn oi hrl hnl hslot hrange
    obtain ⟨_, _, hrget⟩ := tsm_neighbour_get_of_lookup now tsm router_node_id port_id ri rn
      hnodes hstart hrl
    exact hdrop ri rn oi _ tsm tsm hrget
      (tsm_originator_get_of_slot now tsm node_id ri oi hnodes hnl hslot) hrange

set_option maxRecDepth 100000 in
/-- Witness of `tsm_originator_update_out_of_range`: in `hop_example` the originator
`0xCAFFE031` is the node 1 and the sequence number 14 is out of range for it.  A statement
from the unknown router `0xCAFFE999` leaves the state of the two get steps, in which the node 1
has the protection window and the name mapping id of before; a statement from the router
`0xCAFFE7E1`, a neighbour on port 0 that routes the originator slot 3 of the node, leaves
`hop_example` as it is. -/
theorem tsm_originator_update_out_of_range_witness :
    (tsm_originator_update 200 hop_example 14 0xCAFFE031 TSM_VERSION 0 0x4321 0xCAFFE999 9 0
        = some (.ok (), hop_slot_added) ∧
      1 < hop_example.node_table.nodes.length ∧
      node_matches 0xCAFFE031 (hop_example.node 1) ∧
      (hop_slot_added.node 1).protect_window = (hop_example.node 1).protect_window ∧
      (hop_slot_added.node 1).name_mapping_id = (hop_example.node 1).name_mapping_id) ∧
    tsm_originator_update 200 hop_example 14 0xCAFFE031 TSM_VERSION 0 0x4321 0xCAFFE7E1 9 0
      = some (.ok (), hop_example) ∧
    hop_slot_added ≠ hop_example :=
  ⟨(tsm_originator_update_out_of_range 200 hop_example 14 0xCAFFE031 0 0x4321 0xCAFFE999 9 0
      (by decide) (by decide) (by decide) (by decide) (by decide) (by decide)).1
      2 1 1 2 hop_router_added hop_slot_added (by decide) (by decide) (by decide),
    (tsm_originator_update_out_of_range 200 hop_example 14 0xCAFFE031 0 0x4321 0xCAFFE7E1 9 0
      (by decide) (by decide) (by decide) (by decide) (by decide) (by decide)).2
      0 0 1 (by decide) (by decide) ⟨3, by decide, by decide, by decide, by decide⟩ (by decide),
    by decide⟩
